import Mathlib

/-!
# A shallow embedding of the native BMP codec and the pixel-format converter of `imageio.c`

Conventions of the embedding.

* A byte (`uint8_t`) is a `Fin 256`; a canonical pixel is the four bytes of a `uint32_t`
  in memory order (red, green, blue, alpha), so equality of pixels is equality of the
  32-bit words.
* `int` and `long` values are integers; the embedding is meant for dimensions on which the
  signed arithmetic of the source does not overflow. Conversions to unsigned types are
  written out as reductions modulo `2^16` and `2^32`.
* An input stream (`FILE *` opened for reading) is a list of bytes, a position and the
  end-of-file indicator. `getc` past the end returns `EOF = -1` and sets the indicator;
  a successful `fseek` clears it and may move past the end.
* An output stream is the list of bytes written so far; writes never fail.
* Heap buffers are lists. A store outside the buffer is undefined behaviour and is
  reported as `Fault.undefined`.
* The header `imageio.h` is not part of the sources: `MAX_IMAGE_SIZE` is a parameter, and
  so are the outcome of `malloc` for a given size in bytes and the value of the
  floating-point luma expression `(uint8_t) (0.299f * r + 0.587f * g + 0.114f * b + 0.5f)`
  (all three in `Env`). The branches of the converters for `float` destinations and
  sources are not embedded. For the grayscale round trip the luma expression is also
  given in IEEE 754 binary32 arithmetic (`gray_u8_binary32`).
-/

namespace ImageIO

/-- An 8-bit byte, the C type `uint8_t`. -/
abbrev Byte := Fin 256

/-- One pixel of the canonical buffer: the bytes of a `uint32_t` in memory order. -/
structure Pixel where
  r : Byte
  g : Byte
  b : Byte
  a : Byte
deriving DecidableEq, Repr

/-- The content of freshly allocated (indeterminate) pixel memory. -/
def Pixel.indeterminate : Pixel := ⟨0, 0, 0, 0⟩

instance : Inhabited Pixel := ⟨Pixel.indeterminate⟩

/-- What can end an execution other than a regular return: undefined behaviour of the C
program, a loop model that ran out of fuel, or a floating-point branch of the converters,
which is not embedded. -/
inductive Fault
  | undefined
  | out_of_fuel
  | floating_point
deriving DecidableEq, Repr

deriving instance DecidableEq for Except

/-- The parameters the sources take from `imageio.h` and from the C run time. -/
structure Env where
  MAX_IMAGE_SIZE : Int
  malloc_ok : Nat → Bool
  gray_u8 : Byte → Byte → Byte → Byte

/-- Conversion of an `int` to `uint8_t`. -/
def to_byte (v : Int) : Byte := ⟨(v % 256).toNat, by omega⟩

/-- Conversion of an unsigned value to `uint8_t`. -/
def nat_to_byte (v : Nat) : Byte := ⟨v % 256, Nat.mod_lt _ (by decide)⟩

/-- Conversion of an `int` to `uint16_t`. -/
def to_u16 (v : Int) : Nat := (v % 65536).toNat

/-- Conversion of an `int` or `long` to `uint32_t` (also `unsigned`). -/
def to_u32 (v : Int) : Nat := (v % 4294967296).toNat

/-- Conversion of an `unsigned` or `uint32_t` to `int` (two's complement). -/
def to_int (v : Nat) : Int :=
  if v % 4294967296 < 2147483648 then ((v % 4294967296 : Nat) : Int)
  else ((v % 4294967296 : Nat) : Int) - 4294967296

/-! ## Streams -/

/-- A stream opened for reading. -/
structure FILE where
  data : List Byte
  pos : Nat
  eof : Bool
deriving DecidableEq, Repr

/-- A stream positioned at its first byte. -/
def fopen (data : List Byte) : FILE := ⟨data, 0, false⟩

/-- The C function `getc`: the next byte, or `EOF = -1` with the end-of-file indicator set. -/
def getc (file : FILE) : Int × FILE :=
  match file.data[file.pos]? with
  | some c => ((c.val : Int), { file with pos := file.pos + 1 })
  | none => (-1, { file with eof := true })

/-- The C function `feof`. -/
def feof (file : FILE) : Bool := file.eof

/-- The call `fseek(file, offset, SEEK_SET)`: the return value and the new stream. -/
def fseek_set (file : FILE) (offset : Int) : Int × FILE :=
  if offset < 0 then (-1, file)
  else (0, { file with pos := offset.toNat, eof := false })

/-- The call `fseek(file, offset, SEEK_CUR)`: the return value and the new stream. -/
def fseek_cur (file : FILE) (offset : Int) : Int × FILE :=
  if (file.pos : Int) + offset < 0 then (-1, file)
  else (0, { file with pos := ((file.pos : Int) + offset).toNat, eof := false })

/-- The C function `putc` on an output stream: appends `(unsigned char) c`. -/
def putc (c : Nat) (file : List Byte) : List Byte := file ++ [nat_to_byte c]

/-- Read a 16-bit little-endian word. -/
def read_u16_le (file : FILE) : Nat × FILE :=
  let (c0, file) := getc file
  let w := to_u16 c0
  let (c1, file) := getc file
  let w := (w ||| (to_u16 c1 <<< 8)) % 65536
  (w, file)

/-- Read a 32-bit little-endian word. -/
def read_u32_le (file : FILE) : Nat × FILE :=
  let (c0, file) := getc file
  let dw := to_u32 c0
  let (c1, file) := getc file
  let dw := dw ||| ((to_u32 c1 <<< 8) % 4294967296)
  let (c2, file) := getc file
  let dw := dw ||| ((to_u32 c2 <<< 16) % 4294967296)
  let (c3, file) := getc file
  let dw := dw ||| ((to_u32 c3 <<< 24) % 4294967296)
  (dw, file)

/-- Write a 16-bit word in little-endian format. -/
def write_u16_le (w : Nat) (file : List Byte) : List Byte :=
  let file := putc (w &&& 0xFF) file
  let file := putc ((w &&& 0xFF00) >>> 8) file
  file

/-- Write a 32-bit word in little-endian format; the argument is converted to `uint32_t`. -/
def write_u32_le (v : Int) (file : List Byte) : List Byte :=
  let dw := to_u32 v
  let file := putc (dw &&& 0xFF) file
  let file := putc ((dw &&& 0xFF00) >>> 8) file
  let file := putc ((dw &&& 0xFF0000) >>> 16) file
  let file := putc ((dw &&& 0xFF000000) >>> 24) file
  file

/-! ## Palette analysis -/

/-- The outputs of `get_image_palette`. The palette array is represented by the list of
its first `num_colors` entries, the only ones the code ever reads; `none` is `NULL`. -/
structure PaletteInfo where
  palette : Option (List Pixel)
  num_colors : Int
  use_color : Int
  use_alpha : Int
deriving DecidableEq, Repr

/-- The palette capacity `max_colors`. -/
def max_colors : Nat := 256

/-- The palette part of the pixel loop of `get_image_palette`. With a live palette the scan
`for (i = 0; i < *num_colors; ++i) if (pixel == palette[i]) break;` leaves `i` at the first
match or at `*num_colors`; once the palette is freed `*num_colors` is -1, the scan does not
run and `i = 0` differs from `*num_colors`. -/
def get_image_palette_check (st : PaletteInfo) (pixel : Pixel) : PaletteInfo :=
  match st.palette with
  | none => st
  | some palette =>
    let i := palette.indexOf pixel
    if (i : Int) = st.num_colors then
      if i < max_colors then
        { st with palette := some (palette ++ [pixel]), num_colors := st.num_colors + 1 }
      else
        { st with palette := none, num_colors := -1 }
    else st

/-- The body of the pixel loop of `get_image_palette`: the colour check, the alpha check
and the palette check. -/
def get_image_palette_pixel (st : PaletteInfo) (pixel : Pixel) : PaletteInfo :=
  let red := pixel.r
  let green := pixel.g
  let blue := pixel.b
  let alpha := pixel.a
  let st := if red ≠ green ∨ red ≠ blue then { st with use_color := 1 } else st
  let st := if alpha ≠ 255 then { st with use_alpha := 1 } else st
  get_image_palette_check st pixel

/-- Check use of colour and alpha and build the palette. The two nested loops read the
first `width * height` pixels in order through `*(image++)`. A null image is `none`. -/
def get_image_palette (env : Env) (image : Option (List Pixel)) (width height : Nat) :
    PaletteInfo :=
  match image with
  | none => ⟨none, -1, 1, 1⟩
  | some pixels =>
    if env.malloc_ok (4 * max_colors) then
      (pixels.take (width * height)).foldl get_image_palette_pixel ⟨some [], 0, 0, 0⟩
    else ⟨none, -1, 1, 1⟩

/-! ## The BMP encoder -/

/-- The inner loops of `write_bmp` for one row starting at pixel index `row`: `n` pixels
from column `x` on, as palette indices or as blue, green, red triplets. -/
def write_bmp_row (image : List Pixel) (use_palette : Bool) (palette : List Pixel)
    (row : Nat) : Nat → Nat → List Byte → List Byte
  | 0, _, file => file
  | n + 1, x, file =>
    let pixel := image.getD (row + x) default
    let file :=
      if use_palette then
        putc (palette.indexOf pixel) file
      else
        putc pixel.r (putc pixel.g (putc pixel.b file))
    write_bmp_row image use_palette palette row n (x + 1) file

/-- The loop `for (x = row_padding; x; --x) putc(0, file)`. -/
def write_bmp_padding : Nat → List Byte → List Byte
  | 0, file => file
  | x + 1, file => write_bmp_padding x (putc 0 file)

/-- The row loop `for (y = height; y; --y, image_ptr -= width)` of `write_bmp`: the row
written at count `y` is image row `y - 1`. -/
def write_bmp_rows (image : List Pixel) (width : Nat) (use_palette : Bool)
    (palette : List Pixel) (row_padding : Nat) : Nat → List Byte → List Byte
  | 0, file => file
  | y + 1, file =>
    let file := write_bmp_row image use_palette palette (width * y) width 0 file
    let file := write_bmp_padding row_padding file
    write_bmp_rows image width use_palette palette row_padding y file

/-- The palette loop of `write_bmp`: blue, green, red and an unused byte per entry. -/
def write_bmp_palette : List Pixel → List Byte → List Byte
  | [], file => file
  | pixel :: rest, file =>
    write_bmp_palette rest (putc 0 (putc pixel.r (putc pixel.g (putc pixel.b file))))

/-- The result of `write_bmp`: the return value and the stream content. -/
structure WriteResult where
  ret : Int
  file : List Byte
deriving DecidableEq, Repr

/-- Write a BMP image to the output stream `file`. -/
def write_bmp (env : Env) (image : Option (List Pixel)) (width height : Nat)
    (file : List Byte) : WriteResult :=
  match image with
  | none => ⟨0, file⟩
  | some pixels =>
    let info := get_image_palette env image width height
    let use_palette : Bool :=
      info.palette.isSome && decide (2 * info.num_colors < (width : Int) * height)
    let num_colors : Int := if use_palette then info.num_colors else 0
    let row_padding : Int :=
      if use_palette then (-(width : Int)) % 4 else (-3 * (width : Int)) % 4
    let imageSize : Int :=
      if use_palette then ((width : Int) + row_padding) * height
      else (3 * (width : Int) + row_padding) * height
    let file := putc 0x42 file
    let file := putc 0x4D file
    let file := write_u32_le (54 + 4 * num_colors + imageSize) file
    let file := write_u32_le 0 file
    let file := write_u32_le (54 + 4 * num_colors) file
    let file := write_u32_le 40 file
    let file := write_u32_le width file
    let file := write_u32_le height file
    let file := write_u16_le 1 file
    let file := write_u16_le (if use_palette then 8 else 24) file
    let file := write_u32_le 0 file
    let file := write_u32_le imageSize file
    let file := write_u32_le 2835 file
    let file := write_u32_le 2835 file
    let file := write_u32_le (if !use_palette || num_colors = 256 then 0 else num_colors) file
    let file := write_u32_le 0 file
    let file := if use_palette then write_bmp_palette (info.palette.getD []) file else file
    let file :=
      write_bmp_rows pixels width use_palette (info.palette.getD []) row_padding.toNat
        height file
    ⟨1, file⟩

/-! ## Heap pointers and buffers -/

/-- A pointer variable of the C program: null, pointing to a live buffer, or still
holding the address of a buffer that has been passed to `free`. -/
inductive Ptr (α : Type) where
  | null
  | live (content : α)
  | freed
deriving DecidableEq, Repr

/-- The statement `if (p) free(p);`: the variable keeps its value, the buffer is gone. -/
def Ptr.free {α : Type} : Ptr α → Ptr α
  | Ptr.live _ => Ptr.freed
  | p => p

/-- The store `buf[i] = v`; outside the buffer it is undefined behaviour. -/
def store {α : Type} (buf : List α) (i : Int) (v : α) : Except Fault (List α) :=
  if 0 ≤ i ∧ i < buf.length then .ok (buf.set i.toNat v) else .error Fault.undefined

/-- Fill an image with a colour: the first `width * height` pixels of the buffer. -/
def fill_image (image : List Pixel) (width height : Nat) (color : Pixel) : List Pixel :=
  List.replicate (min (width * height) image.length) color ++ image.drop (width * height)

/-- The loop `for (x = row_padding; x; --x) getc(file)` of the readers. -/
def skip_padding : Nat → FILE → FILE
  | 0, file => file
  | x + 1, file => skip_padding x (getc file).2

/-! ## The uncompressed indexed readers

In every reader the row pointer starts at `image + width * (height - 1)` and goes down by
`width` after each row, so the row read at count `y` starts at pixel index
`width * (y - 1)`; the row functions receive that index as `row`. The readers return the
C return value, the buffer and the stream. -/

/-- The bit loop of `read_bmp_1bpp`:
`for (bit = 7; bit >= 0 && x < width; --bit, code <<= 1)`, with `nbits = bit + 1`. -/
def read_bmp_1bpp_bits (palette : List Pixel) (width : Nat) (row : Int) :
    Nat → Nat → Nat → List Pixel → Except Fault (Nat × List Pixel)
  | 0, _, x, image => .ok (x, image)
  | nbits + 1, code, x, image =>
    if x < width then do
      let image ← store image (row + x) (palette.getD (if code &&& 0x80 ≠ 0 then 1 else 0) default)
      read_bmp_1bpp_bits palette width row nbits ((code <<< 1) % 4294967296) (x + 1) image
    else .ok (x, image)

/-- The loop `for (x = 0; x < width;)` of `read_bmp_1bpp`, one byte per pass. -/
def read_bmp_1bpp_row (palette : List Pixel) (width : Nat) (row : Int) :
    Nat → Nat → List Pixel → FILE → Except Fault (List Pixel × FILE)
  | 0, x, image, file => if x < width then .error Fault.out_of_fuel else .ok (image, file)
  | fuel + 1, x, image, file =>
    if x < width then do
      let (c, file) := getc file
      let code := to_u32 c
      let (x, image) ← read_bmp_1bpp_bits palette width row 8 code x image
      read_bmp_1bpp_row palette width row fuel x image file
    else .ok (image, file)

/-- The row loop `for (y = height; y; --y, image -= width)` of `read_bmp_1bpp`. -/
def read_bmp_1bpp_rows (palette : List Pixel) (width row_padding : Nat) :
    Nat → List Pixel → FILE → Except Fault (Int × List Pixel × FILE)
  | 0, image, file => .ok (1, image, file)
  | y + 1, image, file =>
    if feof file then .ok (0, image, file)
    else do
      let (image, file) ← read_bmp_1bpp_row palette width ((width : Int) * y) width 0 image file
      let file := skip_padding row_padding file
      read_bmp_1bpp_rows palette width row_padding y image file

/-- Internal function for reading 1-bpp BMP. -/
def read_bmp_1bpp (image : List Pixel) (width height : Nat) (file : FILE)
    (palette : List Pixel) : Except Fault (Int × List Pixel × FILE) :=
  let row_padding := (Int.tdiv (-((width : Int) + 7)) 8) % 4
  read_bmp_1bpp_rows palette width row_padding.toNat height image file

/-- The loop `for (x = 0; x < width;)` of `read_bmp_4bpp`, one byte per pass; `n` is the
number of columns left, `width - x`. -/
def read_bmp_4bpp_row (palette : List Pixel) (row : Int) :
    Nat → Nat → List Pixel → FILE → Except Fault (List Pixel × FILE)
  | 0, _, image, file => .ok (image, file)
  | 1, x, image, file => do
    let (c, file) := getc file
    let code := to_u32 c
    let image ← store image (row + x) (palette.getD ((code &&& 0xF0) >>> 4) default)
    .ok (image, file)
  | n + 2, x, image, file => do
    let (c, file) := getc file
    let code := to_u32 c
    let image ← store image (row + x) (palette.getD ((code &&& 0xF0) >>> 4) default)
    let image ← store image (row + (x + 1)) (palette.getD (code &&& 0x0F) default)
    read_bmp_4bpp_row palette row n (x + 2) image file

/-- The row loop of `read_bmp_4bpp`. -/
def read_bmp_4bpp_rows (palette : List Pixel) (width row_padding : Nat) :
    Nat → List Pixel → FILE → Except Fault (Int × List Pixel × FILE)
  | 0, image, file => .ok (1, image, file)
  | y + 1, image, file =>
    if feof file then .ok (0, image, file)
    else do
      let (image, file) ← read_bmp_4bpp_row palette ((width : Int) * y) width 0 image file
      let file := skip_padding row_padding file
      read_bmp_4bpp_rows palette width row_padding y image file

/-- Internal function for reading 4-bpp BMP. -/
def read_bmp_4bpp (image : List Pixel) (width height : Nat) (file : FILE)
    (palette : List Pixel) : Except Fault (Int × List Pixel × FILE) :=
  let row_padding := (Int.tdiv (-((width : Int) + 1)) 2) % 4
  read_bmp_4bpp_rows palette width row_padding.toNat height image file

/-- The loop `for (x = 0; x < width; ++x)` of `read_bmp_8bpp`; `n` is `width - x`. -/
def read_bmp_8bpp_row (palette : List Pixel) (row : Int) :
    Nat → Nat → List Pixel → FILE → Except Fault (List Pixel × FILE)
  | 0, _, image, file => .ok (image, file)
  | n + 1, x, image, file => do
    let (c, file) := getc file
    let image ← store image (row + x) (palette.getD (to_u32 c &&& 0xFF) default)
    read_bmp_8bpp_row palette row n (x + 1) image file

/-- The row loop of `read_bmp_8bpp`. -/
def read_bmp_8bpp_rows (palette : List Pixel) (width row_padding : Nat) :
    Nat → List Pixel → FILE → Except Fault (Int × List Pixel × FILE)
  | 0, image, file => .ok (1, image, file)
  | y + 1, image, file =>
    if feof file then .ok (0, image, file)
    else do
      let (image, file) ← read_bmp_8bpp_row palette ((width : Int) * y) width 0 image file
      let file := skip_padding row_padding file
      read_bmp_8bpp_rows palette width row_padding y image file

/-- Internal function for reading 8-bpp BMP. -/
def read_bmp_8bpp (image : List Pixel) (width height : Nat) (file : FILE)
    (palette : List Pixel) : Except Fault (Int × List Pixel × FILE) :=
  let row_padding := (-(width : Int)) % 4
  read_bmp_8bpp_rows palette width row_padding.toNat height image file

/-! ## The 24-bit reader -/

/-- The pixel loop of `read_bmp_24bpp`: alpha is set, then blue, green and red are read.
The loop of the source runs over byte offsets `x = 0, 4, ...` below `4 * width`; here `x`
counts pixels and `n` is the number of pixels left. -/
def read_bmp_24bpp_row (row : Int) :
    Nat → Nat → List Pixel → FILE → Except Fault (List Pixel × FILE)
  | 0, _, image, file => .ok (image, file)
  | n + 1, x, image, file => do
    let (blue, file) := getc file
    let (green, file) := getc file
    let (red, file) := getc file
    let image ← store image (row + x) ⟨to_byte red, to_byte green, to_byte blue, 255⟩
    read_bmp_24bpp_row row n (x + 1) image file

/-- The row loop of `read_bmp_24bpp`. -/
def read_bmp_24bpp_rows (width row_padding : Nat) :
    Nat → List Pixel → FILE → Except Fault (Int × List Pixel × FILE)
  | 0, image, file => .ok (1, image, file)
  | y + 1, image, file =>
    if feof file then .ok (0, image, file)
    else do
      let (image, file) ← read_bmp_24bpp_row ((width : Int) * y) width 0 image file
      let file := skip_padding row_padding file
      read_bmp_24bpp_rows width row_padding y image file

/-- Internal function for reading 24-bpp BMP. -/
def read_bmp_24bpp (image : List Pixel) (width height : Nat) (file : FILE) :
    Except Fault (Int × List Pixel × FILE) :=
  let row_padding := (-3 * (width : Int)) % 4
  read_bmp_24bpp_rows width row_padding.toNat height image file

/-! ## The bitfield readers -/

/-- The loop `while (!(mask & 1)) { mask >>= 1; ++shift; }` of `get_mask_shifts`; a
non-zero 32-bit mask leaves it within 32 passes. -/
def get_mask_shifts_zeros : Nat → Nat → Int → Nat × Int
  | 0, mask, shift => (mask, shift)
  | fuel + 1, mask, shift =>
    if mask &&& 1 = 0 then get_mask_shifts_zeros fuel (mask >>> 1) (shift + 1)
    else (mask, shift)

/-- The loop `while (mask & 1) { mask >>= 1; ++bitcount; }` of `get_mask_shifts`. -/
def get_mask_shifts_ones : Nat → Nat → Int → Nat × Int
  | 0, mask, bitcount => (mask, bitcount)
  | fuel + 1, mask, bitcount =>
    if mask &&& 1 ≠ 0 then get_mask_shifts_ones fuel (mask >>> 1) (bitcount + 1)
    else (mask, bitcount)

/-- Internal function for determining bit shifts in bitfield BMP: the pair
`(left_shift, right_shift)`. -/
def get_mask_shifts (mask : Nat) : Nat × Nat :=
  if mask = 0 then (0, 0)
  else
    let (mask, shift) := get_mask_shifts_zeros 32 mask 0
    let (_, bitcount) := get_mask_shifts_ones 33 mask 0
    let shift := shift + (bitcount - 8)
    if shift ≥ 0 then (0, shift.toNat) else (shift.natAbs, 0)

/-- The channel byte `((code & mask) >> right_shift) << left_shift` stored by the 16- and
32-bit readers, computed on `uint32_t` and converted to `uint8_t`. -/
def mask_channel (code mask : Nat) (shifts : Nat × Nat) : Byte :=
  nat_to_byte ((((code &&& mask) >>> shifts.2) <<< shifts.1) % 4294967296)

/-- The pixel decoded from one 16- or 32-bit word. -/
def mask_pixel (code redmask greenmask bluemask alphamask : Nat) : Pixel :=
  ⟨mask_channel code redmask (get_mask_shifts redmask),
   mask_channel code greenmask (get_mask_shifts greenmask),
   mask_channel code bluemask (get_mask_shifts bluemask),
   mask_channel code alphamask (get_mask_shifts alphamask)⟩

/-- The pixel loop of `read_bmp_16bpp`, `x` counting pixels and `n` the pixels left. -/
def read_bmp_16bpp_row (redmask greenmask bluemask alphamask : Nat) (row : Int) :
    Nat → Nat → List Pixel → FILE → Except Fault (List Pixel × FILE)
  | 0, _, image, file => .ok (image, file)
  | n + 1, x, image, file => do
    let (code, file) := read_u16_le file
    let image ← store image (row + x) (mask_pixel code redmask greenmask bluemask alphamask)
    read_bmp_16bpp_row redmask greenmask bluemask alphamask row n (x + 1) image file

/-- The row loop of `read_bmp_16bpp`. -/
def read_bmp_16bpp_rows (redmask greenmask bluemask alphamask : Nat)
    (width row_padding : Nat) :
    Nat → List Pixel → FILE → Except Fault (Int × List Pixel × FILE)
  | 0, image, file => .ok (1, image, file)
  | y + 1, image, file =>
    if feof file then .ok (0, image, file)
    else do
      let (image, file) ←
        read_bmp_16bpp_row redmask greenmask bluemask alphamask ((width : Int) * y) width 0
          image file
      let file := skip_padding row_padding file
      read_bmp_16bpp_rows redmask greenmask bluemask alphamask width row_padding y image file

/-- Internal function for reading 16-bpp BMP. -/
def read_bmp_16bpp (image : List Pixel) (width height : Nat) (file : FILE)
    (redmask greenmask bluemask alphamask : Nat) : Except Fault (Int × List Pixel × FILE) :=
  let row_padding := (-2 * (width : Int)) % 4
  read_bmp_16bpp_rows redmask greenmask bluemask alphamask width row_padding.toNat height
    image file

/-- The pixel loop of `read_bmp_32bpp`. -/
def read_bmp_32bpp_row (redmask greenmask bluemask alphamask : Nat) (row : Int) :
    Nat → Nat → List Pixel → FILE → Except Fault (List Pixel × FILE)
  | 0, _, image, file => .ok (image, file)
  | n + 1, x, image, file => do
    let (code, file) := read_u32_le file
    let image ← store image (row + x) (mask_pixel code redmask greenmask bluemask alphamask)
    read_bmp_32bpp_row redmask greenmask bluemask alphamask row n (x + 1) image file

/-- The row loop of `read_bmp_32bpp`; rows of 32-bit pixels have no padding. -/
def read_bmp_32bpp_rows (redmask greenmask bluemask alphamask : Nat) (width : Nat) :
    Nat → List Pixel → FILE → Except Fault (Int × List Pixel × FILE)
  | 0, image, file => .ok (1, image, file)
  | y + 1, image, file =>
    if feof file then .ok (0, image, file)
    else do
      let (image, file) ←
        read_bmp_32bpp_row redmask greenmask bluemask alphamask ((width : Int) * y) width 0
          image file
      read_bmp_32bpp_rows redmask greenmask bluemask alphamask width y image file

/-- Internal function for reading 32-bpp BMP. -/
def read_bmp_32bpp (image : List Pixel) (width height : Nat) (file : FILE)
    (redmask greenmask bluemask alphamask : Nat) : Except Fault (Int × List Pixel × FILE) :=
  read_bmp_32bpp_rows redmask greenmask bluemask alphamask width height image file

/-! ## The run-length readers

The cursor is the column `x`, the row count `y` and the row pointer, kept as the pixel
index `row` of the first pixel of the current row. The inner `do ... while` loops move `x`
right by at least one column per pass and leave at the row boundary; their fuel is the
number of passes allowed. -/

/-- The literal loop of `read_bmp_8bpp_rle`:
`do { if (x >= width) break; image[x++] = palette[getc(file) & 0xFF]; } while (--k);` -/
def read_bmp_8bpp_rle_literal (palette : List Pixel) (width : Int) (row : Int) :
    Nat → Int → Int → List Pixel → FILE → Except Fault (Int × List Pixel × FILE)
  | 0, _, _, _, _ => .error Fault.out_of_fuel
  | fuel + 1, k, x, image, file =>
    if x ≥ width then .ok (x, image, file)
    else do
      let (c, file) := getc file
      let image ← store image (row + x) (palette.getD (to_u32 c &&& 0xFF) default)
      let x := x + 1
      let k := k - 1
      if k ≠ 0 then read_bmp_8bpp_rle_literal palette width row fuel k x image file
      else .ok (x, image, file)

/-- The run loop of `read_bmp_8bpp_rle`:
`do { if (x >= width) break; image[x++] = color; } while (--count);` with `count` unsigned. -/
def read_bmp_8bpp_rle_run (color : Pixel) (width : Int) (row : Int) :
    Nat → Nat → Int → List Pixel → Except Fault (Int × List Pixel)
  | 0, _, _, _ => .error Fault.out_of_fuel
  | fuel + 1, count, x, image =>
    if x ≥ width then .ok (x, image)
    else do
      let image ← store image (row + x) color
      let x := x + 1
      let count := (count + 4294967295) % 4294967296
      if count ≠ 0 then read_bmp_8bpp_rle_run color width row fuel count x image
      else .ok (x, image)

/-- The loop `for (x = 0, y = height; y;)` of `read_bmp_8bpp_rle`; one pass reads one
(count, value) pair. -/
def read_bmp_8bpp_rle_loop (palette : List Pixel) (width : Int) :
    Nat → Int → Int → Int → List Pixel → FILE → Except Fault (Int × List Pixel × FILE)
  | 0, _, _, _, _, _ => .error Fault.out_of_fuel
  | fuel + 1, x, y, row, image, file =>
    if y = 0 then .ok (1, image, file)
    else if feof file then .ok (0, image, file)
    else
      let (c, file) := getc file
      let count := to_u32 c
      let (c, file) := getc file
      let value := to_u32 c
      if count = 0 then
        if value = 0 then
          read_bmp_8bpp_rle_loop palette width fuel 0 (y - 1) (row - width) image file
        else if value = 1 then .ok (1, image, file)
        else if value = 2 then
          let (c, file) := getc file
          let x := x + c
          let (dy, file) := getc file
          let y := y - dy
          let row := row - dy * width
          if x ≥ width ∨ y < 0 then .ok (0, image, file)
          else read_bmp_8bpp_rle_loop palette width fuel x y row image file
        else do
          let count := value
          let k := to_int value
          let (x, image, file) ←
            read_bmp_8bpp_rle_literal palette width row ((width - x).toNat + 1) k x image file
          let file := if count &&& 1 ≠ 0 then (getc file).2 else file
          read_bmp_8bpp_rle_loop palette width fuel x y row image file
      else do
        let color := palette.getD (value &&& 0xFF) default
        let (x, image) ←
          read_bmp_8bpp_rle_run color width row ((width - x).toNat + 1) count x image
        read_bmp_8bpp_rle_loop palette width fuel x y row image file

/-- Internal function for reading 8-bpp RLE-compressed BMP. Each pass of the outer loop
either reads two bytes or sets the end-of-file indicator, so the fuel given is enough. -/
def read_bmp_8bpp_rle (image : List Pixel) (width height : Nat) (file : FILE)
    (palette : List Pixel) : Except Fault (Int × List Pixel × FILE) :=
  let image := fill_image image width height (palette.getD 0 default)
  read_bmp_8bpp_rle_loop palette width (file.data.length + 2) 0 height
    ((width : Int) * ((height : Int) - 1)) image file

/-- The literal loop of `read_bmp_4bpp_rle`, entered with `x < width`. -/
def read_bmp_4bpp_rle_literal (palette : List Pixel) (width : Int) (row : Int) :
    Nat → Int → Int → List Pixel → FILE → Except Fault (Int × List Pixel × FILE)
  | 0, _, _, _, _ => .error Fault.out_of_fuel
  | fuel + 1, k, x, image, file => do
    let (c, file) := getc file
    let value := to_u32 c
    let image ← store image (row + x) (palette.getD ((value &&& 0xF0) >>> 4) default)
    let x := x + 1
    if x ≥ width then .ok (x, image, file)
    else
      let k := k - 1
      if k ≠ 0 then do
        let image ← store image (row + x) (palette.getD (value &&& 0x0F) default)
        let x := x + 1
        let k := k - 1
        if x ≥ width then .ok (x, image, file)
        else if k ≠ 0 then read_bmp_4bpp_rle_literal palette width row fuel k x image file
        else .ok (x, image, file)
      else .ok (x, image, file)

/-- The run loop of `read_bmp_4bpp_rle`, entered with `x < width`; `count` is unsigned. -/
def read_bmp_4bpp_rle_run (color_high color_low : Pixel) (width : Int) (row : Int) :
    Nat → Nat → Int → List Pixel → Except Fault (Int × List Pixel)
  | 0, _, _, _ => .error Fault.out_of_fuel
  | fuel + 1, count, x, image => do
    let image ← store image (row + x) color_high
    let x := x + 1
    let count := (count + 4294967295) % 4294967296
    if x ≥ width then .ok (x, image)
    else if count ≠ 0 then do
      let image ← store image (row + x) color_low
      let x := x + 1
      let count := (count + 4294967295) % 4294967296
      if x ≥ width then .ok (x, image)
      else if count ≠ 0 then
        read_bmp_4bpp_rle_run color_high color_low width row fuel count x image
      else .ok (x, image)
    else .ok (x, image)

/-- The loop `for (x = 0, y = height; y;)` of `read_bmp_4bpp_rle`. -/
def read_bmp_4bpp_rle_loop (palette : List Pixel) (width : Int) :
    Nat → Int → Int → Int → List Pixel → FILE → Except Fault (Int × List Pixel × FILE)
  | 0, _, _, _, _, _ => .error Fault.out_of_fuel
  | fuel + 1, x, y, row, image, file =>
    if y = 0 then .ok (1, image, file)
    else if feof file then .ok (0, image, file)
    else
      let (c, file) := getc file
      let count := to_u32 c
      let (c, file) := getc file
      let value := to_u32 c
      if count = 0 then
        if value = 0 then
          read_bmp_4bpp_rle_loop palette width fuel 0 (y - 1) (row - width) image file
        else if value = 1 then .ok (1, image, file)
        else if value = 2 then
          let (c, file) := getc file
          let x := x + c
          let (dy, file) := getc file
          let y := y - dy
          let row := row - dy * width
          if x ≥ width ∨ y < 0 then .ok (0, image, file)
          else read_bmp_4bpp_rle_loop palette width fuel x y row image file
        else
          let count := value
          let k := to_int value
          if x ≥ width then .ok (0, image, file)
          else do
            let (x, image, file) ←
              read_bmp_4bpp_rle_literal palette width row ((width - x).toNat + 1) k x image file
            let file :=
              if (((count + 1) % 4294967296) / 2) &&& 1 ≠ 0 then (getc file).2 else file
            read_bmp_4bpp_rle_loop palette width fuel x y row image file
      else
        let color_high := palette.getD ((value &&& 0xF0) >>> 4) default
        let color_low := palette.getD (value &&& 0xF) default
        if x ≥ width then .ok (0, image, file)
        else do
          let (x, image) ←
            read_bmp_4bpp_rle_run color_high color_low width row ((width - x).toNat + 1)
              count x image
          read_bmp_4bpp_rle_loop palette width fuel x y row image file

/-- Internal function for reading 4-bpp RLE-compressed BMP. -/
def read_bmp_4bpp_rle (image : List Pixel) (width height : Nat) (file : FILE)
    (palette : List Pixel) : Except Fault (Int × List Pixel × FILE) :=
  let image := fill_image image width height (palette.getD 0 default)
  read_bmp_4bpp_rle_loop palette width (file.data.length + 2) 0 height
    ((width : Int) * ((height : Int) - 1)) image file

/-! ## The BMP decoder -/

/-- The C function `abs` on `int`; the result for `INT_MIN` is undefined. -/
def c_abs (v : Int) : Except Fault Int :=
  if v = -2147483648 then .error Fault.undefined else .ok (v.natAbs : Int)

/-- The local variables of `read_bmp` once both headers have been read. -/
structure BmpHeader where
  image_data_offset : Int
  info_size : Int
  os2bmp : Bool
  width : Int
  height : Int
  num_planes : Nat
  bits_per_pixel : Nat
  compression : Nat
  num_colors : Nat
  redmask : Nat
  greenmask : Nat
  bluemask : Nat
  alphamask : Nat
deriving DecidableEq, Repr

/-- The start of `read_bmp`: the magic numbers, the reserved fields, the offset of the
pixel data and the size of the info header; `none` when the code jumps to `fail` (`*width`
and `*height` are still 0 then). A `long int` holds every 32-bit unsigned value. -/
def read_bmp_file_header (file : FILE) : Option (Int × Int × FILE) :=
  let (_, file) := fseek_set file 0
  let (c, file) := getc file
  let magic0 := to_byte c
  let (c, file) := getc file
  let magic1 := to_byte c
  if ¬(magic0 = 0x42 ∧ magic1 = 0x4D) then none
  else
    let (rc, file) := fseek_cur file 8
    if rc ≠ 0 then none
    else
      let (v, file) := read_u32_le file
      let image_data_offset : Int := v
      let (v, file) := read_u32_le file
      let info_size : Int := v
      if info_size < 12 then none
      else some (image_data_offset, info_size, file)

/-- The info header of an OS/2 V1 bitmap (`info_size == 12`). -/
def read_bmp_info_os2 (image_data_offset info_size : Int) (file : FILE) : BmpHeader × FILE :=
  let (v, file) := read_u16_le file
  let width : Int := v
  let (v, file) := read_u16_le file
  let height : Int := v
  let (num_planes, file) := read_u16_le file
  let (bits_per_pixel, file) := read_u16_le file
  (⟨image_data_offset, info_size, true, width, height, num_planes, bits_per_pixel, 0, 0,
    0x00FF0000, 0x0000FF00, 0x000000FF, 0xFF000000⟩, file)

/-- The info header of a Windows bitmap (`info_size != 12`). -/
def read_bmp_info_windows (image_data_offset info_size : Int) (file : FILE) :
    Except Fault (BmpHeader × FILE) :=
  let (v, file) := read_u32_le file
  match c_abs (to_int v) with
  | .error e => .error e
  | .ok width =>
    let (v, file) := read_u32_le file
    match c_abs (to_int v) with
    | .error e => .error e
    | .ok height =>
      let (num_planes, file) := read_u16_le file
      let (bits_per_pixel, file) := read_u16_le file
      let (compression, file) := read_u32_le file
      let (_, file) := fseek_cur file 12
      let (num_colors, file) := read_u32_le file
      let (_, file) := fseek_cur file 4
      let (redmask, file) := read_u32_le file
      let (greenmask, file) := read_u32_le file
      let (bluemask, file) := read_u32_le file
      let (alphamask, file) := read_u32_le file
      .ok (⟨image_data_offset, info_size, false, width, height, num_planes, bits_per_pixel,
        compression, num_colors, redmask, greenmask, bluemask, alphamask⟩, file)

/-- The first part of `read_bmp`, up to the last header field: `none` when the code has
jumped to `fail` before it reads the dimensions. -/
def read_bmp_header (file : FILE) : Except Fault (Option (BmpHeader × FILE)) :=
  match read_bmp_file_header file with
  | none => .ok none
  | some (image_data_offset, info_size, file) =>
    if info_size = 12 then .ok (some (read_bmp_info_os2 image_data_offset info_size file))
    else
      match read_bmp_info_windows image_data_offset info_size file with
      | .error e => .error e
      | .ok r => .ok (some r)

/-- The palette loop of `read_bmp`: entry `i` gets alpha 255 and blue, green, red from the
stream, followed by one unused byte unless the file is an OS/2 bitmap; `n` entries are
left to read. The table has 256 entries. -/
def read_bmp_palette (os2bmp : Bool) :
    Nat → Nat → List Pixel → FILE → Except Fault (List Pixel × FILE)
  | 0, _, palette, file => .ok (palette, file)
  | n + 1, i, palette, file => do
    let (blue, file) := getc file
    let (green, file) := getc file
    let (red, file) := getc file
    let palette ← store palette i ⟨to_byte red, to_byte green, to_byte blue, 255⟩
    let file := if !os2bmp then (getc file).2 else file
    read_bmp_palette os2bmp n (i + 1) palette file

/-- The loop `for (; i < 256; ++i) palette[i] = palette[0];` with `n = 256 - i`. -/
def read_bmp_palette_fill : Nat → Nat → List Pixel → List Pixel
  | 0, _, palette => palette
  | n + 1, i, palette =>
    read_bmp_palette_fill n (i + 1) (palette.set i (palette.getD 0 default))

/-- The `switch (compression)` of `read_bmp`; `success` stays 0 when no case applies. -/
def read_bmp_data (hdr : BmpHeader) (image : List Pixel) (width height : Nat) (file : FILE)
    (palette : List Pixel) : Except Fault (Int × List Pixel × FILE) :=
  if hdr.compression = 0 then
    if hdr.bits_per_pixel = 1 then read_bmp_1bpp image width height file palette
    else if hdr.bits_per_pixel = 4 then read_bmp_4bpp image width height file palette
    else if hdr.bits_per_pixel = 8 then read_bmp_8bpp image width height file palette
    else if hdr.bits_per_pixel = 24 then read_bmp_24bpp image width height file
    else if hdr.bits_per_pixel = 16 then
      read_bmp_16bpp image width height file (0x001F <<< 10) (0x001F <<< 5) 0x0001F 0
    else if hdr.bits_per_pixel = 32 then
      read_bmp_32bpp image width height file 0x00FF0000 0x0000FF00 0x000000FF 0xFF000000
    else .ok (0, image, file)
  else if hdr.compression = 1 then
    if hdr.bits_per_pixel = 8 then read_bmp_8bpp_rle image width height file palette
    else .ok (0, image, file)
  else if hdr.compression = 2 then
    if hdr.bits_per_pixel = 4 then read_bmp_4bpp_rle image width height file palette
    else .ok (0, image, file)
  else if hdr.compression = 3 then
    if hdr.bits_per_pixel = 16 then
      read_bmp_16bpp image width height file hdr.redmask hdr.greenmask hdr.bluemask
        hdr.alphamask
    else if hdr.bits_per_pixel = 32 then
      read_bmp_32bpp image width height file hdr.redmask hdr.greenmask hdr.bluemask
        hdr.alphamask
    else .ok (0, image, file)
  else .ok (0, image, file)

/-- What `read_bmp` leaves to its caller: the return value, the outputs `*image`, `*width`
and `*height`, and the state of the local palette pointer at the return. -/
structure ReadResult where
  ret : Int
  image : Ptr (List Pixel)
  width : Int
  height : Int
  palette : Ptr (List Pixel)
deriving DecidableEq, Repr

/-- The code after the label `fail`: the palette is freed when it was allocated, the image
is freed when the call failed, and `success` is returned. -/
def read_bmp_exit (success : Int) (image : Ptr (List Pixel)) (width height : Int)
    (palette : Ptr (List Pixel)) : ReadResult :=
  ⟨success, if success = 0 then image.free else image, width, height, palette.free⟩

/-- The part of `read_bmp` after the allocation of the image: the palette, the seek to the
pixel data and the readers. -/
def read_bmp_body (env : Env) (hdr : BmpHeader) (image : List Pixel) (file : FILE) :
    Except Fault ReadResult :=
  let width := hdr.width.toNat
  let height := hdr.height.toNat
  let loaded : Except Fault (Option (Ptr (List Pixel) × FILE)) :=
    if hdr.bits_per_pixel ≤ 8 then
      let (_, file) := fseek_set file (14 + hdr.info_size)
      let num_colors :=
        if hdr.num_colors = 0 then (1 <<< hdr.bits_per_pixel) % 4294967296 else hdr.num_colors
      if env.malloc_ok (4 * 256) then
        match read_bmp_palette hdr.os2bmp num_colors 0
            (List.replicate 256 Pixel.indeterminate) file with
        | .error e => .error e
        | .ok (palette, file) =>
          .ok (some (Ptr.live (read_bmp_palette_fill (256 - num_colors) num_colors palette),
            file))
      else .ok none
    else .ok (some (Ptr.null, file))
  match loaded with
  | .error e => .error e
  | .ok none => .ok (read_bmp_exit 0 (Ptr.live image) hdr.width hdr.height Ptr.null)
  | .ok (some (palette, file)) =>
    let (rc, file) := fseek_set file hdr.image_data_offset
    if rc ≠ 0 ∨ feof file then
      .ok (read_bmp_exit 0 (Ptr.live image) hdr.width hdr.height palette)
    else
      let table := match palette with
        | Ptr.live t => t
        | _ => []
      match read_bmp_data hdr image width height file table with
      | .error e => .error e
      | .ok (success, image, _) =>
        .ok (read_bmp_exit success (Ptr.live image) hdr.width hdr.height palette)

/-- Read a BMP image file as RGBA data. -/
def read_bmp (env : Env) (file : FILE) : Except Fault ReadResult :=
  match read_bmp_header file with
  | .error e => .error e
  | .ok none => .ok (read_bmp_exit 0 Ptr.null 0 0 Ptr.null)
  | .ok (some (hdr, file)) =>
    if hdr.width > env.MAX_IMAGE_SIZE ∨ hdr.height > env.MAX_IMAGE_SIZE then
      .ok (read_bmp_exit 0 Ptr.null hdr.width hdr.height Ptr.null)
    else if feof file ∨ hdr.num_planes ≠ 1 ∨ hdr.compression > 3 then
      .ok (read_bmp_exit 0 Ptr.null hdr.width hdr.height Ptr.null)
    else if env.malloc_ok (4 * hdr.width.toNat * hdr.height.toNat) then
      read_bmp_body env hdr
        (List.replicate (hdr.width.toNat * hdr.height.toNat) Pixel.indeterminate) file
    else .ok (read_bmp_exit 0 Ptr.null hdr.width hdr.height Ptr.null)

/-! ## The pixel-format converters -/

/-- The value of `format & (IMAGEIO_U8 | IMAGEIO_SINGLE | IMAGEIO_float)`: one of the three
datatypes, or a combination for which the `switch` takes its `default` branch. -/
inductive Datatype where
  | u8
  | single
  | float
  | invalid
deriving DecidableEq, Repr

/-- Modelled from the spec: the format word, whose flag constants `IMAGEIO_*` are declared
in `imageio.h`, as the record of the tests the converters make on it: the datatype, and the
flags `IMAGEIO_GRAYSCALE`, `IMAGEIO_STRIP_ALPHA`, `IMAGEIO_BGRFLIP`, `IMAGEIO_AFLIP`,
`IMAGEIO_PLANAR` and `IMAGEIO_COLUMNMAJOR`. -/
structure Format where
  datatype : Datatype
  grayscale : Bool
  strip_alpha : Bool
  bgrflip : Bool
  aflip : Bool
  planar : Bool
  columnmajor : Bool
deriving DecidableEq, Repr

/-- Modelled from the spec: the default format, all flags unset, which is interleaved
row-major RGBA with 8-bit components. -/
def Format.default : Format := ⟨Datatype.u8, false, false, false, false, false, false⟩

/-- The byte `((uint8_t *) &pixel)[k]`. -/
def Pixel.byte (pixel : Pixel) (k : Nat) : Byte :=
  if k = 0 then pixel.r else if k = 1 then pixel.g else if k = 2 then pixel.b else pixel.a

/-- The store `((uint8_t *) &pixel)[k] = v` for `k < 4`. -/
def Pixel.set_byte (pixel : Pixel) (k : Nat) (v : Byte) : Pixel :=
  if k = 0 then { pixel with r := v }
  else if k = 1 then { pixel with g := v }
  else if k = 2 then { pixel with b := v }
  else { pixel with a := v }

/-- The four bytes of a pixel in memory order. -/
def Pixel.bytes (pixel : Pixel) : List Byte := [pixel.r, pixel.g, pixel.b, pixel.a]

/-- The canonical buffer seen as an array of bytes. -/
def image_bytes (image : List Pixel) : List Byte := image.flatMap Pixel.bytes

/-- The constant `num_channels` of the converters. -/
def num_channels (format : Format) : Nat :=
  if format.grayscale then 1 else if format.strip_alpha then 3 else 4

/-- The constant `channel_stride` of the converters. -/
def channel_stride (format : Format) (width height : Nat) : Nat :=
  if format.planar then width * height else 1

/-- The variable `pixel_stride` of the converters after the column-major test. -/
def pixel_stride (format : Format) (height : Nat) : Nat :=
  let pixel_stride := if format.planar then 1 else num_channels format
  if format.columnmajor then pixel_stride * height else pixel_stride

/-- The variable `row_stride` of the converters. -/
def row_stride (format : Format) (width : Nat) : Nat :=
  let pixel_stride := if format.planar then 1 else num_channels format
  if format.columnmajor then pixel_stride else width * pixel_stride

/-- The array `order` of the converters after the two flag tests. -/
def channel_order (format : Format) : List Nat :=
  let order := [0, 1, 2, 3]
  let order := if format.bgrflip then (order.set 0 2).set 2 0 else order
  if format.aflip && !format.strip_alpha then
    let order := order.set 3 (order.getD 2 0)
    let order := order.set 2 (order.getD 1 0)
    let order := order.set 1 (order.getD 0 0)
    order.set 0 3
  else order

/-- The inner loop `for (x = 0, i = row_stride * y; x < width; ++x, i += pixel_stride)` of
the `uint8_t` branch of `convert_to_format`, for a source row starting at pixel `srow`. -/
def convert_to_format_row (env : Env) (format : Format) (width height : Nat)
    (src : List Pixel) (srow : Nat) :
    Nat → Nat → Nat → List Byte → Except Fault (List Byte)
  | 0, _, _, dest => .ok dest
  | n + 1, x, i, dest => do
    let pixel := src.getD (srow + x) default
    let order := channel_order format
    let channel_stride := channel_stride format width height
    let dest ←
      if num_channels format = 1 then
        store dest i (env.gray_u8 (pixel.byte 0) (pixel.byte 1) (pixel.byte 2))
      else if num_channels format = 3 then do
        let dest ← store dest i (pixel.byte (order.getD 0 0))
        let dest ← store dest (i + channel_stride) (pixel.byte (order.getD 1 0))
        store dest (i + 2 * channel_stride) (pixel.byte (order.getD 2 0))
      else do
        let dest ← store dest i (pixel.byte (order.getD 0 0))
        let dest ← store dest (i + channel_stride) (pixel.byte (order.getD 1 0))
        let dest ← store dest (i + 2 * channel_stride) (pixel.byte (order.getD 2 0))
        store dest (i + 3 * channel_stride) (pixel.byte (order.getD 3 0))
    convert_to_format_row env format width height src srow n (x + 1)
      (i + pixel_stride format height) dest

/-- The outer loop `for (y = 0; y < height; ++y, src += width)` of `convert_to_format`,
with `n` rows left. -/
def convert_to_format_rows (env : Env) (format : Format) (width height : Nat)
    (src : List Pixel) : Nat → Nat → List Byte → Except Fault (List Byte)
  | 0, _, dest => .ok dest
  | n + 1, y, dest => do
    let dest ← convert_to_format_row env format width height src (width * y) width 0
      (row_stride format width * y) dest
    convert_to_format_rows env format width height src n (y + 1) dest

/-- Convert from RGBA U8 to a specified format; `none` is `NULL`. -/
def convert_to_format (env : Env) (src : List Pixel) (width height : Nat)
    (format : Format) : Except Fault (Option (List Byte)) :=
  let num_pixels := width * height
  match format.datatype with
  | Datatype.u8 =>
    if env.malloc_ok (num_channels format * num_pixels) then
      match convert_to_format_rows env format width height src height 0
          (List.replicate (num_channels format * num_pixels) 0) with
      | .error e => .error e
      | .ok dest => .ok (some dest)
    else .ok none
  | Datatype.single => .error Fault.floating_point
  | Datatype.float => .error Fault.floating_point
  | Datatype.invalid => .ok none

/-- The inner loop of the `uint8_t` branch of `convert_from_format`, for the destination
row starting at pixel `drow`; the bytes of a destination pixel are stored one by one. -/
def convert_from_format_row (format : Format) (width height : Nat) (src : List Byte)
    (drow : Nat) : Nat → Nat → Nat → List Pixel → Except Fault (List Pixel)
  | 0, _, _, dest => .ok dest
  | n + 1, x, i, dest => do
    let order := channel_order format
    let channel_stride := channel_stride format width height
    let pixel := dest.getD (drow + x) default
    let pixel :=
      if num_channels format = 1 then
        let v := src.getD i 0
        (((pixel.set_byte 2 v).set_byte 1 v).set_byte 0 v).set_byte 3 255
      else if num_channels format = 3 then
        let pixel := pixel.set_byte (order.getD 0 0) (src.getD i 0)
        let pixel := pixel.set_byte (order.getD 1 0) (src.getD (i + channel_stride) 0)
        let pixel := pixel.set_byte (order.getD 2 0) (src.getD (i + 2 * channel_stride) 0)
        pixel.set_byte 3 255
      else
        let pixel := pixel.set_byte (order.getD 0 0) (src.getD i 0)
        let pixel := pixel.set_byte (order.getD 1 0) (src.getD (i + channel_stride) 0)
        let pixel := pixel.set_byte (order.getD 2 0) (src.getD (i + 2 * channel_stride) 0)
        pixel.set_byte (order.getD 3 0) (src.getD (i + 3 * channel_stride) 0)
    let dest ← store dest (drow + x) pixel
    convert_from_format_row format width height src drow n (x + 1)
      (i + pixel_stride format height) dest

/-- The outer loop `for (y = 0; y < height; ++y, dest_ptr += 4 * width)` of
`convert_from_format`, with `n` rows left. -/
def convert_from_format_rows (format : Format) (width height : Nat) (src : List Byte) :
    Nat → Nat → List Pixel → Except Fault (List Pixel)
  | 0, _, dest => .ok dest
  | n + 1, y, dest => do
    let dest ← convert_from_format_row format width height src (width * y) width 0
      (row_stride format width * y) dest
    convert_from_format_rows format width height src n (y + 1) dest

/-- Convert from a specified format to RGBA U8; `none` is `NULL`. The source is a buffer
of bytes, as the `uint8_t` branch reads it. -/
def convert_from_format (env : Env) (src : List Byte) (width height : Nat)
    (format : Format) : Except Fault (Option (List Pixel)) :=
  let num_pixels := width * height
  if env.malloc_ok (4 * num_pixels) then
    match format.datatype with
    | Datatype.u8 =>
      match convert_from_format_rows format width height src height 0
          (List.replicate num_pixels Pixel.indeterminate) with
      | .error e => .error e
      | .ok dest => .ok (some dest)
    | Datatype.single => .error Fault.floating_point
    | Datatype.float => .error Fault.floating_point
    | Datatype.invalid => .ok none
  else .ok none

/-! ## Reading the fields of an encoded file -/

/-- The byte at offset `pos` of a file, as a number. -/
def byte_at (data : List Byte) (pos : Nat) : Nat := (data.getD pos 0).val

/-- The 16-bit little-endian field at offset `pos` of a file. -/
def le16_at (data : List Byte) (pos : Nat) : Nat :=
  byte_at data pos + 256 * byte_at data (pos + 1)

/-- The 32-bit little-endian field at offset `pos` of a file. -/
def le32_at (data : List Byte) (pos : Nat) : Nat :=
  byte_at data pos + 256 * byte_at data (pos + 1) + 65536 * byte_at data (pos + 2)
    + 16777216 * byte_at data (pos + 3)

/-- The first two bytes of the stream are 'B' and 'M'. -/
def has_magic (file : FILE) : Prop := file.data[0]? = some 0x42 ∧ file.data[1]? = some 0x4D

/-- A sample environment: dimensions up to 10000, every allocation succeeds, and the luma
is computed on integers. -/
def Env.sample : Env :=
  ⟨10000, fun _ => true,
    fun r g b => nat_to_byte ((299 * r.val + 587 * g.val + 114 * b.val + 500) / 1000)⟩

/-! ## Notions used in the statements -/

/-- The state of the palette after the scan of the pixels `l`: the distinct pixel values
while there are at most 256 of them, no palette and -1 afterwards. -/
def palette_state (l : List Pixel) (st : PaletteInfo) : Prop :=
  (l.toFinset.card ≤ 256 →
    ∃ pal, st.palette = some pal ∧ pal.Nodup ∧ (∀ p, p ∈ pal ↔ p ∈ l) ∧
      st.num_colors = pal.length) ∧
  (256 < l.toFinset.card → st.palette = none ∧ st.num_colors = -1)

/-- The bytes of a 16-bit little-endian field. -/
def le16_bytes (v : Nat) : List Byte := [nat_to_byte v, nat_to_byte (v / 256)]

/-- The bytes of a 32-bit little-endian field. -/
def le32_bytes (v : Nat) : List Byte :=
  [nat_to_byte v, nat_to_byte (v / 256), nat_to_byte (v / 65536), nat_to_byte (v / 16777216)]

/-- The number of distinct pixel values of an image. -/
def distinct_colors (image : List Pixel) : Nat := image.toFinset.card

/-- The 54 bytes of the two headers of a BMP file, from the values of their fields. -/
def bmp_header_bytes (file_size data_offset : Int) (width height bits_per_pixel : Nat)
    (image_size num_colors : Int) : List Byte :=
  [0x42, 0x4D] ++ le32_bytes (to_u32 file_size) ++ le32_bytes 0
    ++ le32_bytes (to_u32 data_offset) ++ le32_bytes 40 ++ le32_bytes (to_u32 width)
    ++ le32_bytes (to_u32 height) ++ le16_bytes 1 ++ le16_bytes bits_per_pixel
    ++ le32_bytes 0 ++ le32_bytes (to_u32 image_size) ++ le32_bytes 2835 ++ le32_bytes 2835
    ++ le32_bytes (to_u32 num_colors) ++ le32_bytes 0

/-- The image has at most 256 distinct pixel values and the palette pays off:
`2 * distinct_colors < width * height`. -/
def indexed_mode (image : List Pixel) (width height : Nat) : Prop :=
  distinct_colors image ≤ 256 ∧ 2 * distinct_colors image < width * height

instance (image : List Pixel) (width height : Nat) :
    Decidable (indexed_mode image width height) := by
  unfold indexed_mode
  infer_instance

/-- A row size rounded up to a multiple of 4. -/
def round_up4 (n : Nat) : Nat := 4 * ((n + 3) / 4)

/-- A 5 x 2 image with ten distinct pixel values. -/
def image_5x2 : List Pixel :=
  [⟨1, 2, 3, 255⟩, ⟨4, 5, 6, 255⟩, ⟨7, 8, 9, 255⟩, ⟨10, 11, 12, 255⟩, ⟨13, 14, 15, 255⟩,
   ⟨21, 22, 23, 255⟩, ⟨24, 25, 26, 255⟩, ⟨27, 28, 29, 255⟩, ⟨30, 31, 32, 255⟩,
   ⟨33, 34, 35, 255⟩]

/-- A 4 x 2 image with two distinct pixel values. -/
def image_4x2 : List Pixel :=
  [⟨1, 2, 3, 255⟩, ⟨1, 2, 3, 255⟩, ⟨7, 8, 9, 255⟩, ⟨1, 2, 3, 255⟩,
   ⟨7, 8, 9, 255⟩, ⟨7, 8, 9, 255⟩, ⟨1, 2, 3, 255⟩, ⟨1, 2, 3, 255⟩]

/-- The number of palette entries of the file of an image: the number of distinct pixel
values in indexed mode, 0 in 24-bit mode. -/
def palette_entries (image : List Pixel) (width height : Nat) : Nat :=
  if indexed_mode image width height then distinct_colors image else 0

/-- The size in bytes of one row of pixel data in the file of an image: one byte per pixel
in indexed mode and three in 24-bit mode, rounded up to a multiple of 4. -/
def row_size (image : List Pixel) (width height : Nat) : Nat :=
  if indexed_mode image width height then round_up4 width else round_up4 (3 * width)

/-- The number of bytes a pixel takes in the file of an image. -/
def pixel_size (image : List Pixel) (width height : Nat) : Nat :=
  if indexed_mode image width height then 1 else 3

/-! ## Sample files -/

/-- The file `write_bmp` produces for the 1 x 1 image whose pixel is (1, 2, 3, 255):
a 54-byte header and one padded row of 4 bytes. -/
def bmp_1x1 : List Byte :=
  [66, 77, 58, 0, 0, 0, 0, 0, 0, 0, 54, 0, 0, 0,
   40, 0, 0, 0, 1, 0, 0, 0, 1, 0, 0, 0, 1, 0, 24, 0, 0, 0, 0, 0, 4, 0, 0, 0,
   19, 11, 0, 0, 19, 11, 0, 0, 0, 0, 0, 0, 0, 0, 0, 0,
   3, 2, 1, 0]

/-- The file `write_bmp` produces for the 3 x 1 image whose pixels are all (1, 2, 3, 255):
the header, one palette entry and one padded row of palette indices. -/
def bmp_3x1_indexed : List Byte :=
  [66, 77, 62, 0, 0, 0, 0, 0, 0, 0, 58, 0, 0, 0,
   40, 0, 0, 0, 3, 0, 0, 0, 1, 0, 0, 0, 1, 0, 8, 0, 0, 0, 0, 0, 4, 0, 0, 0,
   19, 11, 0, 0, 19, 11, 0, 0, 1, 0, 0, 0, 0, 0, 0, 0,
   3, 2, 1, 0,
   0, 0, 0, 0]

/-- A 24-bit file of 5 x 2 pixels cut after its first (bottom) row: the header declares 32
bytes of pixel data at offset 54 and the stream ends at byte 70. -/
def bmp_5x2_truncated : List Byte :=
  [66, 77, 86, 0, 0, 0, 0, 0, 0, 0, 54, 0, 0, 0,
   40, 0, 0, 0, 5, 0, 0, 0, 2, 0, 0, 0, 1, 0, 24, 0, 0, 0, 0, 0, 32, 0, 0, 0,
   19, 11, 0, 0, 19, 11, 0, 0, 0, 0, 0, 0, 0, 0, 0, 0,
   23, 22, 21, 26, 25, 24, 29, 28, 27, 32, 31, 30, 35, 34, 33, 0]

/-- A 24-bit file of 5 x 1 pixels of 70 bytes whose pixel-data offset is 70, the end of
the stream: no byte of pixel data is present. -/
def bmp_5x1_no_data : List Byte :=
  [66, 77, 86, 0, 0, 0, 0, 0, 0, 0, 70, 0, 0, 0,
   40, 0, 0, 0, 5, 0, 0, 0, 1, 0, 0, 0, 1, 0, 24, 0, 0, 0, 0, 0, 16, 0, 0, 0,
   19, 11, 0, 0, 19, 11, 0, 0, 0, 0, 0, 0, 0, 0, 0, 0,
   0, 0, 0, 0, 0, 0, 0, 0, 0, 0, 0, 0, 0, 0, 0, 0]

/-- A 24-bit file of 5 x 3 pixels cut after its first (bottom) row. -/
def bmp_5x3_truncated : List Byte :=
  [66, 77, 102, 0, 0, 0, 0, 0, 0, 0, 54, 0, 0, 0,
   40, 0, 0, 0, 5, 0, 0, 0, 3, 0, 0, 0, 1, 0, 24, 0, 0, 0, 0, 0, 48, 0, 0, 0,
   19, 11, 0, 0, 19, 11, 0, 0, 0, 0, 0, 0, 0, 0, 0, 0,
   43, 42, 41, 46, 45, 44, 49, 48, 47, 52, 51, 50, 55, 54, 53, 0]

/-- A 24-bit file of 70 bytes whose header declares width 0 and height 1. -/
def bmp_zero_width : List Byte :=
  [66, 77, 70, 0, 0, 0, 0, 0, 0, 0, 54, 0, 0, 0,
   40, 0, 0, 0, 0, 0, 0, 0, 1, 0, 0, 0, 1, 0, 24, 0, 0, 0, 0, 0, 16, 0, 0, 0,
   19, 11, 0, 0, 19, 11, 0, 0, 0, 0, 0, 0, 0, 0, 0, 0,
   3, 2, 1, 6, 5, 4, 9, 8, 7, 12, 11, 10, 15, 14, 13, 0]

/-- A 24-bit file of 70 bytes whose header declares a width of 20000 pixels. -/
def bmp_wide : List Byte :=
  [66, 77, 70, 0, 0, 0, 0, 0, 0, 0, 54, 0, 0, 0,
   40, 0, 0, 0, 32, 78, 0, 0, 1, 0, 0, 0, 1, 0, 24, 0, 0, 0, 0, 0, 16, 0, 0, 0,
   19, 11, 0, 0, 19, 11, 0, 0, 0, 0, 0, 0, 0, 0, 0, 0,
   3, 2, 1, 6, 5, 4, 9, 8, 7, 12, 11, 10, 15, 14, 13, 0]

/-! ## Notions used in the statements about the palette analyzer -/

/-- Some pixel of the image is not gray: its red differs from its green or from its blue. -/
def uses_color (image : List Pixel) : Prop := ∃ p ∈ image, p.r ≠ p.g ∨ p.r ≠ p.b

/-- Some pixel of the image is not fully opaque. -/
def uses_alpha (image : List Pixel) : Prop := ∃ p ∈ image, p.a ≠ 255

/-- The flags computed by the scan of the pixels `l`: `use_color` is 1 when some pixel is
not gray and 0 otherwise, `use_alpha` is 1 when some pixel is not opaque and 0 otherwise. -/
def flags_state (l : List Pixel) (st : PaletteInfo) : Prop :=
  ((st.use_color = 1 ∧ uses_color l) ∨ (st.use_color = 0 ∧ ¬ uses_color l)) ∧
  ((st.use_alpha = 1 ∧ uses_alpha l) ∨ (st.use_alpha = 0 ∧ ¬ uses_alpha l))

/-- The palette is in first-seen order of the scanned pixels `l`: its entries are the pixel
values of `l`, and an entry that comes before another one has its first occurrence in `l`
before the first occurrence of the other. -/
def first_seen_order (l pal : List Pixel) : Prop :=
  (∀ p, p ∈ pal ↔ p ∈ l) ∧ pal.Pairwise (fun p q => l.indexOf p < l.indexOf q)

/-- While the palette is live, `num_colors` is its size and it is in first-seen order. -/
def palette_order (l : List Pixel) (st : PaletteInfo) : Prop :=
  ∀ pal, st.palette = some pal → st.num_colors = pal.length ∧ first_seen_order l pal

/-- A 258 x 1 image: the 256 opaque grays, then black with alpha 254, which is the 257th
distinct pixel value, then the opaque colour (1, 2, 3). -/
def overflow_image : List Pixel :=
  (List.range 256).map (fun i => (⟨nat_to_byte i, nat_to_byte i, nat_to_byte i, 255⟩ : Pixel))
    ++ [⟨0, 0, 0, 254⟩, ⟨1, 2, 3, 255⟩]

/-! ## Notions used in the statements about the alpha channel -/

/-- Two pixels with the same red, green and blue. -/
def same_rgb (p q : Pixel) : Prop := p.r = q.r ∧ p.g = q.g ∧ p.b = q.b

instance (p q : Pixel) : Decidable (same_rgb p q) := by
  unfold same_rgb
  infer_instance

/-- The two buffers differ only in their alpha bytes: pixel by pixel the red, green and
blue are the same. -/
def differ_only_in_alpha (a b : List Pixel) : Prop :=
  a.length = b.length ∧ ∀ i, i < a.length → same_rgb (a.getD i default) (b.getD i default)

/-- Equal pixels of one buffer are at the positions of equal pixels of the other. -/
def same_equalities (a b : List Pixel) : Prop :=
  ∀ i j, i < a.length → j < a.length →
    (a.getD i default = a.getD j default ↔ b.getD i default = b.getD j default)

/-- The states of the scans of two buffers correspond: the same `num_colors`, and either
no palette on both sides or palettes holding the pixels at the same positions `I` of the
two buffers. -/
def palette_rel (a b : List Pixel) (sa sb : PaletteInfo) : Prop :=
  sa.num_colors = sb.num_colors ∧
  ((sa.palette = none ∧ sb.palette = none) ∨
    ∃ I : List Nat, (∀ i ∈ I, i < a.length) ∧
      sa.palette = some (I.map fun i => a.getD i default) ∧
      sb.palette = some (I.map fun i => b.getD i default))

/-- Three opaque pixels of colour (1, 2, 3). -/
def image_3x1_opaque : List Pixel := [⟨1, 2, 3, 255⟩, ⟨1, 2, 3, 255⟩, ⟨1, 2, 3, 255⟩]

/-- Three pixels of colour (1, 2, 3) with alpha 0, 1 and 2. -/
def image_3x1_alpha : List Pixel := [⟨1, 2, 3, 0⟩, ⟨1, 2, 3, 1⟩, ⟨1, 2, 3, 2⟩]

/-- The image `image_4x2` with alpha 10 on the pixels (1, 2, 3) and alpha 20 on the
pixels (7, 8, 9). -/
def image_4x2_alpha : List Pixel :=
  [⟨1, 2, 3, 10⟩, ⟨1, 2, 3, 10⟩, ⟨7, 8, 9, 20⟩, ⟨1, 2, 3, 10⟩,
   ⟨7, 8, 9, 20⟩, ⟨7, 8, 9, 20⟩, ⟨1, 2, 3, 10⟩, ⟨1, 2, 3, 10⟩]

/-! ## Notions used in the statements about the converters -/

/-- A sequence of stores `buf[i] = v`, in order. -/
def apply_writes {α : Type} : List (Nat × α) → List α → Except Fault (List α)
  | [], buf => .ok buf
  | (i, v) :: ws, buf => do
    let buf ← store buf i v
    apply_writes ws buf

/-- The byte `convert_to_format` stores in channel slot `k` of a pixel: the luma for a
grayscale format, the byte `order[k]` of the pixel otherwise. -/
def channel_value (env : Env) (format : Format) (pixel : Pixel) (k : Nat) : Byte :=
  if num_channels format = 1 then env.gray_u8 (pixel.byte 0) (pixel.byte 1) (pixel.byte 2)
  else pixel.byte ((channel_order format).getD k 0)

/-- The stores of `convert_to_format` for one pixel, the loop index being `i`: slot `k`
goes to `i + k * channel_stride`. -/
def pixel_writes (env : Env) (format : Format) (width height : Nat) (pixel : Pixel)
    (i : Nat) : List (Nat × Byte) :=
  (List.range (num_channels format)).map
    (fun k => (i + k * channel_stride format width height, channel_value env format pixel k))

/-- The stores of the inner loop of `convert_to_format`. -/
def row_writes (env : Env) (format : Format) (width height : Nat) (src : List Pixel)
    (srow : Nat) : Nat → Nat → Nat → List (Nat × Byte)
  | 0, _, _ => []
  | n + 1, x, i =>
    pixel_writes env format width height (src.getD (srow + x) default) i
      ++ row_writes env format width height src srow n (x + 1) (i + pixel_stride format height)

/-- The stores of the outer loop of `convert_to_format`. -/
def rows_writes (env : Env) (format : Format) (width height : Nat) (src : List Pixel) :
    Nat → Nat → List (Nat × Byte)
  | 0, _ => []
  | n + 1, y =>
    row_writes env format width height src (width * y) width 0 (row_stride format width * y)
      ++ rows_writes env format width height src n (y + 1)

/-- The destination index the claim gives for channel slot `k` of the pixel at column `x`,
row `y`, for each of the four layouts. -/
def layout_index (format : Format) (w h x y k : Nat) : Nat :=
  if format.planar then
    if format.columnmajor then k * w * h + x * h + y else k * w * h + y * w + x
  else
    if format.columnmajor then (x * h + y) * num_channels format + k
    else (y * w + x) * num_channels format + k

/-- The pixel the inner loop of `convert_from_format` builds at loop index `i`, starting
from the content `pixel` of the destination. -/
def from_pixel (format : Format) (width height : Nat) (src : List Byte) (i : Nat)
    (pixel : Pixel) : Pixel :=
  let order := channel_order format
  let channel_stride := channel_stride format width height
  if num_channels format = 1 then
    let v := src.getD i 0
    (((pixel.set_byte 2 v).set_byte 1 v).set_byte 0 v).set_byte 3 255
  else if num_channels format = 3 then
    let pixel := pixel.set_byte (order.getD 0 0) (src.getD i 0)
    let pixel := pixel.set_byte (order.getD 1 0) (src.getD (i + channel_stride) 0)
    let pixel := pixel.set_byte (order.getD 2 0) (src.getD (i + 2 * channel_stride) 0)
    pixel.set_byte 3 255
  else
    let pixel := pixel.set_byte (order.getD 0 0) (src.getD i 0)
    let pixel := pixel.set_byte (order.getD 1 0) (src.getD (i + channel_stride) 0)
    let pixel := pixel.set_byte (order.getD 2 0) (src.getD (i + 2 * channel_stride) 0)
    pixel.set_byte (order.getD 3 0) (src.getD (i + 3 * channel_stride) 0)

/-- The stores of the inner loop of `convert_from_format`. -/
def from_row_writes (format : Format) (width height : Nat) (src : List Byte) (drow : Nat) :
    Nat → Nat → Nat → List (Nat × Pixel)
  | 0, _, _ => []
  | n + 1, x, i =>
    (drow + x, from_pixel format width height src i Pixel.indeterminate)
      :: from_row_writes format width height src drow n (x + 1) (i + pixel_stride format height)

/-- The stores of the outer loop of `convert_from_format`. -/
def from_rows_writes (format : Format) (width height : Nat) (src : List Byte) :
    Nat → Nat → List (Nat × Pixel)
  | 0, _ => []
  | n + 1, y =>
    from_row_writes format width height src (width * y) width 0 (row_stride format width * y)
      ++ from_rows_writes format width height src n (y + 1)
/-- Modelled from the spec: the channel option `IMAGEIO_RGB` of `imageio.h`, the
alpha-strip flag alone. -/
def IMAGEIO_RGB : Format := { Format.default with strip_alpha := true }

/-- Modelled from the spec: the channel option `IMAGEIO_BGR`, the alpha-strip flag and the
blue-red-swap flag. -/
def IMAGEIO_BGR : Format := { Format.default with strip_alpha := true, bgrflip := true }

/-- Modelled from the spec: the channel option `IMAGEIO_RGBA`, no flag set. -/
def IMAGEIO_RGBA : Format := Format.default

/-- Modelled from the spec: the channel option `IMAGEIO_BGRA`, the blue-red-swap flag. -/
def IMAGEIO_BGRA : Format := { Format.default with bgrflip := true }

/-- Modelled from the spec: the channel option `IMAGEIO_ARGB`, the alpha-leading flag. -/
def IMAGEIO_ARGB : Format := { Format.default with aflip := true }

/-- Modelled from the spec: the channel option `IMAGEIO_ABGR`, the alpha-leading flag and
the blue-red-swap flag. -/
def IMAGEIO_ABGR : Format := { Format.default with aflip := true, bgrflip := true }

/-- The pixel the round trip through a colour format gives back: the original one, with
alpha 255 when the format has no alpha channel. -/
def roundtrip_pixel (format : Format) (p : Pixel) : Pixel :=
  if format.strip_alpha then { p with a := 255 } else p

/-- The channels of a pixel in the order of a colour format. -/
def ordered_channels (format : Format) (p : Pixel) : List Byte :=
  (List.range (num_channels format)).map (fun k => p.byte ((channel_order format).getD k 0))
/-! ## The luma expression in binary32 arithmetic

The expression `(uint8_t) (0.299f * r + 0.587f * g + 0.114f * b + 0.5f)` of
`convert_to_format`, evaluated in IEEE 754 binary32 arithmetic with rounding to nearest,
ties to even, every operation rounded to `float`. A non-negative `float` value is
represented by the natural number `n` whose value is `n * 2^-27`: the three constants, the
converted bytes and every product and sum of the expression are such values. -/

/-- The unit in the last place of the binary32 values near `n * 2^-27`, in units of
`2^-27`: the least power of two `ulp` with `n < 2^24 * ulp`, searched from `ulp` on. -/
def f32_ulp : Nat → Nat → Nat → Nat
  | 0, _, ulp => ulp
  | fuel + 1, n, ulp => if n < 16777216 * ulp then ulp else f32_ulp fuel n (2 * ulp)

/-- Rounding of the exact value `n * 2^-27` to the nearest binary32 value, ties to even. -/
def f32_round (n : Nat) : Nat :=
  let ulp := f32_ulp 128 n 1
  let q := n / ulp
  let r := n % ulp
  if 2 * r < ulp then q * ulp
  else if ulp < 2 * r then (q + 1) * ulp
  else if q % 2 = 0 then q * ulp else (q + 1) * ulp

/-- The constant `0.299f`, the binary32 value `10032775 * 2^-25`. -/
def f32_0_299 : Nat := 40131100

/-- The constant `0.587f`, the binary32 value `9848226 * 2^-24`. -/
def f32_0_587 : Nat := 78785808

/-- The constant `0.114f`, the binary32 value `15300821 * 2^-27`. -/
def f32_0_114 : Nat := 15300821

/-- The constant `0.5f`. -/
def f32_0_5 : Nat := 67108864

/-- The `float` product of a constant and a byte; the byte converts to `float` exactly. -/
def f32_mul_u8 (c : Nat) (v : Byte) : Nat := f32_round (c * v.val)

/-- The `float` sum of two values. -/
def f32_add (a b : Nat) : Nat := f32_round (a + b)

/-- The luma `(uint8_t) (0.299f * r + 0.587f * g + 0.114f * b + 0.5f)` in binary32
arithmetic; the conversion to `uint8_t` truncates, and the value is below 256. -/
def gray_u8_binary32 (r g b : Byte) : Byte :=
  nat_to_byte
    (f32_add (f32_add (f32_add (f32_mul_u8 f32_0_299 r) (f32_mul_u8 f32_0_587 g))
      (f32_mul_u8 f32_0_114 b)) f32_0_5 / 134217728)

/-- The environment whose `float` arithmetic is binary32. -/
def Env.binary32 : Env := ⟨10000, fun _ => true, gray_u8_binary32⟩
/-- Every pixel of the image is gray: red, green and blue are equal. -/
def is_gray (image : List Pixel) : Prop := ∀ p ∈ image, p.r = p.g ∧ p.r = p.b

/-- A 2 x 2 gray image with values 0, 77, 128 and 255 and assorted alpha. -/
def gray_2x2 : List Pixel :=
  [⟨0, 0, 0, 255⟩, ⟨77, 77, 77, 10⟩, ⟨128, 128, 128, 255⟩, ⟨255, 255, 255, 0⟩]
/-- The 2 x 1 image with pixels (1, 2, 3, 4) and (5, 6, 7, 8). -/
def image_2x1 : List Pixel := [⟨1, 2, 3, 4⟩, ⟨5, 6, 7, 8⟩]

/-- The format BGR with 8-bit components, planar and column-major. -/
def format_bgr_planar_columnmajor : Format :=
  ⟨Datatype.u8, false, true, true, false, true, true⟩

/-! ## Sample files of other bit depths -/

/-- A well-formed uncompressed file of 4 x 1 pixels with 2 bits per pixel, 74 bytes: the
headers, a palette of four colours (black, red, green, blue) at offset 54 and, at offset
70, one row holding the indices 0, 1, 2, 3 in one byte, padded to 4 bytes. -/
def bmp_4x1_2bpp : List Byte :=
  [66, 77, 74, 0, 0, 0, 0, 0, 0, 0, 70, 0, 0, 0,
   40, 0, 0, 0, 4, 0, 0, 0, 1, 0, 0, 0, 1, 0, 2, 0, 0, 0, 0, 0, 4, 0, 0, 0,
   19, 11, 0, 0, 19, 11, 0, 0, 4, 0, 0, 0, 0, 0, 0, 0,
   0, 0, 0, 0, 0, 0, 255, 0, 0, 255, 0, 0, 255, 0, 0, 0,
   27, 0, 0, 0]

/-- The same 4 x 1 image with 4 bits per pixel: the row holds the indices 0, 1, 2, 3 in
two bytes, padded to 4 bytes. -/
def bmp_4x1_4bpp : List Byte :=
  [66, 77, 74, 0, 0, 0, 0, 0, 0, 0, 70, 0, 0, 0,
   40, 0, 0, 0, 4, 0, 0, 0, 1, 0, 0, 0, 1, 0, 4, 0, 0, 0, 0, 0, 4, 0, 0, 0,
   19, 11, 0, 0, 19, 11, 0, 0, 4, 0, 0, 0, 0, 0, 0, 0,
   0, 0, 0, 0, 0, 0, 255, 0, 0, 255, 0, 0, 255, 0, 0, 0,
   1, 35, 0, 0]

/-- A well-formed uncompressed file of 4 x 2 pixels with 16 bits per pixel (5 bits per
colour, the top bit unused), 70 bytes: the bottom row is white, red, green, blue and the
top row black, white, white, black. -/
def bmp_4x2_16bpp : List Byte :=
  [66, 77, 70, 0, 0, 0, 0, 0, 0, 0, 54, 0, 0, 0,
   40, 0, 0, 0, 4, 0, 0, 0, 2, 0, 0, 0, 1, 0, 16, 0, 0, 0, 0, 0, 16, 0, 0, 0,
   19, 11, 0, 0, 19, 11, 0, 0, 0, 0, 0, 0, 0, 0, 0, 0,
   255, 127, 0, 124, 224, 3, 31, 0,
   0, 0, 255, 127, 255, 127, 0, 0]

/-- A well-formed uncompressed file of 1 x 1 pixel with 1 bit per pixel, 66 bytes: the
headers, a palette of two colours at offset 54 and one padded row at offset 62. -/
def bmp_1x1_1bpp : List Byte :=
  [66, 77, 66, 0, 0, 0, 0, 0, 0, 0, 62, 0, 0, 0,
   40, 0, 0, 0, 1, 0, 0, 0, 1, 0, 0, 0, 1, 0, 1, 0, 0, 0, 0, 0, 4, 0, 0, 0,
   19, 11, 0, 0, 19, 11, 0, 0, 2, 0, 0, 0, 0, 0, 0, 0,
   0, 0, 0, 0, 255, 255, 255, 0,
   128, 0, 0, 0]

/-! ## Notions used in the statements about the bit masks -/

/-- The mask whose set bits are the `n` bits from position `p` on. -/
def contiguous_mask (p n : Nat) : Nat := (2 ^ n - 1) <<< p

/-- The value of the field of a pixel word selected by a contiguous mask:
`(word & mask) >> p`. -/
def mask_field (code p n : Nat) : Nat := (code &&& contiguous_mask p n) >>> p

/-- A field of `n` bits normalised to 8 bits: scaled up when it is narrower, its low bits
dropped when it is wider. -/
def normalised_field (v n : Nat) : Nat := if n ≤ 8 then v * 2 ^ (8 - n) else v / 2 ^ (n - 8)
/-! ## File names and `write_image`

A C string is the list of its characters before the terminating `NUL`, as byte values;
reading the string at its length gives the `NUL`, 0. The writers of the library
`stb_image_write` are not part of the sources: they are parameters, and what `write_image`
asks of them is recorded in its result. -/

/-- The C function `tolower` in the "C" locale, on the value of a character. -/
def tolower (c : Nat) : Nat := if 65 ≤ c ∧ c ≤ 90 then c + 32 else c

/-- The loop `for (i = 0; i < suffix_length; ++i)` of `string_ends_with`, with `n`
characters left to compare; `offset` is what has been added to `string`. -/
def string_ends_with_loop (string suffix : List Byte) (offset : Nat) : Nat → Nat → Int
  | 0, _ => 1
  | n + 1, i =>
    if tolower (string.getD (offset + i) 0).val ≠ tolower (suffix.getD i 0).val then 0
    else string_ends_with_loop string suffix offset n (i + 1)

/-- Case-insensitive test to see if string ends with suffix; the lengths are `unsigned`. -/
def string_ends_with (string suffix : List Byte) : Int :=
  let string_length := string.length % 4294967296
  let suffix_length := suffix.length % 4294967296
  if string_length < suffix_length then 0
  else
    string_ends_with_loop string suffix (string_length - suffix_length) suffix_length 0

/-- The `enum` of `write_image`. -/
inductive FileFormat where
  | BMP_FORMAT
  | JPEG_FORMAT
  | PNG_FORMAT
  | TIFF_FORMAT
deriving DecidableEq, Repr

/-- The return values of the external writers `stbi_write_bmp`, `stbi_write_jpg` and
`stbi_write_png`, as functions of their arguments: the file name, the dimensions, the number
of channels, the pixels and, for the last two, the quality and the stride argument. -/
structure Stbi where
  stbi_write_bmp : List Byte → Int → Int → Int → List Pixel → Int
  stbi_write_jpg : List Byte → Int → Int → Int → List Pixel → Int → Int
  stbi_write_png : List Byte → Int → Int → Int → List Pixel → Int → Int

/-- What `write_image` does: its return value, whether it called `convert_from_format`,
and the file format and pixels it handed to an external writer, if it called one. -/
structure WriteImageResult where
  ret : Int
  converted : Bool
  written : Option (FileFormat × List Pixel)
deriving DecidableEq, Repr

/-- The string literal ".bmp". -/
def suffix_bmp : List Byte := [46, 98, 109, 112]

/-- The string literal ".jpg". -/
def suffix_jpg : List Byte := [46, 106, 112, 103]

/-- The string literal ".jpeg". -/
def suffix_jpeg : List Byte := [46, 106, 112, 101, 103]

/-- The string literal ".png". -/
def suffix_png : List Byte := [46, 112, 110, 103]

/-- The file format `write_image` selects from the file name; `none` when it returns 0. -/
def write_image_fileformat (filename : List Byte) : Option FileFormat :=
  if string_ends_with filename suffix_bmp ≠ 0 then some FileFormat.BMP_FORMAT
  else if string_ends_with filename suffix_jpg ≠ 0
      ∨ string_ends_with filename suffix_jpeg ≠ 0 then some FileFormat.JPEG_FORMAT
  else if string_ends_with filename suffix_png ≠ 0 then some FileFormat.PNG_FORMAT
  else none

/-- Write an image file from image data in the given format; a null `image` is `none`. -/
def write_image (env : Env) (stbi : Stbi) (image : Option (List Byte)) (width height : Int)
    (filename : List Byte) (format : Format) (quality : Int) :
    Except Fault WriteImageResult :=
  match image with
  | none => .ok ⟨0, false, none⟩
  | some src =>
    if width ≤ 0 ∨ height ≤ 0 then .ok ⟨0, false, none⟩
    else
      match write_image_fileformat filename with
      | none => .ok ⟨0, false, none⟩
      | some fileformat =>
        match convert_from_format env src width.toNat height.toNat format with
        | .error e => .error e
        | .ok none => .ok ⟨0, true, none⟩
        | .ok (some image_u8) =>
          let num_channels : Int := 4
          let success : Int :=
            match fileformat with
            | FileFormat.BMP_FORMAT =>
              stbi.stbi_write_bmp filename width height num_channels image_u8
            | FileFormat.JPEG_FORMAT =>
              stbi.stbi_write_jpg filename width height num_channels image_u8 quality
            | FileFormat.PNG_FORMAT =>
              stbi.stbi_write_png filename width height num_channels image_u8 0
            | FileFormat.TIFF_FORMAT => 0
          .ok ⟨success, true, some (fileformat, image_u8)⟩

/-- The string is at least as long as the suffix and its last characters equal the suffix
after lower-casing both. -/
def ends_with_lowercased (s suffix : List Byte) : Prop :=
  suffix.length ≤ s.length ∧
    (s.drop (s.length - suffix.length)).map (fun c => tolower c.val)
      = suffix.map (fun c => tolower c.val)

instance (s suffix : List Byte) : Decidable (ends_with_lowercased s suffix) := by
  unfold ends_with_lowercased
  infer_instance

/-- The file name has one of the four suffixes `write_image` knows. -/
def known_suffix (filename : List Byte) : Prop :=
  ends_with_lowercased filename suffix_bmp ∨ ends_with_lowercased filename suffix_jpg ∨
    ends_with_lowercased filename suffix_jpeg ∨ ends_with_lowercased filename suffix_png

/-- A sample of the external writers: each reports success. -/
def Stbi.sample : Stbi := ⟨fun _ _ _ _ _ => 1, fun _ _ _ _ _ _ => 1, fun _ _ _ _ _ _ => 1⟩

/-- The file name "Out.TIF". -/
def filename_tif : List Byte := [79, 117, 116, 46, 84, 73, 70]

/-- The file name "a.BmP". -/
def filename_bmp : List Byte := [97, 46, 66, 109, 80]
/-! ## The 2 x 2 sample image -/

/-- The 2 x 2 image whose top row is blue, white and whose bottom row is red, green, all
four pixels opaque; the canonical buffer is top-down. -/
def image_2x2 : List Pixel :=
  [⟨0, 0, 255, 255⟩, ⟨255, 255, 255, 255⟩, ⟨255, 0, 0, 255⟩, ⟨0, 255, 0, 255⟩]

/-- The 70 bytes `write_bmp` produces for `image_2x2`: the headers of a 24-bit file and
two rows of 6 bytes padded to 8, the bottom row (red, green) first. -/
def bmp_2x2 : List Byte :=
  [66, 77, 70, 0, 0, 0, 0, 0, 0, 0, 54, 0, 0, 0,
   40, 0, 0, 0, 2, 0, 0, 0, 2, 0, 0, 0, 1, 0, 24, 0, 0, 0, 0, 0, 16, 0, 0, 0,
   19, 11, 0, 0, 19, 11, 0, 0, 0, 0, 0, 0, 0, 0, 0, 0,
   0, 0, 255, 0, 255, 0, 0, 0,
   255, 0, 0, 255, 255, 255, 0, 0]

/-- A 1-bit file of 2 x 2 pixels with the palette red, green, 70 bytes: the bottom row is
red, green (bits 0, 1) and the top row green, red (bits 1, 0). -/
def bmp_2x2_1bpp : List Byte :=
  [66, 77, 70, 0, 0, 0, 0, 0, 0, 0, 62, 0, 0, 0,
   40, 0, 0, 0, 2, 0, 0, 0, 2, 0, 0, 0, 1, 0, 1, 0, 0, 0, 0, 0, 8, 0, 0, 0,
   19, 11, 0, 0, 19, 11, 0, 0, 2, 0, 0, 0, 0, 0, 0, 0,
   0, 0, 255, 0, 0, 255, 0, 0,
   64, 0, 0, 0,
   128, 0, 0, 0]

/-- The palette index that the 4-bit readers take from a byte for the unit number `i` of a
sequence of units: `(code & 0xF0) >> 4` for an even `i`, `code & 0x0F` for an odd one. -/
def nibble_index (code i : Nat) : Nat :=
  if i % 2 = 0 then (code &&& 0xF0) >>> 4 else code &&& 0x0F
/-- A palette of 56 entries, black except for entry 0x37. -/
def palette_0x37 : List Pixel :=
  List.replicate 0x37 ⟨0, 0, 0, 255⟩ ++ [⟨10, 20, 30, 255⟩]
/-- A Windows-dialect file of 70 bytes with 8 bits per pixel and compression 1 (RLE8),
1 x 1 pixel, two palette colours (black, white), pixel data at offset 62: the run (1, 0),
which fills the only column, then the run (1, 1), read with the cursor at the row boundary,
then end of bitmap (0, 1) and two more bytes. -/
def bmp_1x1_rle8 : List Byte :=
  [66, 77, 70, 0, 0, 0, 0, 0, 0, 0, 62, 0, 0, 0,
   40, 0, 0, 0, 1, 0, 0, 0, 1, 0, 0, 0, 1, 0, 8, 0, 1, 0, 0, 0, 8, 0, 0, 0,
   19, 11, 0, 0, 19, 11, 0, 0, 2, 0, 0, 0, 0, 0, 0, 0,
   0, 0, 0, 0, 255, 255, 255, 0,
   1, 0, 1, 1, 0, 1, 0, 0]

/-- The same stream in a file with 4 bits per pixel and compression 2 (RLE4). -/
def bmp_1x1_rle4 : List Byte :=
  [66, 77, 70, 0, 0, 0, 0, 0, 0, 0, 62, 0, 0, 0,
   40, 0, 0, 0, 1, 0, 0, 0, 1, 0, 0, 0, 1, 0, 4, 0, 2, 0, 0, 0, 8, 0, 0, 0,
   19, 11, 0, 0, 19, 11, 0, 0, 2, 0, 0, 0, 0, 0, 0, 0,
   0, 0, 0, 0, 255, 255, 255, 0,
   1, 0, 1, 1, 0, 1, 0, 0]

/-- A file like `bmp_1x1_rle8` whose second pair is the literal (0, 3) with its three
bytes and its padding byte, read with the cursor at the row boundary. -/
def bmp_1x1_rle8_literal : List Byte :=
  [66, 77, 72, 0, 0, 0, 0, 0, 0, 0, 62, 0, 0, 0,
   40, 0, 0, 0, 1, 0, 0, 0, 1, 0, 0, 0, 1, 0, 8, 0, 1, 0, 0, 0, 10, 0, 0, 0,
   19, 11, 0, 0, 19, 11, 0, 0, 2, 0, 0, 0, 0, 0, 0, 0,
   0, 0, 0, 0, 255, 255, 255, 0,
   1, 0, 0, 3, 0, 1, 1, 0, 0, 1]
/-- Two buffers `c1`, `c2` obtained from the buffers `B1`, `B2` by the same stores: at
every index they hold the same value (a stored one), or each of them still holds the value
of the buffer it comes from. -/
def same_stores (B1 B2 c1 c2 : List Pixel) : Prop :=
  c1.length = c2.length ∧
  ∀ j, c1.getD j default = c2.getD j default ∨
    (c1.getD j default = B1.getD j default ∧ c2.getD j default = B2.getD j default)

/-! ## The shape shared by the row loops of the uncompressed readers -/

/-- The row loop `for (y = height; y; --y, image -= width)` that the readers
`read_bmp_1bpp`, `read_bmp_4bpp`, `read_bmp_8bpp` and `read_bmp_24bpp` share, with the
pixel loop of a row as the parameter `rowfn`; the row loops of the four readers are
instances of it (`read_bmp_8bpp_rows_eq` and its siblings). -/
def generic_rows (rowfn : Int → List Pixel → FILE → Except Fault (List Pixel × FILE))
    (width row_padding : Nat) : Nat → List Pixel → FILE → Except Fault (Int × List Pixel × FILE)
  | 0, image, file => .ok (1, image, file)
  | y + 1, image, file =>
    if feof file then .ok (0, image, file)
    else do
      let (image, file) ← rowfn ((width : Int) * y) image file
      let file := skip_padding row_padding file
      generic_rows rowfn width row_padding y image file
/-- The palette index that `read_bmp_1bpp` takes from a byte for the pixel number `k` of
the byte: the test `code & 0x80` after `k` shifts `code <<= 1` of the unsigned `code`. -/
def bit_index (code k : Nat) : Nat :=
  if ((code <<< k) % 4294967296) &&& 0x80 ≠ 0 then 1 else 0
/-- Modelled from the spec: the `b`-bit field number `k` of a byte, counted from the most
significant bits (`b` = 1: bit `7 - k`; `b` = 4: the high nibble for `k = 0`, the low one
for `k = 1`; `b` = 8: the byte). -/
def packed_index (b byte k : Nat) : Nat := (byte >>> (8 - b * (k + 1))) % 2 ^ b

/-- Modelled from the spec: the bytes that hold a row of `w` pixels of `b` bits,
`ceil (w * b / 8)`. -/
def bmp_row_bytes (b w : Nat) : Nat := (w * b + 7) / 8

/-- Modelled from the spec: the bytes that a row takes in the file, the smallest multiple
of 4 that is at least `bmp_row_bytes b w`. -/
def bmp_row_stride (b w : Nat) : Nat := (bmp_row_bytes b w + 3) / 4 * 4

/-- Modelled from the spec: the palette size of a header, the declared colour count, or
`2 ^ bits_per_pixel` when the declared count is zero. -/
def palette_size (hdr : BmpHeader) : Nat :=
  if hdr.num_colors = 0 then 2 ^ hdr.bits_per_pixel else hdr.num_colors

/-- The bytes of a palette entry in the file: 3 in an OS/2 bitmap, 4 otherwise. -/
def palette_entry_bytes (hdr : BmpHeader) : Nat := if hdr.os2bmp then 3 else 4

/-- Modelled from the spec: the colour of the file palette entry `i`, stored as B, G, R
from byte `14 + info_size`, with alpha 255. -/
def file_palette_entry (data : List Byte) (start esz i : Nat) : Pixel :=
  ⟨data.getD (start + esz * i + 2) 0, data.getD (start + esz * i + 1) 0,
    data.getD (start + esz * i) 0, 255⟩

/-- A 4-bit file of 4 x 1 pixels that declares 2 palette colours (red, green) and whose
row holds the indices 0, 1, 2, 3; 70 bytes, pixel data at offset 62. -/
def bmp_4x1_4bpp_2colors : List Byte :=
  [66, 77, 70, 0, 0, 0, 0, 0, 0, 0, 62, 0, 0, 0,
   40, 0, 0, 0, 4, 0, 0, 0, 1, 0, 0, 0, 1, 0, 4, 0, 0, 0, 0, 0, 4, 0, 0, 0,
   19, 11, 0, 0, 19, 11, 0, 0, 2, 0, 0, 0, 0, 0, 0, 0,
   0, 0, 255, 0, 0, 255, 0, 0,
   1, 35, 0, 0, 0, 0, 0, 0]

/-- A file like `bmp_1x1_rle8`, uncompressed, that declares 257 palette colours. -/
def bmp_1x1_257colors : List Byte :=
  [66, 77, 70, 0, 0, 0, 0, 0, 0, 0, 62, 0, 0, 0,
   40, 0, 0, 0, 1, 0, 0, 0, 1, 0, 0, 0, 1, 0, 8, 0, 0, 0, 0, 0, 4, 0, 0, 0,
   19, 11, 0, 0, 19, 11, 0, 0, 1, 1, 0, 0, 0, 0, 0, 0,
   0, 0, 0, 0, 255, 255, 255, 0,
   0, 0, 0, 0, 0, 0, 0, 0]

/-! ## The loops of the `float` and `double` branches of `convert_to_format`

The branches for the destination types `float` and `double` run the loops of the `uint8_t`
branch on an array of another element type and with other values; `val pixel k` stands for
the value stored in channel slot `k` of a pixel. -/

/-- The inner loop `for (x = 0, i = row_stride * y; x < width; ++x, i += pixel_stride)` of
a branch of `convert_to_format`, with the stored values as a parameter. -/
def convert_to_format_row_any {β : Type} (val : Pixel → Nat → β) (format : Format)
    (width height : Nat) (src : List Pixel) (srow : Nat) :
    Nat → Nat → Nat → List β → Except Fault (List β)
  | 0, _, _, dest => .ok dest
  | n + 1, x, i, dest => do
    let pixel := src.getD (srow + x) default
    let channel_stride := channel_stride format width height
    let dest ←
      if num_channels format = 1 then
        store dest i (val pixel 0)
      else if num_channels format = 3 then do
        let dest ← store dest i (val pixel 0)
        let dest ← store dest (i + channel_stride) (val pixel 1)
        store dest (i + 2 * channel_stride) (val pixel 2)
      else do
        let dest ← store dest i (val pixel 0)
        let dest ← store dest (i + channel_stride) (val pixel 1)
        let dest ← store dest (i + 2 * channel_stride) (val pixel 2)
        store dest (i + 3 * channel_stride) (val pixel 3)
    convert_to_format_row_any val format width height src srow n (x + 1)
      (i + pixel_stride format height) dest

/-- The outer loop `for (y = 0; y < height; ++y, src += width)` of a branch of
`convert_to_format`, with `n` rows left. -/
def convert_to_format_rows_any {β : Type} (val : Pixel → Nat → β) (format : Format)
    (width height : Nat) (src : List Pixel) : Nat → Nat → List β → Except Fault (List β)
  | 0, _, dest => .ok dest
  | n + 1, y, dest => do
    let dest ← convert_to_format_row_any val format width height src (width * y) width 0
      (row_stride format width * y) dest
    convert_to_format_rows_any val format width height src n (y + 1) dest

/-- The stores of a branch of `convert_to_format` for one pixel. -/
def pixel_writes_any {β : Type} (val : Pixel → Nat → β) (format : Format) (width height : Nat)
    (pixel : Pixel) (i : Nat) : List (Nat × β) :=
  (List.range (num_channels format)).map
    (fun k => (i + k * channel_stride format width height, val pixel k))

/-- The stores of the inner loop of a branch of `convert_to_format`. -/
def row_writes_any {β : Type} (val : Pixel → Nat → β) (format : Format) (width height : Nat)
    (src : List Pixel) (srow : Nat) : Nat → Nat → Nat → List (Nat × β)
  | 0, _, _ => []
  | n + 1, x, i =>
    pixel_writes_any val format width height (src.getD (srow + x) default) i
      ++ row_writes_any val format width height src srow n (x + 1)
          (i + pixel_stride format height)

/-- The stores of the outer loop of a branch of `convert_to_format`. -/
def rows_writes_any {β : Type} (val : Pixel → Nat → β) (format : Format) (width height : Nat)
    (src : List Pixel) : Nat → Nat → List (Nat × β)
  | 0, _ => []
  | n + 1, y =>
    row_writes_any val format width height src (width * y) width 0
        (row_stride format width * y)
      ++ rows_writes_any val format width height src n (y + 1)

/-- A bound on the passes that the loop of a run-length decoder makes on a stream: one
pass when the end-of-file indicator is set, else one pass for every two bytes left and two
more. -/
def rle_passes (file : FILE) : Nat :=
  if file.eof then 1 else (file.data.length - file.pos) / 2 + 2

/-- Two streams that have the same bytes left to read and the same end-of-file indicator;
what a reader does from there on is the same on both. -/
def same_tail (f1 f2 : FILE) : Prop :=
  f1.eof = f2.eof ∧ f1.data.drop f1.pos = f2.data.drop f2.pos

/-- Two results of a reader: the same fault, or values related by `rel`. -/
def same_except {β : Type} (rel : β → β → Prop) (r1 r2 : Except Fault β) : Prop :=
  match r1, r2 with
  | .ok b1, .ok b2 => rel b1 b2
  | .error e1, .error e2 => e1 = e2
  | _, _ => False

/-- Two results of a pixel loop: the same buffer, and streams with the same bytes left. -/
def same_row (a b : List Pixel × FILE) : Prop := a.1 = b.1 ∧ same_tail a.2 b.2

/-- Two results of a reader: the same return value, the same buffer, and streams with the
same bytes left. -/
def same_read (a b : Int × List Pixel × FILE) : Prop :=
  a.1 = b.1 ∧ a.2.1 = b.2.1 ∧ same_tail a.2.2 b.2.2

/-- A file of 1 x 1 pixel with 16 bits per pixel, uncompressed, with an info header of 56
bytes whose four mask fields (bytes 54 to 69) are zero; the pixel data, one red pixel, is
at offset 70; 74 bytes. -/
def bmp_1x1_16bpp_masks_zero : List Byte :=
  [66, 77, 74, 0, 0, 0, 0, 0, 0, 0, 70, 0, 0, 0,
   56, 0, 0, 0, 1, 0, 0, 0, 1, 0, 0, 0, 1, 0, 16, 0, 0, 0, 0, 0, 4, 0, 0, 0,
   19, 11, 0, 0, 19, 11, 0, 0, 0, 0, 0, 0, 0, 0, 0, 0,
   0, 0, 0, 0, 0, 0, 0, 0, 0, 0, 0, 0, 0, 0, 0, 0,
   0, 124, 0, 0]

/-- The file `bmp_1x1_16bpp_masks_zero` with other bytes in the four mask fields. -/
def bmp_1x1_16bpp_masks_other : List Byte :=
  [66, 77, 74, 0, 0, 0, 0, 0, 0, 0, 70, 0, 0, 0,
   56, 0, 0, 0, 1, 0, 0, 0, 1, 0, 0, 0, 1, 0, 16, 0, 0, 0, 0, 0, 4, 0, 0, 0,
   19, 11, 0, 0, 19, 11, 0, 0, 0, 0, 0, 0, 0, 0, 0, 0,
   0, 248, 0, 0, 224, 7, 0, 0, 31, 0, 0, 0, 255, 255, 255, 255,
   0, 124, 0, 0]

/-- Streams over the files `d1` and `d2` that have the same bytes left to read. -/
def same_tail_of (d1 d2 : List Byte) (f1 f2 : FILE) : Prop :=
  same_tail f1 f2 ∧ f1.data = d1 ∧ f2.data = d2

/-- A Windows file of 1 x 1 pixel with 24 bits per pixel whose pixel data offset is 22, the
offset of the height field, so that the bytes of the height are read as the pixel;
70 bytes. -/
def bmp_1x1_data_in_header : List Byte :=
  [66, 77, 70, 0, 0, 0, 0, 0, 0, 0, 22, 0, 0, 0,
   40, 0, 0, 0, 1, 0, 0, 0, 1, 0, 0, 0, 1, 0, 24, 0, 0, 0, 0, 0, 4, 0, 0, 0,
   19, 11, 0, 0, 19, 11, 0, 0, 0, 0, 0, 0, 0, 0, 0, 0,
   0, 0, 0, 0, 0, 0, 0, 0, 0, 0, 0, 0, 0, 0, 0, 0]

/-- The file `bmp_1x1_data_in_header` with the height 1 replaced by -1. -/
def bmp_1x1_data_in_header_neg : List Byte :=
  [66, 77, 70, 0, 0, 0, 0, 0, 0, 0, 22, 0, 0, 0,
   40, 0, 0, 0, 1, 0, 0, 0, 255, 255, 255, 255, 1, 0, 24, 0, 0, 0, 0, 0, 4, 0, 0, 0,
   19, 11, 0, 0, 19, 11, 0, 0, 0, 0, 0, 0, 0, 0, 0, 0,
   0, 0, 0, 0, 0, 0, 0, 0, 0, 0, 0, 0, 0, 0, 0, 0]

/-- A well-formed 24-bit file of 1 x 2 pixels, 78 bytes: the bottom row is red and the top
row is blue; the pixel data is at offset 70. -/
def bmp_1x2_24bpp : List Byte :=
  [66, 77, 78, 0, 0, 0, 0, 0, 0, 0, 70, 0, 0, 0,
   56, 0, 0, 0, 1, 0, 0, 0, 2, 0, 0, 0, 1, 0, 24, 0, 0, 0, 0, 0, 8, 0, 0, 0,
   19, 11, 0, 0, 19, 11, 0, 0, 0, 0, 0, 0, 0, 0, 0, 0,
   0, 0, 0, 0, 0, 0, 0, 0, 0, 0, 0, 0, 0, 0, 0, 0,
   0, 0, 255, 0, 255, 0, 0, 0]

/-- The file `bmp_1x2_24bpp` with the height 2 replaced by -2. -/
def bmp_1x2_24bpp_neg : List Byte :=
  [66, 77, 78, 0, 0, 0, 0, 0, 0, 0, 70, 0, 0, 0,
   56, 0, 0, 0, 1, 0, 0, 0, 254, 255, 255, 255, 1, 0, 24, 0, 0, 0, 0, 0, 8, 0, 0, 0,
   19, 11, 0, 0, 19, 11, 0, 0, 0, 0, 0, 0, 0, 0, 0, 0,
   0, 0, 0, 0, 0, 0, 0, 0, 0, 0, 0, 0, 0, 0, 0, 0,
   0, 0, 255, 0, 255, 0, 0, 0]

/-- The OS/2 file with the dimensions, palette and pixel data of the Windows file
`bmp_2x2_1bpp`: an info header of 12 bytes, a palette of two entries of 3 bytes at offset
26 and the pixel data at offset 32; 40 bytes. -/
def bmp_os2_2x2_1bpp : List Byte :=
  [66, 77, 40, 0, 0, 0, 0, 0, 0, 0, 32, 0, 0, 0,
   12, 0, 0, 0, 2, 0, 2, 0, 1, 0, 1, 0,
   0, 0, 255, 0, 255, 0,
   64, 0, 0, 0,
   128, 0, 0, 0]

/-- The OS/2 file with the dimensions, palette and pixel data of the Windows file
`bmp_1x1_1bpp`; 36 bytes. -/
def bmp_os2_1x1_1bpp : List Byte :=
  [66, 77, 36, 0, 0, 0, 0, 0, 0, 0, 32, 0, 0, 0,
   12, 0, 0, 0, 1, 0, 1, 0, 1, 0, 1, 0,
   0, 0, 0, 255, 255, 255,
   128, 0, 0, 0]

/-! ## The mirror padding of `young.c`

The image is an array of row pointers `fft_complex **in`; the element type plays no role,
as the function only copies elements. The indices are `int`; the sums and differences the
function forms lie between -1 and the dimensions of the array, so the arithmetic is exact
whenever the dimensions `rows + 2 * w` and `columns + 2 * w` are representable. -/

/-- The element `a[i][j]` of an array of rows, `none` outside the array. -/
def at2 {α : Type} (a : List (List α)) (i j : Int) : Option α :=
  if i < 0 ∨ j < 0 then none else (a[i.toNat]?).bind (fun row => row[j.toNat]?)

/-- The read of `a[i][j]`; outside the array it is undefined behaviour. -/
def load2 {α : Type} (a : List (List α)) (i j : Int) : Except Fault α :=
  match at2 a i j with
  | some v => .ok v
  | none => .error Fault.undefined

/-- The store `a[i][j] = v`; outside the array it is undefined behaviour. -/
def store2 {α : Type} (a : List (List α)) (i j : Int) (v : α) :
    Except Fault (List (List α)) :=
  match at2 a i j with
  | some _ => .ok (a.set i.toNat ((a.getD i.toNat []).set j.toNat v))
  | none => .error Fault.undefined

/-- The passes of a loop `for (i = ..; i < hi; i++) body(i)`, with `n` passes left. -/
def for_loop {σ : Type} (body : Int → σ → Except Fault σ) : Nat → Int → σ → Except Fault σ
  | 0, _, s => .ok s
  | n + 1, i, s => do
    let s ← body i s
    for_loop body n (i + 1) s

/-- The loop `for (i = lo; i < hi; i++) body(i)`: `hi - lo` passes, none when `hi ≤ lo`. -/
def for_range {σ : Type} (lo hi : Int) (body : Int → σ → Except Fault σ) (s : σ) :
    Except Fault σ :=
  for_loop body (hi - lo).toNat lo s

/-- The statement `if (c) { a[i1][j1] = v; a[i2][j2] = v; }`. -/
def store2_pair_if {α : Type} (c : Prop) [Decidable c] (a : List (List α))
    (i1 j1 i2 j2 : Int) (v : α) : Except Fault (List (List α)) :=
  if c then do
    let a ← store2 a i1 j1 v
    store2 a i2 j2 v
  else .ok a

/-- The body of the first loop nest of `symmetric_padding`, for the top rows. -/
def symmetric_padding_top {α : Type} (columns w i j : Int) (a : List (List α)) :
    Except Fault (List (List α)) := do
  let pixval ← load2 a (i + w) (j + w)
  let a ← store2_pair_if (j < w) a (i + w) (w - 1 - j) (w - 1 - i) (w - 1 - j) pixval
  let a ← store2_pair_if (j ≥ columns - w) a (i + w) (columns + w + (columns - j) - 1)
    (w - 1 - i) (columns + w + (columns - j) - 1) pixval
  store2 a (w - 1 - i) (j + w) pixval

/-- The body of the second loop nest of `symmetric_padding`, for the bottom rows. -/
def symmetric_padding_bottom {α : Type} (rows columns w i j : Int) (a : List (List α)) :
    Except Fault (List (List α)) := do
  let pixval ← load2 a (i + w) (j + w)
  let a ← store2_pair_if (j < w) a (i + w) (w - 1 - j) (rows + w + (rows - i) - 1) (w - 1 - j)
    pixval
  let a ← store2_pair_if (j ≥ columns - w) a (i + w) (columns + w + (columns - j) - 1)
    (rows + w + (rows - i) - 1) (columns + w + (columns - j) - 1) pixval
  store2 a (rows + w + (rows - i) - 1) (j + w) pixval

/-- The body of the third loop nest: `in[i + w][w - 1 - j] = in[i + w][j + w]`. -/
def symmetric_padding_left {α : Type} (w i j : Int) (a : List (List α)) :
    Except Fault (List (List α)) := do
  let v ← load2 a (i + w) (j + w)
  store2 a (i + w) (w - 1 - j) v

/-- The body of the fourth loop nest:
`in[i + w][columns + w + (columns - j) - 1] = in[i + w][j + w]`. -/
def symmetric_padding_right {α : Type} (columns w i j : Int) (a : List (List α)) :
    Except Fault (List (List α)) := do
  let v ← load2 a (i + w) (j + w)
  store2 a (i + w) (columns + w + (columns - j) - 1) v

/-- Apply symmetric padding to the input image (`young.c`). -/
def symmetric_padding {α : Type} (rows columns : Int) (a : List (List α)) (w : Int) :
    Except Fault (List (List α)) := do
  let a ← for_range 0 w (fun i a =>
    for_range 0 columns (fun j a => symmetric_padding_top columns w i j a) a) a
  let a ← for_range (rows - w) rows (fun i a =>
    for_range 0 columns (fun j a => symmetric_padding_bottom rows columns w i j a) a) a
  let a ← for_range w (rows - w) (fun i a =>
    for_range 0 w (fun j a => symmetric_padding_left w i j a) a) a
  for_range w (rows - w) (fun i a =>
    for_range (columns - w) columns (fun j a => symmetric_padding_right columns w i j a) a) a

/-- The interior line that a padded array with `n` interior lines and borders of width `w`
mirrors at the line `i`: the line itself inside, and the reflection at the edge of the
interior in a border. -/
def mirror_index (n w i : Int) : Int :=
  if i < w then 2 * w - 1 - i else if i < n + w then i else 2 * (n + w) - 1 - i

/-- The element that the mirror padding of `a` has at row `i` and column `j`. -/
def mirror_at {α : Type} (rows columns w : Int) (a : List (List α)) (i j : Int) : Option α :=
  at2 a (mirror_index rows w i) (mirror_index columns w j)

/-- A state of the array during `symmetric_padding` on `a0`: every element is the one of
`a0` or, inside the array, the one the mirror padding has there. -/
def padding_state {α : Type} (rows columns w : Int) (a0 a : List (List α)) : Prop :=
  ∀ i j, at2 a i j = at2 a0 i j ∨
    (0 ≤ i ∧ i < rows + 2 * w ∧ 0 ≤ j ∧ j < columns + 2 * w ∧
      at2 a i j = mirror_at rows columns w a0 i j)

/-- The cell `x` of the array `a` holds the element of the mirror padding of `a0`. -/
def padding_done {α : Type} (rows columns w : Int) (a0 a : List (List α)) (x : Int × Int) :
    Prop :=
  at2 a x.1 x.2 = mirror_at rows columns w a0 x.1 x.2

/-- The execution `m` from the state `s` ends with a state that satisfies the invariant
`G`, keeps every fact `D` of `s` and has the fact `D` for every `x` in `Q`. -/
def step_ok {σ ι : Type} (G : σ → Prop) (D : σ → ι → Prop) (m : Except Fault σ) (s : σ)
    (Q : ι → Prop) : Prop :=
  ∃ s', m = .ok s' ∧ G s' ∧ (∀ x, D s x → D s' x) ∧ (∀ x, Q x → D s' x)

/-- The array `a0` has `rows + 2 * w` rows of `columns + 2 * w` elements, and the border
width `w` is at most the height and the width of the image. -/
def padded_shape {α : Type} (rows columns w : Int) (a0 : List (List α)) : Prop :=
  0 ≤ w ∧ w ≤ rows ∧ w ≤ columns ∧
    ∀ i j, 0 ≤ i → i < rows + 2 * w → 0 ≤ j → j < columns + 2 * w → ∃ v, at2 a0 i j = some v

/-- The cells that the pass `(i, j)` of the first loop nest of `symmetric_padding`
stores. -/
def top_cells (columns w i j : Int) (x : Int × Int) : Prop :=
  x = (w - 1 - i, j + w) ∨
    (j < w ∧ (x = (i + w, w - 1 - j) ∨ x = (w - 1 - i, w - 1 - j))) ∨
    (j ≥ columns - w ∧ (x = (i + w, columns + w + (columns - j) - 1) ∨
      x = (w - 1 - i, columns + w + (columns - j) - 1)))

/-- The cells that the pass `(i, j)` of the second loop nest stores. -/
def bottom_cells (rows columns w i j : Int) (x : Int × Int) : Prop :=
  x = (rows + w + (rows - i) - 1, j + w) ∨
    (j < w ∧ (x = (i + w, w - 1 - j) ∨ x = (rows + w + (rows - i) - 1, w - 1 - j))) ∨
    (j ≥ columns - w ∧ (x = (i + w, columns + w + (columns - j) - 1) ∨
      x = (rows + w + (rows - i) - 1, columns + w + (columns - j) - 1)))

/-- A padded array of 2 x 2 pixels with a border of width 1, the border zero. -/
def padded_2x2 : List (List Nat) := [[0, 0, 0, 0], [0, 1, 2, 0], [0, 3, 4, 0], [0, 0, 0, 0]]

/-! # Properties

## Conversions and streams -/

theorem to_byte_val (b : Byte) : to_byte (b.val : Int) = b := by
  apply Fin.ext
  simp only [to_byte]
  omega

theorem to_u32_val (b : Byte) : to_u32 (b.val : Int) = b.val := by
  simp only [to_u32]; omega

theorem to_u16_val (b : Byte) : to_u16 (b.val : Int) = b.val := by
  simp only [to_u16]; omega

theorem to_u32_eof : to_u32 (-1) = 4294967295 := by decide

theorem to_u16_eof : to_u16 (-1) = 65535 := by decide

theorem getc_some (data : List Byte) (pos : Nat) (eof : Bool) (c : Byte)
    (h : data[pos]? = some c) :
    getc ⟨data, pos, eof⟩ = ((c.val : Int), ⟨data, pos + 1, eof⟩) := by
  simp [getc, h]

theorem getc_none (data : List Byte) (pos : Nat) (eof : Bool) (h : data.length ≤ pos) :
    getc ⟨data, pos, eof⟩ = (-1, ⟨data, pos, true⟩) := by
  have : data[pos]? = none := List.getElem?_eq_none h
  simp [getc, this]

theorem getc_lt (data : List Byte) (pos : Nat) (eof : Bool) (h : pos < data.length) :
    getc ⟨data, pos, eof⟩ = (((byte_at data pos : Nat) : Int), (⟨data, pos + 1, eof⟩ : FILE)) := by
  have h1 : data[pos]? = some data[pos] := List.getElem?_eq_getElem h
  rw [getc_some data pos eof _ h1]
  simp [byte_at, List.getD, h1]

theorem byte_at_lt (data : List Byte) (pos : Nat) : byte_at data pos < 256 :=
  (data.getD pos 0).isLt

theorem lor_le32 (b0 b1 b2 b3 : Nat) (h0 : b0 < 256) (h1 : b1 < 256) (h2 : b2 < 256)
    (h3 : b3 < 256) :
    b0 ||| (b1 <<< 8 % 4294967296) ||| (b2 <<< 16 % 4294967296) ||| (b3 <<< 24 % 4294967296)
      = b0 + 256 * b1 + 65536 * b2 + 16777216 * b3 := by
  have e1 : b1 <<< 8 % 4294967296 = 2 ^ 8 * b1 := by rw [Nat.shiftLeft_eq]; omega
  have e2 : b2 <<< 16 % 4294967296 = 2 ^ 16 * b2 := by rw [Nat.shiftLeft_eq]; omega
  have e3 : b3 <<< 24 % 4294967296 = 2 ^ 24 * b3 := by rw [Nat.shiftLeft_eq]; omega
  rw [e1, e2, e3]
  have a1 : b0 ||| 2 ^ 8 * b1 = 2 ^ 8 * b1 + b0 := by
    rw [Nat.lor_comm]; exact (Nat.mul_add_lt_is_or (by omega) _).symm
  rw [a1]
  have a2 : (2 ^ 8 * b1 + b0) ||| 2 ^ 16 * b2 = 2 ^ 16 * b2 + (2 ^ 8 * b1 + b0) := by
    rw [Nat.lor_comm]; exact (Nat.mul_add_lt_is_or (by omega) _).symm
  rw [a2]
  have a3 : (2 ^ 16 * b2 + (2 ^ 8 * b1 + b0)) ||| 2 ^ 24 * b3
      = 2 ^ 24 * b3 + (2 ^ 16 * b2 + (2 ^ 8 * b1 + b0)) := by
    rw [Nat.lor_comm]; exact (Nat.mul_add_lt_is_or (by omega) _).symm
  rw [a3]; omega

theorem lor_le16 (b0 b1 : Nat) (h0 : b0 < 256) (h1 : b1 < 256) :
    (b0 ||| b1 <<< 8) % 65536 = b0 + 256 * b1 := by
  have e1 : b1 <<< 8 = 2 ^ 8 * b1 := by rw [Nat.shiftLeft_eq]; omega
  rw [e1]
  have a1 : b0 ||| 2 ^ 8 * b1 = 2 ^ 8 * b1 + b0 := by
    rw [Nat.lor_comm]; exact (Nat.mul_add_lt_is_or (by omega) _).symm
  rw [a1]; omega

theorem read_u32_le_avail (data : List Byte) (pos : Nat) (eof : Bool)
    (h : pos + 4 ≤ data.length) :
    read_u32_le ⟨data, pos, eof⟩ = (le32_at data pos, ⟨data, pos + 4, eof⟩) := by
  simp only [read_u32_le, getc_lt data pos eof (by omega), getc_lt data (pos + 1) eof (by omega),
    getc_lt data (pos + 1 + 1) eof (by omega), getc_lt data (pos + 1 + 1 + 1) eof (by omega)]
  have e : ∀ n : Nat, n < 256 → to_u32 (n : Int) = n := by
    intro n hn; simp only [to_u32]; omega
  rw [e _ (byte_at_lt _ _), e _ (byte_at_lt _ _), e _ (byte_at_lt _ _), e _ (byte_at_lt _ _),
    lor_le32 _ _ _ _ (byte_at_lt _ _) (byte_at_lt _ _) (byte_at_lt _ _) (byte_at_lt _ _)]
  rfl

theorem read_u16_le_avail (data : List Byte) (pos : Nat) (eof : Bool)
    (h : pos + 2 ≤ data.length) :
    read_u16_le ⟨data, pos, eof⟩ = (le16_at data pos, ⟨data, pos + 2, eof⟩) := by
  simp only [read_u16_le, getc_lt data pos eof (by omega), getc_lt data (pos + 1) eof (by omega)]
  have e : ∀ n : Nat, n < 256 → to_u16 (n : Int) = n := by
    intro n hn; simp only [to_u16]; omega
  rw [e _ (byte_at_lt _ _), e _ (byte_at_lt _ _), lor_le16 _ _ (byte_at_lt _ _) (byte_at_lt _ _)]
  rfl

theorem read_u32_le_eof (data : List Byte) (pos : Nat) (eof : Bool) (h : data.length ≤ pos) :
    read_u32_le ⟨data, pos, eof⟩ = (4294967295, ⟨data, pos, true⟩) := by
  simp only [read_u32_le, getc_none data pos _ h, to_u32_eof]
  congr 1

theorem read_u16_le_eof (data : List Byte) (pos : Nat) (eof : Bool) (h : data.length ≤ pos) :
    read_u16_le ⟨data, pos, eof⟩ = (65535, ⟨data, pos, true⟩) := by
  simp only [read_u16_le, getc_none data pos _ h, to_u16_eof]
  congr 1

theorem getc_fst_byte (file : FILE) (b : Byte) :
    to_byte (getc file).1 = b → b ≠ 255 → file.data[file.pos]? = some b := by
  intro h hb
  unfold getc at h
  cases hc : file.data[file.pos]? with
  | none =>
    rw [hc] at h
    simp only at h
    exfalso; apply hb; rw [← h]; rfl
  | some c =>
    rw [hc] at h
    simp only [to_byte_val] at h
    rw [h]

theorem fseek_set_zero (file : FILE) : fseek_set file 0 = (0, ⟨file.data, 0, false⟩) := by
  simp [fseek_set]

theorem fseek_set_eq (file : FILE) (off : Int) (n : Nat) (h : off = (n : Int)) :
    fseek_set file off = (0, ⟨file.data, n, false⟩) := by
  subst h
  simp [fseek_set]

theorem fseek_cur_eq (data : List Byte) (pos : Nat) (eof : Bool) (off : Int) (n : Nat)
    (h : off = (n : Int)) :
    fseek_cur ⟨data, pos, eof⟩ off = (0, ⟨data, pos + n, false⟩) := by
  subst h
  have h1 : ¬ ((pos : Int) + (n : Int) < 0) := by omega
  have h2 : ((pos : Int) + (n : Int)).toNat = pos + n := by omega
  simp only [fseek_cur, h1, if_false, h2]

/-! ## Rejected headers -/

theorem read_bmp_file_header_bad_magic (file : FILE) (h : ¬ has_magic file) :
    read_bmp_file_header file = none := by
  unfold read_bmp_file_header
  rw [fseek_set_zero]
  dsimp only
  split
  · rfl
  · rename_i hm
    exfalso
    apply h
    rw [not_not] at hm
    obtain ⟨h0, h1⟩ := hm
    have e0 := getc_fst_byte _ _ h0 (by decide)
    have e1 := getc_fst_byte _ _ h1 (by decide)
    simp only at e0
    refine ⟨e0, ?_⟩
    rw [getc_some _ _ _ _ e0] at e1
    simpa using e1

/-- C6: `read_bmp` returns failure, with no pixel buffer and no palette ever allocated (so
no pixel data is decoded), for every stream whose first two bytes are not 'B','M', and for
every stream whose header it reads with a width or height above `MAX_IMAGE_SIZE`, a planes
field other than 1, or a compression code above 3. -/
theorem read_bmp_rejects_header (env : Env) (file : FILE)
    (h : ¬ has_magic file ∨
      ∃ hdr file', read_bmp_header file = .ok (some (hdr, file')) ∧
        (hdr.width > env.MAX_IMAGE_SIZE ∨ hdr.height > env.MAX_IMAGE_SIZE ∨
          hdr.num_planes ≠ 1 ∨ hdr.compression > 3)) :
    ∃ r, read_bmp env file = .ok r ∧ r.ret = 0 ∧ r.image = Ptr.null ∧
      r.palette = Ptr.null := by
  rcases h with h | ⟨hdr, file', hh, hc⟩
  · rw [read_bmp, read_bmp_header, read_bmp_file_header_bad_magic file h]
    exact ⟨_, rfl, rfl, rfl, rfl⟩
  · rw [read_bmp, hh]
    dsimp only
    by_cases hd : hdr.width > env.MAX_IMAGE_SIZE ∨ hdr.height > env.MAX_IMAGE_SIZE
    · rw [if_pos hd]; exact ⟨_, rfl, rfl, rfl, rfl⟩
    · rw [if_neg hd]
      have : feof file' = true ∨ hdr.num_planes ≠ 1 ∨ hdr.compression > 3 := by
        rcases hc with hc | hc | hc | hc
        · exact absurd (Or.inl hc) hd
        · exact absurd (Or.inr hc) hd
        · exact Or.inr (Or.inl hc)
        · exact Or.inr (Or.inr hc)
      rw [if_pos this]; exact ⟨_, rfl, rfl, rfl, rfl⟩

set_option maxRecDepth 100000 in
theorem read_bmp_header_wide :
    read_bmp_header (fopen bmp_wide)
      = .ok (some (⟨54, 40, false, 20000, 1, 1, 24, 0, 0, le32_at bmp_wide 54,
          le32_at bmp_wide 58, le32_at bmp_wide 62, le32_at bmp_wide 66⟩,
          ⟨bmp_wide, 70, false⟩)) := by
  decide!

theorem read_bmp_rejects_header_witness :
    ∃ r, read_bmp Env.sample (fopen bmp_wide) = .ok r ∧ r.ret = 0 ∧ r.image = Ptr.null ∧
      r.palette = Ptr.null :=
  read_bmp_rejects_header Env.sample (fopen bmp_wide)
    (Or.inr ⟨_, _, read_bmp_header_wide, Or.inl (by decide)⟩)

/-! ## A stream that ends after the file header -/

theorem read_bmp_file_header_short (data : List Byte) (hlen : data.length = 14)
    (h0 : data[0]? = some 0x42) (h1 : data[1]? = some 0x4D) :
    read_bmp_file_header (fopen data)
      = some (((le32_at data 10 : Nat) : Int), (4294967295 : Int),
          (⟨data, 14, true⟩ : FILE)) := by
  unfold read_bmp_file_header fopen
  rw [fseek_set_zero]
  dsimp only
  rw [getc_some data 0 _ _ h0]
  dsimp only
  rw [getc_some data 1 _ _ h1]
  dsimp only
  rw [to_byte_val, to_byte_val, fseek_cur_eq data 2 false 8 8 rfl]
  dsimp only
  rw [read_u32_le_avail data 10 false (by omega)]
  dsimp only
  rw [read_u32_le_eof data 14 false (by omega)]
  dsimp only
  simp

theorem read_bmp_info_windows_short (data : List Byte) (hlen : data.length = 14) (off : Int) :
    read_bmp_info_windows off 4294967295 ⟨data, 14, true⟩
      = .ok (⟨off, 4294967295, false, 1, 1, 65535, 65535, 4294967295, 4294967295,
          4294967295, 4294967295, 4294967295, 4294967295⟩, ⟨data, 30, true⟩) := by
  unfold read_bmp_info_windows
  have e : c_abs (to_int 4294967295) = .ok 1 := by decide
  have l14 : data.length ≤ 14 := by omega
  have l26 : data.length ≤ 14 + 12 := by omega
  have l30 : data.length ≤ 14 + 12 + 4 := by omega
  simp only [read_u32_le_eof data 14 _ l14, read_u16_le_eof data 14 _ l14, e,
    fseek_cur_eq data 14 true 12 12 rfl, read_u32_le_eof data (14 + 12) _ l26,
    fseek_cur_eq data (14 + 12) true 4 4 rfl, read_u32_le_eof data (14 + 12 + 4) _ l30]

/-- C8: for every stream that consists of a 14-byte file header beginning 'B','M' and
nothing else, `read_bmp` returns failure and neither the pixel buffer nor the palette is
ever allocated. -/
theorem read_bmp_file_header_only (env : Env)
    (b2 b3 b4 b5 b6 b7 b8 b9 b10 b11 b12 b13 : Byte) :
    read_bmp env (fopen [0x42, 0x4D, b2, b3, b4, b5, b6, b7, b8, b9, b10, b11, b12, b13])
      = .ok ⟨0, Ptr.null, 1, 1, Ptr.null⟩ := by
  generalize hd :
    ([0x42, 0x4D, b2, b3, b4, b5, b6, b7, b8, b9, b10, b11, b12, b13] : List Byte) = data
  have hlen : data.length = 14 := by rw [← hd]; rfl
  have h0 : data[0]? = some 0x42 := by rw [← hd]; rfl
  have h1 : data[1]? = some 0x4D := by rw [← hd]; rfl
  rw [read_bmp, read_bmp_header, read_bmp_file_header_short data hlen h0 h1]
  dsimp only
  rw [if_neg (by decide), read_bmp_info_windows_short data hlen]
  simp [feof, read_bmp_exit, Ptr.free]

/-! ## The decoder on sample files -/

theorem read_bmp_of_header (env : Env) (file file' : FILE) (hdr : BmpHeader)
    (hh : read_bmp_header file = .ok (some (hdr, file')))
    (hw : hdr.width ≤ env.MAX_IMAGE_SIZE) (hh' : hdr.height ≤ env.MAX_IMAGE_SIZE)
    (hf : feof file' = false) (hp : hdr.num_planes = 1) (hc : hdr.compression ≤ 3)
    (hm : env.malloc_ok (4 * hdr.width.toNat * hdr.height.toNat) = true) :
    read_bmp env file = read_bmp_body env hdr
      (List.replicate (hdr.width.toNat * hdr.height.toNat) Pixel.indeterminate) file' := by
  rw [read_bmp, hh]
  dsimp only
  rw [if_neg (by omega), if_neg (by simp [hf, hp]; omega), if_pos hm]

theorem read_bmp_body_no_palette (env : Env) (hdr : BmpHeader) (image : List Pixel)
    (file : FILE) (hb : 8 < hdr.bits_per_pixel) (n : Nat) (ho : hdr.image_data_offset = n) :
    read_bmp_body env hdr image file =
      match read_bmp_data hdr image hdr.width.toNat hdr.height.toNat ⟨file.data, n, false⟩
          [] with
      | .error e => .error e
      | .ok (success, image, _) =>
        .ok (read_bmp_exit success (Ptr.live image) hdr.width hdr.height Ptr.null) := by
  unfold read_bmp_body
  rw [if_neg (by omega)]
  dsimp only
  rw [fseek_set_eq file _ n ho]
  dsimp only
  rw [if_neg (by simp [feof])]

theorem write_bmp_1x1 (env : Env) :
    write_bmp env (some [⟨1, 2, 3, 255⟩]) 1 1 [] = ⟨1, bmp_1x1⟩ := by
  unfold write_bmp get_image_palette
  cases env.malloc_ok (4 * max_colors) <;> rfl

set_option maxRecDepth 100000 in
theorem read_bmp_header_1x1 :
    read_bmp_header (fopen bmp_1x1)
      = .ok (some (⟨54, 40, false, 1, 1, 1, 24, 0, 0, 0x00010203, 0xFFFFFFFF, 0xFFFFFFFF,
          0xFFFFFFFF⟩, ⟨bmp_1x1, 58, true⟩)) := by
  decide!

/-- C1 at the failing input: the 1 x 1 image (1, 2, 3, 255) is written in 24-bit mode as a
file of 58 bytes, and `read_bmp` applied to exactly these bytes returns failure, because
reading the four colour masks after the 40-byte info header runs past the end of the stream
and the end-of-file test that follows rejects the file. -/
theorem roundtrip_24bit_fails_1x1 (env : Env) :
    (write_bmp env (some [⟨1, 2, 3, 255⟩]) 1 1 []).ret = 1 ∧
    (write_bmp env (some [⟨1, 2, 3, 255⟩]) 1 1 []).file.length = 58 ∧
    le16_at (write_bmp env (some [⟨1, 2, 3, 255⟩]) 1 1 []).file 28 = 24 ∧
    read_bmp env (fopen (write_bmp env (some [⟨1, 2, 3, 255⟩]) 1 1 []).file)
      = .ok ⟨0, Ptr.null, 1, 1, Ptr.null⟩ := by
  rw [write_bmp_1x1]
  refine ⟨rfl, rfl, by decide, ?_⟩
  rw [read_bmp, read_bmp_header_1x1]
  simp [feof, read_bmp_exit, Ptr.free]

theorem write_bmp_3x1 (env : Env) (hm : env.malloc_ok (4 * max_colors) = true) :
    write_bmp env (some [⟨1, 2, 3, 255⟩, ⟨1, 2, 3, 255⟩, ⟨1, 2, 3, 255⟩]) 3 1 []
      = ⟨1, bmp_3x1_indexed⟩ := by
  unfold write_bmp get_image_palette
  rw [hm]
  rfl

set_option maxRecDepth 100000 in
theorem read_bmp_header_3x1 :
    read_bmp_header (fopen bmp_3x1_indexed)
      = .ok (some (⟨58, 40, false, 3, 1, 1, 8, 0, 1, 0x00010203, 0, 0xFFFFFFFF,
          0xFFFFFFFF⟩, ⟨bmp_3x1_indexed, 62, true⟩)) := by
  decide!

/-- C2 at the failing input: the 3 x 1 image whose pixels are all (1, 2, 3, 255) has one
colour and `2 * 1 < 3`, so it is written in indexed mode as a file of 62 bytes, and
`read_bmp` applied to exactly these bytes returns failure, for the reason given at C1. -/
theorem roundtrip_indexed_fails_3x1 (env : Env)
    (hm : env.malloc_ok (4 * max_colors) = true) :
    (write_bmp env (some [⟨1, 2, 3, 255⟩, ⟨1, 2, 3, 255⟩, ⟨1, 2, 3, 255⟩]) 3 1 []).ret = 1 ∧
    (write_bmp env (some [⟨1, 2, 3, 255⟩, ⟨1, 2, 3, 255⟩, ⟨1, 2, 3, 255⟩]) 3 1 []).file.length
      = 62 ∧
    le16_at (write_bmp env (some [⟨1, 2, 3, 255⟩, ⟨1, 2, 3, 255⟩, ⟨1, 2, 3, 255⟩]) 3 1 []).file
      28 = 8 ∧
    read_bmp env
        (fopen (write_bmp env (some [⟨1, 2, 3, 255⟩, ⟨1, 2, 3, 255⟩, ⟨1, 2, 3, 255⟩]) 3 1
          []).file)
      = .ok ⟨0, Ptr.null, 3, 1, Ptr.null⟩ := by
  rw [write_bmp_3x1 env hm]
  refine ⟨rfl, rfl, by decide, ?_⟩
  rw [read_bmp, read_bmp_header_3x1]
  simp [feof, read_bmp_exit, Ptr.free]

theorem roundtrip_indexed_fails_3x1_witness :
    Env.sample.malloc_ok (4 * max_colors) = true ∧
    read_bmp Env.sample
        (fopen (write_bmp Env.sample
          (some [⟨1, 2, 3, 255⟩, ⟨1, 2, 3, 255⟩, ⟨1, 2, 3, 255⟩]) 3 1 []).file)
      = .ok ⟨0, Ptr.null, 3, 1, Ptr.null⟩ :=
  ⟨rfl, (roundtrip_indexed_fails_3x1 Env.sample rfl).2.2.2⟩

set_option maxRecDepth 100000 in
theorem read_bmp_header_5x2_truncated :
    read_bmp_header (fopen bmp_5x2_truncated)
      = .ok (some (⟨54, 40, false, 5, 2, 1, 24, 0, 0, le32_at bmp_5x2_truncated 54,
          le32_at bmp_5x2_truncated 58, le32_at bmp_5x2_truncated 62,
          le32_at bmp_5x2_truncated 66⟩, ⟨bmp_5x2_truncated, 70, false⟩)) := by
  decide!

set_option maxRecDepth 100000 in
theorem read_bmp_header_5x1_no_data :
    read_bmp_header (fopen bmp_5x1_no_data)
      = .ok (some (⟨70, 40, false, 5, 1, 1, 24, 0, 0, 0, 0, 0, 0⟩,
          ⟨bmp_5x1_no_data, 70, false⟩)) := by
  decide!

set_option maxRecDepth 100000 in
/-- C4 at two failing inputs. The stream `bmp_5x2_truncated` ends before the second row of
pixel data, the last row processed, and `bmp_5x1_no_data` declares its pixel data at the
end of the stream; `read_bmp` returns success on both, the missing pixels decoding as
(255, 255, 255, 255). -/
theorem read_bmp_accepts_truncated (env : Env) (hmax : 5 ≤ env.MAX_IMAGE_SIZE)
    (hm : env.malloc_ok 40 = true) (hm' : env.malloc_ok 20 = true) :
    read_bmp env (fopen bmp_5x2_truncated)
      = .ok ⟨1, Ptr.live [⟨255, 255, 255, 255⟩, ⟨255, 255, 255, 255⟩, ⟨255, 255, 255, 255⟩,
          ⟨255, 255, 255, 255⟩, ⟨255, 255, 255, 255⟩, ⟨21, 22, 23, 255⟩, ⟨24, 25, 26, 255⟩,
          ⟨27, 28, 29, 255⟩, ⟨30, 31, 32, 255⟩, ⟨33, 34, 35, 255⟩], 5, 2, Ptr.null⟩ ∧
    read_bmp env (fopen bmp_5x1_no_data)
      = .ok ⟨1, Ptr.live [⟨255, 255, 255, 255⟩, ⟨255, 255, 255, 255⟩, ⟨255, 255, 255, 255⟩,
          ⟨255, 255, 255, 255⟩, ⟨255, 255, 255, 255⟩], 5, 1, Ptr.null⟩ := by
  constructor
  · rw [read_bmp_of_header env _ _ _ read_bmp_header_5x2_truncated (by simpa using hmax)
      (by simp; omega) rfl rfl (by decide) (by simpa using hm)]
    rw [read_bmp_body_no_palette env _ _ _ (by decide) 54 rfl]
    decide!
  · rw [read_bmp_of_header env _ _ _ read_bmp_header_5x1_no_data (by simpa using hmax)
      (by simp; omega) rfl rfl (by decide) (by simpa using hm')]
    rw [read_bmp_body_no_palette env _ _ _ (by decide) 70 rfl]
    decide!

theorem read_bmp_accepts_truncated_witness :
    (5 : Int) ≤ Env.sample.MAX_IMAGE_SIZE ∧ Env.sample.malloc_ok 40 = true ∧
    Env.sample.malloc_ok 20 = true ∧
    read_bmp Env.sample (fopen bmp_5x1_no_data)
      = .ok ⟨1, Ptr.live [⟨255, 255, 255, 255⟩, ⟨255, 255, 255, 255⟩, ⟨255, 255, 255, 255⟩,
          ⟨255, 255, 255, 255⟩, ⟨255, 255, 255, 255⟩], 5, 1, Ptr.null⟩ :=
  ⟨by decide, rfl, rfl, (read_bmp_accepts_truncated Env.sample (by decide) rfl rfl).2⟩

set_option maxRecDepth 100000 in
theorem read_bmp_header_5x3_truncated :
    read_bmp_header (fopen bmp_5x3_truncated)
      = .ok (some (⟨54, 40, false, 5, 3, 1, 24, 0, 0, le32_at bmp_5x3_truncated 54,
          le32_at bmp_5x3_truncated 58, le32_at bmp_5x3_truncated 62,
          le32_at bmp_5x3_truncated 66⟩, ⟨bmp_5x3_truncated, 70, false⟩)) := by
  decide!

set_option maxRecDepth 100000 in
/-- C5 at the failing input: on the stream `bmp_5x3_truncated`, which ends after the first
of three rows, `read_bmp` returns failure and leaves in `*image` the address of the pixel
buffer it has just freed, not a null pointer. -/
theorem read_bmp_failure_leaves_freed_pointer (env : Env) (hmax : 5 ≤ env.MAX_IMAGE_SIZE)
    (hm : env.malloc_ok 60 = true) :
    read_bmp env (fopen bmp_5x3_truncated) = .ok ⟨0, Ptr.freed, 5, 3, Ptr.null⟩ := by
  rw [read_bmp_of_header env _ _ _ read_bmp_header_5x3_truncated (by simpa using hmax)
    (by simp; omega) rfl rfl (by decide) (by simpa using hm)]
  rw [read_bmp_body_no_palette env _ _ _ (by decide) 54 rfl]
  decide!

theorem read_bmp_failure_leaves_freed_pointer_witness :
    (5 : Int) ≤ Env.sample.MAX_IMAGE_SIZE ∧ Env.sample.malloc_ok 60 = true ∧
    read_bmp Env.sample (fopen bmp_5x3_truncated) = .ok ⟨0, Ptr.freed, 5, 3, Ptr.null⟩ :=
  ⟨by decide, rfl, read_bmp_failure_leaves_freed_pointer Env.sample (by decide) rfl⟩

set_option maxRecDepth 100000 in
theorem read_bmp_header_zero_width :
    read_bmp_header (fopen bmp_zero_width)
      = .ok (some (⟨54, 40, false, 0, 1, 1, 24, 0, 0, le32_at bmp_zero_width 54,
          le32_at bmp_zero_width 58, le32_at bmp_zero_width 62,
          le32_at bmp_zero_width 66⟩, ⟨bmp_zero_width, 70, false⟩)) := by
  decide!

set_option maxRecDepth 100000 in
/-- C7 at the failing input: on the stream `bmp_zero_width`, whose header declares width 0
and height 1, `read_bmp` returns success with width 0 and an empty buffer whenever
`malloc(0)` returns a pointer that is not null. -/
theorem read_bmp_accepts_zero_width (env : Env) (hmax : 1 ≤ env.MAX_IMAGE_SIZE)
    (hm : env.malloc_ok 0 = true) :
    read_bmp env (fopen bmp_zero_width) = .ok ⟨1, Ptr.live [], 0, 1, Ptr.null⟩ := by
  rw [read_bmp_of_header env _ _ _ read_bmp_header_zero_width (by simp; omega)
    (by simpa using hmax) rfl rfl (by decide) (by simpa using hm)]
  rw [read_bmp_body_no_palette env _ _ _ (by decide) 54 rfl]
  decide!

theorem read_bmp_accepts_zero_width_witness :
    (1 : Int) ≤ Env.sample.MAX_IMAGE_SIZE ∧ Env.sample.malloc_ok 0 = true ∧
    read_bmp Env.sample (fopen bmp_zero_width) = .ok ⟨1, Ptr.live [], 0, 1, Ptr.null⟩ :=
  ⟨by decide, rfl, read_bmp_accepts_zero_width Env.sample (by decide) rfl⟩

/-! ## The default format -/

theorem store_ok {α : Type} (buf : List α) (i : Nat) (v : α) (h : i < buf.length) :
    store buf (i : Int) v = .ok (buf.set i v) := by
  have h1 : (0 : Int) ≤ (i : Int) ∧ (i : Int) < (buf.length : Int) := by omega
  simp only [store, h1, and_self, if_true, Int.toNat_ofNat]

theorem store_append {α : Type} (A B : List α) (z v : α) (i : Int) (h : i = (A.length : Int)) :
    store (A ++ z :: B) i v = .ok (A ++ v :: B) := by
  subst h
  rw [store_ok _ _ _ (by simp)]
  simp

theorem image_bytes_length (image : List Pixel) : (image_bytes image).length = 4 * image.length := by
  induction image with
  | nil => rfl
  | cons p rest ih =>
    simp only [image_bytes, List.flatMap_cons, List.length_append, List.length_cons] at ih ⊢
    rw [ih]; simp [Pixel.bytes]; omega

theorem image_bytes_append (a b : List Pixel) :
    image_bytes (a ++ b) = image_bytes a ++ image_bytes b := by
  simp [image_bytes, List.flatMap_append]

theorem take_succ_getD (src : List Pixel) (k : Nat) (h : k < src.length) :
    src.take (k + 1) = src.take k ++ [src.getD k default] := by
  rw [List.take_succ]
  congr 1
  rw [List.getD_eq_getElem _ _ h, List.getElem?_eq_getElem h]
  rfl

theorem store4 {α β : Type} (A R : List α) (z0 z1 z2 z3 v0 v1 v2 v3 : α) (i : Nat)
    (hi : A.length = i) (k : List α → Except Fault β) :
    (store (A ++ z0 :: z1 :: z2 :: z3 :: R) (i : Int) v0 >>= fun d =>
      store d ((i : Int) + ((1 : Nat) : Int)) v1 >>= fun d =>
      store d ((i : Int) + 2 * ((1 : Nat) : Int)) v2 >>= fun d =>
      store d ((i : Int) + 3 * ((1 : Nat) : Int)) v3 >>= k)
      = k (A ++ v0 :: v1 :: v2 :: v3 :: R) := by
  subst hi
  have e0 : store (A ++ z0 :: z1 :: z2 :: z3 :: R) (A.length : Int) v0
      = .ok (A ++ v0 :: z1 :: z2 :: z3 :: R) := store_append _ _ _ _ _ rfl
  have e1 : store (A ++ v0 :: z1 :: z2 :: z3 :: R) ((A.length : Int) + ((1 : Nat) : Int)) v1
      = .ok (A ++ v0 :: v1 :: z2 :: z3 :: R) := by
    have := store_append (A ++ [v0]) (z2 :: z3 :: R) z1 v1
      ((A.length : Int) + ((1 : Nat) : Int)) (by simp)
    simpa using this
  have e2 : store (A ++ v0 :: v1 :: z2 :: z3 :: R) ((A.length : Int) + 2 * ((1 : Nat) : Int)) v2
      = .ok (A ++ v0 :: v1 :: v2 :: z3 :: R) := by
    have := store_append (A ++ [v0, v1]) (z3 :: R) z2 v2
      ((A.length : Int) + 2 * ((1 : Nat) : Int)) (by simp)
    simpa using this
  have e3 : store (A ++ v0 :: v1 :: v2 :: z3 :: R) ((A.length : Int) + 3 * ((1 : Nat) : Int)) v3
      = .ok (A ++ v0 :: v1 :: v2 :: v3 :: R) := by
    have := store_append (A ++ [v0, v1, v2]) R z3 v3
      ((A.length : Int) + 3 * ((1 : Nat) : Int)) (by simp)
    simpa using this
  rw [e0]
  show (store (A ++ v0 :: z1 :: z2 :: z3 :: R) _ v1 >>= _) = _
  rw [e1]
  show (store (A ++ v0 :: v1 :: z2 :: z3 :: R) _ v2 >>= _) = _
  rw [e2]
  show (store (A ++ v0 :: v1 :: v2 :: z3 :: R) _ v3 >>= _) = _
  rw [e3]
  rfl

theorem default_num_channels : num_channels Format.default = 4 := rfl
theorem default_channel_stride (w h : Nat) : channel_stride Format.default w h = 1 := rfl
theorem default_pixel_stride (h : Nat) : pixel_stride Format.default h = 4 := rfl
theorem default_row_stride (w : Nat) : row_stride Format.default w = w * 4 := rfl
theorem default_channel_order : channel_order Format.default = [0, 1, 2, 3] := rfl

theorem convert_to_format_row_default (env : Env) (w h : Nat) (src : List Pixel) (srow : Nat)
    (hs : srow + w ≤ src.length) :
    ∀ (n x : Nat) (i : Nat), x + n = w → i = 4 * (srow + x) →
      convert_to_format_row env Format.default w h src srow n x i
          (image_bytes (src.take (srow + x)) ++ List.replicate (4 * (src.length - (srow + x))) 0)
        = .ok (image_bytes (src.take (srow + w))
            ++ List.replicate (4 * (src.length - (srow + w))) 0) := by
  intro n
  induction n with
  | zero =>
    intro x i hx hi
    have : x = w := by omega
    subst this
    rfl
  | succ n ih =>
    intro x i hx hi
    have hk : srow + x < src.length := by omega
    have hrep : List.replicate (4 * (src.length - (srow + x))) (0 : Byte)
        = 0 :: 0 :: 0 :: 0 :: List.replicate (4 * (src.length - (srow + (x + 1)))) 0 := by
      have : 4 * (src.length - (srow + x)) = 4 * (src.length - (srow + (x + 1))) + 4 := by omega
      rw [this]; rfl
    have hlen : (image_bytes (src.take (srow + x))).length = i := by
      rw [image_bytes_length, List.length_take]; omega
    unfold convert_to_format_row
    simp only [default_num_channels, default_channel_stride, default_pixel_stride,
      default_channel_order]
    rw [hrep, if_neg (by decide), if_neg (by decide)]
    rw [store4 _ _ _ _ _ _ _ _ _ _ i hlen]
    have hnext := ih (x + 1) (i + 4) (by omega) (by omega)
    rw [← hnext]
    congr 1
    rw [show srow + (x + 1) = (srow + x) + 1 from by omega, take_succ_getD src _ hk,
      image_bytes_append]
    simp [image_bytes, Pixel.bytes, Pixel.byte]

theorem convert_to_format_rows_default (env : Env) (w h : Nat) (src : List Pixel)
    (hs : src.length = w * h) :
    ∀ (n y : Nat), y + n = h →
      convert_to_format_rows env Format.default w h src n y
          (image_bytes (src.take (w * y)) ++ List.replicate (4 * (src.length - (w * y))) 0)
        = .ok (image_bytes src) := by
  intro n
  induction n with
  | zero =>
    intro y hy
    have : y = h := by omega
    subst this
    unfold convert_to_format_rows
    rw [← hs]
    simp
  | succ n ih =>
    intro y hy
    unfold convert_to_format_rows
    have hle : w * y + w ≤ src.length := by
      rw [hs]
      have : w * (y + 1) ≤ w * h := Nat.mul_le_mul_left w (by omega)
      rw [Nat.mul_succ] at this
      exact this
    have := convert_to_format_row_default env w h src (w * y) hle w 0 (row_stride Format.default w * y)
      (by omega) (by rw [default_row_stride]; ring)
    rw [Nat.add_zero] at this
    rw [this]
    have hn := ih (y + 1) (by omega)
    rw [Nat.mul_succ] at hn
    exact hn

theorem image_bytes_getD (image : List Pixel) :
    ∀ (k j : Nat), k < image.length → j < 4 →
      (image_bytes image).getD (4 * k + j) 0 = (image.getD k default).byte j := by
  induction image with
  | nil => intro k j hk; simp at hk
  | cons p rest ih =>
    intro k j hk hj
    cases k with
    | zero =>
      have : j = 0 ∨ j = 1 ∨ j = 2 ∨ j = 3 := by omega
      rcases this with h | h | h | h <;> subst h <;> rfl
    | succ k =>
      have e : 4 * (k + 1) + j = (4 * k + j) + 4 := by omega
      have hk' : k < rest.length := by simpa using hk
      rw [e]
      have := ih k j hk' hj
      simp only [image_bytes, List.flatMap_cons, Pixel.bytes, List.cons_append, List.nil_append,
        List.getD_cons_succ, List.getD_eq_getElem?_getD] at this ⊢
      simpa using this

theorem set_byte_all (p : Pixel) (v0 v1 v2 v3 : Byte) :
    (((p.set_byte 0 v0).set_byte 1 v1).set_byte 2 v2).set_byte 3 v3 = ⟨v0, v1, v2, v3⟩ := rfl

theorem pixel_of_bytes (p : Pixel) : (⟨p.byte 0, p.byte 1, p.byte 2, p.byte 3⟩ : Pixel) = p := rfl

theorem convert_from_format_row_default (w h : Nat) (image : List Pixel) (drow : Nat)
    (hs : drow + w ≤ image.length) :
    ∀ (n x : Nat) (i : Nat), x + n = w → i = 4 * (drow + x) →
      convert_from_format_row Format.default w h (image_bytes image) drow n x i
          (image.take (drow + x)
            ++ List.replicate (image.length - (drow + x)) Pixel.indeterminate)
        = .ok (image.take (drow + w)
            ++ List.replicate (image.length - (drow + w)) Pixel.indeterminate) := by
  intro n
  induction n with
  | zero =>
    intro x i hx hi
    have : x = w := by omega
    subst this
    rfl
  | succ n ih =>
    intro x i hx hi
    have hk : drow + x < image.length := by omega
    have hrep : List.replicate (image.length - (drow + x)) Pixel.indeterminate
        = Pixel.indeterminate
          :: List.replicate (image.length - (drow + (x + 1))) Pixel.indeterminate := by
      have : image.length - (drow + x) = (image.length - (drow + (x + 1))) + 1 := by omega
      rw [this]; rfl
    have hlen : (((image.take (drow + x)).length : Nat) : Int) = ((drow : Int) + (x : Int)) := by
      rw [List.length_take]
      have : min (drow + x) image.length = drow + x := by omega
      rw [this]; push_cast; rfl
    unfold convert_from_format_row
    simp only [default_num_channels, default_channel_stride, default_pixel_stride,
      default_channel_order]
    rw [hrep, if_neg (by decide), if_neg (by decide)]
    have hb : ∀ j, j < 4 → (image_bytes image).getD (i + j) 0
        = (image.getD (drow + x) default).byte j := by
      intro j hj; rw [hi]; exact image_bytes_getD image _ j hk hj
    have hb0 := hb 0 (by decide)
    rw [Nat.add_zero] at hb0
    rw [show ([0, 1, 2, 3] : List Nat).getD 0 0 = 0 from rfl,
      show ([0, 1, 2, 3] : List Nat).getD 1 0 = 1 from rfl,
      show ([0, 1, 2, 3] : List Nat).getD 2 0 = 2 from rfl,
      show ([0, 1, 2, 3] : List Nat).getD 3 0 = 3 from rfl,
      set_byte_all, hb0, hb 1 (by decide), hb (2 * 1) (by decide), hb (3 * 1) (by decide),
      pixel_of_bytes, store_append _ _ _ _ _ hlen.symm]
    have hnext := ih (x + 1) (i + 4) (by omega) (by omega)
    show convert_from_format_row Format.default w h (image_bytes image) drow n (x + 1) (i + 4) _ = _
    rw [← hnext]
    congr 1
    rw [show drow + (x + 1) = (drow + x) + 1 from by omega, take_succ_getD image _ hk]
    simp

theorem convert_from_format_rows_default (w h : Nat) (image : List Pixel)
    (hs : image.length = w * h) :
    ∀ (n y : Nat), y + n = h →
      convert_from_format_rows Format.default w h (image_bytes image) n y
          (image.take (w * y) ++ List.replicate (image.length - (w * y)) Pixel.indeterminate)
        = .ok image := by
  intro n
  induction n with
  | zero =>
    intro y hy
    have : y = h := by omega
    subst this
    unfold convert_from_format_rows
    rw [← hs]
    simp
  | succ n ih =>
    intro y hy
    unfold convert_from_format_rows
    have hle : w * y + w ≤ image.length := by
      rw [hs]
      have : w * (y + 1) ≤ w * h := Nat.mul_le_mul_left w (by omega)
      rw [Nat.mul_succ] at this
      exact this
    have := convert_from_format_row_default w h image (w * y) hle w 0
      (row_stride Format.default w * y) (by omega) (by rw [default_row_stride]; ring)
    rw [Nat.add_zero] at this
    rw [this]
    have hn := ih (y + 1) (by omega)
    rw [Nat.mul_succ] at hn
    exact hn

/-- C3: for every canonical buffer of `w * h` pixels, `convert_to_format` with the default
format returns a byte-for-byte copy of the buffer, and `convert_from_format` applied to
that copy with the same format returns the original buffer (the allocations of
`4 * w * h` bytes succeeding). -/
theorem convert_default_identity (env : Env) (image : List Pixel) (w h : Nat)
    (hs : image.length = w * h) (hm : env.malloc_ok (4 * (w * h)) = true) :
    convert_to_format env image w h Format.default = .ok (some (image_bytes image)) ∧
    convert_from_format env (image_bytes image) w h Format.default = .ok (some image) := by
  constructor
  · unfold convert_to_format
    have := convert_to_format_rows_default env w h image hs h 0 (by omega)
    simp only [Nat.mul_zero, List.take_zero, Nat.sub_zero] at this
    have e : image_bytes [] ++ List.replicate (4 * image.length) (0 : Byte)
        = List.replicate (num_channels Format.default * (w * h)) 0 := by
      rw [default_num_channels, hs]; rfl
    rw [e] at this
    simp only [Format.default, default_num_channels] at this ⊢
    rw [show num_channels ⟨Datatype.u8, false, false, false, false, false, false⟩ = 4 from rfl]
      at this ⊢
    rw [hm, if_pos rfl, this]
  · unfold convert_from_format
    have := convert_from_format_rows_default w h image hs h 0 (by omega)
    simp only [Nat.mul_zero, List.take_zero, Nat.sub_zero, List.nil_append] at this
    rw [hs] at this
    simp only [Format.default] at this ⊢
    rw [hm, if_pos rfl, this]

theorem convert_default_identity_witness :
    ([⟨1, 2, 3, 4⟩, ⟨5, 6, 7, 8⟩] : List Pixel).length = 2 * 1 ∧
    Env.sample.malloc_ok (4 * (2 * 1)) = true ∧
    convert_to_format Env.sample [⟨1, 2, 3, 4⟩, ⟨5, 6, 7, 8⟩] 2 1 Format.default
      = .ok (some [1, 2, 3, 4, 5, 6, 7, 8]) ∧
    convert_from_format Env.sample [1, 2, 3, 4, 5, 6, 7, 8] 2 1 Format.default
      = .ok (some [⟨1, 2, 3, 4⟩, ⟨5, 6, 7, 8⟩]) :=
  ⟨rfl, rfl, convert_default_identity Env.sample [⟨1, 2, 3, 4⟩, ⟨5, 6, 7, 8⟩] 2 1 rfl rfl⟩

/-! ## The palette analyzer -/

theorem get_image_palette_check_none (st : PaletteInfo) (pixel : Pixel)
    (h : st.palette = none) : get_image_palette_check st pixel = st := by
  unfold get_image_palette_check
  rw [h]

theorem get_image_palette_check_mem (st : PaletteInfo) (pixel : Pixel) (pal : List Pixel)
    (h : st.palette = some pal) (hn : st.num_colors = pal.length) (hm : pixel ∈ pal) :
    get_image_palette_check st pixel = st := by
  unfold get_image_palette_check
  rw [h]
  dsimp only
  have : List.indexOf pixel pal < pal.length := List.indexOf_lt_length.mpr hm
  rw [if_neg (by rw [hn]; omega)]

theorem get_image_palette_check_new (st : PaletteInfo) (pixel : Pixel) (pal : List Pixel)
    (h : st.palette = some pal) (hn : st.num_colors = pal.length) (hm : pixel ∉ pal)
    (hl : pal.length < 256) :
    get_image_palette_check st pixel
      = { st with palette := some (pal ++ [pixel]), num_colors := st.num_colors + 1 } := by
  unfold get_image_palette_check
  rw [h]
  dsimp only
  have : List.indexOf pixel pal = pal.length := List.indexOf_eq_length.mpr hm
  rw [if_pos (by rw [hn, this]), if_pos (by rw [this]; exact hl)]

theorem get_image_palette_check_full (st : PaletteInfo) (pixel : Pixel) (pal : List Pixel)
    (h : st.palette = some pal) (hn : st.num_colors = pal.length) (hm : pixel ∉ pal)
    (hl : 256 ≤ pal.length) :
    get_image_palette_check st pixel = { st with palette := none, num_colors := -1 } := by
  unfold get_image_palette_check
  rw [h]
  dsimp only
  have : List.indexOf pixel pal = pal.length := List.indexOf_eq_length.mpr hm
  rw [if_pos (by rw [hn, this]), if_neg (by rw [this, max_colors]; omega)]

theorem get_image_palette_pixel_flags (st : PaletteInfo) (pixel : Pixel) :
    ∃ st', get_image_palette_pixel st pixel = get_image_palette_check st' pixel ∧
      st'.palette = st.palette ∧ st'.num_colors = st.num_colors := by
  unfold get_image_palette_pixel
  dsimp only
  refine ⟨_, rfl, ?_, ?_⟩ <;> split_ifs <;> rfl

theorem nodup_card (pal l : List Pixel) (hnd : pal.Nodup) (hmem : ∀ p, p ∈ pal ↔ p ∈ l) :
    l.toFinset.card = pal.length := by
  rw [← List.toFinset_card_of_nodup hnd]
  congr 1
  ext p
  simp [hmem]

theorem palette_state_step (l : List Pixel) (st : PaletteInfo) (pixel : Pixel)
    (h : palette_state l st) :
    palette_state (l ++ [pixel]) (get_image_palette_pixel st pixel) := by
  obtain ⟨st', he, hp, hn⟩ := get_image_palette_pixel_flags st pixel
  rw [he]
  have hcard : (l ++ [pixel]).toFinset = insert pixel l.toFinset := by
    ext p; simp [or_comm]
  by_cases hc : l.toFinset.card ≤ 256
  · obtain ⟨pal, hpal, hnd, hmem, hnum⟩ := h.1 hc
    have hlen := nodup_card pal l hnd hmem
    rw [← hp] at hpal
    rw [← hn] at hnum
    by_cases hm : pixel ∈ pal
    · rw [get_image_palette_check_mem st' pixel pal hpal hnum hm]
      have hml : pixel ∈ l.toFinset := by simpa using (hmem pixel).mp hm
      rw [palette_state, hcard, Finset.insert_eq_of_mem hml]
      refine ⟨fun _ => ⟨pal, hpal, hnd, ?_, hnum⟩, fun h' => absurd hc (by omega)⟩
      intro p
      rw [hmem p]
      simp only [List.mem_append, List.mem_singleton]
      constructor
      · exact Or.inl
      · rintro (h1 | h1)
        · exact h1
        · rw [h1]; exact (hmem pixel).mp hm
    · have hml : pixel ∉ l.toFinset := by
        intro h'; exact hm ((hmem pixel).mpr (by simpa using h'))
      have hcard' : (l ++ [pixel]).toFinset.card = pal.length + 1 := by
        rw [hcard, Finset.card_insert_of_not_mem hml, hlen]
      by_cases hl : pal.length < 256
      · rw [get_image_palette_check_new st' pixel pal hpal hnum hm hl]
        rw [palette_state, hcard']
        refine ⟨fun _ => ⟨pal ++ [pixel], rfl, ?_, ?_, ?_⟩, fun h' => absurd h' (by omega)⟩
        · exact List.Nodup.append hnd (List.nodup_singleton _) (by simpa using hm)
        · intro p
          simp only [List.mem_append, List.mem_singleton, hmem p]
        · simp only [List.length_append, List.length_singleton]
          rw [hnum]; push_cast; rfl
      · rw [get_image_palette_check_full st' pixel pal hpal hnum hm (by omega)]
        rw [palette_state, hcard']
        exact ⟨fun h' => absurd h' (by omega), fun _ => ⟨rfl, rfl⟩⟩
  · have hc' : 256 < l.toFinset.card := by omega
    obtain ⟨hpal, hnum⟩ := h.2 hc'
    rw [← hp] at hpal
    rw [← hn] at hnum
    rw [get_image_palette_check_none st' pixel hpal]
    have hmono : l.toFinset.card ≤ (l ++ [pixel]).toFinset.card := by
      rw [hcard]; exact Finset.card_le_card (Finset.subset_insert _ _)
    exact ⟨fun h' => absurd h' (by omega), fun _ => ⟨hpal, hnum⟩⟩

theorem palette_state_foldl (l : List Pixel) :
    palette_state l (l.foldl get_image_palette_pixel ⟨some [], 0, 0, 0⟩) := by
  induction l using List.reverseRecOn with
  | nil =>
    refine ⟨fun _ => ⟨[], rfl, List.nodup_nil, fun p => Iff.rfl, rfl⟩, fun h => ?_⟩
    simp at h
  | append_singleton l p ih =>
    rw [List.foldl_append]
    exact palette_state_step l _ p ih

theorem get_image_palette_state (env : Env) (image : List Pixel) (w h : Nat)
    (hs : image.length = w * h) (hm : env.malloc_ok (4 * max_colors) = true) :
    palette_state image (get_image_palette env (some image) w h) := by
  unfold get_image_palette
  dsimp only
  rw [if_pos hm, ← hs, List.take_length]
  exact palette_state_foldl image

theorem use_palette_iff (env : Env) (image : List Pixel) (w h : Nat)
    (hs : image.length = w * h) (hm : env.malloc_ok (4 * max_colors) = true) :
    ((get_image_palette env (some image) w h).palette.isSome &&
      decide (2 * (get_image_palette env (some image) w h).num_colors < (w : Int) * h))
      = decide (indexed_mode image w h) := by
  have hst := get_image_palette_state env image w h hs hm
  by_cases hc : image.toFinset.card ≤ 256
  · obtain ⟨pal, hpal, hnd, hmem, hnum⟩ := hst.1 hc
    have hlen := nodup_card pal image hnd hmem
    rw [hpal, hnum]
    simp only [Option.isSome_some, Bool.true_and, indexed_mode, distinct_colors, hlen]
    rw [hlen] at hc
    apply decide_eq_decide.mpr
    constructor
    · intro h1; exact ⟨hc, by exact_mod_cast h1⟩
    · intro h1; exact_mod_cast h1.2
  · obtain ⟨hpal, _⟩ := hst.2 (by omega)
    rw [hpal]
    simp only [Option.isSome_none, Bool.false_and, indexed_mode, distinct_colors]
    symm
    apply decide_eq_false
    intro h1
    exact hc h1.1

/-! ## The bytes of an encoded file -/

theorem and_shift (x k : Nat) : (x &&& (255 <<< k)) >>> k = (x >>> k) % 256 := by
  apply Nat.eq_of_testBit_eq
  intro i
  have h255 : (255 : Nat) = 2 ^ 8 - 1 := by norm_num
  have h256 : (256 : Nat) = 2 ^ 8 := by norm_num
  rw [h256, Nat.testBit_mod_two_pow, Nat.testBit_shiftRight, Nat.testBit_shiftRight,
    Nat.testBit_and, Nat.testBit_shiftLeft, h255, Nat.testBit_two_pow_sub_one]
  simp
  rw [Bool.and_comm]

theorem nat_to_byte_mod (v : Nat) : nat_to_byte (v % 256) = nat_to_byte v := by
  apply Fin.ext
  simp [nat_to_byte]

theorem nat_to_byte_and (v : Nat) : nat_to_byte (v &&& 0xFF) = nat_to_byte v := by
  have : v &&& 0xFF = v % 256 := Nat.and_pow_two_sub_one_eq_mod v 8
  rw [this, nat_to_byte_mod]

theorem nat_to_byte_and_shift (v k : Nat) :
    nat_to_byte ((v &&& (255 <<< k)) >>> k) = nat_to_byte (v / 2 ^ k) := by
  rw [and_shift, nat_to_byte_mod, Nat.shiftRight_eq_div_pow]

theorem putc_eq (c : Nat) (file : List Byte) : putc c file = file ++ [nat_to_byte c] := rfl

theorem write_u32_le_eq (v : Int) (file : List Byte) :
    write_u32_le v file = file ++ le32_bytes (to_u32 v) := by
  unfold write_u32_le
  simp only [putc_eq, List.append_assoc, List.singleton_append]
  rw [nat_to_byte_and, show (0xFF00 : Nat) = 255 <<< 8 from rfl,
    show (0xFF0000 : Nat) = 255 <<< 16 from rfl, show (0xFF000000 : Nat) = 255 <<< 24 from rfl,
    nat_to_byte_and_shift, nat_to_byte_and_shift, nat_to_byte_and_shift]
  rfl

theorem write_u16_le_eq (w : Nat) (file : List Byte) :
    write_u16_le w file = file ++ le16_bytes w := by
  unfold write_u16_le
  simp only [putc_eq, List.append_assoc, List.singleton_append]
  rw [nat_to_byte_and, show (0xFF00 : Nat) = 255 <<< 8 from rfl, nat_to_byte_and_shift]
  rfl

theorem write_bmp_row_eq (image : List Pixel) (use_palette : Bool) (palette : List Pixel)
    (row : Nat) : ∀ (n x : Nat) (file : List Byte),
    write_bmp_row image use_palette palette row n x file
      = file ++ write_bmp_row image use_palette palette row n x [] := by
  intro n
  induction n with
  | zero => intro x file; simp [write_bmp_row]
  | succ n ih =>
    intro x file
    unfold write_bmp_row
    dsimp only
    rw [ih (x + 1), ih (x + 1) (if use_palette = true then _ else _)]
    cases use_palette <;> simp [putc_eq]

theorem write_bmp_padding_eq : ∀ (x : Nat) (file : List Byte),
    write_bmp_padding x file = file ++ List.replicate x 0 := by
  intro x
  induction x with
  | zero => intro file; simp [write_bmp_padding]
  | succ x ih =>
    intro file
    unfold write_bmp_padding
    rw [ih, putc_eq, List.append_assoc]
    rfl

theorem write_bmp_rows_eq (image : List Pixel) (width : Nat) (use_palette : Bool)
    (palette : List Pixel) (row_padding : Nat) : ∀ (y : Nat) (file : List Byte),
    write_bmp_rows image width use_palette palette row_padding y file
      = file ++ write_bmp_rows image width use_palette palette row_padding y [] := by
  intro y
  induction y with
  | zero => intro file; simp [write_bmp_rows]
  | succ y ih =>
    intro file
    unfold write_bmp_rows
    dsimp only
    rw [ih, ih (write_bmp_padding _ _), write_bmp_padding_eq, write_bmp_padding_eq,
      write_bmp_row_eq]
    simp

theorem write_bmp_palette_eq : ∀ (palette : List Pixel) (file : List Byte),
    write_bmp_palette palette file = file ++ write_bmp_palette palette [] := by
  intro palette
  induction palette with
  | nil => intro file; simp [write_bmp_palette]
  | cons p rest ih =>
    intro file
    unfold write_bmp_palette
    rw [ih, ih (putc _ _)]
    simp [putc_eq]

theorem to_u32_0 : to_u32 0 = 0 := by decide
theorem to_u32_40 : to_u32 40 = 40 := by decide
theorem to_u32_2835 : to_u32 2835 = 2835 := by decide
theorem nat_to_byte_66 : nat_to_byte 66 = 66 := by decide
theorem nat_to_byte_77 : nat_to_byte 77 = 77 := by decide

theorem write_bmp_24bit (env : Env) (image : List Pixel) (w h : Nat)
    (hs : image.length = w * h) (hm : env.malloc_ok (4 * max_colors) = true)
    (hidx : ¬ indexed_mode image w h) :
    write_bmp env (some image) w h []
      = ⟨1, bmp_header_bytes (54 + 4 * 0 + (3 * (w : Int) + (-3 * (w : Int)) % 4) * h)
            (54 + 4 * 0) w h 24
            ((3 * (w : Int) + (-3 * (w : Int)) % 4) * h) 0
          ++ write_bmp_rows image w false
              ((get_image_palette env (some image) w h).palette.getD [])
              ((-3 * (w : Int)) % 4).toNat h []⟩ := by
  unfold write_bmp
  dsimp only
  rw [use_palette_iff env image w h hs hm, decide_eq_false hidx]
  simp only [Bool.false_eq_true, if_false, Bool.not_false, Bool.true_or, if_true]
  rw [write_bmp_rows_eq]
  simp only [write_u32_le_eq, write_u16_le_eq, putc_eq, bmp_header_bytes, List.append_assoc,
    List.nil_append, to_u32_0, to_u32_40, to_u32_2835, nat_to_byte_66, nat_to_byte_77,
    List.cons_append]

theorem write_bmp_indexed (env : Env) (image : List Pixel) (w h : Nat)
    (hs : image.length = w * h) (hm : env.malloc_ok (4 * max_colors) = true)
    (hidx : indexed_mode image w h) :
    ∃ pal : List Pixel, pal.Nodup ∧ (∀ p, p ∈ pal ↔ p ∈ image) ∧
      pal.length = distinct_colors image ∧
      (get_image_palette env (some image) w h).palette = some pal ∧
      write_bmp env (some image) w h []
        = ⟨1, bmp_header_bytes
              (54 + 4 * (pal.length : Int) + ((w : Int) + (-(w : Int)) % 4) * h)
              (54 + 4 * (pal.length : Int)) w h 8
              (((w : Int) + (-(w : Int)) % 4) * h)
              (if (pal.length : Int) = 256 then 0 else (pal.length : Int))
            ++ (write_bmp_palette pal []
            ++ write_bmp_rows image w true pal ((-(w : Int)) % 4).toNat h [])⟩ := by
  have hst := get_image_palette_state env image w h hs hm
  obtain ⟨pal, hpal, hnd, hmem, hnum⟩ := hst.1 hidx.1
  have hlen := nodup_card pal image hnd hmem
  refine ⟨pal, hnd, hmem, hlen.symm, hpal, ?_⟩
  unfold write_bmp
  dsimp only
  rw [use_palette_iff env image w h hs hm, decide_eq_true hidx, hpal, hnum]
  simp only [if_true, Bool.not_true, Bool.false_or, decide_eq_true_eq, Option.getD_some]
  rw [write_bmp_rows_eq, write_bmp_palette_eq]
  simp only [write_u32_le_eq, write_u16_le_eq, putc_eq, bmp_header_bytes, List.append_assoc,
    List.nil_append, to_u32_0, to_u32_40, to_u32_2835, nat_to_byte_66, nat_to_byte_77,
    List.cons_append]
theorem to_u32_lt (v : Int) : to_u32 v < 4294967296 := by
  simp only [to_u32]; omega
theorem le32_value (v : Nat) (hv : v < 4294967296) :
    (nat_to_byte v).val + 256 * (nat_to_byte (v / 256)).val
      + 65536 * (nat_to_byte (v / 65536)).val + 16777216 * (nat_to_byte (v / 16777216)).val
      = v := by
  simp only [nat_to_byte]
  omega

theorem byte_at_append_right (A B : List Byte) (n k : Nat) (h : A.length = n) :
    byte_at (A ++ B) (n + k) = byte_at B k := by
  subst h
  unfold byte_at
  rw [List.getD_append_right _ _ _ _ (by omega)]
  simp

theorem le32_at_append_right (A B : List Byte) (n k : Nat) (h : A.length = n) :
    le32_at (A ++ B) (n + k) = le32_at B k := by
  unfold le32_at
  rw [byte_at_append_right A B n k h, show n + k + 1 = n + (k + 1) from by omega,
    byte_at_append_right A B n (k + 1) h, show n + k + 2 = n + (k + 2) from by omega,
    byte_at_append_right A B n (k + 2) h, show n + k + 3 = n + (k + 3) from by omega,
    byte_at_append_right A B n (k + 3) h]

theorem le16_at_append_right (A B : List Byte) (n k : Nat) (h : A.length = n) :
    le16_at (A ++ B) (n + k) = le16_at B k := by
  unfold le16_at
  rw [byte_at_append_right A B n k h, show n + k + 1 = n + (k + 1) from by omega,
    byte_at_append_right A B n (k + 1) h]

theorem le32_at_bytes (v : Nat) (hv : v < 4294967296) (B : List Byte) :
    le32_at (le32_bytes v ++ B) 0 = v := by
  have := le32_value v hv
  simpa [le32_at, le32_bytes, byte_at] using this

theorem le16_at_bytes (v : Nat) (hv : v < 65536) (B : List Byte) :
    le16_at (le16_bytes v ++ B) 0 = v := by
  have : (nat_to_byte v).val + 256 * (nat_to_byte (v / 256)).val = v := by
    simp only [nat_to_byte]; omega
  simpa [le16_at, le16_bytes, byte_at] using this

theorem bmp_header_file_size (a b : Int) (w h bpp : Nat) (isz nc : Int) (rest : List Byte) :
    le32_at (bmp_header_bytes a b w h bpp isz nc ++ rest) 2 = to_u32 a := by
  unfold bmp_header_bytes
  simp only [List.append_assoc]
  rw [le32_at_append_right [0x42, 0x4D] _ 2 0 rfl, le32_at_bytes _ (to_u32_lt a)]

theorem bmp_header_data_offset (a b : Int) (w h bpp : Nat) (isz nc : Int)
    (rest : List Byte) :
    le32_at (bmp_header_bytes a b w h bpp isz nc ++ rest) 10 = to_u32 b := by
  unfold bmp_header_bytes
  simp only [List.append_assoc]
  rw [le32_at_append_right [0x42, 0x4D] _ 2 8 rfl, le32_at_append_right (le32_bytes _) _ 4 4 rfl,
    le32_at_append_right (le32_bytes _) _ 4 0 rfl, le32_at_bytes _ (to_u32_lt b)]

theorem bmp_header_bits_per_pixel (a b : Int) (w h bpp : Nat) (isz nc : Int)
    (rest : List Byte) (hb : bpp < 65536) :
    le16_at (bmp_header_bytes a b w h bpp isz nc ++ rest) 28 = bpp := by
  unfold bmp_header_bytes
  simp only [List.append_assoc]
  rw [le16_at_append_right [0x42, 0x4D] _ 2 26 rfl,
    le16_at_append_right (le32_bytes _) _ 4 22 rfl,
    le16_at_append_right (le32_bytes _) _ 4 18 rfl,
    le16_at_append_right (le32_bytes _) _ 4 14 rfl,
    le16_at_append_right (le32_bytes _) _ 4 10 rfl,
    le16_at_append_right (le32_bytes _) _ 4 6 rfl,
    le16_at_append_right (le32_bytes _) _ 4 2 rfl,
    le16_at_append_right (le16_bytes _) _ 2 0 rfl, le16_at_bytes _ hb]
theorem to_u32_of_nat (n : Nat) (h : n < 4294967296) : to_u32 (n : Int) = n := by
  simp only [to_u32]; omega

theorem bmp_header_bytes_length (a b : Int) (w h bpp : Nat) (isz nc : Int) :
    (bmp_header_bytes a b w h bpp isz nc).length = 54 := by
  simp [bmp_header_bytes, le32_bytes, le16_bytes]

theorem write_bmp_row_length (image : List Pixel) (use_palette : Bool) (palette : List Pixel)
    (row : Nat) : ∀ (n x : Nat),
    (write_bmp_row image use_palette palette row n x []).length
      = n * (if use_palette then 1 else 3) := by
  intro n
  induction n with
  | zero => intro x; simp [write_bmp_row]
  | succ n ih =>
    intro x
    unfold write_bmp_row
    dsimp only
    rw [write_bmp_row_eq, List.length_append, ih]
    cases use_palette <;> simp [putc_eq] <;> ring

theorem write_bmp_rows_length (image : List Pixel) (width : Nat) (use_palette : Bool)
    (palette : List Pixel) (row_padding : Nat) : ∀ (y : Nat),
    (write_bmp_rows image width use_palette palette row_padding y []).length
      = (width * (if use_palette then 1 else 3) + row_padding) * y := by
  intro y
  induction y with
  | zero => simp [write_bmp_rows]
  | succ y ih =>
    unfold write_bmp_rows
    dsimp only
    rw [write_bmp_rows_eq, List.length_append, ih, write_bmp_padding_eq, List.length_append,
      List.length_replicate, write_bmp_row_length]
    ring

theorem write_bmp_palette_length : ∀ (palette : List Pixel),
    (write_bmp_palette palette []).length = 4 * palette.length := by
  intro palette
  induction palette with
  | nil => rfl
  | cons p rest ih =>
    unfold write_bmp_palette
    rw [write_bmp_palette_eq, List.length_append, ih]
    simp [putc_eq]
    ring

theorem row_padding_indexed (w : Nat) : w * 1 + ((-(w : Int)) % 4).toNat = round_up4 w := by
  unfold round_up4; omega

theorem row_padding_24bit (w : Nat) :
    w * 3 + ((-3 * (w : Int)) % 4).toNat = round_up4 (3 * w) := by
  unfold round_up4; omega

theorem write_bmp_rows_succ (image : List Pixel) (width : Nat) (use_palette : Bool)
    (palette : List Pixel) (row_padding : Nat) (y : Nat) :
    write_bmp_rows image width use_palette palette row_padding (y + 1) []
      = (write_bmp_row image use_palette palette (width * y) width 0 []
          ++ List.replicate row_padding 0)
        ++ write_bmp_rows image width use_palette palette row_padding y [] := by
  rw [write_bmp_rows, write_bmp_rows_eq, write_bmp_padding_eq]

/-! ## The mode of the written file -/

theorem nat_to_byte_val (b : Byte) : nat_to_byte b.val = b := by
  apply Fin.ext
  simp only [nat_to_byte]
  exact Nat.mod_eq_of_lt b.isLt

theorem byte_at_append_left (A B : List Byte) (k : Nat) (h : k < A.length) :
    byte_at (A ++ B) k = byte_at A k := by
  unfold byte_at
  rw [List.getD_append _ _ _ _ h]

theorem byte_at_nat_to_byte (v : Nat) (B : List Byte) :
    byte_at (nat_to_byte v :: B) 0 = v % 256 := rfl

theorem byte_at_cons_succ (b : Byte) (B : List Byte) (k : Nat) :
    byte_at (b :: B) (k + 1) = byte_at B k := rfl

theorem byte_at_cons3 (a b c : Byte) (B : List Byte) (k : Nat) :
    byte_at (a :: b :: c :: B) (k + 3) = byte_at B k := rfl

theorem byte_at_cons4 (a b c d : Byte) (B : List Byte) (k : Nat) :
    byte_at (a :: b :: c :: d :: B) (k + 4) = byte_at B k := rfl

theorem write_bmp_palette_bytes : ∀ (pal : List Pixel) (i : Nat), i < pal.length →
    byte_at (write_bmp_palette pal []) (4 * i) = (pal.getD i default).b.val ∧
    byte_at (write_bmp_palette pal []) (4 * i + 1) = (pal.getD i default).g.val ∧
    byte_at (write_bmp_palette pal []) (4 * i + 2) = (pal.getD i default).r.val ∧
    byte_at (write_bmp_palette pal []) (4 * i + 3) = 0 := by
  intro pal
  induction pal with
  | nil => intro i hi; simp at hi
  | cons p rest ih =>
    intro i hi
    have e : write_bmp_palette (p :: rest) []
        = p.b :: p.g :: p.r :: 0 :: write_bmp_palette rest [] := by
      rw [write_bmp_palette, write_bmp_palette_eq]
      simp only [putc_eq, nat_to_byte_val, List.nil_append, List.cons_append]
      rfl
    rw [e]
    cases i with
    | zero => exact ⟨rfl, rfl, rfl, rfl⟩
    | succ i =>
      have hi2 : i < rest.length := by simpa using hi
      obtain ⟨h1, h2, h3, h4⟩ := ih i hi2
      have q0 : 4 * (i + 1) = 4 * i + 4 := by omega
      have q1 : 4 * (i + 1) + 1 = 4 * i + 1 + 4 := by omega
      have q2 : 4 * (i + 1) + 2 = 4 * i + 2 + 4 := by omega
      have q3 : 4 * (i + 1) + 3 = 4 * i + 3 + 4 := by omega
      rw [q1, q2, q3, q0, byte_at_cons4, byte_at_cons4, byte_at_cons4, byte_at_cons4]
      simp only [List.getD_cons_succ]
      exact ⟨h1, h2, h3, h4⟩

theorem write_bmp_row_byte_indexed (image pal : List Pixel) (row : Nat) :
    ∀ (n x k : Nat), k < n →
      byte_at (write_bmp_row image true pal row n x []) k
        = pal.indexOf (image.getD (row + x + k) default) % 256 := by
  intro n
  induction n with
  | zero => intro x k hk; omega
  | succ n ih =>
    intro x k hk
    have e : write_bmp_row image true pal row (n + 1) x []
        = nat_to_byte (pal.indexOf (image.getD (row + x) default))
          :: write_bmp_row image true pal row n (x + 1) [] := by
      rw [write_bmp_row, write_bmp_row_eq]
      rfl
    rw [e]
    cases k with
    | zero => rfl
    | succ k =>
      rw [byte_at_cons_succ, ih (x + 1) k (by omega),
        show row + (x + 1) + k = row + x + (k + 1) from by omega]

theorem write_bmp_row_byte_24bit (image pal : List Pixel) (row : Nat) :
    ∀ (n x k : Nat), k < n →
      byte_at (write_bmp_row image false pal row n x []) (3 * k)
        = (image.getD (row + x + k) default).b.val ∧
      byte_at (write_bmp_row image false pal row n x []) (3 * k + 1)
        = (image.getD (row + x + k) default).g.val ∧
      byte_at (write_bmp_row image false pal row n x []) (3 * k + 2)
        = (image.getD (row + x + k) default).r.val := by
  intro n
  induction n with
  | zero => intro x k hk; omega
  | succ n ih =>
    intro x k hk
    have e : write_bmp_row image false pal row (n + 1) x []
        = (image.getD (row + x) default).b :: (image.getD (row + x) default).g
          :: (image.getD (row + x) default).r
          :: write_bmp_row image false pal row n (x + 1) [] := by
      rw [write_bmp_row, write_bmp_row_eq]
      simp only [putc_eq, nat_to_byte_val, List.nil_append, List.cons_append,
        Bool.false_eq_true, if_false]
    rw [e]
    cases k with
    | zero => exact ⟨rfl, rfl, rfl⟩
    | succ k =>
      obtain ⟨h1, h2, h3⟩ := ih (x + 1) k (by omega)
      rw [show row + (x + 1) + k = row + x + (k + 1) from by omega] at h1 h2 h3
      rw [show 3 * (k + 1) + 1 = 3 * k + 1 + 3 from by omega,
        show 3 * (k + 1) + 2 = 3 * k + 2 + 3 from by omega,
        show 3 * (k + 1) = 3 * k + 3 from by omega,
        byte_at_cons3, byte_at_cons3, byte_at_cons3]
      exact ⟨h1, h2, h3⟩

theorem write_bmp_rows_byte (image : List Pixel) (w : Nat) (up : Bool) (pal : List Pixel)
    (pad S : Nat) (hS : S = w * (if up then 1 else 3) + pad) :
    ∀ (h y k : Nat), y < h → k < w * (if up then 1 else 3) →
      byte_at (write_bmp_rows image w up pal pad h []) (S * (h - 1 - y) + k)
        = byte_at (write_bmp_row image up pal (w * y) w 0 []) k := by
  intro h
  induction h with
  | zero => intro y k hy; omega
  | succ h ih =>
    intro y k hy hk
    rw [write_bmp_rows_succ]
    have hA : (write_bmp_row image up pal (w * h) w 0 [] ++ List.replicate pad 0).length = S := by
      rw [List.length_append, write_bmp_row_length, List.length_replicate, hS]
    by_cases hyh : y = h
    · subst hyh
      rw [show S * (y + 1 - 1 - y) + k = k from by simp,
        byte_at_append_left _ _ _ (by rw [hA, hS]; omega),
        byte_at_append_left _ _ _ (by rw [write_bmp_row_length]; exact hk)]
    · have hy2 : y < h := by omega
      have e : S * (h + 1 - 1 - y) + k = S + (S * (h - 1 - y) + k) := by
        have : h + 1 - 1 - y = (h - 1 - y) + 1 := by omega
        rw [this, Nat.mul_succ]
        omega
      rw [e, byte_at_append_right _ _ S _ hA, ih y k hy2 hk]

theorem bmp_header_num_colors (a b : Int) (w h bpp : Nat) (isz nc : Int)
    (rest : List Byte) :
    le32_at (bmp_header_bytes a b w h bpp isz nc ++ rest) 46 = to_u32 nc := by
  unfold bmp_header_bytes
  simp only [List.append_assoc]
  rw [le32_at_append_right [0x42, 0x4D] _ 2 44 rfl,
    le32_at_append_right (le32_bytes _) _ 4 40 rfl,
    le32_at_append_right (le32_bytes _) _ 4 36 rfl,
    le32_at_append_right (le32_bytes _) _ 4 32 rfl,
    le32_at_append_right (le32_bytes _) _ 4 28 rfl,
    le32_at_append_right (le32_bytes _) _ 4 24 rfl,
    le32_at_append_right (le32_bytes _) _ 4 20 rfl,
    le32_at_append_right (le16_bytes _) _ 2 18 rfl,
    le32_at_append_right (le16_bytes _) _ 2 16 rfl,
    le32_at_append_right (le32_bytes _) _ 4 12 rfl,
    le32_at_append_right (le32_bytes _) _ 4 8 rfl,
    le32_at_append_right (le32_bytes _) _ 4 4 rfl,
    le32_at_append_right (le32_bytes _) _ 4 0 rfl, le32_at_bytes _ (to_u32_lt nc)]

theorem getD_mem_of_lt (l : List Pixel) (i : Nat) (h : i < l.length) :
    l.getD i default ∈ l := by
  rw [List.getD_eq_getElem l default h]
  exact List.getElem_mem h

theorem getD_indexOf (pal : List Pixel) (p : Pixel) (h : p ∈ pal) :
    pal.getD (pal.indexOf p) default = p := by
  have hi : pal.indexOf p < pal.length := List.indexOf_lt_length.2 h
  rw [List.getD_eq_getElem pal default hi]
  exact List.getElem_indexOf hi

/-- C9: for every canonical buffer of `w * h` pixels (the palette allocation succeeding),
`write_bmp` writes an indexed file when the image has `n <= 256` distinct pixel values and
`2 * n < w * h`, and a 24-bit file in every other case. The indexed file has
bits-per-pixel field 8, colour count `n` (0 for 256) and data offset `54 + 4 * n`; the
palette is present between the headers and the pixel data: entry `i` is the four bytes
blue, green, red, 0 of the `i`-th of the `n` distinct pixel values; and every pixel is one
byte, the index of its value in the palette, in rows of `round_up4 w` bytes, bottom row
first. The 24-bit file has bits-per-pixel field 24, colour count 0 and data offset 54, and
no palette: the pixel data follow the headers at once and are the rest of the file, every
pixel three bytes blue, green, red, in rows of `round_up4 (3 * w)` bytes, bottom row
first. -/
theorem write_bmp_mode (env : Env) (image : List Pixel) (w h : Nat)
    (hs : image.length = w * h) (hm : env.malloc_ok (4 * max_colors) = true) :
    (indexed_mode image w h →
      ∃ pal : List Pixel, pal.Nodup ∧ (∀ p, p ∈ pal ↔ p ∈ image) ∧
        pal.length = distinct_colors image ∧
        (write_bmp env (some image) w h []).ret = 1 ∧
        le16_at (write_bmp env (some image) w h []).file 28 = 8 ∧
        le32_at (write_bmp env (some image) w h []).file 10 = 54 + 4 * pal.length ∧
        le32_at (write_bmp env (some image) w h []).file 46
          = (if pal.length = 256 then 0 else pal.length) ∧
        (write_bmp env (some image) w h []).file.length
          = 54 + 4 * pal.length + round_up4 w * h ∧
        (∀ i, i < pal.length →
          byte_at (write_bmp env (some image) w h []).file (54 + 4 * i)
            = (pal.getD i default).b.val ∧
          byte_at (write_bmp env (some image) w h []).file (54 + 4 * i + 1)
            = (pal.getD i default).g.val ∧
          byte_at (write_bmp env (some image) w h []).file (54 + 4 * i + 2)
            = (pal.getD i default).r.val ∧
          byte_at (write_bmp env (some image) w h []).file (54 + 4 * i + 3) = 0) ∧
        (∀ x y, x < w → y < h →
          byte_at (write_bmp env (some image) w h []).file
              (54 + 4 * pal.length + round_up4 w * (h - 1 - y) + x)
            = pal.indexOf (image.getD (w * y + x) default) ∧
          pal.getD (byte_at (write_bmp env (some image) w h []).file
              (54 + 4 * pal.length + round_up4 w * (h - 1 - y) + x)) default
            = image.getD (w * y + x) default)) ∧
    (¬ indexed_mode image w h →
      (write_bmp env (some image) w h []).ret = 1 ∧
      le16_at (write_bmp env (some image) w h []).file 28 = 24 ∧
      le32_at (write_bmp env (some image) w h []).file 10 = 54 ∧
      le32_at (write_bmp env (some image) w h []).file 46 = 0 ∧
      (write_bmp env (some image) w h []).file.length = 54 + round_up4 (3 * w) * h ∧
      (∀ x y, x < w → y < h →
        byte_at (write_bmp env (some image) w h []).file
            (54 + round_up4 (3 * w) * (h - 1 - y) + 3 * x)
          = (image.getD (w * y + x) default).b.val ∧
        byte_at (write_bmp env (some image) w h []).file
            (54 + round_up4 (3 * w) * (h - 1 - y) + 3 * x + 1)
          = (image.getD (w * y + x) default).g.val ∧
        byte_at (write_bmp env (some image) w h []).file
            (54 + round_up4 (3 * w) * (h - 1 - y) + 3 * x + 2)
          = (image.getD (w * y + x) default).r.val)) := by
  constructor
  · intro hidx
    obtain ⟨pal, hnd, hmem, hlen, _, hw⟩ := write_bmp_indexed env image w h hs hm hidx
    have hd : pal.length ≤ 256 := by rw [hlen]; exact hidx.1
    have hpad : w * 1 + ((-(w : Int)) % 4).toNat = round_up4 w := row_padding_indexed w
    refine ⟨pal, hnd, hmem, hlen, ?_⟩
    rw [hw]
    dsimp only
    rw [bmp_header_bits_per_pixel _ _ _ _ _ _ _ _ (by decide), bmp_header_data_offset,
      bmp_header_num_colors]
    have hplen : (write_bmp_palette pal []).length = 4 * pal.length :=
      write_bmp_palette_length pal
    refine ⟨rfl, rfl, ?_, ?_, ?_, ?_, ?_⟩
    · have := to_u32_of_nat (54 + 4 * pal.length) (by omega)
      push_cast at this
      exact this
    · by_cases h256 : pal.length = 256
      · have : (pal.length : Int) = 256 := by omega
        rw [if_pos this, if_pos h256]
        rfl
      · have : ¬ (pal.length : Int) = 256 := by omega
        rw [if_neg this, if_neg h256]
        exact to_u32_of_nat pal.length (by omega)
    · rw [List.length_append, List.length_append, bmp_header_bytes_length, hplen,
        write_bmp_rows_length]
      simp only [if_true]
      rw [hpad]
      ring
    · intro i hi
      obtain ⟨h1, h2, h3, h4⟩ := write_bmp_palette_bytes pal i hi
      rw [show 54 + 4 * i + 1 = 54 + (4 * i + 1) from rfl,
        show 54 + 4 * i + 2 = 54 + (4 * i + 2) from rfl,
        show 54 + 4 * i + 3 = 54 + (4 * i + 3) from rfl,
        byte_at_append_right _ _ 54 _ (bmp_header_bytes_length _ _ _ _ _ _ _),
        byte_at_append_right _ _ 54 _ (bmp_header_bytes_length _ _ _ _ _ _ _),
        byte_at_append_right _ _ 54 _ (bmp_header_bytes_length _ _ _ _ _ _ _),
        byte_at_append_right _ _ 54 _ (bmp_header_bytes_length _ _ _ _ _ _ _),
        byte_at_append_left _ _ _ (by rw [hplen]; omega),
        byte_at_append_left _ _ _ (by rw [hplen]; omega),
        byte_at_append_left _ _ _ (by rw [hplen]; omega),
        byte_at_append_left _ _ _ (by rw [hplen]; omega)]
      exact ⟨h1, h2, h3, h4⟩
    · intro x y hx hy
      have hin : image.getD (w * y + x) default ∈ pal := by
        have h1 : w * y + x < w * y + w := by omega
        have h2 : w * y + w ≤ w * h := by
          rw [← Nat.mul_succ]
          exact Nat.mul_le_mul_left w hy
        rw [hmem]
        apply getD_mem_of_lt
        rw [hs]
        omega
      have hlt : pal.indexOf (image.getD (w * y + x) default) < pal.length :=
        List.indexOf_lt_length.2 hin
      have hb : byte_at
          (bmp_header_bytes (54 + 4 * (pal.length : Int) + ((w : Int) + (-(w : Int)) % 4) * h)
              (54 + 4 * (pal.length : Int)) w h 8 (((w : Int) + (-(w : Int)) % 4) * h)
              (if (pal.length : Int) = 256 then 0 else (pal.length : Int))
            ++ (write_bmp_palette pal []
            ++ write_bmp_rows image w true pal ((-(w : Int)) % 4).toNat h []))
          (54 + 4 * pal.length + round_up4 w * (h - 1 - y) + x)
          = pal.indexOf (image.getD (w * y + x) default) := by
        rw [show 54 + 4 * pal.length + round_up4 w * (h - 1 - y) + x
            = 54 + (4 * pal.length + (round_up4 w * (h - 1 - y) + x)) from by omega,
          byte_at_append_right _ _ 54 _ (bmp_header_bytes_length _ _ _ _ _ _ _),
          byte_at_append_right _ _ (4 * pal.length) _ hplen,
          write_bmp_rows_byte image w true pal _ (round_up4 w)
            (by simp only [if_true]; exact hpad.symm) h y x hy (by simpa using hx),
          write_bmp_row_byte_indexed image pal (w * y) w 0 x hx, Nat.add_zero,
          Nat.mod_eq_of_lt (by omega)]
      rw [hb]
      exact ⟨rfl, getD_indexOf pal _ hin⟩
  · intro hidx
    have hpad : w * 3 + ((-3 * (w : Int)) % 4).toNat = round_up4 (3 * w) := row_padding_24bit w
    rw [write_bmp_24bit env image w h hs hm hidx]
    dsimp only
    rw [bmp_header_bits_per_pixel _ _ _ _ _ _ _ _ (by decide), bmp_header_data_offset,
      bmp_header_num_colors]
    refine ⟨rfl, rfl, rfl, rfl, ?_, ?_⟩
    · rw [List.length_append, bmp_header_bytes_length, write_bmp_rows_length]
      simp only [Bool.false_eq_true, if_false]
      rw [hpad]
    · intro x y hx hy
      have hrow := write_bmp_row_byte_24bit image
        ((get_image_palette env (some image) w h).palette.getD []) (w * y) w 0 x hx
      rw [Nat.add_zero] at hrow
      have hk : ∀ k, k < 3 →
          byte_at
            (bmp_header_bytes (54 + 4 * 0 + (3 * (w : Int) + (-3 * (w : Int)) % 4) * h)
                (54 + 4 * 0) w h 24 ((3 * (w : Int) + (-3 * (w : Int)) % 4) * h) 0
              ++ write_bmp_rows image w false
                  ((get_image_palette env (some image) w h).palette.getD [])
                  ((-3 * (w : Int)) % 4).toNat h [])
            (54 + round_up4 (3 * w) * (h - 1 - y) + 3 * x + k)
          = byte_at (write_bmp_row image false
              ((get_image_palette env (some image) w h).palette.getD []) (w * y) w 0 [])
              (3 * x + k) := by
        intro k hk
        rw [show 54 + round_up4 (3 * w) * (h - 1 - y) + 3 * x + k
            = 54 + (round_up4 (3 * w) * (h - 1 - y) + (3 * x + k)) from by omega,
          byte_at_append_right _ _ 54 _ (bmp_header_bytes_length _ _ _ _ _ _ _),
          write_bmp_rows_byte image w false _ _ (round_up4 (3 * w))
            (by simp only [Bool.false_eq_true, if_false]; exact hpad.symm) h y (3 * x + k) hy
            (by simp only [Bool.false_eq_true, if_false]; omega)]
      have h0 := hk 0 (by omega)
      rw [Nat.add_zero] at h0
      rw [h0, hk 1 (by omega), hk 2 (by omega)]
      exact hrow

theorem write_bmp_mode_witness :
    (image_4x2.length = 4 * 2 ∧ Env.sample.malloc_ok (4 * max_colors) = true ∧
      indexed_mode image_4x2 4 2 ∧
      ∃ pal : List Pixel, pal.Nodup ∧ (∀ p, p ∈ pal ↔ p ∈ image_4x2) ∧
        pal.length = distinct_colors image_4x2 ∧
        (write_bmp Env.sample (some image_4x2) 4 2 []).ret = 1 ∧
        le16_at (write_bmp Env.sample (some image_4x2) 4 2 []).file 28 = 8 ∧
        le32_at (write_bmp Env.sample (some image_4x2) 4 2 []).file 10 = 54 + 4 * pal.length ∧
        le32_at (write_bmp Env.sample (some image_4x2) 4 2 []).file 46
          = (if pal.length = 256 then 0 else pal.length) ∧
        (write_bmp Env.sample (some image_4x2) 4 2 []).file.length
          = 54 + 4 * pal.length + round_up4 4 * 2 ∧
        (∀ i, i < pal.length →
          byte_at (write_bmp Env.sample (some image_4x2) 4 2 []).file (54 + 4 * i)
            = (pal.getD i default).b.val ∧
          byte_at (write_bmp Env.sample (some image_4x2) 4 2 []).file (54 + 4 * i + 1)
            = (pal.getD i default).g.val ∧
          byte_at (write_bmp Env.sample (some image_4x2) 4 2 []).file (54 + 4 * i + 2)
            = (pal.getD i default).r.val ∧
          byte_at (write_bmp Env.sample (some image_4x2) 4 2 []).file (54 + 4 * i + 3) = 0) ∧
        (∀ x y, x < 4 → y < 2 →
          byte_at (write_bmp Env.sample (some image_4x2) 4 2 []).file
              (54 + 4 * pal.length + round_up4 4 * (2 - 1 - y) + x)
            = pal.indexOf (image_4x2.getD (4 * y + x) default) ∧
          pal.getD (byte_at (write_bmp Env.sample (some image_4x2) 4 2 []).file
              (54 + 4 * pal.length + round_up4 4 * (2 - 1 - y) + x)) default
            = image_4x2.getD (4 * y + x) default)) ∧
    (image_5x2.length = 5 * 2 ∧ ¬ indexed_mode image_5x2 5 2 ∧
      (write_bmp Env.sample (some image_5x2) 5 2 []).ret = 1 ∧
      le16_at (write_bmp Env.sample (some image_5x2) 5 2 []).file 28 = 24 ∧
      le32_at (write_bmp Env.sample (some image_5x2) 5 2 []).file 10 = 54 ∧
      le32_at (write_bmp Env.sample (some image_5x2) 5 2 []).file 46 = 0 ∧
      (write_bmp Env.sample (some image_5x2) 5 2 []).file.length = 54 + round_up4 (3 * 5) * 2 ∧
      (∀ x y, x < 5 → y < 2 →
        byte_at (write_bmp Env.sample (some image_5x2) 5 2 []).file
            (54 + round_up4 (3 * 5) * (2 - 1 - y) + 3 * x)
          = (image_5x2.getD (5 * y + x) default).b.val ∧
        byte_at (write_bmp Env.sample (some image_5x2) 5 2 []).file
            (54 + round_up4 (3 * 5) * (2 - 1 - y) + 3 * x + 1)
          = (image_5x2.getD (5 * y + x) default).g.val ∧
        byte_at (write_bmp Env.sample (some image_5x2) 5 2 []).file
            (54 + round_up4 (3 * 5) * (2 - 1 - y) + 3 * x + 2)
          = (image_5x2.getD (5 * y + x) default).r.val)) :=
  ⟨⟨rfl, rfl, by decide, (write_bmp_mode Env.sample image_4x2 4 2 rfl rfl).1 (by decide)⟩,
    ⟨rfl, by decide, (write_bmp_mode Env.sample image_5x2 5 2 rfl rfl).2 (by decide)⟩⟩

/-- The files of the two sample images, byte by byte: the 4 x 2 image with two distinct
pixel values gives the headers with bits-per-pixel 8 and data offset 62, the palette
(3, 2, 1, 0) (9, 8, 7, 0) and two rows of four palette indices; the 5 x 2 image with ten
distinct pixel values gives the headers with bits-per-pixel 24 and data offset 54 and,
right after them, two rows of five blue, green, red triplets and one padding byte. -/
theorem write_bmp_mode_examples :
    write_bmp Env.sample (some image_4x2) 4 2 []
      = ⟨1, [66, 77, 70, 0, 0, 0, 0, 0, 0, 0, 62, 0, 0, 0,
          40, 0, 0, 0, 4, 0, 0, 0, 2, 0, 0, 0, 1, 0, 8, 0, 0, 0, 0, 0, 8, 0, 0, 0,
          19, 11, 0, 0, 19, 11, 0, 0, 2, 0, 0, 0, 0, 0, 0, 0,
          3, 2, 1, 0, 9, 8, 7, 0,
          1, 1, 0, 0,
          0, 0, 1, 0]⟩ ∧
    write_bmp Env.sample (some image_5x2) 5 2 []
      = ⟨1, [66, 77, 86, 0, 0, 0, 0, 0, 0, 0, 54, 0, 0, 0,
          40, 0, 0, 0, 5, 0, 0, 0, 2, 0, 0, 0, 1, 0, 24, 0, 0, 0, 0, 0, 32, 0, 0, 0,
          19, 11, 0, 0, 19, 11, 0, 0, 0, 0, 0, 0, 0, 0, 0, 0,
          23, 22, 21, 26, 25, 24, 29, 28, 27, 32, 31, 30, 35, 34, 33, 0,
          3, 2, 1, 6, 5, 4, 9, 8, 7, 12, 11, 10, 15, 14, 13, 0]⟩ := by
  decide

theorem write_bmp_layout_indexed (env : Env) (image : List Pixel) (w h : Nat)
    (hs : image.length = w * h) (hm : env.malloc_ok (4 * max_colors) = true)
    (hidx : indexed_mode image w h) :
    (write_bmp env (some image) w h []).ret = 1 ∧
    (write_bmp env (some image) w h []).file.length
      = 54 + 4 * distinct_colors image + round_up4 w * h ∧
    le32_at (write_bmp env (some image) w h []).file 2
      = (54 + 4 * distinct_colors image + round_up4 w * h) % 4294967296 ∧
    le32_at (write_bmp env (some image) w h []).file 10 = 54 + 4 * distinct_colors image ∧
    (write_bmp env (some image) w h []).file.drop (54 + 4 * distinct_colors image)
      = write_bmp_rows image w true
          ((get_image_palette env (some image) w h).palette.getD [])
          (round_up4 w - w) h [] := by
  obtain ⟨pal, _, _, hlen, hpal, hw⟩ := write_bmp_indexed env image w h hs hm hidx
  have hd : distinct_colors image ≤ 256 := hidx.1
  have hpad : ((-(w : Int)) % 4).toNat = round_up4 w - w := by unfold round_up4; omega
  rw [hw, hpal]
  dsimp only
  rw [bmp_header_file_size, bmp_header_data_offset, hlen, hpad]
  refine ⟨rfl, ?_, ?_, ?_, ?_⟩
  · rw [List.length_append, List.length_append, bmp_header_bytes_length,
      write_bmp_palette_length, write_bmp_rows_length, hlen]
    have : w * 1 + (round_up4 w - w) = round_up4 w := by unfold round_up4; omega
    simp only [if_true]
    rw [this]; ring
  · have e : (54 + 4 * (distinct_colors image : Int) + ((w : Int) + (-(w : Int)) % 4) * h)
        = ((54 + 4 * distinct_colors image + round_up4 w * h : Nat) : Int) := by
      have : (w : Int) + (-(w : Int)) % 4 = (round_up4 w : Nat) := by unfold round_up4; omega
      rw [this]; push_cast; ring
    rw [e]
    simp only [to_u32]
    omega
  · have := to_u32_of_nat (54 + 4 * distinct_colors image) (by omega)
    push_cast at this
    exact this
  · rw [← List.append_assoc, List.drop_left' (by
      rw [List.length_append, bmp_header_bytes_length, write_bmp_palette_length, hlen])]
    rfl

theorem write_bmp_layout_24bit (env : Env) (image : List Pixel) (w h : Nat)
    (hs : image.length = w * h) (hm : env.malloc_ok (4 * max_colors) = true)
    (hidx : ¬ indexed_mode image w h) :
    (write_bmp env (some image) w h []).ret = 1 ∧
    (write_bmp env (some image) w h []).file.length = 54 + round_up4 (3 * w) * h ∧
    le32_at (write_bmp env (some image) w h []).file 2
      = (54 + round_up4 (3 * w) * h) % 4294967296 ∧
    le32_at (write_bmp env (some image) w h []).file 10 = 54 ∧
    (write_bmp env (some image) w h []).file.drop 54
      = write_bmp_rows image w false
          ((get_image_palette env (some image) w h).palette.getD [])
          (round_up4 (3 * w) - 3 * w) h [] := by
  have hpad : ((-3 * (w : Int)) % 4).toNat = round_up4 (3 * w) - 3 * w := by
    unfold round_up4; omega
  rw [write_bmp_24bit env image w h hs hm hidx]
  dsimp only
  rw [bmp_header_file_size, bmp_header_data_offset, hpad]
  refine ⟨rfl, ?_, ?_, rfl, ?_⟩
  · rw [List.length_append, bmp_header_bytes_length, write_bmp_rows_length]
    have : w * 3 + (round_up4 (3 * w) - 3 * w) = round_up4 (3 * w) := by
      unfold round_up4; omega
    simp only [Bool.false_eq_true, if_false]
    rw [this]
  · have e : (54 + 4 * 0 + (3 * (w : Int) + (-3 * (w : Int)) % 4) * h)
        = ((54 + round_up4 (3 * w) * h : Nat) : Int) := by
      have : 3 * (w : Int) + (-3 * (w : Int)) % 4 = (round_up4 (3 * w) : Nat) := by
        unfold round_up4; omega
      rw [this]; push_cast; ring
    rw [e]
    simp only [to_u32]
    omega
  · rw [List.drop_left' (bmp_header_bytes_length _ _ _ _ _ _ _)]

theorem write_bmp_layout_aux (env : Env) (image : List Pixel) (w h : Nat)
    (hs : image.length = w * h) (hm : env.malloc_ok (4 * max_colors) = true) :
    (write_bmp env (some image) w h []).ret = 1 ∧
    (write_bmp env (some image) w h []).file.length
      = 54 + 4 * palette_entries image w h + row_size image w h * h ∧
    le32_at (write_bmp env (some image) w h []).file 2
      = (54 + 4 * palette_entries image w h + row_size image w h * h) % 4294967296 ∧
    le32_at (write_bmp env (some image) w h []).file 10 = 54 + 4 * palette_entries image w h ∧
    (write_bmp env (some image) w h []).file.drop (54 + 4 * palette_entries image w h)
      = write_bmp_rows image w (decide (indexed_mode image w h))
          ((get_image_palette env (some image) w h).palette.getD [])
          (row_size image w h - pixel_size image w h * w) h [] := by
  by_cases hidx : indexed_mode image w h
  · have := write_bmp_layout_indexed env image w h hs hm hidx
    simp only [palette_entries, row_size, pixel_size, hidx, if_true, decide_True, Nat.one_mul]
    exact this
  · have := write_bmp_layout_24bit env image w h hs hm hidx
    simp only [palette_entries, row_size, pixel_size, hidx, if_false, decide_False,
      Nat.mul_zero, Nat.add_zero]
    exact this

theorem round_up4_le (n : Nat) : round_up4 n ≤ n + 3 := by
  unfold round_up4; omega

theorem write_bmp_total_in_range (image : List Pixel) (w h : Nat)
    (hrange : 1078 + 4 * (w + 1) * h < 2147483648) :
    54 + 4 * palette_entries image w h + row_size image w h * h < 2147483648 := by
  have hp : palette_entries image w h ≤ 256 := by
    unfold palette_entries
    split
    · next hi => exact hi.1
    · omega
  have hr : row_size image w h ≤ 3 * w + 3 := by
    unfold row_size
    split
    · have := round_up4_le w; omega
    · exact round_up4_le (3 * w)
  have h1 : row_size image w h * h ≤ (3 * w + 3) * h := Nat.mul_le_mul_right h hr
  have h2 : (3 * w + 3) * h = 3 * (w * h) + 3 * h := by ring
  have h3 : 4 * (w + 1) * h = 4 * (w * h) + 4 * h := by ring
  omega

/-- C10: for every canonical buffer of `w * h` pixels with `h >= 1` whose sizes are in the
range of a C `int` (`1078 + 4 * (w + 1) * h < 2^31` bounds the size of the buffer in
bytes, the shifted width, the row size and the size of the file), the palette allocation
succeeding, `write_bmp` returns success and emits exactly `54 + 4 * n + S * h` bytes,
where `n` is the number of palette entries (0 in 24-bit mode) and `S` the row size rounded
up to a multiple of 4; the 32-bit file-size field at offset 2 holds that total; the
pixel-data-offset field at offset 10 holds `54 + 4 * n`, and the bytes from that position
on are the rows written by the row loop, the first of them the padded bottom row (image
row `h - 1`). -/
theorem write_bmp_layout (env : Env) (image : List Pixel) (w h : Nat)
    (hs : image.length = w * h) (hm : env.malloc_ok (4 * max_colors) = true)
    (hh : 1 ≤ h) (hrange : 1078 + 4 * (w + 1) * h < 2147483648) :
    (write_bmp env (some image) w h []).ret = 1 ∧
    (write_bmp env (some image) w h []).file.length
      = 54 + 4 * palette_entries image w h + row_size image w h * h ∧
    le32_at (write_bmp env (some image) w h []).file 2
      = 54 + 4 * palette_entries image w h + row_size image w h * h ∧
    le32_at (write_bmp env (some image) w h []).file 10 = 54 + 4 * palette_entries image w h ∧
    (write_bmp env (some image) w h []).file.drop (54 + 4 * palette_entries image w h)
      = (write_bmp_row image (decide (indexed_mode image w h))
            ((get_image_palette env (some image) w h).palette.getD []) (w * (h - 1)) w 0 []
          ++ List.replicate (row_size image w h - pixel_size image w h * w) 0)
        ++ write_bmp_rows image w (decide (indexed_mode image w h))
            ((get_image_palette env (some image) w h).palette.getD [])
            (row_size image w h - pixel_size image w h * w) (h - 1) [] := by
  obtain ⟨h1, h2, h3, h4, h5⟩ := write_bmp_layout_aux env image w h hs hm
  have hr := write_bmp_total_in_range image w h hrange
  refine ⟨h1, h2, ?_, h4, ?_⟩
  · rw [h3]
    exact Nat.mod_eq_of_lt (by omega)
  · rw [h5]
    obtain ⟨y, rfl⟩ : ∃ y, h = y + 1 := ⟨h - 1, by omega⟩
    rw [write_bmp_rows_succ]
    rfl

theorem write_bmp_layout_witness :
    image_5x2.length = 5 * 2 ∧ Env.sample.malloc_ok (4 * max_colors) = true ∧ 1 ≤ 2 ∧
    1078 + 4 * (5 + 1) * 2 < 2147483648 ∧
    (write_bmp Env.sample (some image_5x2) 5 2 []).file.length
      = 54 + 4 * palette_entries image_5x2 5 2 + row_size image_5x2 5 2 * 2 ∧
    le32_at (write_bmp Env.sample (some image_5x2) 5 2 []).file 2
      = 54 + 4 * palette_entries image_5x2 5 2 + row_size image_5x2 5 2 * 2 ∧
    le32_at (write_bmp Env.sample (some image_5x2) 5 2 []).file 10
      = 54 + 4 * palette_entries image_5x2 5 2 :=
  ⟨rfl, rfl, by decide, by decide,
    (write_bmp_layout Env.sample image_5x2 5 2 rfl rfl (by decide) (by decide)).2.1,
    (write_bmp_layout Env.sample image_5x2 5 2 rfl rfl (by decide) (by decide)).2.2.1,
    (write_bmp_layout Env.sample image_5x2 5 2 rfl rfl (by decide) (by decide)).2.2.2.1⟩

/-- Every image within the dimension bound of the reader is in the range of the layout
theorem, for every bound `MAX_IMAGE_SIZE` up to 10000, the bound of `Env.sample`. -/
theorem write_bmp_range_of_dimensions (env : Env) (w h : Nat)
    (hmax : env.MAX_IMAGE_SIZE ≤ 10000) (hw : (w : Int) ≤ env.MAX_IMAGE_SIZE)
    (hh : (h : Int) ≤ env.MAX_IMAGE_SIZE) :
    1078 + 4 * (w + 1) * h < 2147483648 := by
  have hw2 : w ≤ 10000 := by omega
  have hh2 : h ≤ 10000 := by omega
  have h1 : 4 * (w + 1) * h ≤ 4 * (10000 + 1) * 10000 :=
    Nat.mul_le_mul (Nat.mul_le_mul_left 4 (by omega)) hh2
  omega

theorem write_bmp_range_of_dimensions_sample :
    Env.sample.MAX_IMAGE_SIZE ≤ 10000 ∧ 1078 + 4 * (10000 + 1) * 10000 < 2147483648 :=
  ⟨by decide, write_bmp_range_of_dimensions Env.sample 10000 10000 (by decide) (by decide)
    (by decide)⟩

set_option maxRecDepth 100000 in
theorem write_bmp_5x2_example :
    (write_bmp Env.sample (some image_5x2) 5 2 []).file.length = 86 ∧
    le32_at (write_bmp Env.sample (some image_5x2) 5 2 []).file 2 = 86 ∧
    le32_at (write_bmp Env.sample (some image_5x2) 5 2 []).file 10 = 54 := by
  decide

/-! ## The flags and the order of the palette -/

theorem get_image_palette_check_use (st : PaletteInfo) (pixel : Pixel) :
    (get_image_palette_check st pixel).use_color = st.use_color ∧
    (get_image_palette_check st pixel).use_alpha = st.use_alpha := by
  unfold get_image_palette_check
  split
  · exact ⟨rfl, rfl⟩
  · dsimp only
    split_ifs <;> exact ⟨rfl, rfl⟩

theorem uses_color_append (l : List Pixel) (p : Pixel) :
    uses_color (l ++ [p]) ↔ uses_color l ∨ (p.r ≠ p.g ∨ p.r ≠ p.b) := by
  simp only [uses_color, List.mem_append, List.mem_singleton]
  constructor
  · rintro ⟨q, hq | hq, h⟩
    · exact Or.inl ⟨q, hq, h⟩
    · subst hq; exact Or.inr h
  · rintro (⟨q, hq, h⟩ | h)
    · exact ⟨q, Or.inl hq, h⟩
    · exact ⟨p, Or.inr rfl, h⟩

theorem uses_alpha_append (l : List Pixel) (p : Pixel) :
    uses_alpha (l ++ [p]) ↔ uses_alpha l ∨ p.a ≠ 255 := by
  simp only [uses_alpha, List.mem_append, List.mem_singleton]
  constructor
  · rintro ⟨q, hq | hq, h⟩
    · exact Or.inl ⟨q, hq, h⟩
    · subst hq; exact Or.inr h
  · rintro (⟨q, hq, h⟩ | h)
    · exact ⟨q, Or.inl hq, h⟩
    · exact ⟨p, Or.inr rfl, h⟩

theorem get_image_palette_pixel_use (st : PaletteInfo) (pixel : Pixel) :
    (get_image_palette_pixel st pixel).use_color
        = (if pixel.r ≠ pixel.g ∨ pixel.r ≠ pixel.b then 1 else st.use_color) ∧
    (get_image_palette_pixel st pixel).use_alpha
        = (if pixel.a ≠ 255 then 1 else st.use_alpha) := by
  unfold get_image_palette_pixel
  dsimp only
  rw [(get_image_palette_check_use _ pixel).1, (get_image_palette_check_use _ pixel).2]
  constructor <;> split_ifs <;> rfl

theorem flags_state_step (l : List Pixel) (st : PaletteInfo) (pixel : Pixel)
    (h : flags_state l st) :
    flags_state (l ++ [pixel]) (get_image_palette_pixel st pixel) := by
  obtain ⟨hc, ha⟩ := h
  unfold flags_state
  rw [(get_image_palette_pixel_use st pixel).1, (get_image_palette_pixel_use st pixel).2,
    uses_color_append, uses_alpha_append]
  constructor
  · by_cases h1 : pixel.r ≠ pixel.g ∨ pixel.r ≠ pixel.b
    · rw [if_pos h1]; exact Or.inl ⟨rfl, Or.inr h1⟩
    · rw [if_neg h1]
      rcases hc with ⟨e, hu⟩ | ⟨e, hu⟩
      · exact Or.inl ⟨e, Or.inl hu⟩
      · exact Or.inr ⟨e, fun h' => h'.elim hu h1⟩
  · by_cases h1 : pixel.a ≠ 255
    · rw [if_pos h1]; exact Or.inl ⟨rfl, Or.inr h1⟩
    · rw [if_neg h1]
      rcases ha with ⟨e, hu⟩ | ⟨e, hu⟩
      · exact Or.inl ⟨e, Or.inl hu⟩
      · exact Or.inr ⟨e, fun h' => h'.elim hu h1⟩

theorem flags_state_foldl (l : List Pixel) :
    flags_state l (l.foldl get_image_palette_pixel ⟨some [], 0, 0, 0⟩) := by
  induction l using List.reverseRecOn with
  | nil =>
    refine ⟨Or.inr ⟨rfl, ?_⟩, Or.inr ⟨rfl, ?_⟩⟩
    · rintro ⟨p, hp, _⟩; simp at hp
    · rintro ⟨p, hp, _⟩; simp at hp
  | append_singleton l p ih =>
    rw [List.foldl_append]
    exact flags_state_step l _ p ih

/-- C11: for every non-null image of `w * h` pixels (the palette table being allocated),
`get_image_palette` sets `use_color` to 1 exactly when some pixel has R != G or R != B and
to 0 otherwise, and sets `use_alpha` to 1 exactly when some pixel has alpha != 255 and to 0
otherwise; both tests run over all `w * h` pixels, whether or not the palette overflowed
on the way. -/
theorem get_image_palette_flags (env : Env) (image : List Pixel) (w h : Nat)
    (hs : image.length = w * h) (hm : env.malloc_ok (4 * max_colors) = true) :
    (((get_image_palette env (some image) w h).use_color = 1 ∧ uses_color image) ∨
      ((get_image_palette env (some image) w h).use_color = 0 ∧ ¬ uses_color image)) ∧
    (((get_image_palette env (some image) w h).use_alpha = 1 ∧ uses_alpha image) ∨
      ((get_image_palette env (some image) w h).use_alpha = 0 ∧ ¬ uses_alpha image)) := by
  unfold get_image_palette
  dsimp only
  rw [if_pos hm, ← hs, List.take_length]
  exact flags_state_foldl image

theorem first_seen_order_mem (l pal : List Pixel) (pixel : Pixel)
    (h : first_seen_order l pal) (hm : pixel ∈ pal) :
    first_seen_order (l ++ [pixel]) pal := by
  obtain ⟨hmem, hord⟩ := h
  constructor
  · intro p
    rw [hmem p, List.mem_append, List.mem_singleton]
    constructor
    · exact Or.inl
    · rintro (h1 | h1)
      · exact h1
      · rw [h1]; exact (hmem pixel).mp hm
  · refine hord.imp_of_mem ?_
    intro a b ha hb hab
    rw [List.indexOf_append_of_mem ((hmem a).mp ha), List.indexOf_append_of_mem ((hmem b).mp hb)]
    exact hab

theorem first_seen_order_new (l pal : List Pixel) (pixel : Pixel)
    (h : first_seen_order l pal) (hm : pixel ∉ pal) :
    first_seen_order (l ++ [pixel]) (pal ++ [pixel]) := by
  obtain ⟨hmem, hord⟩ := h
  have hl : pixel ∉ l := fun h' => hm ((hmem pixel).mpr h')
  constructor
  · intro p
    simp only [List.mem_append, List.mem_singleton, hmem p]
  · rw [List.pairwise_append]
    refine ⟨?_, List.pairwise_singleton _ _, ?_⟩
    · refine hord.imp_of_mem ?_
      intro a b ha hb hab
      rw [List.indexOf_append_of_mem ((hmem a).mp ha),
        List.indexOf_append_of_mem ((hmem b).mp hb)]
      exact hab
    · intro a ha b hb
      rw [List.mem_singleton] at hb
      subst hb
      rw [List.indexOf_append_of_mem ((hmem a).mp ha), List.indexOf_append_of_not_mem hl]
      have := List.indexOf_lt_length.mpr ((hmem a).mp ha)
      omega

theorem palette_order_step (l : List Pixel) (st : PaletteInfo) (pixel : Pixel)
    (h : palette_order l st) :
    palette_order (l ++ [pixel]) (get_image_palette_pixel st pixel) := by
  obtain ⟨st', he, hp, hn⟩ := get_image_palette_pixel_flags st pixel
  rw [he]
  cases hpal : st'.palette with
  | none =>
    rw [get_image_palette_check_none st' pixel hpal]
    intro pal hpal'
    rw [hpal] at hpal'
    exact absurd hpal' (by simp)
  | some pal0 =>
    obtain ⟨hnum, hord⟩ := h pal0 (by rw [← hp, hpal])
    rw [← hn] at hnum
    by_cases hm : pixel ∈ pal0
    · rw [get_image_palette_check_mem st' pixel pal0 hpal hnum hm]
      intro pal hpal'
      rw [hpal] at hpal'
      cases hpal'
      exact ⟨hnum, first_seen_order_mem l pal0 pixel hord hm⟩
    · by_cases hl : pal0.length < 256
      · rw [get_image_palette_check_new st' pixel pal0 hpal hnum hm hl]
        intro pal hpal'
        cases hpal'
        refine ⟨?_, first_seen_order_new l pal0 pixel hord hm⟩
        simp only [List.length_append, List.length_singleton]
        rw [hnum]; push_cast; rfl
      · rw [get_image_palette_check_full st' pixel pal0 hpal hnum hm (by omega)]
        intro pal hpal'
        exact absurd hpal' (by simp)

theorem palette_order_foldl (l : List Pixel) :
    palette_order l (l.foldl get_image_palette_pixel ⟨some [], 0, 0, 0⟩) := by
  induction l using List.reverseRecOn with
  | nil =>
    intro pal hpal
    cases hpal
    exact ⟨rfl, fun p => Iff.rfl, List.Pairwise.nil⟩
  | append_singleton l p ih =>
    rw [List.foldl_append]
    exact palette_order_step l _ p ih

theorem get_image_palette_order (env : Env) (image : List Pixel) (w h : Nat)
    (hs : image.length = w * h) :
    palette_order image (get_image_palette env (some image) w h) := by
  unfold get_image_palette
  dsimp only
  split
  · rw [← hs, List.take_length]
    exact palette_order_foldl image
  · intro pal hpal
    exact absurd hpal (by simp)

/-- C12: for every non-null image of `w * h` pixels, the palette table being allocated,
`get_image_palette` returns a palette exactly when the image has at most 256 distinct pixel
values, and then `num_colors` (the number of palette entries) is the number of distinct
pixel values; with 257 or more distinct pixel values it returns no palette and sets
`num_colors` to -1. -/
theorem get_image_palette_count (env : Env) (image : List Pixel) (w h : Nat)
    (hs : image.length = w * h) (hm : env.malloc_ok (4 * max_colors) = true) :
    ((get_image_palette env (some image) w h).palette.isSome = true
      ↔ distinct_colors image ≤ 256) ∧
    (distinct_colors image ≤ 256 →
      ∃ pal, (get_image_palette env (some image) w h).palette = some pal ∧
        pal.length = distinct_colors image ∧
        (get_image_palette env (some image) w h).num_colors = distinct_colors image) ∧
    (257 ≤ distinct_colors image →
      (get_image_palette env (some image) w h).palette = none ∧
        (get_image_palette env (some image) w h).num_colors = -1) := by
  have hst := get_image_palette_state env image w h hs hm
  unfold distinct_colors
  refine ⟨?_, ?_, ?_⟩
  · constructor
    · intro h1
      by_contra hc
      rw [(hst.2 (by omega)).1] at h1
      simp at h1
    · intro hc
      obtain ⟨pal, hpal, _⟩ := hst.1 hc
      rw [hpal]; rfl
  · intro hc
    obtain ⟨pal, hpal, hnd, hmem, hnum⟩ := hst.1 hc
    have hlen := nodup_card pal image hnd hmem
    exact ⟨pal, hpal, hlen.symm, by rw [hnum, hlen]⟩
  · intro hc
    exact hst.2 (by omega)

/-- C13: whenever `get_image_palette` returns a palette for an image of `w * h` pixels,
`num_colors` is the number of its entries, the entries are pairwise distinct, every pixel
value of the image occurs among them, every entry occurs in the image, and an entry that
comes before another one in the palette has its first occurrence in the row-major scan of
the image before the first occurrence of the other. -/
theorem get_image_palette_first_seen (env : Env) (image : List Pixel) (w h : Nat)
    (pal : List Pixel) (hs : image.length = w * h)
    (hp : (get_image_palette env (some image) w h).palette = some pal) :
    (get_image_palette env (some image) w h).num_colors = pal.length ∧
    pal.Nodup ∧ (∀ p ∈ image, p ∈ pal) ∧ (∀ p ∈ pal, p ∈ image) ∧
    pal.Pairwise (fun p q => image.indexOf p < image.indexOf q) := by
  obtain ⟨hnum, hmem, hord⟩ := get_image_palette_order env image w h hs pal hp
  refine ⟨hnum, ?_, fun p hp' => (hmem p).mpr hp', fun p hp' => (hmem p).mp hp', hord⟩
  refine hord.imp ?_
  intro a b hab he
  rw [he] at hab
  exact absurd hab (lt_irrefl _)

set_option maxRecDepth 100000 in
theorem get_image_palette_overflow :
    get_image_palette Env.sample (some overflow_image) 258 1 = ⟨none, -1, 1, 1⟩ := by
  decide!

theorem get_image_palette_flags_witness :
    (((get_image_palette Env.sample (some overflow_image) 258 1).use_color = 1
        ∧ uses_color overflow_image) ∨
      ((get_image_palette Env.sample (some overflow_image) 258 1).use_color = 0
        ∧ ¬ uses_color overflow_image)) ∧
    (((get_image_palette Env.sample (some overflow_image) 258 1).use_alpha = 1
        ∧ uses_alpha overflow_image) ∨
      ((get_image_palette Env.sample (some overflow_image) 258 1).use_alpha = 0
        ∧ ¬ uses_alpha overflow_image)) :=
  get_image_palette_flags Env.sample overflow_image 258 1 (by simp [overflow_image]) rfl

theorem get_image_palette_count_witness :
    (get_image_palette Env.sample (some image_4x2) 4 2).palette
      = some [⟨1, 2, 3, 255⟩, ⟨7, 8, 9, 255⟩] ∧
    (get_image_palette Env.sample (some image_4x2) 4 2).num_colors = 2 ∧
    distinct_colors image_4x2 = 2 ∧
    ((get_image_palette Env.sample (some image_4x2) 4 2).palette.isSome = true
      ↔ distinct_colors image_4x2 ≤ 256) :=
  ⟨by decide, by decide, by decide,
    (get_image_palette_count Env.sample image_4x2 4 2 (by decide) rfl).1⟩

theorem get_image_palette_first_seen_witness :
    (get_image_palette Env.sample (some image_4x2) 4 2).num_colors
      = ([⟨1, 2, 3, 255⟩, ⟨7, 8, 9, 255⟩] : List Pixel).length ∧
    ([⟨1, 2, 3, 255⟩, ⟨7, 8, 9, 255⟩] : List Pixel).Nodup ∧
    (∀ p ∈ image_4x2, p ∈ ([⟨1, 2, 3, 255⟩, ⟨7, 8, 9, 255⟩] : List Pixel)) ∧
    (∀ p ∈ ([⟨1, 2, 3, 255⟩, ⟨7, 8, 9, 255⟩] : List Pixel), p ∈ image_4x2) ∧
    ([⟨1, 2, 3, 255⟩, ⟨7, 8, 9, 255⟩] : List Pixel).Pairwise
      (fun p q => image_4x2.indexOf p < image_4x2.indexOf q) :=
  get_image_palette_first_seen Env.sample image_4x2 4 2 _ (by decide) (by decide)

/-! ## The alpha channel and the encoder -/

theorem indexOf_same_equalities (a b : List Pixel) (hp : same_equalities a b) (j : Nat)
    (hj : j < a.length) :
    ∀ I : List Nat, (∀ i ∈ I, i < a.length) →
      List.indexOf (a.getD j default) (I.map fun i => a.getD i default)
        = List.indexOf (b.getD j default) (I.map fun i => b.getD i default) := by
  intro I
  induction I with
  | nil => intro _; rfl
  | cons i I ih =>
    intro hI
    have hi : i < a.length := hI i (List.mem_cons_self _ _)
    have hrest := ih (fun k hk => hI k (List.mem_cons_of_mem _ hk))
    simp only [List.map_cons]
    by_cases he : a.getD i default = a.getD j default
    · have he' := (hp i j hi hj).mp he
      rw [List.indexOf_cons_eq _ he, List.indexOf_cons_eq _ he']
    · have he' : ¬ b.getD i default = b.getD j default := fun h => he ((hp i j hi hj).mpr h)
      rw [List.indexOf_cons_ne _ he, List.indexOf_cons_ne _ he', hrest]

theorem palette_rel_step (a b : List Pixel) (hp : same_equalities a b) (sa sb : PaletteInfo)
    (j : Nat) (hj : j < a.length) (h : palette_rel a b sa sb) :
    palette_rel a b (get_image_palette_pixel sa (a.getD j default))
      (get_image_palette_pixel sb (b.getD j default)) := by
  obtain ⟨sa', hea, hpa, hna⟩ := get_image_palette_pixel_flags sa (a.getD j default)
  obtain ⟨sb', heb, hpb, hnb⟩ := get_image_palette_pixel_flags sb (b.getD j default)
  rw [hea, heb]
  obtain ⟨hn, hpal⟩ := h
  rw [← hna, ← hnb] at hn
  rcases hpal with ⟨h1, h2⟩ | ⟨I, hI, h1, h2⟩
  · rw [← hpa] at h1
    rw [← hpb] at h2
    rw [get_image_palette_check_none _ _ h1, get_image_palette_check_none _ _ h2]
    exact ⟨hn, Or.inl ⟨h1, h2⟩⟩
  · rw [← hpa] at h1
    rw [← hpb] at h2
    unfold get_image_palette_check
    rw [h1, h2]
    dsimp only
    rw [indexOf_same_equalities a b hp j hj I hI, hn]
    split_ifs
    · refine ⟨by simp only [hn], Or.inr ⟨I ++ [j], ?_, ?_, ?_⟩⟩
      · intro i hi
        rw [List.mem_append, List.mem_singleton] at hi
        rcases hi with hi | hi
        · exact hI i hi
        · rw [hi]; exact hj
      · simp
      · simp
    · exact ⟨rfl, Or.inl ⟨rfl, rfl⟩⟩
    · exact ⟨hn, Or.inr ⟨I, hI, h1, h2⟩⟩

theorem palette_rel_take (a b : List Pixel) (hl : a.length = b.length)
    (hp : same_equalities a b) :
    ∀ k, k ≤ a.length →
      palette_rel a b ((a.take k).foldl get_image_palette_pixel ⟨some [], 0, 0, 0⟩)
        ((b.take k).foldl get_image_palette_pixel ⟨some [], 0, 0, 0⟩) := by
  intro k
  induction k with
  | zero =>
    intro _
    exact ⟨rfl, Or.inr ⟨[], by simp, rfl, rfl⟩⟩
  | succ k ih =>
    intro hk
    rw [take_succ_getD a k (by omega), take_succ_getD b k (by omega), List.foldl_append,
      List.foldl_append]
    exact palette_rel_step a b hp _ _ k (by omega) (ih (by omega))

theorem palette_rel_get_image_palette (env : Env) (a b : List Pixel) (w h : Nat)
    (ha : a.length = w * h) (hb : b.length = w * h) (hp : same_equalities a b) :
    palette_rel a b (get_image_palette env (some a) w h) (get_image_palette env (some b) w h) := by
  unfold get_image_palette
  dsimp only
  split
  · rw [← ha]
    have := palette_rel_take a b (by rw [ha, hb]) hp a.length (le_refl _)
    rw [List.take_length] at this
    rw [List.take_length, show a.length = b.length from by rw [ha, hb], List.take_length]
    rw [List.take_of_length_le (by rw [ha, hb])] at this
    exact this
  · exact ⟨rfl, Or.inl ⟨rfl, rfl⟩⟩
theorem write_bmp_palette_congr (a b : List Pixel)
    (hd : ∀ i, i < a.length → same_rgb (a.getD i default) (b.getD i default)) :
    ∀ (I : List Nat) (file : List Byte), (∀ i ∈ I, i < a.length) →
      write_bmp_palette (I.map fun i => a.getD i default) file
        = write_bmp_palette (I.map fun i => b.getD i default) file := by
  intro I
  induction I with
  | nil => intro file _; rfl
  | cons i I ih =>
    intro file hI
    obtain ⟨hr, hg, hb⟩ := hd i (hI i (List.mem_cons_self _ _))
    simp only [List.map_cons, write_bmp_palette]
    rw [hr, hg, hb]
    exact ih _ (fun k hk => hI k (List.mem_cons_of_mem _ hk))

theorem write_bmp_row_congr (a b : List Pixel) (use_palette : Bool) (pa pb : List Pixel)
    (row : Nat)
    (hd : ∀ i, i < a.length → same_rgb (a.getD i default) (b.getD i default))
    (hi : use_palette = true → ∀ i, i < a.length →
      pa.indexOf (a.getD i default) = pb.indexOf (b.getD i default)) :
    ∀ (n x : Nat) (file : List Byte), row + x + n ≤ a.length →
      write_bmp_row a use_palette pa row n x file
        = write_bmp_row b use_palette pb row n x file := by
  intro n
  induction n with
  | zero => intro x file _; rfl
  | succ n ih =>
    intro x file hlen
    unfold write_bmp_row
    dsimp only
    obtain ⟨hr, hg, hb⟩ := hd (row + x) (by omega)
    rw [hr, hg, hb]
    cases hu : use_palette with
    | false =>
      simp only [Bool.false_eq_true, if_false]
      rw [← hu]
      exact ih (x + 1) _ (by omega)
    | true =>
      simp only [if_true]
      rw [hi hu (row + x) (by omega), ← hu]
      exact ih (x + 1) _ (by omega)

theorem write_bmp_rows_congr (a b : List Pixel) (width : Nat) (use_palette : Bool)
    (pa pb : List Pixel) (row_padding : Nat)
    (hd : ∀ i, i < a.length → same_rgb (a.getD i default) (b.getD i default))
    (hi : use_palette = true → ∀ i, i < a.length →
      pa.indexOf (a.getD i default) = pb.indexOf (b.getD i default)) :
    ∀ (y : Nat) (file : List Byte), width * y ≤ a.length →
      write_bmp_rows a width use_palette pa row_padding y file
        = write_bmp_rows b width use_palette pb row_padding y file := by
  intro y
  induction y with
  | zero => intro file _; rfl
  | succ y ih =>
    intro file hlen
    unfold write_bmp_rows
    dsimp only
    rw [Nat.mul_succ] at hlen
    rw [write_bmp_row_congr a b use_palette pa pb (width * y) hd hi width 0 file (by omega)]
    exact ih _ (by omega)

/-- C14: two canonical buffers of `w * h` pixels that differ only in their alpha bytes, and
in which equal pixels are at the same positions, produce byte-identical BMP files; the
alpha bytes are never written, and they count only in the comparison of pixel values of
the palette analysis. -/
theorem write_bmp_alpha_independent (env : Env) (a b : List Pixel) (w h : Nat)
    (file : List Byte) (ha : a.length = w * h)
    (hd : differ_only_in_alpha a b) (hp : same_equalities a b) :
    write_bmp env (some a) w h file = write_bmp env (some b) w h file := by
  obtain ⟨hl, hd⟩ := hd
  have hb : b.length = w * h := by rw [← hl, ha]
  obtain ⟨hn, hpal⟩ := palette_rel_get_image_palette env a b w h ha hb hp
  unfold write_bmp
  dsimp only
  rw [hn]
  rcases hpal with ⟨h1, h2⟩ | ⟨I, hI, h1, h2⟩
  · rw [h1, h2]
    simp only [Option.isSome_none, Bool.false_and, Bool.false_eq_true, if_false,
      Option.getD_none]
    congr 1
    exact write_bmp_rows_congr a b w false [] [] _ hd (fun hu => absurd hu (by simp)) h _
      (by rw [ha])
  · rw [h1, h2]
    simp only [Option.isSome_some, Bool.true_and, Option.getD_some]
    congr 1
    rw [write_bmp_rows_congr a b w _ _ _ _ hd
      (fun _ i hi => indexOf_same_equalities a b hp i hi I hI) h _ (by rw [ha])]
    congr 1
    split
    · exact write_bmp_palette_congr a b hd I _ hI
    · rfl
theorem differ_only_in_alpha_3x1 : differ_only_in_alpha image_3x1_opaque image_3x1_alpha := by
  refine ⟨rfl, ?_⟩
  intro i hi
  have hi' : i < 3 := hi
  interval_cases i <;> decide

/-- The counterexample to C14 as stated: the 3 x 1 image of three opaque pixels (1, 2, 3)
and the 3 x 1 image of the same colours with alpha 0, 1 and 2 differ only in their alpha
bytes, and `write_bmp` encodes the first as an indexed file of 62 bytes and the second as
a 24-bit file of 66 bytes. -/
theorem write_bmp_depends_on_alpha :
    differ_only_in_alpha image_3x1_opaque image_3x1_alpha ∧
    (write_bmp Env.sample (some image_3x1_opaque) 3 1 []).file.length = 62 ∧
    (write_bmp Env.sample (some image_3x1_alpha) 3 1 []).file.length = 66 ∧
    write_bmp Env.sample (some image_3x1_opaque) 3 1 []
      ≠ write_bmp Env.sample (some image_3x1_alpha) 3 1 [] :=
  ⟨differ_only_in_alpha_3x1, by decide, by decide, by decide⟩

theorem differ_only_in_alpha_4x2 : differ_only_in_alpha image_4x2 image_4x2_alpha := by
  refine ⟨rfl, ?_⟩
  intro i hi
  have hi' : i < 8 := hi
  interval_cases i <;> decide

theorem same_equalities_4x2 : same_equalities image_4x2 image_4x2_alpha := by
  intro i j hi hj
  have hi' : i < 8 := hi
  have hj' : j < 8 := hj
  interval_cases i <;> interval_cases j <;> decide

theorem write_bmp_alpha_independent_witness :
    write_bmp Env.sample (some image_4x2) 4 2 []
      = write_bmp Env.sample (some image_4x2_alpha) 4 2 [] :=
  write_bmp_alpha_independent Env.sample image_4x2 image_4x2_alpha 4 2 [] rfl
    differ_only_in_alpha_4x2 same_equalities_4x2

/-! ## Sequences of stores -/

theorem apply_writes_append {α : Type} (ws1 ws2 : List (Nat × α)) :
    ∀ buf : List α, apply_writes (ws1 ++ ws2) buf
      = (apply_writes ws1 buf >>= fun b => apply_writes ws2 b) := by
  induction ws1 with
  | nil => intro buf; rfl
  | cons p ws1 ih =>
    intro buf
    obtain ⟨i, v⟩ := p
    simp only [List.cons_append, apply_writes]
    cases store buf (i : Int) v with
    | error e => rfl
    | ok b => exact ih b

theorem getD_set_eq {α : Type} (buf : List α) (i : Nat) (v d : α) (h : i < buf.length) :
    (buf.set i v).getD i d = v := by
  simp [List.getD_eq_getElem?_getD, List.getElem?_set, h]

theorem getD_set_ne {α : Type} (buf : List α) (i j : Nat) (v d : α) (h : i ≠ j) :
    (buf.set i v).getD j d = buf.getD j d := by
  simp [List.getD_eq_getElem?_getD, List.getElem?_set, h]

theorem apply_writes_ok {α : Type} (d : α) :
    ∀ (ws : List (Nat × α)) (buf : List α), (∀ p ∈ ws, p.1 < buf.length) →
      ∃ buf', apply_writes ws buf = .ok buf' ∧ buf'.length = buf.length ∧
        ∀ j v, (∀ p ∈ ws, p.1 = j → p.2 = v) →
          ((∃ p ∈ ws, p.1 = j) ∨ buf.getD j d = v) → buf'.getD j d = v := by
  intro ws
  induction ws with
  | nil =>
    intro buf _
    refine ⟨buf, rfl, rfl, ?_⟩
    intro j v _ h
    rcases h with ⟨p, hp, _⟩ | h
    · simp at hp
    · exact h
  | cons p ws ih =>
    intro buf hb
    obtain ⟨i, v0⟩ := p
    have hi : i < buf.length := hb (i, v0) (List.mem_cons_self _ _)
    obtain ⟨buf', he, hlen, hget⟩ := ih (buf.set i v0) (by
      intro p hp
      rw [List.length_set]
      exact hb p (List.mem_cons_of_mem _ hp))
    refine ⟨buf', ?_, ?_, ?_⟩
    · simp only [apply_writes]
      rw [store_ok buf i v0 hi]
      exact he
    · rw [hlen, List.length_set]
    · intro j v hall hex
      apply hget j v (fun p hp => hall p (List.mem_cons_of_mem _ hp))
      by_cases hij : i = j
      · right
        have : v0 = v := hall (i, v0) (List.mem_cons_self _ _) hij
        rw [← hij, this]
        exact getD_set_eq buf i v d hi
      · rcases hex with ⟨p, hp, hpj⟩ | hex
        · rcases List.mem_cons.mp hp with hp | hp
          · exact absurd (by rw [← hpj, hp]) hij
          · exact Or.inl ⟨p, hp, hpj⟩
        · right
          rw [getD_set_ne buf i j v0 d hij]
          exact hex
/-! ## The stores of `convert_to_format` -/

theorem num_channels_cases (format : Format) :
    num_channels format = 1 ∨ num_channels format = 3 ∨ num_channels format = 4 := by
  unfold num_channels
  split_ifs <;> simp

theorem except_bind_ok {α : Type} (x : Except Fault α) :
    (x >>= fun a => (Except.ok a : Except Fault α)) = x := by
  cases x <;> rfl

theorem except_bind_assoc {α β γ : Type} (x : Except Fault α) (f : α → Except Fault β)
    (g : β → Except Fault γ) :
    ((x >>= f) >>= g) = (x >>= fun a => f a >>= g) := by
  cases x <;> rfl

theorem apply_writes_nil {α : Type} (buf : List α) :
    apply_writes ([] : List (Nat × α)) buf = .ok buf := rfl

theorem apply_writes_cons {α : Type} (i : Nat) (v : α) (ws : List (Nat × α)) (buf : List α) :
    apply_writes ((i, v) :: ws) buf = (store buf (i : Int) v >>= fun b => apply_writes ws b) :=
  rfl

theorem except_ok_bind {α β : Type} (a : α) (f : α → Except Fault β) :
    ((Except.ok a : Except Fault α) >>= f) = f a := rfl

theorem pixel_block_writes {β : Type} (env : Env) (format : Format) (w h : Nat) (pixel : Pixel)
    (i : Nat) (dest : List Byte) (k : List Byte → Except Fault β) :
    (if num_channels format = 1 then
        store dest i (env.gray_u8 (pixel.byte 0) (pixel.byte 1) (pixel.byte 2)) >>= k
      else if num_channels format = 3 then
        store dest i (pixel.byte ((channel_order format).getD 0 0)) >>= fun dest =>
        store dest (i + channel_stride format w h)
          (pixel.byte ((channel_order format).getD 1 0)) >>= fun dest =>
        store dest (i + 2 * channel_stride format w h)
          (pixel.byte ((channel_order format).getD 2 0)) >>= k
      else
        store dest i (pixel.byte ((channel_order format).getD 0 0)) >>= fun dest =>
        store dest (i + channel_stride format w h)
          (pixel.byte ((channel_order format).getD 1 0)) >>= fun dest =>
        store dest (i + 2 * channel_stride format w h)
          (pixel.byte ((channel_order format).getD 2 0)) >>= fun dest =>
        store dest (i + 3 * channel_stride format w h)
          (pixel.byte ((channel_order format).getD 3 0)) >>= k)
      = (apply_writes (pixel_writes env format w h pixel i) dest >>= k) := by
  unfold pixel_writes channel_value
  rcases num_channels_cases format with hc | hc | hc
  · rw [hc, if_pos rfl]
    simp only [List.range_succ, List.range_zero, List.nil_append, List.map_cons, List.map_nil,
      if_true, Nat.zero_mul, Nat.add_zero, apply_writes_cons, apply_writes_nil,
      except_bind_assoc, except_ok_bind]
  · rw [hc, if_neg (by decide), if_pos rfl]
    simp only [List.range_succ, List.range_zero, List.nil_append, List.cons_append,
      List.map_cons, List.map_nil, Nat.zero_mul, Nat.add_zero, Nat.one_mul,
      show ¬ ((3 : Nat) = 1) from by decide, if_false, apply_writes_cons, apply_writes_nil,
      except_bind_assoc, except_ok_bind]
    push_cast
    rfl
  · rw [hc, if_neg (by decide), if_neg (by decide)]
    simp only [List.range_succ, List.range_zero, List.nil_append, List.cons_append,
      List.map_cons, List.map_nil, Nat.zero_mul, Nat.add_zero, Nat.one_mul,
      show ¬ ((4 : Nat) = 1) from by decide, if_false, apply_writes_cons, apply_writes_nil,
      except_bind_assoc, except_ok_bind]
    push_cast
    rfl

theorem convert_to_format_row_writes (env : Env) (format : Format) (w h : Nat)
    (src : List Pixel) (srow : Nat) :
    ∀ (n x i : Nat) (dest : List Byte),
      convert_to_format_row env format w h src srow n x i dest
        = apply_writes (row_writes env format w h src srow n x i) dest := by
  intro n
  induction n with
  | zero => intro x i dest; rfl
  | succ n ih =>
    intro x i dest
    unfold convert_to_format_row
    simp only [row_writes]
    rw [apply_writes_append]
    simp only [ih]
    exact pixel_block_writes env format w h _ i dest _

theorem convert_to_format_rows_writes (env : Env) (format : Format) (w h : Nat)
    (src : List Pixel) :
    ∀ (n y : Nat) (dest : List Byte),
      convert_to_format_rows env format w h src n y dest
        = apply_writes (rows_writes env format w h src n y) dest := by
  intro n
  induction n with
  | zero => intro y dest; rfl
  | succ n ih =>
    intro y dest
    unfold convert_to_format_rows
    simp only [rows_writes]
    rw [apply_writes_append, convert_to_format_row_writes]
    simp only [ih]
theorem mem_pixel_writes (env : Env) (format : Format) (w h : Nat) (pixel : Pixel) (i : Nat)
    (p : Nat × Byte) :
    p ∈ pixel_writes env format w h pixel i ↔
      ∃ k, k < num_channels format ∧
        p = (i + k * channel_stride format w h, channel_value env format pixel k) := by
  unfold pixel_writes
  rw [List.mem_map]
  constructor
  · rintro ⟨k, hk, he⟩
    exact ⟨k, List.mem_range.mp hk, he.symm⟩
  · rintro ⟨k, hk, he⟩
    exact ⟨k, List.mem_range.mpr hk, he.symm⟩

theorem mem_row_writes (env : Env) (format : Format) (w h : Nat) (src : List Pixel)
    (srow : Nat) (p : Nat × Byte) :
    ∀ (n x i : Nat),
      p ∈ row_writes env format w h src srow n x i ↔
        ∃ t, t < n ∧ ∃ k, k < num_channels format ∧
          p = (i + t * pixel_stride format h + k * channel_stride format w h,
            channel_value env format (src.getD (srow + (x + t)) default) k) := by
  intro n
  induction n with
  | zero =>
    intro x i
    simp [row_writes]
  | succ n ih =>
    intro x i
    simp only [row_writes, List.mem_append, mem_pixel_writes, ih]
    constructor
    · rintro (⟨k, hk, he⟩ | ⟨t, ht, k, hk, he⟩)
      · exact ⟨0, by omega, k, hk, by simpa using he⟩
      · refine ⟨t + 1, by omega, k, hk, ?_⟩
        rw [he]
        congr 2
        · ring
        · congr 2; omega
    · rintro ⟨t, ht, k, hk, he⟩
      cases t with
      | zero => exact Or.inl ⟨k, hk, by simpa using he⟩
      | succ t =>
        refine Or.inr ⟨t, by omega, k, hk, ?_⟩
        rw [he]
        congr 2
        · ring
        · congr 2; omega

theorem mem_rows_writes (env : Env) (format : Format) (w h : Nat) (src : List Pixel)
    (p : Nat × Byte) :
    ∀ (n y : Nat),
      p ∈ rows_writes env format w h src n y ↔
        ∃ s, s < n ∧ ∃ t, t < w ∧ ∃ k, k < num_channels format ∧
          p = (row_stride format w * (y + s) + t * pixel_stride format h
                + k * channel_stride format w h,
            channel_value env format (src.getD (w * (y + s) + t) default) k) := by
  intro n
  induction n with
  | zero =>
    intro y
    simp [rows_writes]
  | succ n ih =>
    intro y
    simp only [rows_writes, List.mem_append, mem_row_writes, ih]
    constructor
    · rintro (⟨t, ht, k, hk, he⟩ | ⟨s, hs, t, ht, k, hk, he⟩)
      · exact ⟨0, by omega, t, ht, k, hk, by simpa using he⟩
      · refine ⟨s + 1, by omega, t, ht, k, hk, ?_⟩
        rw [he]
        congr 2
        · ring
        · congr 2; ring
    · rintro ⟨s, hs, t, ht, k, hk, he⟩
      cases s with
      | zero => exact Or.inl ⟨t, ht, k, hk, by simpa using he⟩
      | succ s =>
        refine Or.inr ⟨s, by omega, t, ht, k, hk, ?_⟩
        rw [he]
        congr 2
        · ring
        · congr 2; ring

/-! ## The index maps of the four layouts -/

theorem mul_add_lt (a m b n : Nat) (ha : a < m) (hb : b < n) : a * n + b < m * n := by
  calc a * n + b < a * n + n := by omega
    _ = (a + 1) * n := by ring
    _ ≤ m * n := Nat.mul_le_mul_right n ha

theorem mul_add_inj (a a' b b' n : Nat) (hb : b < n) (hb' : b' < n)
    (h : a * n + b = a' * n + b') : a = a' ∧ b = b' := by
  have hn : 0 < n := by omega
  have h1 : (a * n + b) / n = a := by
    rw [Nat.mul_comm, Nat.mul_add_div hn, Nat.div_eq_of_lt hb, Nat.add_zero]
  have h2 : (a' * n + b') / n = a' := by
    rw [Nat.mul_comm, Nat.mul_add_div hn, Nat.div_eq_of_lt hb', Nat.add_zero]
  have ha : a = a' := by rw [← h1, ← h2, h]
  subst ha
  exact ⟨rfl, by omega⟩

theorem code_index_eq_layout_index (format : Format) (w h x y k : Nat) :
    row_stride format w * y + x * pixel_stride format h + k * channel_stride format w h
      = layout_index format w h x y k := by
  unfold row_stride pixel_stride channel_stride layout_index
  cases format.planar <;> cases format.columnmajor <;>
    simp only [Bool.false_eq_true, if_false, if_true] <;> ring

theorem layout_index_lt (format : Format) (w h x y k : Nat) (hx : x < w) (hy : y < h)
    (hk : k < num_channels format) :
    layout_index format w h x y k < num_channels format * (w * h) := by
  unfold layout_index
  cases format.planar <;> cases format.columnmajor <;>
    simp only [Bool.false_eq_true, if_false, if_true]
  · have h1 := mul_add_lt y h x w hy hx
    have h2 := mul_add_lt (y * w + x) (h * w) k (num_channels format) h1 hk
    calc (y * w + x) * num_channels format + k < h * w * num_channels format := h2
      _ = num_channels format * (w * h) := by ring
  · have h1 := mul_add_lt x w y h hx hy
    have h2 := mul_add_lt (x * h + y) (w * h) k (num_channels format) h1 hk
    calc (x * h + y) * num_channels format + k < w * h * num_channels format := h2
      _ = num_channels format * (w * h) := by ring
  · have h1 := mul_add_lt y h x w hy hx
    have h2 := mul_add_lt k (num_channels format) (y * w + x) (w * h) hk (by
      calc y * w + x < h * w := h1
        _ = w * h := by ring)
    calc k * w * h + y * w + x = k * (w * h) + (y * w + x) := by ring
      _ < num_channels format * (w * h) := h2
  · have h1 := mul_add_lt x w y h hx hy
    have h2 := mul_add_lt k (num_channels format) (x * h + y) (w * h) hk h1
    calc k * w * h + x * h + y = k * (w * h) + (x * h + y) := by ring
      _ < num_channels format * (w * h) := h2

theorem layout_index_inj (format : Format) (w h x y k x' y' k' : Nat) (hx : x < w)
    (hy : y < h) (hk : k < num_channels format) (hx' : x' < w) (hy' : y' < h)
    (hk' : k' < num_channels format)
    (he : layout_index format w h x y k = layout_index format w h x' y' k') :
    x = x' ∧ y = y' ∧ k = k' := by
  unfold layout_index at he
  revert he
  cases format.planar <;> cases format.columnmajor <;>
    simp only [Bool.false_eq_true, if_false, if_true] <;> intro he
  · obtain ⟨h1, h2⟩ := mul_add_inj _ _ _ _ _ hk hk' he
    obtain ⟨h3, h4⟩ := mul_add_inj _ _ _ _ _ hx hx' h1
    exact ⟨h4, h3, h2⟩
  · obtain ⟨h1, h2⟩ := mul_add_inj _ _ _ _ _ hk hk' he
    obtain ⟨h3, h4⟩ := mul_add_inj _ _ _ _ _ hy hy' h1
    exact ⟨h3, h4, h2⟩
  · have h1 := mul_add_lt y h x w hy hx
    have h1' := mul_add_lt y' h x' w hy' hx'
    have he' : k * (h * w) + (y * w + x) = k' * (h * w) + (y' * w + x') := by
      calc k * (h * w) + (y * w + x) = k * w * h + y * w + x := by ring
        _ = k' * w * h + y' * w + x' := he
        _ = k' * (h * w) + (y' * w + x') := by ring
    obtain ⟨h2, h3⟩ := mul_add_inj _ _ _ _ _ h1 h1' he'
    obtain ⟨h4, h5⟩ := mul_add_inj _ _ _ _ _ hx hx' h3
    exact ⟨h5, h4, h2⟩
  · have h1 := mul_add_lt x w y h hx hy
    have h1' := mul_add_lt x' w y' h hx' hy'
    have he' : k * (w * h) + (x * h + y) = k' * (w * h) + (x' * h + y') := by
      calc k * (w * h) + (x * h + y) = k * w * h + x * h + y := by ring
        _ = k' * w * h + x' * h + y' := he
        _ = k' * (w * h) + (x' * h + y') := by ring
    obtain ⟨h2, h3⟩ := mul_add_inj _ _ _ _ _ h1 h1' he'
    obtain ⟨h4, h5⟩ := mul_add_inj _ _ _ _ _ hy hy' h3
    exact ⟨h4, h5, h2⟩
/-! ## The buffer `convert_to_format` returns -/

theorem convert_to_format_getD (env : Env) (format : Format) (src : List Pixel) (w h : Nat)
    (hu : format.datatype = Datatype.u8)
    (hm : env.malloc_ok (num_channels format * (w * h)) = true) :
    ∃ dest, convert_to_format env src w h format = .ok (some dest) ∧
      dest.length = num_channels format * (w * h) ∧
      ∀ x y k, x < w → y < h → k < num_channels format →
        dest.getD (layout_index format w h x y k) 0
          = channel_value env format (src.getD (w * y + x) default) k := by
  obtain ⟨dest, he, hlen, hget⟩ := apply_writes_ok (0 : Byte)
    (rows_writes env format w h src h 0)
    (List.replicate (num_channels format * (w * h)) 0) (by
      intro p hp
      obtain ⟨s, hs, t, ht, k, hk, hp⟩ := (mem_rows_writes env format w h src p h 0).mp hp
      rw [hp, List.length_replicate]
      dsimp only
      rw [code_index_eq_layout_index]
      exact layout_index_lt format w h t (0 + s) k ht (by omega) hk)
  refine ⟨dest, ?_, ?_, ?_⟩
  · unfold convert_to_format
    rw [hu]
    dsimp only
    rw [if_pos hm, convert_to_format_rows_writes, he]
  · rw [hlen, List.length_replicate]
  · intro x y k hx hy hk
    apply hget
    · intro p hp hj
      obtain ⟨s, hs, t, ht, k', hk', hp⟩ := (mem_rows_writes env format w h src p h 0).mp hp
      rw [hp] at hj ⊢
      dsimp only at hj ⊢
      rw [code_index_eq_layout_index] at hj
      obtain ⟨h1, h2, h3⟩ := layout_index_inj format w h t (0 + s) k' x y k ht (by omega) hk'
        hx hy hk hj
      rw [h1, h2, h3]
    · left
      refine ⟨_, (mem_rows_writes env format w h src _ h 0).mpr
        ⟨y, hy, x, hx, k, hk, rfl⟩, ?_⟩
      dsimp only
      rw [code_index_eq_layout_index, Nat.zero_add]

/-! ## The stores of `convert_from_format` -/

theorem from_pixel_indep (format : Format) (w h : Nat) (src : List Byte) (i : Nat)
    (p q : Pixel) :
    from_pixel format w h src i p = from_pixel format w h src i q := by
  obtain ⟨dt, gray, strip, bgr, aflip, planar, cm⟩ := format
  cases gray <;> cases strip <;> cases bgr <;> cases aflip <;> rfl

theorem convert_from_format_row_writes (format : Format) (w h : Nat) (src : List Byte)
    (drow : Nat) :
    ∀ (n x i : Nat) (dest : List Pixel),
      convert_from_format_row format w h src drow n x i dest
        = apply_writes (from_row_writes format w h src drow n x i) dest := by
  intro n
  induction n with
  | zero => intro x i dest; rfl
  | succ n ih =>
    intro x i dest
    unfold convert_from_format_row
    simp only [from_row_writes, apply_writes_cons, ih]
    rw [from_pixel_indep format w h src i Pixel.indeterminate (dest.getD (drow + x) default)]
    push_cast
    rfl

theorem convert_from_format_rows_writes (format : Format) (w h : Nat) (src : List Byte) :
    ∀ (n y : Nat) (dest : List Pixel),
      convert_from_format_rows format w h src n y dest
        = apply_writes (from_rows_writes format w h src n y) dest := by
  intro n
  induction n with
  | zero => intro y dest; rfl
  | succ n ih =>
    intro y dest
    unfold convert_from_format_rows
    simp only [from_rows_writes]
    rw [apply_writes_append, convert_from_format_row_writes]
    simp only [ih]

theorem mem_from_row_writes (format : Format) (w h : Nat) (src : List Byte) (drow : Nat)
    (p : Nat × Pixel) :
    ∀ (n x i : Nat),
      p ∈ from_row_writes format w h src drow n x i ↔
        ∃ t, t < n ∧
          p = (drow + (x + t),
            from_pixel format w h src (i + t * pixel_stride format h) Pixel.indeterminate) := by
  intro n
  induction n with
  | zero =>
    intro x i
    simp [from_row_writes]
  | succ n ih =>
    intro x i
    simp only [from_row_writes, List.mem_cons, ih]
    constructor
    · rintro (he | ⟨t, ht, he⟩)
      · exact ⟨0, by omega, by simpa using he⟩
      · refine ⟨t + 1, by omega, ?_⟩
        rw [he]
        congr 2
        · omega
        · ring
    · rintro ⟨t, ht, he⟩
      cases t with
      | zero => exact Or.inl (by simpa using he)
      | succ t =>
        refine Or.inr ⟨t, by omega, ?_⟩
        rw [he]
        congr 2
        · omega
        · ring

theorem mem_from_rows_writes (format : Format) (w h : Nat) (src : List Byte)
    (p : Nat × Pixel) :
    ∀ (n y : Nat),
      p ∈ from_rows_writes format w h src n y ↔
        ∃ s, s < n ∧ ∃ t, t < w ∧
          p = (w * (y + s) + t,
            from_pixel format w h src
              (row_stride format w * (y + s) + t * pixel_stride format h)
              Pixel.indeterminate) := by
  intro n
  induction n with
  | zero =>
    intro y
    simp [from_rows_writes]
  | succ n ih =>
    intro y
    simp only [from_rows_writes, List.mem_append, mem_from_row_writes, ih]
    constructor
    · rintro (⟨t, ht, he⟩ | ⟨s, hs, t, ht, he⟩)
      · exact ⟨0, by omega, t, ht, by simpa using he⟩
      · refine ⟨s + 1, by omega, t, ht, ?_⟩
        rw [he]
        congr 2
        · ring
        · congr 1; ring
    · rintro ⟨s, hs, t, ht, he⟩
      cases s with
      | zero => exact Or.inl ⟨t, ht, by simpa using he⟩
      | succ s =>
        refine Or.inr ⟨s, by omega, t, ht, ?_⟩
        rw [he]
        congr 2
        · ring
        · congr 1; ring
/-! ## The buffer `convert_from_format` returns -/

theorem convert_from_format_getD (env : Env) (format : Format) (src : List Byte) (w h : Nat)
    (hu : format.datatype = Datatype.u8) (hm : env.malloc_ok (4 * (w * h)) = true) :
    ∃ dest, convert_from_format env src w h format = .ok (some dest) ∧
      dest.length = w * h ∧
      ∀ x y, x < w → y < h →
        dest.getD (w * y + x) default
          = from_pixel format w h src (row_stride format w * y + x * pixel_stride format h)
              Pixel.indeterminate := by
  have hb : ∀ x y, x < w → y < h → w * y + x < w * h := by
    intro x y hx hy
    have := mul_add_lt y h x w hy hx
    calc w * y + x = y * w + x := by ring
      _ < h * w := this
      _ = w * h := by ring
  obtain ⟨dest, he, hlen, hget⟩ := apply_writes_ok (default : Pixel)
    (from_rows_writes format w h src h 0)
    (List.replicate (w * h) Pixel.indeterminate) (by
      intro p hp
      obtain ⟨s, hs, t, ht, hp⟩ := (mem_from_rows_writes format w h src p h 0).mp hp
      rw [hp, List.length_replicate]
      exact hb t (0 + s) ht (by omega))
  refine ⟨dest, ?_, ?_, ?_⟩
  · unfold convert_from_format
    dsimp only
    rw [if_pos hm, hu]
    dsimp only
    rw [convert_from_format_rows_writes, he]
  · rw [hlen, List.length_replicate]
  · intro x y hx hy
    apply hget
    · intro p hp hj
      obtain ⟨s, hs, t, ht, hp⟩ := (mem_from_rows_writes format w h src p h 0).mp hp
      rw [hp] at hj ⊢
      dsimp only at hj ⊢
      have hj' : (0 + s) * w + t = y * w + x := by
        calc (0 + s) * w + t = w * (0 + s) + t := by ring
          _ = w * y + x := hj
          _ = y * w + x := by ring
      obtain ⟨h1, h2⟩ := mul_add_inj _ _ _ _ _ ht hx hj'
      rw [h1, h2]
    · left
      exact ⟨_, (mem_from_rows_writes format w h src _ h 0).mpr ⟨y, hy, x, hx, rfl⟩,
        by dsimp only; rw [Nat.zero_add]⟩

theorem list_ext_getD {α : Type} (d : α) (l1 l2 : List α) (hl : l1.length = l2.length)
    (h : ∀ j, j < l1.length → l1.getD j d = l2.getD j d) : l1 = l2 := by
  apply List.ext_getElem hl
  intro j h1 h2
  have := h j h1
  rw [List.getD_eq_getElem _ _ h1, List.getD_eq_getElem _ _ h2] at this
  exact this

theorem index_split (w h j : Nat) (hj : j < w * h) :
    j % w < w ∧ j / w < h ∧ w * (j / w) + j % w = j := by
  have hw : 0 < w := by
    rcases Nat.eq_zero_or_pos w with h0 | h0
    · rw [h0, Nat.zero_mul] at hj; omega
    · exact h0
  refine ⟨Nat.mod_lt _ hw, ?_, Nat.div_add_mod j w⟩
  rw [Nat.div_lt_iff_lt_mul hw, Nat.mul_comm]
  exact hj

theorem from_pixel_roundtrip (format : Format) (w h : Nat) (src : List Byte) (i : Nat)
    (pixel : Pixel) (hc : format.grayscale = false)
    (hv : ∀ k, k < num_channels format →
      src.getD (i + k * channel_stride format w h) 0
        = pixel.byte ((channel_order format).getD k 0)) :
    from_pixel format w h src i Pixel.indeterminate
      = if format.strip_alpha then { pixel with a := 255 } else pixel := by
  obtain ⟨dt, gray, strip, bgr, aflip, planar, cm⟩ := format
  simp only at hc
  subst hc
  cases strip
  · have h0 := hv 0 (by show 0 < 4; decide)
    have h1 := hv 1 (by show 1 < 4; decide)
    have h2 := hv 2 (by show 2 < 4; decide)
    have h3 := hv 3 (by show 3 < 4; decide)
    rw [Nat.zero_mul, Nat.add_zero] at h0
    rw [Nat.one_mul] at h1
    unfold from_pixel
    simp only [num_channels, Bool.false_eq_true, if_false]
    rw [if_neg (by decide), if_neg (by decide), h0, h1, h2, h3]
    cases bgr <;> cases aflip <;> rfl
  · have h0 := hv 0 (by show 0 < 3; decide)
    have h1 := hv 1 (by show 1 < 3; decide)
    have h2 := hv 2 (by show 2 < 3; decide)
    rw [Nat.zero_mul, Nat.add_zero] at h0
    rw [Nat.one_mul] at h1
    unfold from_pixel
    simp only [num_channels, Bool.false_eq_true, if_false, if_true]
    rw [h0, h1, h2]
    cases bgr <;> cases aflip <;> rfl
/-! ## Round trip through the colour formats -/

theorem getD_map_lt (image : List Pixel) (f : Pixel → Pixel) (j : Nat) (hj : j < image.length) :
    (image.map f).getD j default = f (image.getD j default) := by
  rw [List.getD_eq_getElem _ _ (by rw [List.length_map]; exact hj),
    List.getD_eq_getElem _ _ hj, List.getElem_map]

theorem channel_value_color (env : Env) (format : Format) (pixel : Pixel) (k : Nat)
    (hc : format.grayscale = false) :
    channel_value env format pixel k = pixel.byte ((channel_order format).getD k 0) := by
  unfold channel_value num_channels
  rw [hc]
  simp only [Bool.false_eq_true, if_false]
  rw [if_neg]
  split_ifs <;> decide

/-- C15: for every colour format with 8-bit components (alpha stripped or not, red and blue
swapped or not, alpha leading or not, interleaved or planar, row-major or column-major) and
every canonical buffer of `w * h` pixels, `convert_from_format` applied to the result of
`convert_to_format` with the same format returns every pixel with its original red, green
and blue, and with its original alpha when the format has four channels and alpha 255 when
it has three (the allocations succeeding). -/
theorem convert_roundtrip_u8 (env : Env) (format : Format) (image : List Pixel) (w h : Nat)
    (hu : format.datatype = Datatype.u8) (hc : format.grayscale = false)
    (hs : image.length = w * h)
    (hm1 : env.malloc_ok (num_channels format * (w * h)) = true)
    (hm2 : env.malloc_ok (4 * (w * h)) = true) :
    ∃ dest, convert_to_format env image w h format = .ok (some dest) ∧
      convert_from_format env dest w h format
        = .ok (some (image.map (roundtrip_pixel format))) := by
  obtain ⟨dest, hto, _, hget⟩ := convert_to_format_getD env format image w h hu hm1
  obtain ⟨res, hfrom, hlen, hres⟩ := convert_from_format_getD env format dest w h hu hm2
  refine ⟨dest, hto, ?_⟩
  rw [hfrom]
  congr 2
  apply list_ext_getD default
  · rw [hlen, List.length_map, hs]
  · intro j hj
    rw [hlen] at hj
    obtain ⟨hx, hy, he⟩ := index_split w h j hj
    rw [getD_map_lt image _ j (by rw [hs]; exact hj)]
    rw [← he, hres _ _ hx hy]
    unfold roundtrip_pixel
    apply from_pixel_roundtrip format w h dest _ _ hc
    intro k hk
    rw [code_index_eq_layout_index, hget _ _ k hx hy hk, channel_value_color env format _ k hc]
/-! ## The order of the channels -/

theorem flatMap_uniform_length (g : Pixel → List Byte) (c : Nat) (hg : ∀ p, (g p).length = c) :
    ∀ image : List Pixel, (image.flatMap g).length = c * image.length := by
  intro image
  induction image with
  | nil => simp
  | cons p rest ih =>
    rw [List.flatMap_cons, List.length_append, ih, hg, List.length_cons]
    ring

theorem flatMap_uniform_getD (g : Pixel → List Byte) (c : Nat) (hg : ∀ p, (g p).length = c) :
    ∀ (image : List Pixel) (j k : Nat), j < image.length → k < c →
      (image.flatMap g).getD (j * c + k) 0 = (g (image.getD j default)).getD k 0 := by
  intro image
  induction image with
  | nil => intro j k hj; simp at hj
  | cons p rest ih =>
    intro j k hj hk
    rw [List.flatMap_cons]
    cases j with
    | zero =>
      rw [Nat.zero_mul, Nat.zero_add, List.getD_append _ _ _ _ (by rw [hg]; exact hk)]
      rfl
    | succ j =>
      have hj' : j < rest.length := by simpa using hj
      rw [List.getD_append_right _ _ _ _ (by rw [hg, Nat.succ_mul]; omega), hg]
      have e : (j + 1) * c + k - c = j * c + k := by rw [Nat.succ_mul]; omega
      rw [e, ih j k hj' hk]
      rfl

theorem ordered_channels_length (format : Format) (p : Pixel) :
    (ordered_channels format p).length = num_channels format := by
  unfold ordered_channels
  rw [List.length_map, List.length_range]

theorem ordered_channels_getD (format : Format) (p : Pixel) (k : Nat)
    (hk : k < num_channels format) :
    (ordered_channels format p).getD k 0 = p.byte ((channel_order format).getD k 0) := by
  unfold ordered_channels
  rw [List.getD_eq_getElem _ _ (by rw [List.length_map, List.length_range]; exact hk),
    List.getElem_map, List.getElem_range]

theorem convert_to_format_interleaved (env : Env) (format : Format) (image : List Pixel)
    (w h : Nat) (hu : format.datatype = Datatype.u8) (hc : format.grayscale = false)
    (hp : format.planar = false) (hcm : format.columnmajor = false)
    (hs : image.length = w * h)
    (hm : env.malloc_ok (num_channels format * (w * h)) = true) :
    convert_to_format env image w h format
      = .ok (some (image.flatMap (ordered_channels format))) := by
  obtain ⟨dest, hto, hlen, hget⟩ := convert_to_format_getD env format image w h hu hm
  rw [hto]
  congr 2
  have hc0 : 0 < num_channels format := by
    rcases num_channels_cases format with h1 | h1 | h1 <;> omega
  apply list_ext_getD 0
  · rw [hlen, flatMap_uniform_length _ _ (ordered_channels_length format), hs]
  · intro m hm'
    rw [hlen] at hm'
    have hk : m % num_channels format < num_channels format := Nat.mod_lt _ hc0
    have hj : m / num_channels format < w * h := by
      rw [Nat.div_lt_iff_lt_mul hc0, Nat.mul_comm]
      exact hm'
    have hm2 : m / num_channels format * num_channels format + m % num_channels format = m := by
      rw [Nat.mul_comm]; exact Nat.div_add_mod m _
    obtain ⟨hx, hy, he⟩ := index_split w h _ hj
    rw [← hm2, flatMap_uniform_getD _ _ (ordered_channels_length format) image _ _
      (by rw [hs]; exact hj) hk, ordered_channels_getD format _ _ hk,
      ← channel_value_color env format _ _ hc]
    have hl : layout_index format w h (m / num_channels format % w)
        (m / num_channels format / w) (m % num_channels format)
        = m / num_channels format * num_channels format + m % num_channels format := by
      unfold layout_index
      rw [hp, hcm]
      simp only [Bool.false_eq_true, if_false]
      congr 2
      rw [Nat.mul_comm]
      exact he
    rw [← hl, hget _ _ _ hx hy hk, he]

/-- C16: for 8-bit interleaved row-major output of a buffer of `w * h` pixels (the
allocations succeeding), `convert_to_format` stores the channels of every pixel, pixel
after pixel, in the order named by the format: R,G,B for RGB; B,G,R for BGR; R,G,B,A for
RGBA; B,G,R,A for BGRA; A,R,G,B for ARGB; A,B,G,R for ABGR; and with the alpha-leading flag
set together with the alpha-strip flag the output is that of the alpha-strip flag alone,
for RGB and for BGR. -/
theorem convert_to_format_channel_order (env : Env) (image : List Pixel) (w h : Nat)
    (hs : image.length = w * h)
    (hm3 : env.malloc_ok (3 * (w * h)) = true) (hm4 : env.malloc_ok (4 * (w * h)) = true) :
    convert_to_format env image w h IMAGEIO_RGB
      = .ok (some (image.flatMap fun p => [p.r, p.g, p.b])) ∧
    convert_to_format env image w h IMAGEIO_BGR
      = .ok (some (image.flatMap fun p => [p.b, p.g, p.r])) ∧
    convert_to_format env image w h IMAGEIO_RGBA
      = .ok (some (image.flatMap fun p => [p.r, p.g, p.b, p.a])) ∧
    convert_to_format env image w h IMAGEIO_BGRA
      = .ok (some (image.flatMap fun p => [p.b, p.g, p.r, p.a])) ∧
    convert_to_format env image w h IMAGEIO_ARGB
      = .ok (some (image.flatMap fun p => [p.a, p.r, p.g, p.b])) ∧
    convert_to_format env image w h IMAGEIO_ABGR
      = .ok (some (image.flatMap fun p => [p.a, p.b, p.g, p.r])) ∧
    convert_to_format env image w h { IMAGEIO_RGB with aflip := true }
      = convert_to_format env image w h IMAGEIO_RGB ∧
    convert_to_format env image w h { IMAGEIO_BGR with aflip := true }
      = convert_to_format env image w h IMAGEIO_BGR := by
  have e1 := convert_to_format_interleaved env IMAGEIO_RGB image w h rfl rfl rfl rfl hs hm3
  have e2 := convert_to_format_interleaved env IMAGEIO_BGR image w h rfl rfl rfl rfl hs hm3
  have e3 := convert_to_format_interleaved env IMAGEIO_RGBA image w h rfl rfl rfl rfl hs hm4
  have e4 := convert_to_format_interleaved env IMAGEIO_BGRA image w h rfl rfl rfl rfl hs hm4
  have e5 := convert_to_format_interleaved env IMAGEIO_ARGB image w h rfl rfl rfl rfl hs hm4
  have e6 := convert_to_format_interleaved env IMAGEIO_ABGR image w h rfl rfl rfl rfl hs hm4
  have e7 := convert_to_format_interleaved env { IMAGEIO_RGB with aflip := true } image w h
    rfl rfl rfl rfl hs hm3
  have e8 := convert_to_format_interleaved env { IMAGEIO_BGR with aflip := true } image w h
    rfl rfl rfl rfl hs hm3
  refine ⟨e1, e2, e3, e4, e5, e6, ?_, ?_⟩
  · rw [e7, e1]; rfl
  · rw [e8, e2]; rfl
/-! ## The layouts -/

theorem from_pixel_gray (format : Format) (w h : Nat) (src : List Byte) (i : Nat) (p : Pixel)
    (hc : format.grayscale = true) :
    from_pixel format w h src i p = ⟨src.getD i 0, src.getD i 0, src.getD i 0, 255⟩ := by
  unfold from_pixel num_channels
  rw [hc]
  rfl

theorem from_pixel_color (format : Format) (w h : Nat) (src : List Byte) (i : Nat) (p : Pixel)
    (hc : format.grayscale = false) :
    (∀ k, k < num_channels format →
      (from_pixel format w h src i p).byte ((channel_order format).getD k 0)
        = src.getD (i + k * channel_stride format w h) 0) ∧
    (format.strip_alpha = true → (from_pixel format w h src i p).a = 255) := by
  obtain ⟨dt, gray, strip, bgr, aflip, planar, cm⟩ := format
  simp only at hc
  subst hc
  cases strip
  · refine ⟨?_, fun hs => absurd hs (by simp)⟩
    intro k hk
    have hk' : k < 4 := hk
    interval_cases k <;> (try simp only [Nat.zero_mul, Nat.one_mul, Nat.add_zero]) <;>
      cases bgr <;> cases aflip <;> rfl
  · refine ⟨?_, fun _ => by cases bgr <;> cases aflip <;> rfl⟩
    intro k hk
    have hk' : k < 3 := hk
    interval_cases k <;> (try simp only [Nat.zero_mul, Nat.one_mul, Nat.add_zero]) <;>
      cases bgr <;> cases aflip <;> rfl

/-- C17: for every format with 8-bit components and `c` channels and every image of
`w * h` pixels (the allocations succeeding), the buffer `convert_to_format` returns has
`c * w * h` bytes and holds channel slot `k` of the pixel at column `x`, row `y` at index
`(y*w + x)*c + k` for interleaved row-major, `(x*h + y)*c + k` for interleaved
column-major, `k*w*h + y*w + x` for planar row-major and `k*w*h + x*h + y` for planar
column-major; and `convert_from_format` builds the pixel at column `x`, row `y` from the
bytes of its source at the same indices: the three colour bytes from slot 0 and alpha 255
for a grayscale format, byte `order[k]` from slot `k` otherwise, with alpha 255 when the
format has three channels. -/
theorem convert_layout (env : Env) (format : Format) (image : List Pixel) (src : List Byte)
    (w h : Nat) (hu : format.datatype = Datatype.u8) (hs : image.length = w * h)
    (hm1 : env.malloc_ok (num_channels format * (w * h)) = true)
    (hm2 : env.malloc_ok (4 * (w * h)) = true) :
    (∃ dest, convert_to_format env image w h format = .ok (some dest) ∧
      dest.length = num_channels format * (w * h) ∧
      ∀ x y k, x < w → y < h → k < num_channels format →
        dest.getD (layout_index format w h x y k) 0
          = channel_value env format (image.getD (y * w + x) default) k) ∧
    (∃ res, convert_from_format env src w h format = .ok (some res) ∧
      res.length = w * h ∧
      ∀ x y, x < w → y < h →
        (format.grayscale = true →
          res.getD (y * w + x) default
            = ⟨src.getD (layout_index format w h x y 0) 0,
               src.getD (layout_index format w h x y 0) 0,
               src.getD (layout_index format w h x y 0) 0, 255⟩) ∧
        (format.grayscale = false →
          (∀ k, k < num_channels format →
            (res.getD (y * w + x) default).byte ((channel_order format).getD k 0)
              = src.getD (layout_index format w h x y k) 0) ∧
          (format.strip_alpha = true → (res.getD (y * w + x) default).a = 255))) := by
  have _hlen : image.length = w * h := hs
  constructor
  · obtain ⟨dest, hto, hlen, hget⟩ := convert_to_format_getD env format image w h hu hm1
    refine ⟨dest, hto, hlen, ?_⟩
    intro x y k hx hy hk
    rw [hget x y k hx hy hk, Nat.mul_comm w y]
  · obtain ⟨res, hfrom, hlen, hres⟩ := convert_from_format_getD env format src w h hu hm2
    refine ⟨res, hfrom, hlen, ?_⟩
    intro x y hx hy
    rw [Nat.mul_comm y w, hres x y hx hy]
    constructor
    · intro hc
      rw [from_pixel_gray format w h src _ _ hc, ← code_index_eq_layout_index, Nat.zero_mul,
        Nat.add_zero]
    · intro hc
      obtain ⟨h1, h2⟩ := from_pixel_color format w h src
        (row_stride format w * y + x * pixel_stride format h) Pixel.indeterminate hc
      refine ⟨?_, h2⟩
      intro k hk
      rw [h1 k hk, code_index_eq_layout_index]
/-! ## Grayscale round trip -/

/-- The three constants are binary32 values (24-bit significands) and each is the one
nearest to its decimal literal: the distance to 0.299, 0.587 and 0.114 is at most half a
unit in the last place. -/
theorem f32_constants_nearest :
    (f32_round f32_0_299 = f32_0_299 ∧ f32_round f32_0_587 = f32_0_587 ∧
      f32_round f32_0_114 = f32_0_114 ∧ f32_round f32_0_5 = f32_0_5) ∧
    ((1000 * (f32_0_299 : Int) - 299 * 134217728).natAbs ≤ 1000 * 2 ∧
      (1000 * (f32_0_587 : Int) - 587 * 134217728).natAbs ≤ 1000 * 4 ∧
      2 * (1000 * (f32_0_114 : Int) - 114 * 134217728).natAbs ≤ 1000 * 1) := by
  decide

set_option maxRecDepth 100000 in
theorem gray_u8_binary32_gray : ∀ v : Byte, gray_u8_binary32 v v v = v := by
  decide!
theorem num_channels_gray (format : Format) (hg : format.grayscale = true) :
    num_channels format = 1 := by
  unfold num_channels
  rw [hg]
  rfl

theorem convert_gray_roundtrip_exact (env : Env) (format : Format) (image : List Pixel)
    (w h : Nat) (hu : format.datatype = Datatype.u8) (hg : format.grayscale = true)
    (hs : image.length = w * h) (hgray : is_gray image)
    (hf : env.gray_u8 = gray_u8_binary32)
    (hm1 : env.malloc_ok (num_channels format * (w * h)) = true)
    (hm2 : env.malloc_ok (4 * (w * h)) = true) :
    ∃ dest, convert_to_format env image w h format = .ok (some dest) ∧
      convert_from_format env dest w h format
        = .ok (some (image.map fun p => { p with a := 255 })) := by
  obtain ⟨dest, hto, _, hget⟩ := convert_to_format_getD env format image w h hu hm1
  obtain ⟨res, hfrom, hlen, hres⟩ := convert_from_format_getD env format dest w h hu hm2
  refine ⟨dest, hto, ?_⟩
  rw [hfrom]
  congr 2
  apply list_ext_getD default
  · rw [hlen, List.length_map, hs]
  · intro j hj
    rw [hlen] at hj
    obtain ⟨hx, hy, he⟩ := index_split w h j hj
    have hj' : j < image.length := by rw [hs]; exact hj
    rw [getD_map_lt image _ j hj', ← he, hres _ _ hx hy, from_pixel_gray format w h dest _ _ hg]
    have h0 := hget _ _ 0 hx hy (by rw [num_channels_gray format hg]; decide)
    rw [← code_index_eq_layout_index, Nat.zero_mul, Nat.add_zero] at h0
    rw [h0, he]
    have hmem : image.getD j default ∈ image := by
      rw [List.getD_eq_getElem _ _ hj']
      exact List.getElem_mem _
    obtain ⟨h1, h2⟩ := hgray _ hmem
    unfold channel_value
    rw [num_channels_gray format hg, if_pos rfl, hf]
    have hv : gray_u8_binary32 ((image.getD j default).byte 0) ((image.getD j default).byte 1)
        ((image.getD j default).byte 2) = (image.getD j default).r := by
      show gray_u8_binary32 (image.getD j default).r (image.getD j default).g
        (image.getD j default).b = _
      rw [← h1, ← h2]
      exact gray_u8_binary32_gray _
    rw [hv, Pixel.mk.injEq]
    exact ⟨rfl, h1, h2, rfl⟩

/-- C18: for every canonical buffer of `w * h` pixels in which every pixel has
R = G = B = v, converting it to 8-bit grayscale with `convert_to_format` and back with
`convert_from_format` (any grayscale format with 8-bit components, the allocations
succeeding, `float` being IEEE 754 binary32) yields, pixel by pixel, R = G = B = v' with
|v' - v| <= 1 and alpha 255. -/
theorem convert_gray_roundtrip (env : Env) (format : Format) (image : List Pixel)
    (w h : Nat) (hu : format.datatype = Datatype.u8) (hg : format.grayscale = true)
    (hs : image.length = w * h) (hgray : is_gray image)
    (hf : env.gray_u8 = gray_u8_binary32)
    (hm1 : env.malloc_ok (num_channels format * (w * h)) = true)
    (hm2 : env.malloc_ok (4 * (w * h)) = true) :
    ∃ dest res, convert_to_format env image w h format = .ok (some dest) ∧
      convert_from_format env dest w h format = .ok (some res) ∧
      res.length = w * h ∧
      ∀ i, i < w * h →
        (res.getD i default).r = (res.getD i default).g ∧
        (res.getD i default).r = (res.getD i default).b ∧
        (res.getD i default).a = 255 ∧
        (((res.getD i default).r.val : Int) - ((image.getD i default).r.val : Int)).natAbs
          ≤ 1 := by
  obtain ⟨dest, hto, hfrom⟩ :=
    convert_gray_roundtrip_exact env format image w h hu hg hs hgray hf hm1 hm2
  refine ⟨dest, _, hto, hfrom, by rw [List.length_map, hs], ?_⟩
  intro i hi
  have hi' : i < image.length := by rw [hs]; exact hi
  have hmem : image.getD i default ∈ image := by
    rw [List.getD_eq_getElem _ _ hi']
    exact List.getElem_mem _
  obtain ⟨h1, h2⟩ := hgray _ hmem
  rw [getD_map_lt image _ i hi']
  exact ⟨h1, h2, rfl, by simp⟩

theorem is_gray_2x2 : is_gray gray_2x2 := by
  unfold is_gray gray_2x2
  decide

theorem convert_gray_roundtrip_witness :
    ∃ dest res,
      convert_to_format Env.binary32 gray_2x2 2 2
          ⟨Datatype.u8, true, false, false, false, true, true⟩ = .ok (some dest) ∧
      convert_from_format Env.binary32 dest 2 2
          ⟨Datatype.u8, true, false, false, false, true, true⟩ = .ok (some res) ∧
      res.length = 2 * 2 ∧
      ∀ i, i < 2 * 2 →
        (res.getD i default).r = (res.getD i default).g ∧
        (res.getD i default).r = (res.getD i default).b ∧
        (res.getD i default).a = 255 ∧
        (((res.getD i default).r.val : Int) - ((gray_2x2.getD i default).r.val : Int)).natAbs
          ≤ 1 :=
  convert_gray_roundtrip Env.binary32 ⟨Datatype.u8, true, false, false, false, true, true⟩
    gray_2x2 2 2 rfl rfl rfl is_gray_2x2 rfl rfl rfl
/-! ## The converters on sample images -/

theorem convert_roundtrip_u8_witness :
    ∃ dest, convert_to_format Env.sample image_2x1 2 1 format_bgr_planar_columnmajor
        = .ok (some dest) ∧
      convert_from_format Env.sample dest 2 1 format_bgr_planar_columnmajor
        = .ok (some [⟨1, 2, 3, 255⟩, ⟨5, 6, 7, 255⟩]) :=
  convert_roundtrip_u8 Env.sample format_bgr_planar_columnmajor image_2x1 2 1 rfl rfl rfl
    rfl rfl

theorem convert_to_format_channel_order_witness :
    convert_to_format Env.sample image_2x1 2 1 IMAGEIO_RGB = .ok (some [1, 2, 3, 5, 6, 7]) ∧
    convert_to_format Env.sample image_2x1 2 1 IMAGEIO_BGR = .ok (some [3, 2, 1, 7, 6, 5]) ∧
    convert_to_format Env.sample image_2x1 2 1 IMAGEIO_RGBA
      = .ok (some [1, 2, 3, 4, 5, 6, 7, 8]) ∧
    convert_to_format Env.sample image_2x1 2 1 IMAGEIO_BGRA
      = .ok (some [3, 2, 1, 4, 7, 6, 5, 8]) ∧
    convert_to_format Env.sample image_2x1 2 1 IMAGEIO_ARGB
      = .ok (some [4, 1, 2, 3, 8, 5, 6, 7]) ∧
    convert_to_format Env.sample image_2x1 2 1 IMAGEIO_ABGR
      = .ok (some [4, 3, 2, 1, 8, 7, 6, 5]) ∧
    convert_to_format Env.sample image_2x1 2 1 { IMAGEIO_RGB with aflip := true }
      = convert_to_format Env.sample image_2x1 2 1 IMAGEIO_RGB ∧
    convert_to_format Env.sample image_2x1 2 1 { IMAGEIO_BGR with aflip := true }
      = convert_to_format Env.sample image_2x1 2 1 IMAGEIO_BGR :=
  convert_to_format_channel_order Env.sample image_2x1 2 1 rfl rfl rfl

theorem convert_layout_witness :
    (∃ dest, convert_to_format Env.sample image_2x1 2 1 format_bgr_planar_columnmajor
        = .ok (some dest) ∧
      dest.length = 3 * (2 * 1) ∧
      ∀ x y k, x < 2 → y < 1 → k < 3 →
        dest.getD (layout_index format_bgr_planar_columnmajor 2 1 x y k) 0
          = channel_value Env.sample format_bgr_planar_columnmajor
              (image_2x1.getD (y * 2 + x) default) k) ∧
    (∃ res, convert_from_format Env.sample [3, 7, 2, 6, 1, 5] 2 1 format_bgr_planar_columnmajor
        = .ok (some res) ∧
      res.length = 2 * 1 ∧
      ∀ x y, x < 2 → y < 1 →
        (format_bgr_planar_columnmajor.grayscale = true →
          res.getD (y * 2 + x) default
            = ⟨([3, 7, 2, 6, 1, 5] : List Byte).getD
                (layout_index format_bgr_planar_columnmajor 2 1 x y 0) 0,
               ([3, 7, 2, 6, 1, 5] : List Byte).getD
                (layout_index format_bgr_planar_columnmajor 2 1 x y 0) 0,
               ([3, 7, 2, 6, 1, 5] : List Byte).getD
                (layout_index format_bgr_planar_columnmajor 2 1 x y 0) 0, 255⟩) ∧
        (format_bgr_planar_columnmajor.grayscale = false →
          (∀ k, k < 3 →
            (res.getD (y * 2 + x) default).byte
                ((channel_order format_bgr_planar_columnmajor).getD k 0)
              = ([3, 7, 2, 6, 1, 5] : List Byte).getD
                  (layout_index format_bgr_planar_columnmajor 2 1 x y k) 0) ∧
          (format_bgr_planar_columnmajor.strip_alpha = true →
            (res.getD (y * 2 + x) default).a = 255))) :=
  convert_layout Env.sample format_bgr_planar_columnmajor image_2x1 [3, 7, 2, 6, 1, 5] 2 1
    rfl rfl rfl rfl

set_option maxRecDepth 100000 in
theorem convert_to_format_bgr_planar_columnmajor :
    convert_to_format Env.sample image_2x1 2 1 format_bgr_planar_columnmajor
      = .ok (some [3, 7, 2, 6, 1, 5]) ∧
    convert_from_format Env.sample [3, 7, 2, 6, 1, 5] 2 1 format_bgr_planar_columnmajor
      = .ok (some [⟨1, 2, 3, 255⟩, ⟨5, 6, 7, 255⟩]) := by
  decide!

/-! ## Two bits per pixel -/

/-- The `switch` of `read_bmp` has no case for 2 bits per pixel: for every header with
compression 0 and bit depth 2, no reader is called and `success` stays 0. -/
theorem read_bmp_data_2bpp (hdr : BmpHeader) (image : List Pixel) (width height : Nat)
    (file : FILE) (palette : List Pixel) (hc : hdr.compression = 0)
    (hb : hdr.bits_per_pixel = 2) :
    read_bmp_data hdr image width height file palette = .ok (0, image, file) := by
  unfold read_bmp_data
  rw [hc, hb]
  rfl

set_option maxRecDepth 100000 in
theorem read_bmp_header_4x1_2bpp :
    read_bmp_header (fopen bmp_4x1_2bpp)
      = .ok (some (⟨70, 40, false, 4, 1, 1, 2, 0, 4, le32_at bmp_4x1_2bpp 54,
          le32_at bmp_4x1_2bpp 58, le32_at bmp_4x1_2bpp 62, le32_at bmp_4x1_2bpp 66⟩,
          ⟨bmp_4x1_2bpp, 70, false⟩)) := by
  decide!

set_option maxRecDepth 100000 in
/-- C19 at the failing input: on the stream `bmp_4x1_2bpp`, a well-formed uncompressed
file of 4 x 1 pixels with 2 bits per pixel and complete pixel data, `read_bmp` allocates
the image and loads the palette, finds no case for the bit depth and returns failure. -/
theorem read_bmp_rejects_2bpp (env : Env) (hmax : 4 ≤ env.MAX_IMAGE_SIZE)
    (hm : env.malloc_ok 16 = true) (hp : env.malloc_ok (4 * 256) = true) :
    read_bmp env (fopen bmp_4x1_2bpp) = .ok ⟨0, Ptr.freed, 4, 1, Ptr.freed⟩ := by
  rw [read_bmp_of_header env _ _ _ read_bmp_header_4x1_2bpp (by simpa using hmax)
    (by simp; omega) rfl rfl (by decide) (by simpa using hm)]
  unfold read_bmp_body
  rw [if_pos (by decide)]
  dsimp only
  rw [if_pos hp]
  decide!

theorem read_bmp_rejects_2bpp_witness :
    (4 : Int) ≤ Env.sample.MAX_IMAGE_SIZE ∧ Env.sample.malloc_ok 16 = true ∧
    Env.sample.malloc_ok (4 * 256) = true ∧
    read_bmp Env.sample (fopen bmp_4x1_2bpp) = .ok ⟨0, Ptr.freed, 4, 1, Ptr.freed⟩ :=
  ⟨by decide, rfl, rfl, read_bmp_rejects_2bpp Env.sample (by decide) rfl rfl⟩

set_option maxRecDepth 100000 in
/-- The same image stored with 4 bits per pixel is decoded. -/
theorem read_bmp_decodes_4bpp :
    read_bmp Env.sample (fopen bmp_4x1_4bpp)
      = .ok ⟨1, Ptr.live [⟨0, 0, 0, 255⟩, ⟨255, 0, 0, 255⟩, ⟨0, 255, 0, 255⟩, ⟨0, 0, 255, 255⟩],
          4, 1, Ptr.freed⟩ := by
  decide!

/-! ## The alpha of 16-bit pixels -/

/-- With an alpha mask of 0, as `read_bmp` passes for uncompressed 16-bit data, the alpha
byte of every decoded pixel is 0. -/
theorem mask_pixel_alpha_zero (code redmask greenmask bluemask : Nat) :
    (mask_pixel code redmask greenmask bluemask 0).a = 0 := by
  unfold mask_pixel mask_channel
  simp only [Nat.and_zero]
  rfl

set_option maxRecDepth 100000 in
theorem read_bmp_header_4x2_16bpp :
    read_bmp_header (fopen bmp_4x2_16bpp)
      = .ok (some (⟨54, 40, false, 4, 2, 1, 16, 0, 0, le32_at bmp_4x2_16bpp 54,
          le32_at bmp_4x2_16bpp 58, le32_at bmp_4x2_16bpp 62, le32_at bmp_4x2_16bpp 66⟩,
          ⟨bmp_4x2_16bpp, 70, false⟩)) := by
  decide!

set_option maxRecDepth 100000 in
/-- C20 at the failing input: on the stream `bmp_4x2_16bpp`, a well-formed uncompressed
16-bit file, `read_bmp` returns success and every pixel of the buffer has alpha 0, not
255. -/
theorem read_bmp_16bpp_alpha_zero (env : Env) (hmax : 4 ≤ env.MAX_IMAGE_SIZE)
    (hm : env.malloc_ok 32 = true) :
    read_bmp env (fopen bmp_4x2_16bpp)
      = .ok ⟨1, Ptr.live
          [⟨0, 0, 0, 0⟩, ⟨248, 248, 248, 0⟩, ⟨248, 248, 248, 0⟩, ⟨0, 0, 0, 0⟩,
           ⟨248, 248, 248, 0⟩, ⟨248, 0, 0, 0⟩, ⟨0, 248, 0, 0⟩, ⟨0, 0, 248, 0⟩],
          4, 2, Ptr.null⟩ := by
  rw [read_bmp_of_header env _ _ _ read_bmp_header_4x2_16bpp (by simpa using hmax)
    (by simp; omega) rfl rfl (by decide) (by simpa using hm)]
  rw [read_bmp_body_no_palette env _ _ _ (by decide) 54 rfl]
  decide!

theorem read_bmp_16bpp_alpha_zero_witness :
    (4 : Int) ≤ Env.sample.MAX_IMAGE_SIZE ∧ Env.sample.malloc_ok 32 = true ∧
    read_bmp Env.sample (fopen bmp_4x2_16bpp)
      = .ok ⟨1, Ptr.live
          [⟨0, 0, 0, 0⟩, ⟨248, 248, 248, 0⟩, ⟨248, 248, 248, 0⟩, ⟨0, 0, 0, 0⟩,
           ⟨248, 248, 248, 0⟩, ⟨248, 0, 0, 0⟩, ⟨0, 248, 0, 0⟩, ⟨0, 0, 248, 0⟩],
          4, 2, Ptr.null⟩ :=
  ⟨by decide, rfl, read_bmp_16bpp_alpha_zero Env.sample (by decide) rfl⟩

/-! ## Buffers after a failure -/

theorem read_bmp_exit_released (success : Int) (image palette : Ptr (List Pixel))
    (width height : Int) (h : (read_bmp_exit success image width height palette).ret = 0) :
    (∀ buf, (read_bmp_exit success image width height palette).image ≠ Ptr.live buf) ∧
    (∀ buf, (read_bmp_exit success image width height palette).palette ≠ Ptr.live buf) := by
  have hs : success = 0 := h
  subst hs
  constructor
  · intro buf
    cases image <;> simp [read_bmp_exit, Ptr.free]
  · intro buf
    cases palette <;> simp [read_bmp_exit, Ptr.free]

theorem read_bmp_body_released (env : Env) (hdr : BmpHeader) (image : List Pixel)
    (file : FILE) (r : ReadResult) (h : read_bmp_body env hdr image file = .ok r)
    (hr : r.ret = 0) :
    (∀ buf, r.image ≠ Ptr.live buf) ∧ (∀ buf, r.palette ≠ Ptr.live buf) := by
  unfold read_bmp_body at h
  dsimp only at h
  split at h
  · exact absurd h (by simp)
  · simp only [Except.ok.injEq] at h
    subst h
    exact read_bmp_exit_released _ _ _ _ _ hr
  · split at h
    · simp only [Except.ok.injEq] at h
      subst h
      exact read_bmp_exit_released _ _ _ _ _ hr
    · split at h
      · exact absurd h (by simp)
      · simp only [Except.ok.injEq] at h
        subst h
        exact read_bmp_exit_released _ _ _ _ _ hr

/-- Whenever `read_bmp` returns failure, neither `*image` nor the palette pointer refers to
a live buffer: every buffer allocated during the call has been released. -/
theorem read_bmp_failure_releases_buffers (env : Env) (file : FILE) (r : ReadResult)
    (h : read_bmp env file = .ok r) (hr : r.ret = 0) :
    (∀ buf, r.image ≠ Ptr.live buf) ∧ (∀ buf, r.palette ≠ Ptr.live buf) := by
  unfold read_bmp at h
  split at h
  · exact absurd h (by simp)
  · simp only [Except.ok.injEq] at h
    subst h
    exact read_bmp_exit_released _ _ _ _ _ hr
  · split_ifs at h
    · simp only [Except.ok.injEq] at h
      subst h
      exact read_bmp_exit_released _ _ _ _ _ hr
    · simp only [Except.ok.injEq] at h
      subst h
      exact read_bmp_exit_released _ _ _ _ _ hr
    · exact read_bmp_body_released env _ _ _ r h hr
    · simp only [Except.ok.injEq] at h
      subst h
      exact read_bmp_exit_released _ _ _ _ _ hr

/-! ## A short file of 1 bit per pixel -/

set_option maxRecDepth 100000 in
theorem read_bmp_header_1x1_1bpp :
    read_bmp_header (fopen bmp_1x1_1bpp)
      = .ok (some (⟨62, 40, false, 1, 1, 1, 1, 0, 2, 0, 0x00FFFFFF, 0x00000080, 0xFFFFFFFF⟩,
          ⟨bmp_1x1_1bpp, 66, true⟩)) := by
  decide!

/-- A well-formed 1-bit file of 66 bytes is rejected before any allocation: the four
colour-mask reads at offsets 54 to 69 run past its end. -/
theorem read_bmp_rejects_short_1bpp (env : Env) :
    read_bmp env (fopen bmp_1x1_1bpp) = .ok ⟨0, Ptr.null, 1, 1, Ptr.null⟩ := by
  rw [read_bmp, read_bmp_header_1x1_1bpp]
  simp [feof, read_bmp_exit, Ptr.free]

/-! ## The shifts of a contiguous mask -/

set_option maxRecDepth 1000000 in
theorem get_mask_shifts_table :
    ∀ p, p < 32 → ∀ n, n < 33 → 1 ≤ n → p + n ≤ 32 →
      get_mask_shifts (contiguous_mask p n)
        = if p + n ≥ 8 then (0, p + n - 8) else (8 - p - n, 0) := by
  decide!

theorem and_contiguous_mask (code p n : Nat) :
    code &&& contiguous_mask p n = ((code >>> p) % 2 ^ n) <<< p := by
  apply Nat.eq_of_testBit_eq
  intro i
  unfold contiguous_mask
  rw [Nat.testBit_and, Nat.testBit_shiftLeft, Nat.testBit_shiftLeft, Nat.testBit_two_pow_sub_one,
    Nat.testBit_mod_two_pow, Nat.testBit_shiftRight]
  by_cases h : p ≤ i
  · have e : p + (i - p) = i := by omega
    simp only [h, decide_True, Bool.true_and, e]
    rw [Bool.and_comm]
  · simp [h]

theorem mask_field_eq (code p n : Nat) : mask_field code p n = (code >>> p) % 2 ^ n := by
  unfold mask_field
  rw [and_contiguous_mask, Nat.shiftLeft_shiftRight]

theorem mask_field_lt (code p n : Nat) : mask_field code p n < 2 ^ n := by
  rw [mask_field_eq]
  exact Nat.mod_lt _ (Nat.two_pow_pos n)

theorem and_contiguous_mask_field (code p n : Nat) :
    code &&& contiguous_mask p n = mask_field code p n * 2 ^ p := by
  rw [and_contiguous_mask, mask_field_eq, Nat.shiftLeft_eq]

theorem normalised_field_lt (v n : Nat) (hv : v < 2 ^ n) : normalised_field v n < 256 := by
  unfold normalised_field
  split
  · rename_i h
    have e : 2 ^ n * 2 ^ (8 - n) = 256 := by
      rw [← Nat.pow_add, show n + (8 - n) = 8 from by omega]
    calc v * 2 ^ (8 - n) < 2 ^ n * 2 ^ (8 - n) :=
          Nat.mul_lt_mul_of_pos_right hv (Nat.two_pow_pos _)
      _ = 256 := e
  · rename_i h
    apply Nat.div_lt_of_lt_mul
    have e : 2 ^ (n - 8) * 256 = 2 ^ n := by
      rw [show (256 : Nat) = 2 ^ 8 from rfl, ← Nat.pow_add, show n - 8 + 8 = n from by omega]
    rw [e]
    exact hv

theorem shifted_field (v p n : Nat) (hn : 1 ≤ n) :
    ((v * 2 ^ p) >>> (if p + n ≥ 8 then ((0 : Nat), p + n - 8) else (8 - p - n, 0)).2)
        <<< (if p + n ≥ 8 then ((0 : Nat), p + n - 8) else (8 - p - n, 0)).1
      = normalised_field v n := by
  unfold normalised_field
  by_cases h : p + n ≥ 8
  · rw [if_pos h]
    simp only [Nat.shiftLeft_zero, Nat.shiftRight_eq_div_pow]
    by_cases h8 : n ≤ 8
    · rw [if_pos h8]
      have e : 2 ^ p = 2 ^ (8 - n) * 2 ^ (p + n - 8) := by
        rw [← Nat.pow_add, show 8 - n + (p + n - 8) = p from by omega]
      rw [e, ← Nat.mul_assoc, Nat.mul_div_cancel _ (Nat.two_pow_pos _)]
    · rw [if_neg h8]
      have e : 2 ^ (p + n - 8) = 2 ^ (n - 8) * 2 ^ p := by
        rw [← Nat.pow_add, show n - 8 + p = p + n - 8 from by omega]
      rw [e, Nat.mul_div_mul_right _ _ (Nat.two_pow_pos _)]
  · rw [if_neg h]
    have h8 : n ≤ 8 := by omega
    rw [if_pos h8]
    simp only [Nat.shiftRight_zero, Nat.shiftLeft_eq]
    rw [Nat.mul_assoc, ← Nat.pow_add, show p + (8 - p - n) = 8 - n from by omega]

/-- C23: for every mask whose set bits are the `n >= 1` bits from position `p` on (within
32 bits) and every pixel word, `get_mask_shifts` returns the right shift `p + n - 8` with
left shift 0 when `p + n >= 8` and the left shift `8 - p - n` with right shift 0 otherwise;
the expression `((word & mask) >> right_shift) << left_shift` is the field value
`v = (word & mask) >> p` normalised to 8 bits, that is `v * 2^(8-n)` when `n <= 8` and
`floor(v / 2^(n-8))` when `n > 8`; it is below 256, and it is the byte the 16- and 32-bit
readers store. -/
theorem get_mask_shifts_contiguous (p n code : Nat) (hn : 1 ≤ n) (hpn : p + n ≤ 32) :
    get_mask_shifts (contiguous_mask p n)
      = (if p + n ≥ 8 then (0, p + n - 8) else (8 - p - n, 0)) ∧
    ((code &&& contiguous_mask p n) >>> (get_mask_shifts (contiguous_mask p n)).2)
        <<< (get_mask_shifts (contiguous_mask p n)).1
      = normalised_field (mask_field code p n) n ∧
    normalised_field (mask_field code p n) n < 256 ∧
    (mask_channel code (contiguous_mask p n) (get_mask_shifts (contiguous_mask p n))).val
      = normalised_field (mask_field code p n) n := by
  have h1 := get_mask_shifts_table p (by omega) n (by omega) hn hpn
  have h2 : ((code &&& contiguous_mask p n) >>> (get_mask_shifts (contiguous_mask p n)).2)
      <<< (get_mask_shifts (contiguous_mask p n)).1
      = normalised_field (mask_field code p n) n := by
    rw [h1, and_contiguous_mask_field]
    exact shifted_field _ p n hn
  have h3 := normalised_field_lt _ n (mask_field_lt code p n)
  refine ⟨h1, h2, h3, ?_⟩
  unfold mask_channel nat_to_byte
  simp only [h2]
  omega

theorem get_mask_shifts_contiguous_witness :
    get_mask_shifts (contiguous_mask 5 6) = (0, 3) ∧
    ((0xABCD &&& contiguous_mask 5 6) >>> (get_mask_shifts (contiguous_mask 5 6)).2)
        <<< (get_mask_shifts (contiguous_mask 5 6)).1
      = normalised_field (mask_field 0xABCD 5 6) 6 ∧
    normalised_field (mask_field 0xABCD 5 6) 6 < 256 ∧
    (mask_channel 0xABCD (contiguous_mask 5 6) (get_mask_shifts (contiguous_mask 5 6))).val
      = normalised_field (mask_field 0xABCD 5 6) 6 :=
  get_mask_shifts_contiguous 5 6 0xABCD (by decide) (by decide)

theorem normalised_field_565 :
    contiguous_mask 5 6 = 0x07E0 ∧ mask_field 0xABCD 5 6 = 30 ∧
    normalised_field (mask_field 0xABCD 5 6) 6 = 120 := by
  decide
/-! ## File name suffixes -/

theorem string_ends_with_loop_eq (string suffix : List Byte) (offset : Nat) :
    ∀ (n i : Nat),
      (string_ends_with_loop string suffix offset n i = 1 ∧
        ∀ j, i ≤ j → j < i + n →
          tolower (string.getD (offset + j) 0).val = tolower (suffix.getD j 0).val) ∨
      (string_ends_with_loop string suffix offset n i = 0 ∧
        ¬ ∀ j, i ≤ j → j < i + n →
          tolower (string.getD (offset + j) 0).val = tolower (suffix.getD j 0).val) := by
  intro n
  induction n with
  | zero =>
    intro i
    left
    exact ⟨rfl, fun j h1 h2 => absurd h2 (by omega)⟩
  | succ n ih =>
    intro i
    unfold string_ends_with_loop
    by_cases h : tolower (string.getD (offset + i) 0).val = tolower (suffix.getD i 0).val
    · rw [if_neg (not_not.mpr h)]
      rcases ih (i + 1) with ⟨h1, h2⟩ | ⟨h1, h2⟩
      · left
        refine ⟨h1, ?_⟩
        intro j hj1 hj2
        by_cases hji : j = i
        · rw [hji]; exact h
        · exact h2 j (by omega) (by omega)
      · right
        refine ⟨h1, ?_⟩
        intro hall
        apply h2
        intro j hj1 hj2
        exact hall j (by omega) (by omega)
    · rw [if_pos h]
      right
      refine ⟨rfl, ?_⟩
      intro hall
      exact h (hall i (le_refl _) (by omega))

theorem drop_map_eq_iff (s suffix : List Byte) (f : Byte → Nat) (off : Nat)
    (hl : off + suffix.length = s.length) :
    (s.drop off).map f = suffix.map f ↔
      ∀ j, 0 ≤ j → j < 0 + suffix.length → f (s.getD (off + j) 0) = f (suffix.getD j 0) := by
  constructor
  · intro h j _ hj
    rw [Nat.zero_add] at hj
    have ha : j < ((s.drop off).map f).length := by
      rw [List.length_map, List.length_drop]; omega
    have hb : j < (suffix.map f).length := by rw [List.length_map]; exact hj
    have h1 : ((s.drop off).map f)[j] = (suffix.map f)[j] := by simp only [h]
    rw [List.getElem_map, List.getElem_map, List.getElem_drop] at h1
    rw [List.getD_eq_getElem s _ (by omega), List.getD_eq_getElem suffix _ hj]
    exact h1
  · intro h
    apply List.ext_getElem
    · rw [List.length_map, List.length_map, List.length_drop]; omega
    · intro j h1 h2
      rw [List.length_map] at h2
      have := h j (Nat.zero_le _) (by omega)
      rw [List.getD_eq_getElem _ _ (by omega), List.getD_eq_getElem _ _ h2] at this
      rw [List.getElem_map, List.getElem_map, List.getElem_drop]
      exact this

theorem string_ends_with_iff (s suffix : List Byte) (hs : s.length < 4294967296)
    (hx : suffix.length < 4294967296) :
    (string_ends_with s suffix = 1 ∧ ends_with_lowercased s suffix) ∨
    (string_ends_with s suffix = 0 ∧ ¬ ends_with_lowercased s suffix) := by
  unfold string_ends_with ends_with_lowercased
  rw [Nat.mod_eq_of_lt hs, Nat.mod_eq_of_lt hx]
  dsimp only
  by_cases hl : s.length < suffix.length
  · rw [if_pos hl]
    right
    exact ⟨rfl, fun h => absurd h.1 (by omega)⟩
  · rw [if_neg hl]
    have hiff := drop_map_eq_iff s suffix (fun c => tolower c.val) (s.length - suffix.length)
      (by omega)
    rcases string_ends_with_loop_eq s suffix (s.length - suffix.length) suffix.length 0 with
      ⟨h1, h2⟩ | ⟨h1, h2⟩
    · left
      exact ⟨h1, by omega, hiff.mpr h2⟩
    · right
      exact ⟨h1, fun h => h2 (hiff.mp h.2)⟩
theorem string_ends_with_zero (s suffix : List Byte) (hs : s.length < 4294967296)
    (hx : suffix.length < 4294967296) (h : ¬ ends_with_lowercased s suffix) :
    string_ends_with s suffix = 0 := by
  rcases string_ends_with_iff s suffix hs hx with ⟨_, h2⟩ | ⟨h1, _⟩
  · exact absurd h2 h
  · exact h1

theorem write_image_fileformat_none (filename : List Byte)
    (hlen : filename.length < 4294967296) (h : ¬ known_suffix filename) :
    write_image_fileformat filename = none := by
  unfold known_suffix at h
  simp only [not_or] at h
  obtain ⟨h1, h2, h3, h4⟩ := h
  unfold write_image_fileformat
  rw [string_ends_with_zero filename suffix_bmp hlen (by decide) h1,
    string_ends_with_zero filename suffix_jpg hlen (by decide) h2,
    string_ends_with_zero filename suffix_jpeg hlen (by decide) h3,
    string_ends_with_zero filename suffix_png hlen (by decide) h4]
  simp

/-- C22: `write_image` returns 0, without calling `convert_from_format` and without calling
an external writer, when the image pointer is null, when `width <= 0`, when `height <= 0`,
or when the file name ends, compared after lower-casing, in none of ".bmp", ".jpg", ".jpeg"
and ".png"; and `string_ends_with(s, suffix)` returns 1 when `s` is at least as long as
`suffix` and its last `|suffix|` characters equal `suffix` after lower-casing both, and 0
otherwise (strings shorter than 2^32 characters, whose lengths fit `unsigned`). -/
theorem write_image_rejects (env : Env) (stbi : Stbi) (image : Option (List Byte))
    (width height : Int) (filename : List Byte) (format : Format) (quality : Int)
    (s suffix : List Byte) (hlen : filename.length < 4294967296)
    (hs : s.length < 4294967296) (hx : suffix.length < 4294967296) :
    (image = none ∨ width ≤ 0 ∨ height ≤ 0 ∨ ¬ known_suffix filename →
      write_image env stbi image width height filename format quality
        = .ok ⟨0, false, none⟩) ∧
    ((string_ends_with s suffix = 1 ∧ ends_with_lowercased s suffix) ∨
      (string_ends_with s suffix = 0 ∧ ¬ ends_with_lowercased s suffix)) := by
  refine ⟨?_, string_ends_with_iff s suffix hs hx⟩
  intro h
  unfold write_image
  cases image with
  | none => rfl
  | some src =>
    dsimp only
    by_cases hd : width ≤ 0 ∨ height ≤ 0
    · rw [if_pos hd]
    · rw [if_neg hd]
      have hk : ¬ known_suffix filename := by
        rcases h with h | h | h | h
        · exact absurd h (by simp)
        · exact absurd (Or.inl h) hd
        · exact absurd (Or.inr h) hd
        · exact h
      rw [write_image_fileformat_none filename hlen hk]

theorem write_image_rejects_witness :
    ((some [1, 2, 3, 4] : Option (List Byte)) = none ∨ (1 : Int) ≤ 0 ∨ (1 : Int) ≤ 0
        ∨ ¬ known_suffix filename_tif →
      write_image Env.sample Stbi.sample (some [1, 2, 3, 4]) 1 1 filename_tif Format.default 90
        = .ok ⟨0, false, none⟩) ∧
    ((string_ends_with filename_bmp suffix_bmp = 1
        ∧ ends_with_lowercased filename_bmp suffix_bmp) ∨
      (string_ends_with filename_bmp suffix_bmp = 0
        ∧ ¬ ends_with_lowercased filename_bmp suffix_bmp)) :=
  write_image_rejects Env.sample Stbi.sample (some [1, 2, 3, 4]) 1 1 filename_tif
    Format.default 90 filename_bmp suffix_bmp (by decide) (by decide) (by decide)

theorem write_image_samples :
    write_image Env.sample Stbi.sample (some [1, 2, 3, 4]) 1 1 filename_tif Format.default 90
      = .ok ⟨0, false, none⟩ ∧
    write_image Env.sample Stbi.sample (some [1, 2, 3, 4]) 1 1 filename_bmp Format.default 90
      = .ok ⟨1, true, some (FileFormat.BMP_FORMAT, [⟨1, 2, 3, 4⟩])⟩ ∧
    write_image Env.sample Stbi.sample (some [1, 2, 3, 4]) 0 1 filename_bmp Format.default 90
      = .ok ⟨0, false, none⟩ ∧
    string_ends_with filename_bmp suffix_bmp = 1 ∧
    string_ends_with filename_tif suffix_bmp = 0 ∧
    string_ends_with suffix_jpg suffix_jpeg = 0 := by
  decide
/-! ## The 2 x 2 image through the encoder and the decoder -/

set_option maxRecDepth 100000 in
theorem write_bmp_2x2 (env : Env) : write_bmp env (some image_2x2) 2 2 [] = ⟨1, bmp_2x2⟩ := by
  unfold write_bmp get_image_palette
  cases env.malloc_ok (4 * max_colors) <;> rfl

set_option maxRecDepth 100000 in
theorem read_bmp_header_2x2 :
    read_bmp_header (fopen bmp_2x2)
      = .ok (some (⟨54, 40, false, 2, 2, 1, 24, 0, 0, le32_at bmp_2x2 54, le32_at bmp_2x2 58,
          le32_at bmp_2x2 62, le32_at bmp_2x2 66⟩, ⟨bmp_2x2, 70, false⟩)) := by
  decide!

set_option maxRecDepth 100000 in
/-- C21 as amended: the 2 x 2 image whose bottom row is red, green and whose top row is
blue, white is written by `write_bmp` as a 24-bit file of 70 bytes, and `read_bmp` applied
to these bytes returns exactly the same 2 x 2 layout. -/
theorem roundtrip_2x2 (env : Env) (hmax : 2 ≤ env.MAX_IMAGE_SIZE)
    (hm : env.malloc_ok 16 = true) :
    (write_bmp env (some image_2x2) 2 2 []).ret = 1 ∧
    le16_at (write_bmp env (some image_2x2) 2 2 []).file 28 = 24 ∧
    read_bmp env (fopen (write_bmp env (some image_2x2) 2 2 []).file)
      = .ok ⟨1, Ptr.live image_2x2, 2, 2, Ptr.null⟩ := by
  rw [write_bmp_2x2]
  refine ⟨rfl, by decide, ?_⟩
  show read_bmp env (fopen bmp_2x2) = _
  rw [read_bmp_of_header env _ _ _ read_bmp_header_2x2 (by simpa using hmax)
    (by simpa using hmax) rfl rfl (by decide) (by simpa using hm)]
  rw [read_bmp_body_no_palette env _ _ _ (by decide) 54 rfl]
  decide!

theorem roundtrip_2x2_witness :
    (write_bmp Env.sample (some image_2x2) 2 2 []).ret = 1 ∧
    le16_at (write_bmp Env.sample (some image_2x2) 2 2 []).file 28 = 24 ∧
    read_bmp Env.sample (fopen (write_bmp Env.sample (some image_2x2) 2 2 []).file)
      = .ok ⟨1, Ptr.live image_2x2, 2, 2, Ptr.null⟩ :=
  roundtrip_2x2 Env.sample (by decide) rfl

set_option maxRecDepth 100000 in
/-- The counterexample to C21 as stated: the image has four distinct colours, more than a
2-colour palette holds, and the file `write_bmp` produces for it has 24 bits per pixel, not
1, and no palette (its pixel data starts right after the 54 bytes of the headers). -/
theorem write_bmp_2x2_not_1bpp :
    distinct_colors image_2x2 = 4 ∧
    le16_at (write_bmp Env.sample (some image_2x2) 2 2 []).file 28 = 24 ∧
    le16_at (write_bmp Env.sample (some image_2x2) 2 2 []).file 28 ≠ 1 ∧
    le32_at (write_bmp Env.sample (some image_2x2) 2 2 []).file 10 = 54 := by
  rw [write_bmp_2x2]
  decide

set_option maxRecDepth 100000 in
/-- A 2 x 2 image of two colours stored with 1 bit per pixel and a 2-colour palette is
decoded to the same layout: the bottom row of the file (red, green) is the last row of the
buffer. -/
theorem read_bmp_2x2_1bpp :
    read_bmp Env.sample (fopen bmp_2x2_1bpp)
      = .ok ⟨1, Ptr.live [⟨0, 255, 0, 255⟩, ⟨255, 0, 0, 255⟩, ⟨255, 0, 0, 255⟩,
          ⟨0, 255, 0, 255⟩], 2, 2, Ptr.freed⟩ := by
  decide!

/-! ## One pass of the run-length decoders -/

theorem to_u32_byte_at (data : List Byte) (pos : Nat) :
    to_u32 ((byte_at data pos : Nat) : Int) = byte_at data pos :=
  to_u32_of_nat _ (by have := byte_at_lt data pos; omega)

theorem getc_pair (data : List Byte) (pos : Nat) (h : pos + 2 ≤ data.length) :
    getc ⟨data, pos, false⟩ = (((byte_at data pos : Nat) : Int), (⟨data, pos + 1, false⟩ : FILE)) ∧
    getc ⟨data, pos + 1, false⟩
      = (((byte_at data (pos + 1) : Nat) : Int), (⟨data, pos + 2, false⟩ : FILE)) :=
  ⟨getc_lt data pos false (by omega), getc_lt data (pos + 1) false (by omega)⟩

theorem read_bmp_8bpp_rle_loop_step (palette : List Pixel) (width : Int) (fuel : Nat)
    (x y row : Int) (image : List Pixel) (data : List Byte) (pos : Nat) (hy : y ≠ 0)
    (h : pos + 2 ≤ data.length) :
    read_bmp_8bpp_rle_loop palette width (fuel + 1) x y row image ⟨data, pos, false⟩
      = if byte_at data pos = 0 then
          if byte_at data (pos + 1) = 0 then
            read_bmp_8bpp_rle_loop palette width fuel 0 (y - 1) (row - width) image
              ⟨data, pos + 2, false⟩
          else if byte_at data (pos + 1) = 1 then .ok (1, image, ⟨data, pos + 2, false⟩)
          else if byte_at data (pos + 1) = 2 then
            if x + (getc ⟨data, pos + 2, false⟩).1 ≥ width
                ∨ y - (getc (getc ⟨data, pos + 2, false⟩).2).1 < 0 then
              .ok (0, image, (getc (getc ⟨data, pos + 2, false⟩).2).2)
            else
              read_bmp_8bpp_rle_loop palette width fuel
                (x + (getc ⟨data, pos + 2, false⟩).1)
                (y - (getc (getc ⟨data, pos + 2, false⟩).2).1)
                (row - (getc (getc ⟨data, pos + 2, false⟩).2).1 * width) image
                (getc (getc ⟨data, pos + 2, false⟩).2).2
          else
            read_bmp_8bpp_rle_literal palette width row ((width - x).toNat + 1)
                (to_int (byte_at data (pos + 1))) x image ⟨data, pos + 2, false⟩
              >>= fun r =>
                read_bmp_8bpp_rle_loop palette width fuel r.1 y row r.2.1
                  (if byte_at data (pos + 1) &&& 1 ≠ 0 then (getc r.2.2).2 else r.2.2)
        else
          read_bmp_8bpp_rle_run (palette.getD (byte_at data (pos + 1) &&& 0xFF) default) width
              row ((width - x).toNat + 1) (byte_at data pos) x image
            >>= fun r =>
              read_bmp_8bpp_rle_loop palette width fuel r.1 y row r.2
                ⟨data, pos + 2, false⟩ := by
  obtain ⟨g1, g2⟩ := getc_pair data pos h
  rw [read_bmp_8bpp_rle_loop, if_neg hy, if_neg (by simp [feof]), g1]
  dsimp only
  rw [g2]
  dsimp only
  rw [to_u32_byte_at, to_u32_byte_at]

theorem read_bmp_4bpp_rle_loop_step (palette : List Pixel) (width : Int) (fuel : Nat)
    (x y row : Int) (image : List Pixel) (data : List Byte) (pos : Nat) (hy : y ≠ 0)
    (h : pos + 2 ≤ data.length) :
    read_bmp_4bpp_rle_loop palette width (fuel + 1) x y row image ⟨data, pos, false⟩
      = if byte_at data pos = 0 then
          if byte_at data (pos + 1) = 0 then
            read_bmp_4bpp_rle_loop palette width fuel 0 (y - 1) (row - width) image
              ⟨data, pos + 2, false⟩
          else if byte_at data (pos + 1) = 1 then .ok (1, image, ⟨data, pos + 2, false⟩)
          else if byte_at data (pos + 1) = 2 then
            if x + (getc ⟨data, pos + 2, false⟩).1 ≥ width
                ∨ y - (getc (getc ⟨data, pos + 2, false⟩).2).1 < 0 then
              .ok (0, image, (getc (getc ⟨data, pos + 2, false⟩).2).2)
            else
              read_bmp_4bpp_rle_loop palette width fuel
                (x + (getc ⟨data, pos + 2, false⟩).1)
                (y - (getc (getc ⟨data, pos + 2, false⟩).2).1)
                (row - (getc (getc ⟨data, pos + 2, false⟩).2).1 * width) image
                (getc (getc ⟨data, pos + 2, false⟩).2).2
          else if x ≥ width then .ok (0, image, ⟨data, pos + 2, false⟩)
          else
            read_bmp_4bpp_rle_literal palette width row ((width - x).toNat + 1)
                (to_int (byte_at data (pos + 1))) x image ⟨data, pos + 2, false⟩
              >>= fun r =>
                read_bmp_4bpp_rle_loop palette width fuel r.1 y row r.2.1
                  (if (((byte_at data (pos + 1) + 1) % 4294967296) / 2) &&& 1 ≠ 0 then
                    (getc r.2.2).2 else r.2.2)
        else if x ≥ width then .ok (0, image, ⟨data, pos + 2, false⟩)
        else
          read_bmp_4bpp_rle_run
              (palette.getD ((byte_at data (pos + 1) &&& 0xF0) >>> 4) default)
              (palette.getD (byte_at data (pos + 1) &&& 0xF) default) width
              row ((width - x).toNat + 1) (byte_at data pos) x image
            >>= fun r =>
              read_bmp_4bpp_rle_loop palette width fuel r.1 y row r.2
                ⟨data, pos + 2, false⟩ := by
  obtain ⟨g1, g2⟩ := getc_pair data pos h
  rw [read_bmp_4bpp_rle_loop, if_neg hy, if_neg (by simp [feof]), g1]
  dsimp only
  rw [g2]
  dsimp only
  rw [to_u32_byte_at, to_u32_byte_at]
/-! ## The inner loops of the run-length decoders -/

theorem store_nat {α : Type} (buf : List α) (a b : Nat) (v : α) (h : a + b < buf.length) :
    store buf ((a : Int) + (b : Int)) v = .ok (buf.set (a + b) v) := by
  have e : ((a : Int) + (b : Int)) = ((a + b : Nat) : Int) := by push_cast; rfl
  rw [e, store_ok buf (a + b) v h]

theorem read_bmp_8bpp_rle_run_spec (color : Pixel) (w row : Nat) :
    ∀ (fuel count x : Nat) (image : List Pixel), x ≤ w → w - x + 1 ≤ fuel → 1 ≤ count →
      count < 4294967296 → row + w ≤ image.length →
      ∃ image', read_bmp_8bpp_rle_run color (w : Int) (row : Int) fuel count (x : Int) image
          = .ok (((min (x + count) w : Nat) : Int), image') ∧
        image'.length = image.length ∧
        ∀ j, image'.getD j default
          = if row + x ≤ j ∧ j < row + min (x + count) w then color
            else image.getD j default := by
  intro fuel
  induction fuel with
  | zero => intro count x image _ h; omega
  | succ fuel ih =>
    intro count x image hx hf hc hc32 hlen
    rw [read_bmp_8bpp_rle_run]
    by_cases hxw : x < w
    · have h1 : ¬ ((x : Int) ≥ (w : Int)) := by omega
      rw [if_neg h1, store_nat image row x color (by omega), except_ok_bind]
      have hcount : (count + 4294967295) % 4294967296 = count - 1 := by omega
      rw [hcount]
      have hx1 : ((x : Int) + 1) = ((x + 1 : Nat) : Int) := by push_cast; rfl
      rw [hx1]
      by_cases hc1 : count - 1 ≠ 0
      · rw [if_pos hc1]
        obtain ⟨image', e, hl, hg⟩ :=
          ih (count - 1) (x + 1) (image.set (row + x) color) (by omega) (by omega) (by omega)
            (by omega) (by rw [List.length_set]; exact hlen)
        have hm : min (x + 1 + (count - 1)) w = min (x + count) w := by
          rw [show x + 1 + (count - 1) = x + count by omega]
        rw [hm] at e hg
        refine ⟨image', e, by rw [hl, List.length_set], ?_⟩
        intro j
        rw [hg j]
        by_cases hj : j = row + x
        · subst hj
          have hm2 : x + 1 ≤ min (x + count) w := by omega
          rw [if_neg (by omega), if_pos (by omega), getD_set_eq _ _ _ _ (by omega)]
        · rw [getD_set_ne _ _ _ _ _ (Ne.symm hj)]
          by_cases hr : row + x ≤ j ∧ j < row + min (x + count) w
          · rw [if_pos hr, if_pos (by omega)]
          · rw [if_neg hr, if_neg (by omega)]
      · rw [if_neg hc1]
        have hm : min (x + count) w = x + 1 := by omega
        refine ⟨image.set (row + x) color, by rw [hm], by rw [List.length_set], ?_⟩
        intro j
        rw [hm]
        by_cases hj : j = row + x
        · subst hj
          rw [if_pos (by omega), getD_set_eq _ _ _ _ (by omega)]
        · rw [getD_set_ne _ _ _ _ _ (Ne.symm hj), if_neg (by omega)]
    · have h1 : ((x : Int) ≥ (w : Int)) := by omega
      rw [if_pos h1]
      have hm : min (x + count) w = x := by omega
      refine ⟨image, by rw [hm], rfl, ?_⟩
      intro j
      rw [hm, if_neg (by omega)]
theorem and_255 (b : Nat) (h : b < 256) : b &&& 0xFF = b := by
  have e : (0xFF : Nat) = 2 ^ 8 - 1 := by decide
  rw [e, Nat.and_pow_two_sub_one_eq_mod]
  exact Nat.mod_eq_of_lt h

theorem read_bmp_8bpp_rle_literal_spec (palette : List Pixel) (w row : Nat) (data : List Byte) :
    ∀ (fuel n x pos : Nat) (image : List Pixel), x ≤ w → w - x + 1 ≤ fuel → 1 ≤ n →
      pos + min n (w - x) ≤ data.length → row + w ≤ image.length →
      ∃ image', read_bmp_8bpp_rle_literal palette (w : Int) (row : Int) fuel (n : Int) (x : Int)
            image ⟨data, pos, false⟩
          = .ok (((min (x + n) w : Nat) : Int), image', ⟨data, pos + min n (w - x), false⟩) ∧
        image'.length = image.length ∧
        ∀ j, image'.getD j default
          = if row + x ≤ j ∧ j < row + min (x + n) w then
              palette.getD (byte_at data (pos + (j - (row + x)))) default
            else image.getD j default := by
  intro fuel
  induction fuel with
  | zero => intro n x pos image _ h; omega
  | succ fuel ih =>
    intro n x pos image hx hf hn hpos hlen
    rw [read_bmp_8bpp_rle_literal]
    by_cases hxw : x < w
    · have h1 : ¬ ((x : Int) ≥ (w : Int)) := by omega
      rw [if_neg h1, getc_lt data pos false (by omega)]
      dsimp only
      rw [to_u32_byte_at, and_255 _ (byte_at_lt data pos),
        store_nat image row x _ (by omega), except_ok_bind]
      have hx1 : ((x : Int) + 1) = ((x + 1 : Nat) : Int) := by push_cast; rfl
      have hn1 : ((n : Int) - 1) = ((n - 1 : Nat) : Int) := by omega
      rw [hx1, hn1]
      by_cases hc1 : n = 1
      · have h0 : ¬ (((n - 1 : Nat) : Int) ≠ 0) := by omega
        rw [if_neg h0]
        have hm : min (x + n) w = x + 1 := by omega
        have hm2 : min n (w - x) = 1 := by omega
        refine ⟨image.set (row + x) (palette.getD (byte_at data pos) default),
          by rw [hm, hm2], by rw [List.length_set], ?_⟩
        intro j
        rw [hm]
        by_cases hj : j = row + x
        · subst hj
          rw [if_pos (by omega), getD_set_eq _ _ _ _ (by omega), Nat.sub_self, Nat.add_zero]
        · rw [getD_set_ne _ _ _ _ _ (Ne.symm hj), if_neg (by omega)]
      · have h0 : (((n - 1 : Nat) : Int) ≠ 0) := by omega
        rw [if_pos h0]
        obtain ⟨image', e, hl, hg⟩ :=
          ih (n - 1) (x + 1) (pos + 1) (image.set (row + x) (palette.getD (byte_at data pos) default))
            (by omega) (by omega) (by omega) (by omega) (by rw [List.length_set]; exact hlen)
        have hm : min (x + 1 + (n - 1)) w = min (x + n) w := by
          rw [show x + 1 + (n - 1) = x + n by omega]
        have hm2 : pos + 1 + min (n - 1) (w - (x + 1)) = pos + min n (w - x) := by omega
        rw [hm, hm2] at e
        rw [hm] at hg
        refine ⟨image', e, by rw [hl, List.length_set], ?_⟩
        intro j
        rw [hg j]
        by_cases hj : j = row + x
        · subst hj
          rw [if_neg (by omega), if_pos (by omega), getD_set_eq _ _ _ _ (by omega),
            Nat.sub_self, Nat.add_zero]
        · rw [getD_set_ne _ _ _ _ _ (Ne.symm hj)]
          by_cases hr : row + x ≤ j ∧ j < row + min (x + n) w
          · rw [if_pos hr, if_pos (by omega)]
            have hp : pos + 1 + (j - (row + (x + 1))) = pos + (j - (row + x)) := by omega
            rw [hp]
          · rw [if_neg hr, if_neg (by omega)]
    · have h1 : ((x : Int) ≥ (w : Int)) := by omega
      rw [if_pos h1]
      have hm : min (x + n) w = x := by omega
      have hm2 : min n (w - x) = 0 := by omega
      refine ⟨image, by rw [hm, hm2]; rfl, rfl, ?_⟩
      intro j
      rw [hm, if_neg (by omega)]
theorem read_bmp_4bpp_rle_literal_spec (palette : List Pixel) (w row : Nat) (data : List Byte) :
    ∀ (fuel n x pos : Nat) (image : List Pixel), x < w → w - x + 1 ≤ fuel → 1 ≤ n →
      pos + (min n (w - x) + 1) / 2 ≤ data.length → row + w ≤ image.length →
      ∃ image', read_bmp_4bpp_rle_literal palette (w : Int) (row : Int) fuel (n : Int) (x : Int)
            image ⟨data, pos, false⟩
          = .ok (((x + min n (w - x) : Nat) : Int), image',
              ⟨data, pos + (min n (w - x) + 1) / 2, false⟩) ∧
        image'.length = image.length ∧
        ∀ j, image'.getD j default
          = if row + x ≤ j ∧ j < row + x + min n (w - x) then
              palette.getD
                (nibble_index (byte_at data (pos + (j - (row + x)) / 2)) (j - (row + x))) default
            else image.getD j default := by
  intro fuel
  induction fuel with
  | zero => intro n x pos image _ h; omega
  | succ fuel ih =>
    intro n x pos image hx hf hn hpos hlen
    rw [read_bmp_4bpp_rle_literal, getc_lt data pos false (by omega)]
    dsimp only
    rw [to_u32_byte_at, store_nat image row x _ (by omega), except_ok_bind]
    have hx1 : ((x : Int) + 1) = ((x + 1 : Nat) : Int) := by push_cast; rfl
    have hn1 : ((n : Int) - 1) = ((n - 1 : Nat) : Int) := by omega
    rw [hx1, hn1]
    have hj0 : ∀ j, j = row + x →
        nibble_index (byte_at data (pos + (j - (row + x)) / 2)) (j - (row + x))
          = (byte_at data pos &&& 0xF0) >>> 4 := by
      intro j hj
      subst hj
      simp [nibble_index]
    have hj1 : ∀ j, j = row + (x + 1) →
        nibble_index (byte_at data (pos + (j - (row + x)) / 2)) (j - (row + x))
          = byte_at data pos &&& 0x0F := by
      intro j hj
      subst hj
      have e : row + (x + 1) - (row + x) = 1 := by omega
      rw [e]
      simp [nibble_index]
    by_cases hA : x + 1 < w
    · have h1 : ¬ (((x + 1 : Nat) : Int) ≥ (w : Int)) := by omega
      rw [if_neg h1]
      by_cases hB : n = 1
      · have h0 : ¬ (((n - 1 : Nat) : Int) ≠ 0) := by omega
        rw [if_neg h0]
        have hm : min n (w - x) = 1 := by omega
        refine ⟨_, by rw [hm], by rw [List.length_set], ?_⟩
        intro j
        rw [hm]
        by_cases hj : j = row + x
        · rw [if_pos (by omega), hj0 j hj]
          subst hj
          rw [getD_set_eq _ _ _ _ (by omega)]
        · rw [getD_set_ne _ _ _ _ _ (Ne.symm hj), if_neg (by omega)]
      · have h0 : (((n - 1 : Nat) : Int) ≠ 0) := by omega
        rw [if_pos h0, store_nat _ row (x + 1) _ (by rw [List.length_set]; omega), except_ok_bind]
        have hx2 : (((x + 1 : Nat) : Int) + 1) = ((x + 2 : Nat) : Int) := by push_cast; ring
        have hn2 : (((n - 1 : Nat) : Int) - 1) = ((n - 2 : Nat) : Int) := by omega
        rw [hx2, hn2]
        by_cases hC : x + 2 < w
        · have h2 : ¬ (((x + 2 : Nat) : Int) ≥ (w : Int)) := by omega
          rw [if_neg h2]
          by_cases hD : n = 2
          · have h3 : ¬ (((n - 2 : Nat) : Int) ≠ 0) := by omega
            rw [if_neg h3]
            have hm : min n (w - x) = 2 := by omega
            refine ⟨_, by rw [hm], by rw [List.length_set, List.length_set], ?_⟩
            intro j
            rw [hm]
            by_cases hj : j = row + (x + 1)
            · rw [if_pos (by omega), hj1 j hj]
              subst hj
              rw [getD_set_eq _ _ _ _ (by rw [List.length_set]; omega)]
            · rw [getD_set_ne _ _ _ _ _ (Ne.symm hj)]
              by_cases hj2 : j = row + x
              · rw [if_pos (by omega), hj0 j hj2]
                subst hj2
                rw [getD_set_eq _ _ _ _ (by omega)]
              · rw [getD_set_ne _ _ _ _ _ (Ne.symm hj2), if_neg (by omega)]
          · have h3 : (((n - 2 : Nat) : Int) ≠ 0) := by omega
            rw [if_pos h3]
            obtain ⟨image', e, hl, hg⟩ :=
              ih (n - 2) (x + 2) (pos + 1)
                ((image.set (row + x) (palette.getD ((byte_at data pos &&& 0xF0) >>> 4) default)).set
                  (row + (x + 1)) (palette.getD (byte_at data pos &&& 0x0F) default))
                (by omega) (by omega) (by omega) (by omega)
                (by rw [List.length_set, List.length_set]; exact hlen)
            have hm1 : x + 2 + min (n - 2) (w - (x + 2)) = x + min n (w - x) := by omega
            have hm2 : pos + 1 + (min (n - 2) (w - (x + 2)) + 1) / 2
                = pos + (min n (w - x) + 1) / 2 := by omega
            rw [hm1, hm2] at e
            refine ⟨image', e, by rw [hl, List.length_set, List.length_set], ?_⟩
            intro j
            rw [hg j]
            by_cases hr : row + (x + 2) ≤ j ∧ j < row + (x + 2) + min (n - 2) (w - (x + 2))
            · rw [if_pos hr, if_pos (by omega)]
              have hp : pos + 1 + (j - (row + (x + 2))) / 2 = pos + (j - (row + x)) / 2 := by
                omega
              have hq : (j - (row + (x + 2))) % 2 = (j - (row + x)) % 2 := by omega
              rw [hp]
              simp only [nibble_index, hq]
            · rw [if_neg hr]
              by_cases hj : j = row + (x + 1)
              · rw [if_pos (by omega), hj1 j hj]
                subst hj
                rw [getD_set_eq _ _ _ _ (by rw [List.length_set]; omega)]
              · rw [getD_set_ne _ _ _ _ _ (Ne.symm hj)]
                by_cases hj2 : j = row + x
                · rw [if_pos (by omega), hj0 j hj2]
                  subst hj2
                  rw [getD_set_eq _ _ _ _ (by omega)]
                · rw [getD_set_ne _ _ _ _ _ (Ne.symm hj2), if_neg (by omega)]
        · have h2 : (((x + 2 : Nat) : Int) ≥ (w : Int)) := by omega
          rw [if_pos h2]
          have hm : min n (w - x) = 2 := by omega
          refine ⟨_, by rw [hm], by rw [List.length_set, List.length_set], ?_⟩
          intro j
          rw [hm]
          by_cases hj : j = row + (x + 1)
          · rw [if_pos (by omega), hj1 j hj]
            subst hj
            rw [getD_set_eq _ _ _ _ (by rw [List.length_set]; omega)]
          · rw [getD_set_ne _ _ _ _ _ (Ne.symm hj)]
            by_cases hj2 : j = row + x
            · rw [if_pos (by omega), hj0 j hj2]
              subst hj2
              rw [getD_set_eq _ _ _ _ (by omega)]
            · rw [getD_set_ne _ _ _ _ _ (Ne.symm hj2), if_neg (by omega)]
    · have h1 : (((x + 1 : Nat) : Int) ≥ (w : Int)) := by omega
      rw [if_pos h1]
      have hm : min n (w - x) = 1 := by omega
      refine ⟨_, by rw [hm], by rw [List.length_set], ?_⟩
      intro j
      rw [hm]
      by_cases hj : j = row + x
      · rw [if_pos (by omega), hj0 j hj]
        subst hj
        rw [getD_set_eq _ _ _ _ (by omega)]
      · rw [getD_set_ne _ _ _ _ _ (Ne.symm hj), if_neg (by omega)]
/-! ## Runs of the 8-bit run-length decoder -/

theorem fill_image_full (image : List Pixel) (w h : Nat) (color : Pixel)
    (hlen : image.length = w * h) :
    fill_image image w h color = List.replicate (w * h) color := by
  rw [fill_image, hlen, Nat.min_self, List.drop_of_length_le (by omega), List.append_nil]

theorem rle_start_row (w h : Nat) (hh : 1 ≤ h) :
    (w : Int) * ((h : Int) - 1) = ((w * (h - 1) : Nat) : Int) := by
  obtain ⟨k, rfl⟩ : ∃ k, h = k + 1 := ⟨h - 1, by omega⟩
  simp

/-- C24: in `read_bmp_8bpp_rle`, a pair (count `c > 0`, value `v`) read while the cursor is
at column `x < w` of the row that starts at pixel `row` writes `palette[v]` to the columns
`x .. min (x + c) w - 1` of that row and changes no other pixel: the run loop returns the
cursor `min (x + c) w` and the buffer `image'` in which exactly these pixels have changed,
without error when `x + c > w`; the decoder goes on with the next pair at that cursor on
that buffer; when the end of bitmap (0, 1) follows the pair, the loop of the decoder
returns success with that buffer, and so does the decoder itself when the pair is the
first of the stream. -/
theorem read_bmp_8bpp_rle_run_clipped (palette : List Pixel) (w row x c v : Nat) (y : Int)
    (image : List Pixel) (data : List Byte) (pos : Nat) (hy : y ≠ 0)
    (hpos : pos + 2 ≤ data.length) (hc : byte_at data pos = c) (hc0 : 0 < c)
    (hv : byte_at data (pos + 1) = v) (hx : x < w) (hlen : row + w ≤ image.length) :
    ∃ image',
      read_bmp_8bpp_rle_run (palette.getD v default) (w : Int) (row : Int)
          (((w : Int) - (x : Int)).toNat + 1) c (x : Int) image
        = .ok (((min (x + c) w : Nat) : Int), image') ∧
      image'.length = image.length ∧
      (∀ j, image'.getD j default
        = if row + x ≤ j ∧ j < row + min (x + c) w then palette.getD v default
          else image.getD j default) ∧
      (∀ fuel,
        read_bmp_8bpp_rle_loop palette (w : Int) (fuel + 1) (x : Int) y (row : Int) image
            ⟨data, pos, false⟩
          = read_bmp_8bpp_rle_loop palette (w : Int) fuel ((min (x + c) w : Nat) : Int) y
              (row : Int) image' ⟨data, pos + 2, false⟩) ∧
      (∀ fuel, pos + 4 ≤ data.length → byte_at data (pos + 2) = 0 →
        byte_at data (pos + 3) = 1 →
        read_bmp_8bpp_rle_loop palette (w : Int) (fuel + 2) (x : Int) y (row : Int) image
            ⟨data, pos, false⟩
          = .ok (1, image', ⟨data, pos + 4, false⟩)) ∧
      (∀ (h : Nat) (buffer : List Pixel), 1 ≤ h → buffer.length = w * h → x = 0 →
        y = h → row = w * (h - 1) →
        image = List.replicate (w * h) (palette.getD 0 default) →
        pos + 4 ≤ data.length → byte_at data (pos + 2) = 0 → byte_at data (pos + 3) = 1 →
        read_bmp_8bpp_rle buffer w h ⟨data, pos, false⟩ palette
          = .ok (1, image', ⟨data, pos + 4, false⟩)) := by
  have hc256 : c < 256 := by rw [← hc]; exact byte_at_lt data pos
  have hv256 : v < 256 := by rw [← hv]; exact byte_at_lt data (pos + 1)
  obtain ⟨image', e, hl, hg⟩ :=
    read_bmp_8bpp_rle_run_spec (palette.getD v default) w row
      (((w : Int) - (x : Int)).toNat + 1) c x image (by omega) (by omega) (by omega) (by omega)
      hlen
  have hstep : ∀ fuel,
      read_bmp_8bpp_rle_loop palette (w : Int) (fuel + 1) (x : Int) y (row : Int) image
          ⟨data, pos, false⟩
        = read_bmp_8bpp_rle_loop palette (w : Int) fuel ((min (x + c) w : Nat) : Int) y
            (row : Int) image' ⟨data, pos + 2, false⟩ := by
    intro fuel
    rw [read_bmp_8bpp_rle_loop_step palette w fuel x y row image data pos hy hpos, hc, hv,
      if_neg (by omega), and_255 v hv256, e]
    rfl
  have hend : ∀ fuel, pos + 4 ≤ data.length → byte_at data (pos + 2) = 0 →
      byte_at data (pos + 3) = 1 →
      read_bmp_8bpp_rle_loop palette (w : Int) (fuel + 2) (x : Int) y (row : Int) image
          ⟨data, pos, false⟩
        = .ok (1, image', ⟨data, pos + 4, false⟩) := by
    intro fuel h4 b2 b3
    rw [hstep (fuel + 1),
      read_bmp_8bpp_rle_loop_step palette w fuel _ y row image' data (pos + 2) hy (by omega),
      b2, show pos + 2 + 1 = pos + 3 from rfl, b3]
    rfl
  refine ⟨image', e, hl, hg, hstep, hend, ?_⟩
  intro h buffer hh hb hx0 hyh hrow himg h4 b2 b3
  have hfill := fill_image_full buffer w h (palette.getD 0 default) hb
  rw [read_bmp_8bpp_rle, hfill, rle_start_row w h hh, ← hrow, ← himg, ← hyh]
  have := hend data.length h4 b2 b3
  rw [hx0] at this
  exact this

theorem read_bmp_8bpp_rle_run_clipped_witness :
    ∃ image',
      read_bmp_8bpp_rle_run (palette_0x37.getD 0x37 default) ((4 : Nat) : Int) ((4 : Nat) : Int)
          ((((4 : Nat) : Int) - ((0 : Nat) : Int)).toNat + 1) 5 ((0 : Nat) : Int)
          (List.replicate (4 * 2) (palette_0x37.getD 0 default))
        = .ok (((min (0 + 5) 4 : Nat) : Int), image') ∧
      image'.length = (List.replicate (4 * 2) (palette_0x37.getD 0 default)).length ∧
      (∀ j, image'.getD j default
        = if 4 + 0 ≤ j ∧ j < 4 + min (0 + 5) 4 then palette_0x37.getD 0x37 default
          else (List.replicate (4 * 2) (palette_0x37.getD 0 default)).getD j default) ∧
      (∀ fuel,
        read_bmp_8bpp_rle_loop palette_0x37 ((4 : Nat) : Int) (fuel + 1) ((0 : Nat) : Int)
            ((2 : Nat) : Int) ((4 : Nat) : Int)
            (List.replicate (4 * 2) (palette_0x37.getD 0 default)) ⟨[5, 0x37, 0, 1], 0, false⟩
          = read_bmp_8bpp_rle_loop palette_0x37 ((4 : Nat) : Int) fuel
              ((min (0 + 5) 4 : Nat) : Int) ((2 : Nat) : Int) ((4 : Nat) : Int) image'
              ⟨[5, 0x37, 0, 1], 0 + 2, false⟩) ∧
      (∀ fuel,
        read_bmp_8bpp_rle_loop palette_0x37 ((4 : Nat) : Int) (fuel + 2) ((0 : Nat) : Int)
            ((2 : Nat) : Int) ((4 : Nat) : Int)
            (List.replicate (4 * 2) (palette_0x37.getD 0 default)) ⟨[5, 0x37, 0, 1], 0, false⟩
          = .ok (1, image', ⟨[5, 0x37, 0, 1], 0 + 4, false⟩)) ∧
      read_bmp_8bpp_rle (List.replicate 8 default) 4 2 ⟨[5, 0x37, 0, 1], 0, false⟩ palette_0x37
        = .ok (1, image', ⟨[5, 0x37, 0, 1], 0 + 4, false⟩) :=
  (read_bmp_8bpp_rle_run_clipped palette_0x37 4 4 0 5 0x37 ((2 : Nat) : Int)
      (List.replicate (4 * 2) (palette_0x37.getD 0 default)) [5, 0x37, 0, 1] 0 (by decide)
      (by decide) (by decide) (by decide) (by decide) (by decide) (by decide)).imp
    fun _ hp => ⟨hp.1, hp.2.1, hp.2.2.1, hp.2.2.2.1,
      fun fuel => hp.2.2.2.2.1 fuel (by decide) (by decide) (by decide),
      hp.2.2.2.2.2 2 (List.replicate 8 default) (by decide) (by decide) rfl rfl rfl rfl
        (by decide) (by decide) (by decide)⟩

set_option maxRecDepth 100000 in
theorem read_bmp_8bpp_rle_run_example :
    read_bmp_8bpp_rle (List.replicate 16 default) 8 2 ⟨[5, 0x37, 0, 1], 0, false⟩ palette_0x37
      = .ok (1, List.replicate 8 ⟨0, 0, 0, 255⟩ ++ List.replicate 5 ⟨10, 20, 30, 255⟩
              ++ List.replicate 3 ⟨0, 0, 0, 255⟩, ⟨[5, 0x37, 0, 1], 4, false⟩) ∧
    read_bmp_8bpp_rle (List.replicate 8 default) 4 2 ⟨[5, 0x37, 0, 1], 0, false⟩ palette_0x37
      = .ok (1, List.replicate 4 ⟨0, 0, 0, 255⟩ ++ List.replicate 4 ⟨10, 20, 30, 255⟩,
          ⟨[5, 0x37, 0, 1], 4, false⟩) := by
  decide!
/-! ## The delta escape -/

theorem getc_quad (data : List Byte) (pos : Nat) (h : pos + 4 ≤ data.length) :
    getc ⟨data, pos + 2, false⟩
      = (((byte_at data (pos + 2) : Nat) : Int), (⟨data, pos + 3, false⟩ : FILE)) ∧
    getc ⟨data, pos + 3, false⟩
      = (((byte_at data (pos + 3) : Nat) : Int), (⟨data, pos + 4, false⟩ : FILE)) :=
  ⟨getc_lt data (pos + 2) false (by omega), getc_lt data (pos + 3) false (by omega)⟩

/-- C26 (amended): in both run-length decoders the escape pair (0,2) followed by the bytes
`dx`, `dy` moves the cursor `dx` columns to the right and `dy` rows up. The decoder returns
failure when the new column is at or past `width` or when the row count `y - dy` is
negative, that is when the cursor is more than one row above the top row; when the cursor
lands exactly one row above the top row (`y - dy = 0`) with a column below `width`, the
decoder returns success; otherwise it goes on from the new cursor. -/
theorem rle_delta (palette : List Pixel) (width x y row : Int) (fuel : Nat)
    (image : List Pixel) (data : List Byte) (pos dx dy : Nat) (hy : y ≠ 0)
    (hpos : pos + 4 ≤ data.length) (h0 : byte_at data pos = 0)
    (h2 : byte_at data (pos + 1) = 2) (hdx : byte_at data (pos + 2) = dx)
    (hdy : byte_at data (pos + 3) = dy) :
    read_bmp_8bpp_rle_loop palette width (fuel + 2) x y row image ⟨data, pos, false⟩
      = (if x + dx ≥ width ∨ y - dy < 0 then .ok (0, image, ⟨data, pos + 4, false⟩)
         else if y - dy = 0 then .ok (1, image, ⟨data, pos + 4, false⟩)
         else read_bmp_8bpp_rle_loop palette width (fuel + 1) (x + dx) (y - dy)
           (row - dy * width) image ⟨data, pos + 4, false⟩) ∧
    read_bmp_4bpp_rle_loop palette width (fuel + 2) x y row image ⟨data, pos, false⟩
      = (if x + dx ≥ width ∨ y - dy < 0 then .ok (0, image, ⟨data, pos + 4, false⟩)
         else if y - dy = 0 then .ok (1, image, ⟨data, pos + 4, false⟩)
         else read_bmp_4bpp_rle_loop palette width (fuel + 1) (x + dx) (y - dy)
           (row - dy * width) image ⟨data, pos + 4, false⟩) := by
  obtain ⟨g1, g2⟩ := getc_quad data pos hpos
  constructor
  · rw [read_bmp_8bpp_rle_loop_step palette width (fuel + 1) x y row image data pos hy
      (by omega), h0, h2, g1]
    dsimp only
    rw [g2, hdx, hdy]
    dsimp only
    rw [if_pos rfl, if_neg (by decide), if_neg (by decide), if_pos rfl]
    by_cases hf : x + (dx : Int) ≥ width ∨ y - (dy : Int) < 0
    · rw [if_pos hf, if_pos hf]
    · rw [if_neg hf, if_neg hf]
      by_cases hz : y - (dy : Int) = 0
      · rw [if_pos hz, read_bmp_8bpp_rle_loop, if_pos hz]
      · rw [if_neg hz]
  · rw [read_bmp_4bpp_rle_loop_step palette width (fuel + 1) x y row image data pos hy
      (by omega), h0, h2, g1]
    dsimp only
    rw [g2, hdx, hdy]
    dsimp only
    rw [if_pos rfl, if_neg (by decide), if_neg (by decide), if_pos rfl]
    by_cases hf : x + (dx : Int) ≥ width ∨ y - (dy : Int) < 0
    · rw [if_pos hf, if_pos hf]
    · rw [if_neg hf, if_neg hf]
      by_cases hz : y - (dy : Int) = 0
      · rw [if_pos hz, read_bmp_4bpp_rle_loop, if_pos hz]
      · rw [if_neg hz]

theorem rle_delta_witness :
    read_bmp_8bpp_rle_loop [⟨1, 2, 3, 255⟩] 4 (0 + 2) 0 2 4 (List.replicate 8 default)
        ⟨[0, 2, 1, 1, 0, 1], 0, false⟩
      = (if (0 : Int) + (1 : Nat) ≥ 4 ∨ (2 : Int) - (1 : Nat) < 0 then
           .ok (0, List.replicate 8 default, ⟨[0, 2, 1, 1, 0, 1], 0 + 4, false⟩)
         else if (2 : Int) - (1 : Nat) = 0 then
           .ok (1, List.replicate 8 default, ⟨[0, 2, 1, 1, 0, 1], 0 + 4, false⟩)
         else read_bmp_8bpp_rle_loop [⟨1, 2, 3, 255⟩] 4 (0 + 1) (0 + (1 : Nat)) (2 - (1 : Nat))
           (4 - (1 : Nat) * 4) (List.replicate 8 default) ⟨[0, 2, 1, 1, 0, 1], 0 + 4, false⟩) ∧
    read_bmp_4bpp_rle_loop [⟨1, 2, 3, 255⟩] 4 (0 + 2) 0 2 4 (List.replicate 8 default)
        ⟨[0, 2, 1, 1, 0, 1], 0, false⟩
      = (if (0 : Int) + (1 : Nat) ≥ 4 ∨ (2 : Int) - (1 : Nat) < 0 then
           .ok (0, List.replicate 8 default, ⟨[0, 2, 1, 1, 0, 1], 0 + 4, false⟩)
         else if (2 : Int) - (1 : Nat) = 0 then
           .ok (1, List.replicate 8 default, ⟨[0, 2, 1, 1, 0, 1], 0 + 4, false⟩)
         else read_bmp_4bpp_rle_loop [⟨1, 2, 3, 255⟩] 4 (0 + 1) (0 + (1 : Nat)) (2 - (1 : Nat))
           (4 - (1 : Nat) * 4) (List.replicate 8 default) ⟨[0, 2, 1, 1, 0, 1], 0 + 4, false⟩) :=
  rle_delta [⟨1, 2, 3, 255⟩] 4 0 2 4 0 (List.replicate 8 default) [0, 2, 1, 1, 0, 1] 0 1 1
    (by decide) (by decide) (by decide) (by decide) (by decide) (by decide)

/-- On an image of one row, the delta (0, 1) moves the cursor from the top row (row index
0, `y = 1`) to row index -1, above the image, and both decoders return success. -/
theorem rle_delta_above_top_succeeds :
    read_bmp_8bpp_rle [default, default] 2 1 ⟨[0, 2, 0, 1], 0, false⟩ [⟨1, 2, 3, 255⟩]
      = .ok (1, [⟨1, 2, 3, 255⟩, ⟨1, 2, 3, 255⟩], ⟨[0, 2, 0, 1], 4, false⟩) ∧
    read_bmp_4bpp_rle [default, default] 2 1 ⟨[0, 2, 0, 1], 0, false⟩ [⟨1, 2, 3, 255⟩]
      = .ok (1, [⟨1, 2, 3, 255⟩, ⟨1, 2, 3, 255⟩], ⟨[0, 2, 0, 1], 4, false⟩) := by
  decide

/-! ## Runs and literals read at or past the row boundary -/

theorem and_one_ne (n : Nat) : n &&& 1 ≠ 0 ↔ n % 2 = 1 := by
  rw [Nat.and_one_is_mod]; omega

theorem to_int_byte (n : Nat) (h : n < 256) : to_int n = (n : Int) := by
  have h1 : n % 4294967296 = n := Nat.mod_eq_of_lt (by omega)
  rw [to_int, h1, if_pos (by omega)]

/-- C27: a run (`c ≠ 0`) or a literal (`c = 0`, `3 ≤ v`) read while the cursor column is at
or past the row boundary makes `read_bmp_4bpp_rle` return failure, but `read_bmp_8bpp_rle`
leaves its inner loop at once and goes on decoding with the next pair (after the padding
byte of an odd literal), the buffer and the cursor unchanged. -/
theorem rle_start_past_boundary (palette : List Pixel) (width x y row : Int) (fuel : Nat)
    (image : List Pixel) (data : List Byte) (pos c v : Nat) (hy : y ≠ 0)
    (hpos : pos + 2 ≤ data.length) (hc : byte_at data pos = c)
    (hv : byte_at data (pos + 1) = v) (hrun : c ≠ 0 ∨ 3 ≤ v) (hx : x ≥ width) :
    read_bmp_4bpp_rle_loop palette width (fuel + 1) x y row image ⟨data, pos, false⟩
      = .ok (0, image, ⟨data, pos + 2, false⟩) ∧
    read_bmp_8bpp_rle_loop palette width (fuel + 1) x y row image ⟨data, pos, false⟩
      = read_bmp_8bpp_rle_loop palette width fuel x y row image
          (if c = 0 ∧ v % 2 = 1 then (getc ⟨data, pos + 2, false⟩).2
           else ⟨data, pos + 2, false⟩) := by
  constructor
  · rw [read_bmp_4bpp_rle_loop_step palette width fuel x y row image data pos hy hpos, hc, hv]
    by_cases h0 : c = 0
    · have h3 : 3 ≤ v := by omega
      rw [if_pos h0, if_neg (by omega), if_neg (by omega), if_neg (by omega), if_pos hx]
    · rw [if_neg h0, if_pos hx]
  · rw [read_bmp_8bpp_rle_loop_step palette width fuel x y row image data pos hy hpos, hc, hv]
    by_cases h0 : c = 0
    · have h3 : 3 ≤ v := by omega
      rw [if_pos h0, if_neg (by omega), if_neg (by omega), if_neg (by omega),
        read_bmp_8bpp_rle_literal, if_pos hx, except_ok_bind]
      dsimp only
      by_cases hodd : v % 2 = 1
      · rw [if_pos ((and_one_ne v).2 hodd), if_pos ⟨h0, hodd⟩]
      · rw [if_neg (fun h => hodd ((and_one_ne v).1 h)), if_neg (fun h => hodd h.2)]
    · rw [if_neg h0, read_bmp_8bpp_rle_run, if_pos hx, except_ok_bind,
        if_neg (fun h => h0 h.1)]

theorem rle_start_past_boundary_witness :
    read_bmp_4bpp_rle_loop [⟨1, 2, 3, 255⟩] 1 (3 + 1) 1 1 0 [⟨1, 2, 3, 255⟩]
        ⟨[1, 0, 1, 1, 0, 1, 0, 0], 2, false⟩
      = .ok (0, [⟨1, 2, 3, 255⟩], ⟨[1, 0, 1, 1, 0, 1, 0, 0], 2 + 2, false⟩) ∧
    read_bmp_8bpp_rle_loop [⟨1, 2, 3, 255⟩] 1 (3 + 1) 1 1 0 [⟨1, 2, 3, 255⟩]
        ⟨[1, 0, 1, 1, 0, 1, 0, 0], 2, false⟩
      = read_bmp_8bpp_rle_loop [⟨1, 2, 3, 255⟩] 1 3 1 1 0 [⟨1, 2, 3, 255⟩]
          (if 1 = 0 ∧ 1 % 2 = 1 then (getc ⟨[1, 0, 1, 1, 0, 1, 0, 0], 2 + 2, false⟩).2
           else ⟨[1, 0, 1, 1, 0, 1, 0, 0], 2 + 2, false⟩) :=
  rle_start_past_boundary [⟨1, 2, 3, 255⟩] 1 1 1 0 3 [⟨1, 2, 3, 255⟩]
    [1, 0, 1, 1, 0, 1, 0, 0] 2 1 1 (by decide) (by decide) (by decide) (by decide)
    (by decide) (by decide)
set_option maxRecDepth 100000 in
/-- On the 8-bit file the run read at the row boundary is skipped and the file is decoded
with success; on the 4-bit file with the same stream the decoder fails. -/
theorem read_bmp_rle_run_past_boundary :
    read_bmp Env.sample (fopen bmp_1x1_rle8)
      = .ok ⟨1, Ptr.live [⟨0, 0, 0, 255⟩], 1, 1, Ptr.freed⟩ ∧
    read_bmp Env.sample (fopen bmp_1x1_rle4) = .ok ⟨0, Ptr.freed, 1, 1, Ptr.freed⟩ := by
  decide!

set_option maxRecDepth 100000 in
/-- A literal read at the row boundary is skipped as well: its bytes are then read as
pairs, and the file is decoded with success. -/
theorem read_bmp_rle8_literal_past_boundary :
    read_bmp Env.sample (fopen bmp_1x1_rle8_literal)
      = .ok ⟨1, Ptr.live [⟨0, 0, 0, 255⟩], 1, 1, Ptr.freed⟩ := by
  decide!

/-! ## Literal runs -/

theorem getc_pad (data : List Byte) (p : Nat) (b : Bool) (h : p + (if b then 1 else 0) ≤ data.length) :
    (if b then (getc ⟨data, p, false⟩).2 else (⟨data, p, false⟩ : FILE))
      = ⟨data, p + (if b then 1 else 0), false⟩ := by
  cases b
  · rfl
  · have h1 : p < data.length := by
      have : p + 1 ≤ data.length := h
      omega
    simp only [if_true]
    rw [getc_lt data p false h1]

/-- C28 (amended): a literal run (0, n) with `n ≥ 3`, read while rows remain and the cursor
is at column `x` of a row inside the buffer, that fits in that row (`x + n ≤ w`) and whose
bytes, padding included, are in the stream makes `read_bmp_8bpp_rle` consume `n` literal
bytes plus one padding byte when `n` is odd, and `read_bmp_4bpp_rle` consume `(n + 1) / 2`
literal bytes plus one padding byte when `(n + 1) / 2` is odd: the literal loop returns
with the cursor at column `x + n` and the stream after the literal bytes, the units are
palette lookups written left to right from the cursor (unit `i` goes to column `x + i`
and is the byte `i` of the run, or its nibble `i`, high nibble first), no other pixel
changes, and the next pair is read from the byte after the padded run; when that pair is
the end of bitmap (0, 1), the loop of the decoder returns success with that buffer and
the stream after the pair, and so does the decoder itself when the run is the first pair
of the stream. -/
theorem rle_literal_consumes (palette : List Pixel) (w row x n : Nat) (y : Int)
    (image : List Pixel) (data : List Byte) (pos : Nat) (hy : y ≠ 0)
    (h0 : byte_at data pos = 0) (hn : byte_at data (pos + 1) = n) (hn3 : 3 ≤ n)
    (hfit : x + n ≤ w) (hlen : row + w ≤ image.length) :
    (pos + 2 + n + n % 2 ≤ data.length →
      ∃ image',
        read_bmp_8bpp_rle_literal palette (w : Int) (row : Int)
            (((w : Int) - (x : Int)).toNat + 1) (n : Int) (x : Int) image
            ⟨data, pos + 2, false⟩
          = .ok (((x + n : Nat) : Int), image', ⟨data, pos + 2 + n, false⟩) ∧
        image'.length = image.length ∧
        (∀ j, image'.getD j default
          = if row + x ≤ j ∧ j < row + x + n then
              palette.getD (byte_at data (pos + 2 + (j - (row + x)))) default
            else image.getD j default) ∧
        (∀ fuel,
          read_bmp_8bpp_rle_loop palette (w : Int) (fuel + 1) (x : Int) y (row : Int) image
              ⟨data, pos, false⟩
            = read_bmp_8bpp_rle_loop palette (w : Int) fuel ((x + n : Nat) : Int) y (row : Int)
                image' ⟨data, pos + 2 + n + n % 2, false⟩) ∧
        (∀ fuel, pos + 2 + n + n % 2 + 2 ≤ data.length →
          byte_at data (pos + 2 + n + n % 2) = 0 →
          byte_at data (pos + 2 + n + n % 2 + 1) = 1 →
          read_bmp_8bpp_rle_loop palette (w : Int) (fuel + 2) (x : Int) y (row : Int) image
              ⟨data, pos, false⟩
            = .ok (1, image', ⟨data, pos + 2 + n + n % 2 + 2, false⟩)) ∧
        (∀ (h : Nat) (buffer : List Pixel), 1 ≤ h → buffer.length = w * h → x = 0 →
          y = h → row = w * (h - 1) →
          image = List.replicate (w * h) (palette.getD 0 default) →
          pos + 2 + n + n % 2 + 2 ≤ data.length →
          byte_at data (pos + 2 + n + n % 2) = 0 →
          byte_at data (pos + 2 + n + n % 2 + 1) = 1 →
          read_bmp_8bpp_rle buffer w h ⟨data, pos, false⟩ palette
            = .ok (1, image', ⟨data, pos + 2 + n + n % 2 + 2, false⟩))) ∧
    (pos + 2 + (n + 1) / 2 + (n + 1) / 2 % 2 ≤ data.length →
      ∃ image',
        read_bmp_4bpp_rle_literal palette (w : Int) (row : Int)
            (((w : Int) - (x : Int)).toNat + 1) (n : Int) (x : Int) image
            ⟨data, pos + 2, false⟩
          = .ok (((x + n : Nat) : Int), image', ⟨data, pos + 2 + (n + 1) / 2, false⟩) ∧
        image'.length = image.length ∧
        (∀ j, image'.getD j default
          = if row + x ≤ j ∧ j < row + x + n then
              palette.getD
                (nibble_index (byte_at data (pos + 2 + (j - (row + x)) / 2)) (j - (row + x)))
                default
            else image.getD j default) ∧
        (∀ fuel,
          read_bmp_4bpp_rle_loop palette (w : Int) (fuel + 1) (x : Int) y (row : Int) image
              ⟨data, pos, false⟩
            = read_bmp_4bpp_rle_loop palette (w : Int) fuel ((x + n : Nat) : Int) y (row : Int)
                image' ⟨data, pos + 2 + (n + 1) / 2 + (n + 1) / 2 % 2, false⟩) ∧
        (∀ fuel, pos + 2 + (n + 1) / 2 + (n + 1) / 2 % 2 + 2 ≤ data.length →
          byte_at data (pos + 2 + (n + 1) / 2 + (n + 1) / 2 % 2) = 0 →
          byte_at data (pos + 2 + (n + 1) / 2 + (n + 1) / 2 % 2 + 1) = 1 →
          read_bmp_4bpp_rle_loop palette (w : Int) (fuel + 2) (x : Int) y (row : Int) image
              ⟨data, pos, false⟩
            = .ok (1, image', ⟨data, pos + 2 + (n + 1) / 2 + (n + 1) / 2 % 2 + 2, false⟩)) ∧
        (∀ (h : Nat) (buffer : List Pixel), 1 ≤ h → buffer.length = w * h → x = 0 →
          y = h → row = w * (h - 1) →
          image = List.replicate (w * h) (palette.getD 0 default) →
          pos + 2 + (n + 1) / 2 + (n + 1) / 2 % 2 + 2 ≤ data.length →
          byte_at data (pos + 2 + (n + 1) / 2 + (n + 1) / 2 % 2) = 0 →
          byte_at data (pos + 2 + (n + 1) / 2 + (n + 1) / 2 % 2 + 1) = 1 →
          read_bmp_4bpp_rle buffer w h ⟨data, pos, false⟩ palette
            = .ok (1, image', ⟨data, pos + 2 + (n + 1) / 2 + (n + 1) / 2 % 2 + 2, false⟩))) := by
  have hn256 : n < 256 := by rw [← hn]; exact byte_at_lt data (pos + 1)
  have hm : min n (w - x) = n := by omega
  have hm2 : min (x + n) w = x + n := by omega
  constructor
  · intro hpos
    obtain ⟨image', e, hl, hg⟩ :=
      read_bmp_8bpp_rle_literal_spec palette w row data (((w : Int) - (x : Int)).toNat + 1) n x
        (pos + 2) image (by omega) (by omega) (by omega) (by omega) hlen
    rw [hm, hm2] at e
    rw [hm2] at hg
    have hstep : ∀ fuel,
        read_bmp_8bpp_rle_loop palette (w : Int) (fuel + 1) (x : Int) y (row : Int) image
            ⟨data, pos, false⟩
          = read_bmp_8bpp_rle_loop palette (w : Int) fuel ((x + n : Nat) : Int) y (row : Int)
              image' ⟨data, pos + 2 + n + n % 2, false⟩ := by
      intro fuel
      rw [read_bmp_8bpp_rle_loop_step palette w fuel x y row image data pos hy (by omega), h0,
        hn, if_pos rfl, if_neg (by omega), if_neg (by omega), if_neg (by omega),
        to_int_byte n hn256, e, except_ok_bind]
      dsimp only
      have hp := getc_pad data (pos + 2 + n) (decide (n &&& 1 ≠ 0)) (by
        by_cases hodd : n % 2 = 1
        · rw [if_pos (by simpa using (and_one_ne n).2 hodd)]; omega
        · rw [if_neg (by simpa using fun h => hodd ((and_one_ne n).1 h))]; omega)
      simp only [decide_eq_true_eq] at hp
      rw [hp]
      by_cases hodd : n % 2 = 1
      · rw [if_pos ((and_one_ne n).2 hodd), hodd]
      · rw [if_neg (fun h => hodd ((and_one_ne n).1 h)), show n % 2 = 0 by omega]
    have hend : ∀ fuel, pos + 2 + n + n % 2 + 2 ≤ data.length →
        byte_at data (pos + 2 + n + n % 2) = 0 →
        byte_at data (pos + 2 + n + n % 2 + 1) = 1 →
        read_bmp_8bpp_rle_loop palette (w : Int) (fuel + 2) (x : Int) y (row : Int) image
            ⟨data, pos, false⟩
          = .ok (1, image', ⟨data, pos + 2 + n + n % 2 + 2, false⟩) := by
      intro fuel h4 b2 b3
      rw [hstep (fuel + 1),
        read_bmp_8bpp_rle_loop_step palette w fuel _ y row image' data (pos + 2 + n + n % 2) hy
          (by omega), b2, b3]
      rfl
    refine ⟨image', e, hl, ?_, hstep, hend, ?_⟩
    · intro j
      rw [hg j]
      by_cases hr : row + x ≤ j ∧ j < row + (x + n)
      · rw [if_pos hr, if_pos (by omega)]
      · rw [if_neg hr, if_neg (by omega)]
    · intro h buffer hh hb hx0 hyh hrow himg h4 b2 b3
      have hfill := fill_image_full buffer w h (palette.getD 0 default) hb
      rw [read_bmp_8bpp_rle, hfill, rle_start_row w h hh, ← hrow, ← himg, ← hyh]
      have := hend data.length h4 b2 b3
      rw [hx0] at this
      exact this
  · intro hpos
    obtain ⟨image', e, hl, hg⟩ :=
      read_bmp_4bpp_rle_literal_spec palette w row data (((w : Int) - (x : Int)).toNat + 1) n x
        (pos + 2) image (by omega) (by omega) (by omega) (by omega) hlen
    rw [hm] at e hg
    have hstep : ∀ fuel,
        read_bmp_4bpp_rle_loop palette (w : Int) (fuel + 1) (x : Int) y (row : Int) image
            ⟨data, pos, false⟩
          = read_bmp_4bpp_rle_loop palette (w : Int) fuel ((x + n : Nat) : Int) y (row : Int)
              image' ⟨data, pos + 2 + (n + 1) / 2 + (n + 1) / 2 % 2, false⟩ := by
      intro fuel
      rw [read_bmp_4bpp_rle_loop_step palette w fuel x y row image data pos hy (by omega), h0,
        hn, if_pos rfl, if_neg (by omega), if_neg (by omega), if_neg (by omega),
        if_neg (by omega), to_int_byte n hn256, e, except_ok_bind]
      dsimp only
      have h32 : (n + 1) % 4294967296 = n + 1 := Nat.mod_eq_of_lt (by omega)
      rw [h32]
      have hp := getc_pad data (pos + 2 + (n + 1) / 2) (decide ((n + 1) / 2 &&& 1 ≠ 0)) (by
        by_cases hodd : (n + 1) / 2 % 2 = 1
        · rw [if_pos (by simpa using (and_one_ne _).2 hodd)]; omega
        · rw [if_neg (by simpa using fun h => hodd ((and_one_ne _).1 h))]; omega)
      simp only [decide_eq_true_eq] at hp
      rw [hp]
      by_cases hodd : (n + 1) / 2 % 2 = 1
      · rw [if_pos ((and_one_ne _).2 hodd), hodd]
      · rw [if_neg (fun h => hodd ((and_one_ne _).1 h)), show (n + 1) / 2 % 2 = 0 by omega]
    have hend : ∀ fuel, pos + 2 + (n + 1) / 2 + (n + 1) / 2 % 2 + 2 ≤ data.length →
        byte_at data (pos + 2 + (n + 1) / 2 + (n + 1) / 2 % 2) = 0 →
        byte_at data (pos + 2 + (n + 1) / 2 + (n + 1) / 2 % 2 + 1) = 1 →
        read_bmp_4bpp_rle_loop palette (w : Int) (fuel + 2) (x : Int) y (row : Int) image
            ⟨data, pos, false⟩
          = .ok (1, image', ⟨data, pos + 2 + (n + 1) / 2 + (n + 1) / 2 % 2 + 2, false⟩) := by
      intro fuel h4 b2 b3
      rw [hstep (fuel + 1),
        read_bmp_4bpp_rle_loop_step palette w fuel _ y row image' data
          (pos + 2 + (n + 1) / 2 + (n + 1) / 2 % 2) hy (by omega), b2, b3]
      rfl
    refine ⟨image', e, hl, hg, hstep, hend, ?_⟩
    intro h buffer hh hb hx0 hyh hrow himg h4 b2 b3
    have hfill := fill_image_full buffer w h (palette.getD 0 default) hb
    rw [read_bmp_4bpp_rle, hfill, rle_start_row w h hh, ← hrow, ← himg, ← hyh]
    have := hend data.length h4 b2 b3
    rw [hx0] at this
    exact this

theorem rle_literal_consumes_witness :
    (∃ image',
      read_bmp_8bpp_rle_literal [⟨0, 0, 0, 255⟩, ⟨255, 255, 255, 255⟩] ((4 : Nat) : Int)
          ((0 : Nat) : Int) ((((4 : Nat) : Int) - ((0 : Nat) : Int)).toNat + 1) ((3 : Nat) : Int)
          ((0 : Nat) : Int) (List.replicate 4 ⟨0, 0, 0, 255⟩)
          ⟨[0, 3, 1, 1, 0, 1, 0, 1], 0 + 2, false⟩
        = .ok (((0 + 3 : Nat) : Int), image', ⟨[0, 3, 1, 1, 0, 1, 0, 1], 0 + 2 + 3, false⟩) ∧
      image'.length = (List.replicate 4 (⟨0, 0, 0, 255⟩ : Pixel)).length ∧
      (∀ j, image'.getD j default
        = if 0 + 0 ≤ j ∧ j < 0 + 0 + 3 then
            ([⟨0, 0, 0, 255⟩, ⟨255, 255, 255, 255⟩] : List Pixel).getD
              (byte_at [0, 3, 1, 1, 0, 1, 0, 1] (0 + 2 + (j - (0 + 0)))) default
          else (List.replicate 4 (⟨0, 0, 0, 255⟩ : Pixel)).getD j default) ∧
      (∀ fuel,
        read_bmp_8bpp_rle_loop [⟨0, 0, 0, 255⟩, ⟨255, 255, 255, 255⟩] ((4 : Nat) : Int)
            (fuel + 2) ((0 : Nat) : Int) ((1 : Nat) : Int) ((0 : Nat) : Int)
            (List.replicate 4 ⟨0, 0, 0, 255⟩) ⟨[0, 3, 1, 1, 0, 1, 0, 1], 0, false⟩
          = .ok (1, image', ⟨[0, 3, 1, 1, 0, 1, 0, 1], 0 + 2 + 3 + 3 % 2 + 2, false⟩)) ∧
      read_bmp_8bpp_rle (List.replicate 4 default) 4 1 ⟨[0, 3, 1, 1, 0, 1, 0, 1], 0, false⟩
          [⟨0, 0, 0, 255⟩, ⟨255, 255, 255, 255⟩]
        = .ok (1, image', ⟨[0, 3, 1, 1, 0, 1, 0, 1], 0 + 2 + 3 + 3 % 2 + 2, false⟩)) ∧
    (∃ image',
      read_bmp_4bpp_rle_literal [⟨0, 0, 0, 255⟩, ⟨255, 255, 255, 255⟩] ((4 : Nat) : Int)
          ((0 : Nat) : Int) ((((4 : Nat) : Int) - ((0 : Nat) : Int)).toNat + 1) ((3 : Nat) : Int)
          ((0 : Nat) : Int) (List.replicate 4 ⟨0, 0, 0, 255⟩)
          ⟨[0, 3, 1, 1, 0, 1, 0, 1], 0 + 2, false⟩
        = .ok (((0 + 3 : Nat) : Int), image',
            ⟨[0, 3, 1, 1, 0, 1, 0, 1], 0 + 2 + (3 + 1) / 2, false⟩) ∧
      image'.length = (List.replicate 4 (⟨0, 0, 0, 255⟩ : Pixel)).length ∧
      (∀ j, image'.getD j default
        = if 0 + 0 ≤ j ∧ j < 0 + 0 + 3 then
            ([⟨0, 0, 0, 255⟩, ⟨255, 255, 255, 255⟩] : List Pixel).getD
              (nibble_index (byte_at [0, 3, 1, 1, 0, 1, 0, 1] (0 + 2 + (j - (0 + 0)) / 2))
                (j - (0 + 0))) default
          else (List.replicate 4 (⟨0, 0, 0, 255⟩ : Pixel)).getD j default) ∧
      (∀ fuel,
        read_bmp_4bpp_rle_loop [⟨0, 0, 0, 255⟩, ⟨255, 255, 255, 255⟩] ((4 : Nat) : Int)
            (fuel + 2) ((0 : Nat) : Int) ((1 : Nat) : Int) ((0 : Nat) : Int)
            (List.replicate 4 ⟨0, 0, 0, 255⟩) ⟨[0, 3, 1, 1, 0, 1, 0, 1], 0, false⟩
          = .ok (1, image',
              ⟨[0, 3, 1, 1, 0, 1, 0, 1], 0 + 2 + (3 + 1) / 2 + (3 + 1) / 2 % 2 + 2, false⟩)) ∧
      read_bmp_4bpp_rle (List.replicate 4 default) 4 1 ⟨[0, 3, 1, 1, 0, 1, 0, 1], 0, false⟩
          [⟨0, 0, 0, 255⟩, ⟨255, 255, 255, 255⟩]
        = .ok (1, image',
            ⟨[0, 3, 1, 1, 0, 1, 0, 1], 0 + 2 + (3 + 1) / 2 + (3 + 1) / 2 % 2 + 2, false⟩)) :=
  ⟨((rle_literal_consumes [⟨0, 0, 0, 255⟩, ⟨255, 255, 255, 255⟩] 4 0 0 3 ((1 : Nat) : Int)
        (List.replicate 4 ⟨0, 0, 0, 255⟩) [0, 3, 1, 1, 0, 1, 0, 1] 0 (by decide) (by decide)
        (by decide) (by decide) (by decide) (by decide)).1 (by decide)).imp
      fun _ hp => ⟨hp.1, hp.2.1, hp.2.2.1,
        fun fuel => hp.2.2.2.2.1 fuel (by decide) (by decide) (by decide),
        hp.2.2.2.2.2 1 (List.replicate 4 default) (by decide) (by decide) rfl rfl rfl rfl
          (by decide) (by decide) (by decide)⟩,
    ((rle_literal_consumes [⟨0, 0, 0, 255⟩, ⟨255, 255, 255, 255⟩] 4 0 0 3 ((1 : Nat) : Int)
        (List.replicate 4 ⟨0, 0, 0, 255⟩) [0, 3, 1, 1, 0, 1, 0, 1] 0 (by decide) (by decide)
        (by decide) (by decide) (by decide) (by decide)).2 (by decide)).imp
      fun _ hp => ⟨hp.1, hp.2.1, hp.2.2.1,
        fun fuel => hp.2.2.2.2.1 fuel (by decide) (by decide) (by decide),
        hp.2.2.2.2.2 1 (List.replicate 4 default) (by decide) (by decide) rfl rfl rfl rfl
          (by decide) (by decide) (by decide)⟩⟩

/-- The two decoders on the stream (0, 3) 1 1 0 1 (0, 1) with width 4: the 8-bit decoder
takes the three literal bytes 1, 1, 0 and the padding byte 1 and finds the end of bitmap
at offset 6; the 4-bit decoder takes the two literal bytes 1, 1 (the units 0, 1, 0), no
padding byte, and finds the end of bitmap at offset 4. -/
theorem rle_literal_examples :
    read_bmp_8bpp_rle (List.replicate 4 default) 4 1 ⟨[0, 3, 1, 1, 0, 1, 0, 1], 0, false⟩
        [⟨0, 0, 0, 255⟩, ⟨255, 255, 255, 255⟩]
      = .ok (1, [⟨255, 255, 255, 255⟩, ⟨255, 255, 255, 255⟩, ⟨0, 0, 0, 255⟩, ⟨0, 0, 0, 255⟩],
          ⟨[0, 3, 1, 1, 0, 1, 0, 1], 8, false⟩) ∧
    read_bmp_4bpp_rle (List.replicate 4 default) 4 1 ⟨[0, 3, 1, 1, 0, 1, 0, 1], 0, false⟩
        [⟨0, 0, 0, 255⟩, ⟨255, 255, 255, 255⟩]
      = .ok (1, [⟨0, 0, 0, 255⟩, ⟨255, 255, 255, 255⟩, ⟨0, 0, 0, 255⟩, ⟨0, 0, 0, 255⟩],
          ⟨[0, 3, 1, 1, 0, 1, 0, 1], 6, false⟩) := by
  decide

/-- Literal runs that cross the row boundary: with width 2 and the cursor at column 0,
the literal loop of `read_bmp_8bpp_rle` started for the run (0, 4) reads 2 bytes, not 4,
and the one of `read_bmp_4bpp_rle` started for the run (0, 6) reads 1 byte, not 3; the
bytes left over are then read as pairs, here the end of bitmap (0, 1). -/
theorem rle_literal_clipped :
    read_bmp_8bpp_rle_literal [⟨0, 0, 0, 255⟩, ⟨255, 255, 255, 255⟩] 2 0 3 4 0
        [default, default] ⟨[0, 4, 1, 1, 0, 1, 9, 9], 2, false⟩
      = .ok (2, [⟨255, 255, 255, 255⟩, ⟨255, 255, 255, 255⟩],
          ⟨[0, 4, 1, 1, 0, 1, 9, 9], 4, false⟩) ∧
    read_bmp_8bpp_rle [default, default] 2 1 ⟨[0, 4, 1, 1, 0, 1, 9, 9], 0, false⟩
        [⟨0, 0, 0, 255⟩, ⟨255, 255, 255, 255⟩]
      = .ok (1, [⟨255, 255, 255, 255⟩, ⟨255, 255, 255, 255⟩],
          ⟨[0, 4, 1, 1, 0, 1, 9, 9], 6, false⟩) ∧
    read_bmp_4bpp_rle_literal [⟨0, 0, 0, 255⟩, ⟨255, 255, 255, 255⟩] 2 0 3 6 0
        [default, default] ⟨[0, 6, 0x11, 0, 0, 1, 9, 9], 2, false⟩
      = .ok (2, [⟨255, 255, 255, 255⟩, ⟨255, 255, 255, 255⟩],
          ⟨[0, 6, 0x11, 0, 0, 1, 9, 9], 3, false⟩) ∧
    read_bmp_4bpp_rle [default, default] 2 1 ⟨[0, 6, 0x11, 0, 0, 1, 9, 9], 0, false⟩
        [⟨0, 0, 0, 255⟩, ⟨255, 255, 255, 255⟩]
      = .ok (1, [⟨255, 255, 255, 255⟩, ⟨255, 255, 255, 255⟩],
          ⟨[0, 6, 0x11, 0, 0, 1, 9, 9], 6, false⟩) := by
  decide
/-! ## The buffer of the run-length decoders changes by stores only -/

theorem same_stores_refl (B1 B2 : List Pixel) (h : B1.length = B2.length) :
    same_stores B1 B2 B1 B2 :=
  ⟨h, fun _ => Or.inr ⟨rfl, rfl⟩⟩

theorem except_bind_eq_ok {α β : Type} (m : Except Fault α) (f : α → Except Fault β) (r : β)
    (h : (m >>= f) = .ok r) : ∃ a, m = .ok a ∧ f a = .ok r := by
  cases m with
  | error e => cases h
  | ok a => exact ⟨a, rfl, h⟩

theorem store_same (B1 B2 c1 c2 c1' : List Pixel) (i : Int) (v : Pixel)
    (hk : same_stores B1 B2 c1 c2) (h : store c1 i v = .ok c1') :
    ∃ c2', store c2 i v = .ok c2' ∧ same_stores B1 B2 c1' c2' := by
  unfold store at h ⊢
  by_cases hi : 0 ≤ i ∧ i < (c1.length : Int)
  · rw [if_pos hi] at h
    have hi2 : 0 ≤ i ∧ i < (c2.length : Int) := by rw [← hk.1]; exact hi
    rw [if_pos hi2]
    cases h
    refine ⟨_, rfl, ?_, ?_⟩
    · rw [List.length_set, List.length_set]; exact hk.1
    · intro j
      by_cases hj : i.toNat = j
      · subst hj
        left
        rw [getD_set_eq _ _ _ _ (by omega), getD_set_eq _ _ _ _ (by omega)]
      · rw [getD_set_ne _ _ _ _ _ hj, getD_set_ne _ _ _ _ _ hj]
        exact hk.2 j
  · rw [if_neg hi] at h
    cases h

theorem read_bmp_8bpp_rle_run_same (B1 B2 : List Pixel) (color : Pixel) (width row : Int) :
    ∀ (fuel count : Nat) (x : Int) (c1 c2 : List Pixel) (r : Int × List Pixel),
      same_stores B1 B2 c1 c2 →
      read_bmp_8bpp_rle_run color width row fuel count x c1 = .ok r →
      ∃ c2', read_bmp_8bpp_rle_run color width row fuel count x c2 = .ok (r.1, c2') ∧
        same_stores B1 B2 r.2 c2' := by
  intro fuel
  induction fuel with
  | zero =>
    intro count x c1 c2 r _ h
    rw [read_bmp_8bpp_rle_run] at h
    cases h
  | succ fuel ih =>
    intro count x c1 c2 r hk h
    rw [read_bmp_8bpp_rle_run] at h ⊢
    by_cases hx : x ≥ width
    · rw [if_pos hx] at h ⊢
      cases h
      exact ⟨c2, rfl, hk⟩
    · rw [if_neg hx] at h ⊢
      obtain ⟨a, hs, hr⟩ := except_bind_eq_ok _ _ _ h
      obtain ⟨a2, hs2, hk2⟩ := store_same _ _ _ _ _ _ _ hk hs
      rw [hs2, except_ok_bind]
      dsimp only at hr ⊢
      by_cases hc : (count + 4294967295) % 4294967296 ≠ 0
      · rw [if_pos hc] at hr ⊢
        exact ih _ _ _ _ _ hk2 hr
      · rw [if_neg hc] at hr ⊢
        cases hr
        exact ⟨a2, rfl, hk2⟩

theorem read_bmp_8bpp_rle_literal_same (B1 B2 : List Pixel) (palette : List Pixel)
    (width row : Int) :
    ∀ (fuel : Nat) (k x : Int) (c1 c2 : List Pixel) (file : FILE)
      (r : Int × List Pixel × FILE), same_stores B1 B2 c1 c2 →
      read_bmp_8bpp_rle_literal palette width row fuel k x c1 file = .ok r →
      ∃ c2', read_bmp_8bpp_rle_literal palette width row fuel k x c2 file
          = .ok (r.1, c2', r.2.2) ∧
        same_stores B1 B2 r.2.1 c2' := by
  intro fuel
  induction fuel with
  | zero =>
    intro k x c1 c2 file r _ h
    rw [read_bmp_8bpp_rle_literal] at h
    cases h
  | succ fuel ih =>
    intro k x c1 c2 file r hk h
    rw [read_bmp_8bpp_rle_literal] at h ⊢
    by_cases hx : x ≥ width
    · rw [if_pos hx] at h ⊢
      cases h
      exact ⟨c2, rfl, hk⟩
    · rw [if_neg hx] at h ⊢
      generalize getc file = p at h ⊢
      obtain ⟨c, f⟩ := p
      simp only [] at h ⊢
      obtain ⟨a, hs, hr⟩ := except_bind_eq_ok _ _ _ h
      obtain ⟨a2, hs2, hk2⟩ := store_same _ _ _ _ _ _ _ hk hs
      rw [hs2, except_ok_bind]
      by_cases hc : k - 1 ≠ 0
      · rw [if_pos hc] at hr ⊢
        exact ih _ _ _ _ _ _ hk2 hr
      · rw [if_neg hc] at hr ⊢
        cases hr
        exact ⟨a2, rfl, hk2⟩

theorem read_bmp_4bpp_rle_run_same (B1 B2 : List Pixel) (color_high color_low : Pixel)
    (width row : Int) :
    ∀ (fuel count : Nat) (x : Int) (c1 c2 : List Pixel) (r : Int × List Pixel),
      same_stores B1 B2 c1 c2 →
      read_bmp_4bpp_rle_run color_high color_low width row fuel count x c1 = .ok r →
      ∃ c2', read_bmp_4bpp_rle_run color_high color_low width row fuel count x c2
          = .ok (r.1, c2') ∧
        same_stores B1 B2 r.2 c2' := by
  intro fuel
  induction fuel with
  | zero =>
    intro count x c1 c2 r _ h
    rw [read_bmp_4bpp_rle_run] at h
    cases h
  | succ fuel ih =>
    intro count x c1 c2 r hk h
    rw [read_bmp_4bpp_rle_run] at h ⊢
    obtain ⟨a, hs, hr⟩ := except_bind_eq_ok _ _ _ h
    obtain ⟨a2, hs2, hk2⟩ := store_same _ _ _ _ _ _ _ hk hs
    rw [hs2, except_ok_bind]
    dsimp only at hr ⊢
    by_cases hx : x + 1 ≥ width
    · rw [if_pos hx] at hr ⊢
      cases hr
      exact ⟨a2, rfl, hk2⟩
    · rw [if_neg hx] at hr ⊢
      by_cases hc : (count + 4294967295) % 4294967296 ≠ 0
      · rw [if_pos hc] at hr ⊢
        obtain ⟨b, ht, hr2⟩ := except_bind_eq_ok _ _ _ hr
        obtain ⟨b2, ht2, hk3⟩ := store_same _ _ _ _ _ _ _ hk2 ht
        rw [ht2, except_ok_bind]
        by_cases hx2 : x + 1 + 1 ≥ width
        · rw [if_pos hx2] at hr2 ⊢
          cases hr2
          exact ⟨b2, rfl, hk3⟩
        · rw [if_neg hx2] at hr2 ⊢
          by_cases hc2 : ((count + 4294967295) % 4294967296 + 4294967295) % 4294967296 ≠ 0
          · rw [if_pos hc2] at hr2 ⊢
            exact ih _ _ _ _ _ hk3 hr2
          · rw [if_neg hc2] at hr2 ⊢
            cases hr2
            exact ⟨b2, rfl, hk3⟩
      · rw [if_neg hc] at hr ⊢
        cases hr
        exact ⟨a2, rfl, hk2⟩

theorem read_bmp_4bpp_rle_literal_same (B1 B2 : List Pixel) (palette : List Pixel)
    (width row : Int) :
    ∀ (fuel : Nat) (k x : Int) (c1 c2 : List Pixel) (file : FILE)
      (r : Int × List Pixel × FILE), same_stores B1 B2 c1 c2 →
      read_bmp_4bpp_rle_literal palette width row fuel k x c1 file = .ok r →
      ∃ c2', read_bmp_4bpp_rle_literal palette width row fuel k x c2 file
          = .ok (r.1, c2', r.2.2) ∧
        same_stores B1 B2 r.2.1 c2' := by
  intro fuel
  induction fuel with
  | zero =>
    intro k x c1 c2 file r _ h
    rw [read_bmp_4bpp_rle_literal] at h
    cases h
  | succ fuel ih =>
    intro k x c1 c2 file r hk h
    rw [read_bmp_4bpp_rle_literal] at h ⊢
    generalize getc file = p at h ⊢
    obtain ⟨c, f⟩ := p
    simp only [] at h ⊢
    obtain ⟨a, hs, hr⟩ := except_bind_eq_ok _ _ _ h
    obtain ⟨a2, hs2, hk2⟩ := store_same _ _ _ _ _ _ _ hk hs
    rw [hs2, except_ok_bind]
    by_cases hx : x + 1 ≥ width
    · rw [if_pos hx] at hr ⊢
      cases hr
      exact ⟨a2, rfl, hk2⟩
    · rw [if_neg hx] at hr ⊢
      by_cases hc : k - 1 ≠ 0
      · rw [if_pos hc] at hr ⊢
        obtain ⟨b, ht, hr2⟩ := except_bind_eq_ok _ _ _ hr
        obtain ⟨b2, ht2, hk3⟩ := store_same _ _ _ _ _ _ _ hk2 ht
        rw [ht2, except_ok_bind]
        by_cases hx2 : x + 1 + 1 ≥ width
        · rw [if_pos hx2] at hr2 ⊢
          cases hr2
          exact ⟨b2, rfl, hk3⟩
        · rw [if_neg hx2] at hr2 ⊢
          by_cases hc2 : k - 1 - 1 ≠ 0
          · rw [if_pos hc2] at hr2 ⊢
            exact ih _ _ _ _ _ _ hk3 hr2
          · rw [if_neg hc2] at hr2 ⊢
            cases hr2
            exact ⟨b2, rfl, hk3⟩
      · rw [if_neg hc] at hr ⊢
        cases hr
        exact ⟨a2, rfl, hk2⟩

theorem read_bmp_8bpp_rle_loop_same (B1 B2 : List Pixel) (palette : List Pixel) (width : Int) :
    ∀ (fuel : Nat) (x y row : Int) (c1 c2 : List Pixel) (file : FILE)
      (r : Int × List Pixel × FILE), same_stores B1 B2 c1 c2 →
      read_bmp_8bpp_rle_loop palette width fuel x y row c1 file = .ok r →
      ∃ c2', read_bmp_8bpp_rle_loop palette width fuel x y row c2 file
          = .ok (r.1, c2', r.2.2) ∧
        same_stores B1 B2 r.2.1 c2' := by
  intro fuel
  induction fuel with
  | zero =>
    intro x y row c1 c2 file r _ h
    rw [read_bmp_8bpp_rle_loop] at h
    cases h
  | succ fuel ih =>
    intro x y row c1 c2 file r hk h
    rw [read_bmp_8bpp_rle_loop] at h ⊢
    by_cases hy : y = 0
    · rw [if_pos hy] at h ⊢
      cases h
      exact ⟨c2, rfl, hk⟩
    · rw [if_neg hy] at h ⊢
      by_cases hf : feof file = true
      · rw [if_pos hf] at h ⊢
        cases h
        exact ⟨c2, rfl, hk⟩
      · rw [if_neg hf] at h ⊢
        generalize getc file = p at h ⊢
        obtain ⟨c, f⟩ := p
        simp only [] at h ⊢
        generalize getc f = p at h ⊢
        obtain ⟨v, f⟩ := p
        simp only [] at h ⊢
        by_cases h0 : to_u32 c = 0
        · rw [if_pos h0] at h ⊢
          by_cases v0 : to_u32 v = 0
          · rw [if_pos v0] at h ⊢
            exact ih _ _ _ _ _ _ _ hk h
          · rw [if_neg v0] at h ⊢
            by_cases v1 : to_u32 v = 1
            · rw [if_pos v1] at h ⊢
              cases h
              exact ⟨c2, rfl, hk⟩
            · rw [if_neg v1] at h ⊢
              by_cases v2 : to_u32 v = 2
              · rw [if_pos v2] at h ⊢
                generalize getc f = p at h ⊢
                obtain ⟨dx, f⟩ := p
                simp only [] at h ⊢
                generalize getc f = p at h ⊢
                obtain ⟨dy, f⟩ := p
                simp only [] at h ⊢
                by_cases hd : x + dx ≥ width ∨ y - dy < 0
                · rw [if_pos hd] at h ⊢
                  cases h
                  exact ⟨c2, rfl, hk⟩
                · rw [if_neg hd] at h ⊢
                  exact ih _ _ _ _ _ _ _ hk h
              · rw [if_neg v2] at h ⊢
                obtain ⟨a, hs, hr⟩ := except_bind_eq_ok _ _ _ h
                obtain ⟨a2, hs2, hk2⟩ :=
                  read_bmp_8bpp_rle_literal_same _ _ _ _ _ _ _ _ _ _ _ _ hk hs
                rw [hs2, except_ok_bind]
                exact ih _ _ _ _ _ _ _ hk2 hr
        · rw [if_neg h0] at h ⊢
          obtain ⟨a, hs, hr⟩ := except_bind_eq_ok _ _ _ h
          obtain ⟨a2, hs2, hk2⟩ := read_bmp_8bpp_rle_run_same _ _ _ _ _ _ _ _ _ _ _ hk hs
          rw [hs2, except_ok_bind]
          exact ih _ _ _ _ _ _ _ hk2 hr

theorem read_bmp_4bpp_rle_loop_same (B1 B2 : List Pixel) (palette : List Pixel) (width : Int) :
    ∀ (fuel : Nat) (x y row : Int) (c1 c2 : List Pixel) (file : FILE)
      (r : Int × List Pixel × FILE), same_stores B1 B2 c1 c2 →
      read_bmp_4bpp_rle_loop palette width fuel x y row c1 file = .ok r →
      ∃ c2', read_bmp_4bpp_rle_loop palette width fuel x y row c2 file
          = .ok (r.1, c2', r.2.2) ∧
        same_stores B1 B2 r.2.1 c2' := by
  intro fuel
  induction fuel with
  | zero =>
    intro x y row c1 c2 file r _ h
    rw [read_bmp_4bpp_rle_loop] at h
    cases h
  | succ fuel ih =>
    intro x y row c1 c2 file r hk h
    rw [read_bmp_4bpp_rle_loop] at h ⊢
    by_cases hy : y = 0
    · rw [if_pos hy] at h ⊢
      cases h
      exact ⟨c2, rfl, hk⟩
    · rw [if_neg hy] at h ⊢
      by_cases hf : feof file = true
      · rw [if_pos hf] at h ⊢
        cases h
        exact ⟨c2, rfl, hk⟩
      · rw [if_neg hf] at h ⊢
        generalize getc file = p at h ⊢
        obtain ⟨c, f⟩ := p
        simp only [] at h ⊢
        generalize getc f = p at h ⊢
        obtain ⟨v, f⟩ := p
        simp only [] at h ⊢
        by_cases h0 : to_u32 c = 0
        · rw [if_pos h0] at h ⊢
          by_cases v0 : to_u32 v = 0
          · rw [if_pos v0] at h ⊢
            exact ih _ _ _ _ _ _ _ hk h
          · rw [if_neg v0] at h ⊢
            by_cases v1 : to_u32 v = 1
            · rw [if_pos v1] at h ⊢
              cases h
              exact ⟨c2, rfl, hk⟩
            · rw [if_neg v1] at h ⊢
              by_cases v2 : to_u32 v = 2
              · rw [if_pos v2] at h ⊢
                generalize getc f = p at h ⊢
                obtain ⟨dx, f⟩ := p
                simp only [] at h ⊢
                generalize getc f = p at h ⊢
                obtain ⟨dy, f⟩ := p
                simp only [] at h ⊢
                by_cases hd : x + dx ≥ width ∨ y - dy < 0
                · rw [if_pos hd] at h ⊢
                  cases h
                  exact ⟨c2, rfl, hk⟩
                · rw [if_neg hd] at h ⊢
                  exact ih _ _ _ _ _ _ _ hk h
              · rw [if_neg v2] at h ⊢
                by_cases hx : x ≥ width
                · rw [if_pos hx] at h ⊢
                  cases h
                  exact ⟨c2, rfl, hk⟩
                · rw [if_neg hx] at h ⊢
                  obtain ⟨a, hs, hr⟩ := except_bind_eq_ok _ _ _ h
                  obtain ⟨a2, hs2, hk2⟩ :=
                    read_bmp_4bpp_rle_literal_same _ _ _ _ _ _ _ _ _ _ _ _ hk hs
                  rw [hs2, except_ok_bind]
                  exact ih _ _ _ _ _ _ _ hk2 hr
        · rw [if_neg h0] at h ⊢
          by_cases hx : x ≥ width
          · rw [if_pos hx] at h ⊢
            cases h
            exact ⟨c2, rfl, hk⟩
          · rw [if_neg hx] at h ⊢
            obtain ⟨a, hs, hr⟩ := except_bind_eq_ok _ _ _ h
            obtain ⟨a2, hs2, hk2⟩ :=
              read_bmp_4bpp_rle_run_same _ _ _ _ _ _ _ _ _ _ _ _ hk hs
            rw [hs2, except_ok_bind]
            exact ih _ _ _ _ _ _ _ hk2 hr

theorem getD_replicate_lt (n j : Nat) (a d : Pixel) (h : j < n) :
    (List.replicate n a).getD j d = a := by
  simp [List.getD_eq_getElem?_getD, List.getElem?_replicate, h]

theorem same_stores_filled (n : Nat) (color : Pixel) (B c1 c2 : List Pixel)
    (h : same_stores (List.replicate n color) B c1 c2) (j : Nat) (hj : j < n) :
    c1.getD j default = c2.getD j default ∨
      (c1.getD j default = color ∧ c2.getD j default = B.getD j default) := by
  rcases h.2 j with e | ⟨e1, e2⟩
  · exact Or.inl e
  · rw [getD_replicate_lt n j color default hj] at e1
    exact Or.inr ⟨e1, e2⟩
/-! ## End of line and end of bitmap -/

/-- C25: both run-length decoders start their loop on a buffer filled with palette entry 0;
the escape pair (0,1) makes the loop return success at once with the buffer as it is,
whatever bytes follow in the stream; the escape pair (0,0) moves the cursor to column 0 of
the next row up and leaves the buffer as it is; and the buffer changes by the stores of
runs and literals only: when a decoder returns, the loop started on any other buffer `B`
of the same size returns the same value at the same stream position, and every pixel of
the two results is either the same in both (a stored value) or is palette entry 0 in the
decoder's result and the pixel of `B` in the other. -/
theorem rle_escapes (palette : List Pixel) (w h : Nat) (x y row : Int) (fuel : Nat)
    (image buffer : List Pixel) (data : List Byte) (pos : Nat) (file : FILE) (hy : y ≠ 0)
    (hpos : pos + 2 ≤ data.length) (h0 : byte_at data pos = 0)
    (hlen : image.length = w * h) :
    (read_bmp_8bpp_rle image w h file palette
        = read_bmp_8bpp_rle_loop palette w (file.data.length + 2) 0 h
            ((w : Int) * ((h : Int) - 1)) (List.replicate (w * h) (palette.getD 0 default))
            file ∧
      read_bmp_4bpp_rle image w h file palette
        = read_bmp_4bpp_rle_loop palette w (file.data.length + 2) 0 h
            ((w : Int) * ((h : Int) - 1)) (List.replicate (w * h) (palette.getD 0 default))
            file) ∧
    (byte_at data (pos + 1) = 1 →
      read_bmp_8bpp_rle_loop palette w (fuel + 1) x y row buffer ⟨data, pos, false⟩
        = .ok (1, buffer, ⟨data, pos + 2, false⟩) ∧
      read_bmp_4bpp_rle_loop palette w (fuel + 1) x y row buffer ⟨data, pos, false⟩
        = .ok (1, buffer, ⟨data, pos + 2, false⟩)) ∧
    (byte_at data (pos + 1) = 0 →
      read_bmp_8bpp_rle_loop palette w (fuel + 1) x y row buffer ⟨data, pos, false⟩
        = read_bmp_8bpp_rle_loop palette w fuel 0 (y - 1) (row - w) buffer
            ⟨data, pos + 2, false⟩ ∧
      read_bmp_4bpp_rle_loop palette w (fuel + 1) x y row buffer ⟨data, pos, false⟩
        = read_bmp_4bpp_rle_loop palette w fuel 0 (y - 1) (row - w) buffer
            ⟨data, pos + 2, false⟩) ∧
    (∀ (r : Int × List Pixel × FILE) (B : List Pixel),
      read_bmp_8bpp_rle image w h file palette = .ok r → B.length = w * h →
      ∃ out, read_bmp_8bpp_rle_loop palette w (file.data.length + 2) 0 h
            ((w : Int) * ((h : Int) - 1)) B file = .ok (r.1, out, r.2.2) ∧
        ∀ j, j < w * h → r.2.1.getD j default = out.getD j default ∨
          (r.2.1.getD j default = palette.getD 0 default ∧
            out.getD j default = B.getD j default)) ∧
    (∀ (r : Int × List Pixel × FILE) (B : List Pixel),
      read_bmp_4bpp_rle image w h file palette = .ok r → B.length = w * h →
      ∃ out, read_bmp_4bpp_rle_loop palette w (file.data.length + 2) 0 h
            ((w : Int) * ((h : Int) - 1)) B file = .ok (r.1, out, r.2.2) ∧
        ∀ j, j < w * h → r.2.1.getD j default = out.getD j default ∨
          (r.2.1.getD j default = palette.getD 0 default ∧
            out.getD j default = B.getD j default)) := by
  have e8 : read_bmp_8bpp_rle image w h file palette
      = read_bmp_8bpp_rle_loop palette w (file.data.length + 2) 0 h
          ((w : Int) * ((h : Int) - 1)) (List.replicate (w * h) (palette.getD 0 default))
          file := by
    rw [read_bmp_8bpp_rle, fill_image_full image w h _ hlen]
  have e4 : read_bmp_4bpp_rle image w h file palette
      = read_bmp_4bpp_rle_loop palette w (file.data.length + 2) 0 h
          ((w : Int) * ((h : Int) - 1)) (List.replicate (w * h) (palette.getD 0 default))
          file := by
    rw [read_bmp_4bpp_rle, fill_image_full image w h _ hlen]
  refine ⟨⟨e8, e4⟩, ?_, ?_, ?_, ?_⟩
  · intro h1
    constructor
    · rw [read_bmp_8bpp_rle_loop_step palette w fuel x y row buffer data pos hy hpos, h0, h1]
      rfl
    · rw [read_bmp_4bpp_rle_loop_step palette w fuel x y row buffer data pos hy hpos, h0, h1]
      rfl
  · intro h1
    constructor
    · rw [read_bmp_8bpp_rle_loop_step palette w fuel x y row buffer data pos hy hpos, h0, h1]
      rfl
    · rw [read_bmp_4bpp_rle_loop_step palette w fuel x y row buffer data pos hy hpos, h0, h1]
      rfl
  · intro r B hr hB
    rw [e8] at hr
    obtain ⟨out, ho, hk⟩ :=
      read_bmp_8bpp_rle_loop_same (List.replicate (w * h) (palette.getD 0 default)) B palette w
        _ _ _ _ _ B file r
        (same_stores_refl _ _ (by rw [List.length_replicate, hB])) hr
    exact ⟨out, ho, fun j hj => same_stores_filled _ _ _ _ _ hk j hj⟩
  · intro r B hr hB
    rw [e4] at hr
    obtain ⟨out, ho, hk⟩ :=
      read_bmp_4bpp_rle_loop_same (List.replicate (w * h) (palette.getD 0 default)) B palette w
        _ _ _ _ _ B file r
        (same_stores_refl _ _ (by rw [List.length_replicate, hB])) hr
    exact ⟨out, ho, fun j hj => same_stores_filled _ _ _ _ _ hk j hj⟩

theorem rle_escapes_witness :
    (read_bmp_8bpp_rle_loop [⟨0, 0, 0, 255⟩, ⟨255, 255, 255, 255⟩] ((2 : Nat) : Int) (1 + 1) 0 2
          2 (List.replicate 4 ⟨0, 0, 0, 255⟩) ⟨[0, 1, 9, 9], 0, false⟩
        = .ok (1, List.replicate 4 ⟨0, 0, 0, 255⟩, ⟨[0, 1, 9, 9], 0 + 2, false⟩) ∧
      read_bmp_4bpp_rle_loop [⟨0, 0, 0, 255⟩, ⟨255, 255, 255, 255⟩] ((2 : Nat) : Int) (1 + 1) 0 2
          2 (List.replicate 4 ⟨0, 0, 0, 255⟩) ⟨[0, 1, 9, 9], 0, false⟩
        = .ok (1, List.replicate 4 ⟨0, 0, 0, 255⟩, ⟨[0, 1, 9, 9], 0 + 2, false⟩)) ∧
    (read_bmp_8bpp_rle_loop [⟨0, 0, 0, 255⟩, ⟨255, 255, 255, 255⟩] ((2 : Nat) : Int) (1 + 1) 1 2
          2 (List.replicate 4 ⟨0, 0, 0, 255⟩) ⟨[0, 0, 9, 9], 0, false⟩
        = read_bmp_8bpp_rle_loop [⟨0, 0, 0, 255⟩, ⟨255, 255, 255, 255⟩] ((2 : Nat) : Int) 1 0
            (2 - 1) (2 - ((2 : Nat) : Int)) (List.replicate 4 ⟨0, 0, 0, 255⟩)
            ⟨[0, 0, 9, 9], 0 + 2, false⟩ ∧
      read_bmp_4bpp_rle_loop [⟨0, 0, 0, 255⟩, ⟨255, 255, 255, 255⟩] ((2 : Nat) : Int) (1 + 1) 1 2
          2 (List.replicate 4 ⟨0, 0, 0, 255⟩) ⟨[0, 0, 9, 9], 0, false⟩
        = read_bmp_4bpp_rle_loop [⟨0, 0, 0, 255⟩, ⟨255, 255, 255, 255⟩] ((2 : Nat) : Int) 1 0
            (2 - 1) (2 - ((2 : Nat) : Int)) (List.replicate 4 ⟨0, 0, 0, 255⟩)
            ⟨[0, 0, 9, 9], 0 + 2, false⟩) ∧
    (∃ out, read_bmp_8bpp_rle_loop [⟨0, 0, 0, 255⟩, ⟨255, 255, 255, 255⟩] ((2 : Nat) : Int)
            ((⟨[1, 1, 0, 1, 7, 7], 0, false⟩ : FILE).data.length + 2) 0 ((2 : Nat) : Int)
            (((2 : Nat) : Int) * (((2 : Nat) : Int) - 1)) (List.replicate 4 ⟨9, 9, 9, 9⟩)
            ⟨[1, 1, 0, 1, 7, 7], 0, false⟩
          = .ok (1, out, ⟨[1, 1, 0, 1, 7, 7], 4, false⟩) ∧
        ∀ j, j < 2 * 2 →
          ([⟨0, 0, 0, 255⟩, ⟨0, 0, 0, 255⟩, ⟨255, 255, 255, 255⟩, ⟨0, 0, 0, 255⟩] :
              List Pixel).getD j default = out.getD j default ∨
          (([⟨0, 0, 0, 255⟩, ⟨0, 0, 0, 255⟩, ⟨255, 255, 255, 255⟩, ⟨0, 0, 0, 255⟩] :
              List Pixel).getD j default
              = ([⟨0, 0, 0, 255⟩, ⟨255, 255, 255, 255⟩] : List Pixel).getD 0 default ∧
            out.getD j default = (List.replicate 4 (⟨9, 9, 9, 9⟩ : Pixel)).getD j default)) :=
  ⟨(rle_escapes [⟨0, 0, 0, 255⟩, ⟨255, 255, 255, 255⟩] 2 2 0 2 2 1 (List.replicate 4 default)
      (List.replicate 4 ⟨0, 0, 0, 255⟩) [0, 1, 9, 9] 0 ⟨[1, 1, 0, 1, 7, 7], 0, false⟩
      (by decide) (by decide) (by decide) (by decide)).2.1 (by decide),
   (rle_escapes [⟨0, 0, 0, 255⟩, ⟨255, 255, 255, 255⟩] 2 2 1 2 2 1 (List.replicate 4 default)
      (List.replicate 4 ⟨0, 0, 0, 255⟩) [0, 0, 9, 9] 0 ⟨[1, 1, 0, 1, 7, 7], 0, false⟩
      (by decide) (by decide) (by decide) (by decide)).2.2.1 (by decide),
   (rle_escapes [⟨0, 0, 0, 255⟩, ⟨255, 255, 255, 255⟩] 2 2 0 2 2 1 (List.replicate 4 default)
      (List.replicate 4 ⟨0, 0, 0, 255⟩) [0, 1, 9, 9] 0 ⟨[1, 1, 0, 1, 7, 7], 0, false⟩
      (by decide) (by decide) (by decide) (by decide)).2.2.2.1
      (1, [⟨0, 0, 0, 255⟩, ⟨0, 0, 0, 255⟩, ⟨255, 255, 255, 255⟩, ⟨0, 0, 0, 255⟩],
        ⟨[1, 1, 0, 1, 7, 7], 4, false⟩)
      (List.replicate 4 ⟨9, 9, 9, 9⟩) (by decide) (by decide)⟩

/-- A stream that begins with the end of bitmap: both decoders return success with every
pixel at palette entry 0, whatever follows; and a stream with one run before it: the
pixels of the run hold its colour, the others palette entry 0. -/
theorem rle_end_of_bitmap_examples :
    read_bmp_8bpp_rle (List.replicate 4 default) 2 2 ⟨[0, 1, 9, 9], 0, false⟩
        [⟨1, 2, 3, 255⟩, ⟨255, 255, 255, 255⟩]
      = .ok (1, List.replicate 4 ⟨1, 2, 3, 255⟩, ⟨[0, 1, 9, 9], 2, false⟩) ∧
    read_bmp_4bpp_rle (List.replicate 4 default) 2 2 ⟨[0, 1, 9, 9], 0, false⟩
        [⟨1, 2, 3, 255⟩, ⟨255, 255, 255, 255⟩]
      = .ok (1, List.replicate 4 ⟨1, 2, 3, 255⟩, ⟨[0, 1, 9, 9], 2, false⟩) ∧
    read_bmp_8bpp_rle (List.replicate 4 default) 2 2 ⟨[1, 1, 0, 1, 7, 7], 0, false⟩
        [⟨1, 2, 3, 255⟩, ⟨255, 255, 255, 255⟩]
      = .ok (1, [⟨1, 2, 3, 255⟩, ⟨1, 2, 3, 255⟩, ⟨255, 255, 255, 255⟩, ⟨1, 2, 3, 255⟩],
          ⟨[1, 1, 0, 1, 7, 7], 4, false⟩) := by
  decide

/-! ## The uncompressed readers: rows bottom-up -/

theorem read_bmp_1bpp_rows_eq (palette : List Pixel) (width row_padding : Nat) :
    ∀ (y : Nat) (image : List Pixel) (file : FILE),
      read_bmp_1bpp_rows palette width row_padding y image file
        = generic_rows (fun row image file => read_bmp_1bpp_row palette width row width 0 image file)
            width row_padding y image file := by
  intro y
  induction y with
  | zero => intro image file; rfl
  | succ y ih =>
    intro image file
    rw [read_bmp_1bpp_rows, generic_rows]
    simp only [ih]

theorem read_bmp_4bpp_rows_eq (palette : List Pixel) (width row_padding : Nat) :
    ∀ (y : Nat) (image : List Pixel) (file : FILE),
      read_bmp_4bpp_rows palette width row_padding y image file
        = generic_rows (fun row image file => read_bmp_4bpp_row palette row width 0 image file)
            width row_padding y image file := by
  intro y
  induction y with
  | zero => intro image file; rfl
  | succ y ih =>
    intro image file
    rw [read_bmp_4bpp_rows, generic_rows]
    simp only [ih]

theorem read_bmp_8bpp_rows_eq (palette : List Pixel) (width row_padding : Nat) :
    ∀ (y : Nat) (image : List Pixel) (file : FILE),
      read_bmp_8bpp_rows palette width row_padding y image file
        = generic_rows (fun row image file => read_bmp_8bpp_row palette row width 0 image file)
            width row_padding y image file := by
  intro y
  induction y with
  | zero => intro image file; rfl
  | succ y ih =>
    intro image file
    rw [read_bmp_8bpp_rows, generic_rows]
    simp only [ih]

theorem read_bmp_24bpp_rows_eq (width row_padding : Nat) :
    ∀ (y : Nat) (image : List Pixel) (file : FILE),
      read_bmp_24bpp_rows width row_padding y image file
        = generic_rows (fun row image file => read_bmp_24bpp_row row width 0 image file)
            width row_padding y image file := by
  intro y
  induction y with
  | zero => intro image file; rfl
  | succ y ih =>
    intro image file
    rw [read_bmp_24bpp_rows, generic_rows]
    simp only [ih]

theorem skip_padding_in_range (data : List Byte) :
    ∀ (n pos : Nat), pos + n ≤ data.length →
      skip_padding n ⟨data, pos, false⟩ = ⟨data, pos + n, false⟩ := by
  intro n
  induction n with
  | zero => intro pos _; rfl
  | succ n ih =>
    intro pos h
    rw [skip_padding, getc_lt data pos false (by omega), ih (pos + 1) (by omega)]
    congr 1
    omega

theorem generic_rows_spec
    (rowfn : Int → List Pixel → FILE → Except Fault (List Pixel × FILE))
    (w pad nbytes : Nat) (data : List Byte) (px : Nat → Nat → Pixel) (hw : 0 < w)
    (hrow : ∀ (row : Nat) (image : List Pixel) (pos : Nat), row + w ≤ image.length →
      pos + nbytes ≤ data.length →
      ∃ image', rowfn (row : Int) image ⟨data, pos, false⟩
          = .ok (image', ⟨data, pos + nbytes, false⟩) ∧
        image'.length = image.length ∧
        ∀ j, image'.getD j default
          = if row ≤ j ∧ j < row + w then px pos (j - row) else image.getD j default) :
    ∀ (y : Nat) (image : List Pixel) (pos : Nat), w * y ≤ image.length →
      pos + y * (nbytes + pad) ≤ data.length →
      ∃ image', generic_rows rowfn w pad y image ⟨data, pos, false⟩
          = .ok (1, image', ⟨data, pos + y * (nbytes + pad), false⟩) ∧
        image'.length = image.length ∧
        ∀ j, image'.getD j default
          = if j < w * y then px (pos + (y - 1 - j / w) * (nbytes + pad)) (j % w)
            else image.getD j default := by
  intro y
  induction y with
  | zero =>
    intro image pos _ _
    refine ⟨image, ?_, rfl, ?_⟩
    · rw [generic_rows, Nat.zero_mul, Nat.add_zero]
    · intro j
      rw [if_neg (by omega)]
  | succ y ih =>
    intro image pos hlen hpos
    have hs : (y + 1) * (nbytes + pad) = y * (nbytes + pad) + (nbytes + pad) :=
      Nat.succ_mul _ _
    have hwy : w * (y + 1) = w * y + w := Nat.mul_succ _ _
    obtain ⟨image1, e1, hl1, hg1⟩ := hrow (w * y) image pos (by omega) (by omega)
    obtain ⟨image2, e2, hl2, hg2⟩ :=
      ih image1 (pos + nbytes + pad) (by rw [hl1]; omega) (by omega)
    refine ⟨image2, ?_, by rw [hl2, hl1], ?_⟩
    · have hc : ((w : Int) * (y : Int)) = ((w * y : Nat) : Int) := by push_cast; rfl
      rw [generic_rows, if_neg (by simp [feof]), hc, e1, except_ok_bind]
      dsimp only
      have hp : pos + nbytes + pad + y * (nbytes + pad) = pos + (y + 1) * (nbytes + pad) := by
        omega
      rw [skip_padding_in_range data pad (pos + nbytes) (by omega), e2, hp]
    · intro j
      rw [hg2 j]
      by_cases h1 : j < w * y
      · have hq : j / w < y := (Nat.div_lt_iff_lt_mul hw).2 (by rw [Nat.mul_comm]; exact h1)
        have hq2 : y + 1 - 1 - j / w = (y - 1 - j / w) + 1 := by omega
        rw [if_pos h1, if_pos (by omega), hq2, Nat.succ_mul]
        congr 1
        omega
      · rw [if_neg h1, hg1 j]
        by_cases h2 : j < w * y + w
        · have hq : j / w = y :=
            Nat.div_eq_of_lt_le (by rw [Nat.mul_comm]; omega)
              (by rw [Nat.succ_mul, Nat.mul_comm]; omega)
          have hm : j % w = j - w * y := by
            have := Nat.div_add_mod j w
            rw [hq] at this
            omega
          rw [if_pos (by omega), if_pos (by omega), hq, hm,
            show y + 1 - 1 - y = 0 by omega, Nat.zero_mul, Nat.add_zero]
        · rw [if_neg (by omega), if_neg (by omega)]
theorem to_byte_byte_at (data : List Byte) (q : Nat) :
    to_byte ((byte_at data q : Nat) : Int) = data.getD q 0 := by
  apply Fin.ext
  have h := byte_at_lt data q
  show (((byte_at data q : Nat) : Int) % 256).toNat = (data.getD q 0).val
  have e : byte_at data q = (data.getD q 0).val := rfl
  omega

theorem read_bmp_8bpp_row_spec (palette : List Pixel) (row : Nat) (data : List Byte) :
    ∀ (n x pos : Nat) (image : List Pixel), row + x + n ≤ image.length →
      pos + n ≤ data.length →
      ∃ image', read_bmp_8bpp_row palette (row : Int) n x image ⟨data, pos, false⟩
          = .ok (image', ⟨data, pos + n, false⟩) ∧
        image'.length = image.length ∧
        ∀ j, image'.getD j default
          = if row + x ≤ j ∧ j < row + x + n then
              palette.getD (byte_at data (pos + (j - (row + x)))) default
            else image.getD j default := by
  intro n
  induction n with
  | zero =>
    intro x pos image _ _
    refine ⟨image, rfl, rfl, ?_⟩
    intro j
    rw [if_neg (by omega)]
  | succ n ih =>
    intro x pos image hlen hpos
    rw [read_bmp_8bpp_row, getc_lt data pos false (by omega)]
    dsimp only
    rw [to_u32_byte_at, and_255 _ (byte_at_lt data pos), store_nat image row x _ (by omega),
      except_ok_bind]
    obtain ⟨image', e, hl, hg⟩ :=
      ih (x + 1) (pos + 1) (image.set (row + x) (palette.getD (byte_at data pos) default))
        (by rw [List.length_set]; omega) (by omega)
    have hp : pos + 1 + n = pos + (n + 1) := by omega
    rw [hp] at e
    refine ⟨image', e, by rw [hl, List.length_set], ?_⟩
    intro j
    rw [hg j]
    by_cases hj : j = row + x
    · subst hj
      rw [if_neg (by omega), if_pos (by omega), getD_set_eq _ _ _ _ (by omega), Nat.sub_self,
        Nat.add_zero]
    · rw [getD_set_ne _ _ _ _ _ (Ne.symm hj)]
      by_cases hr : row + x ≤ j ∧ j < row + x + (n + 1)
      · rw [if_pos hr, if_pos (by omega)]
        have hq : pos + 1 + (j - (row + (x + 1))) = pos + (j - (row + x)) := by omega
        rw [hq]
      · rw [if_neg hr, if_neg (by omega)]

theorem read_bmp_24bpp_row_spec (row : Nat) (data : List Byte) :
    ∀ (n x pos : Nat) (image : List Pixel), row + x + n ≤ image.length →
      pos + 3 * n ≤ data.length →
      ∃ image', read_bmp_24bpp_row (row : Int) n x image ⟨data, pos, false⟩
          = .ok (image', ⟨data, pos + 3 * n, false⟩) ∧
        image'.length = image.length ∧
        ∀ j, image'.getD j default
          = if row + x ≤ j ∧ j < row + x + n then
              ⟨data.getD (pos + 3 * (j - (row + x)) + 2) 0,
                data.getD (pos + 3 * (j - (row + x)) + 1) 0,
                data.getD (pos + 3 * (j - (row + x))) 0, 255⟩
            else image.getD j default := by
  intro n
  induction n with
  | zero =>
    intro x pos image _ _
    refine ⟨image, rfl, rfl, ?_⟩
    intro j
    rw [if_neg (by omega)]
  | succ n ih =>
    intro x pos image hlen hpos
    rw [read_bmp_24bpp_row, getc_lt data pos false (by omega)]
    dsimp only
    rw [getc_lt data (pos + 1) false (by omega)]
    dsimp only
    rw [getc_lt data (pos + 1 + 1) false (by omega)]
    dsimp only
    rw [to_byte_byte_at, to_byte_byte_at, to_byte_byte_at, store_nat image row x _ (by omega),
      except_ok_bind]
    obtain ⟨image', e, hl, hg⟩ :=
      ih (x + 1) (pos + 1 + 1 + 1)
        (image.set (row + x) ⟨data.getD (pos + 1 + 1) 0, data.getD (pos + 1) 0,
          data.getD pos 0, 255⟩)
        (by rw [List.length_set]; omega) (by omega)
    have hp : pos + 1 + 1 + 1 + 3 * n = pos + 3 * (n + 1) := by omega
    rw [hp] at e
    refine ⟨image', e, by rw [hl, List.length_set], ?_⟩
    intro j
    rw [hg j]
    by_cases hj : j = row + x
    · subst hj
      rw [if_neg (by omega), if_pos (by omega), getD_set_eq _ _ _ _ (by omega)]
      simp only [Nat.sub_self, Nat.mul_zero, Nat.add_zero]
    · rw [getD_set_ne _ _ _ _ _ (Ne.symm hj)]
      by_cases hr : row + x ≤ j ∧ j < row + x + (n + 1)
      · rw [if_pos hr, if_pos (by omega)]
        have hq : pos + 1 + 1 + 1 + 3 * (j - (row + (x + 1))) = pos + 3 * (j - (row + x)) := by
          omega
        rw [hq]
      · rw [if_neg hr, if_neg (by omega)]
theorem read_bmp_4bpp_row_spec (palette : List Pixel) (row : Nat) (data : List Byte) :
    ∀ (n x pos : Nat) (image : List Pixel), row + x + n ≤ image.length →
      pos + (n + 1) / 2 ≤ data.length →
      ∃ image', read_bmp_4bpp_row palette (row : Int) n x image ⟨data, pos, false⟩
          = .ok (image', ⟨data, pos + (n + 1) / 2, false⟩) ∧
        image'.length = image.length ∧
        ∀ j, image'.getD j default
          = if row + x ≤ j ∧ j < row + x + n then
              palette.getD
                (nibble_index (byte_at data (pos + (j - (row + x)) / 2)) (j - (row + x))) default
            else image.getD j default := by
  intro n
  induction n using Nat.strong_induction_on with
  | _ n ih =>
    intro x pos image hlen hpos
    have hj0 : ∀ j, j = row + x →
        nibble_index (byte_at data (pos + (j - (row + x)) / 2)) (j - (row + x))
          = (byte_at data pos &&& 0xF0) >>> 4 := by
      intro j hj
      subst hj
      simp [nibble_index]
    have hj1 : ∀ j, j = row + (x + 1) →
        nibble_index (byte_at data (pos + (j - (row + x)) / 2)) (j - (row + x))
          = byte_at data pos &&& 0x0F := by
      intro j hj
      subst hj
      have e : row + (x + 1) - (row + x) = 1 := by omega
      rw [e]
      simp [nibble_index]
    match n, ih, hlen, hpos with
    | 0, _, _, _ =>
      refine ⟨image, rfl, rfl, ?_⟩
      intro j
      rw [if_neg (by omega)]
    | 1, _, hlen, hpos =>
      rw [read_bmp_4bpp_row, getc_lt data pos false (by omega)]
      dsimp only
      rw [to_u32_byte_at, store_nat image row x _ (by omega), except_ok_bind]
      refine ⟨_, rfl, by rw [List.length_set], ?_⟩
      intro j
      by_cases hj : j = row + x
      · rw [if_pos (by omega), hj0 j hj]
        subst hj
        rw [getD_set_eq _ _ _ _ (by omega)]
      · rw [getD_set_ne _ _ _ _ _ (Ne.symm hj), if_neg (by omega)]
    | n + 2, ih, hlen, hpos =>
      rw [read_bmp_4bpp_row, getc_lt data pos false (by omega)]
      dsimp only
      have hx1 : ((x : Int) + 1) = ((x + 1 : Nat) : Int) := by push_cast; rfl
      rw [to_u32_byte_at, store_nat image row x _ (by omega), except_ok_bind, hx1,
        store_nat _ row (x + 1) _ (by rw [List.length_set]; omega), except_ok_bind]
      obtain ⟨image', e, hl, hg⟩ :=
        ih n (by omega) (x + 2) (pos + 1)
          ((image.set (row + x) (palette.getD ((byte_at data pos &&& 0xF0) >>> 4) default)).set
            (row + (x + 1)) (palette.getD (byte_at data pos &&& 0x0F) default))
          (by rw [List.length_set, List.length_set]; omega) (by omega)
      have hp : pos + 1 + (n + 1) / 2 = pos + (n + 2 + 1) / 2 := by omega
      rw [hp] at e
      refine ⟨image', e, by rw [hl, List.length_set, List.length_set], ?_⟩
      intro j
      rw [hg j]
      by_cases hr : row + (x + 2) ≤ j ∧ j < row + (x + 2) + n
      · rw [if_pos hr, if_pos (by omega)]
        have hq : pos + 1 + (j - (row + (x + 2))) / 2 = pos + (j - (row + x)) / 2 := by omega
        have hm : (j - (row + (x + 2))) % 2 = (j - (row + x)) % 2 := by omega
        rw [hq]
        simp only [nibble_index, hm]
      · rw [if_neg hr]
        by_cases hj : j = row + (x + 1)
        · rw [if_pos (by omega), hj1 j hj]
          subst hj
          rw [getD_set_eq _ _ _ _ (by rw [List.length_set]; omega)]
        · rw [getD_set_ne _ _ _ _ _ (Ne.symm hj)]
          by_cases hj2 : j = row + x
          · rw [if_pos (by omega), hj0 j hj2]
            subst hj2
            rw [getD_set_eq _ _ _ _ (by omega)]
          · rw [getD_set_ne _ _ _ _ _ (Ne.symm hj2), if_neg (by omega)]

theorem shift_step (code k : Nat) :
    (((code <<< 1) % 4294967296) <<< k) % 4294967296 = (code <<< (k + 1)) % 4294967296 := by
  rw [Nat.shiftLeft_eq, Nat.shiftLeft_eq, Nat.shiftLeft_eq, Nat.mod_mul_mod, pow_succ]
  congr 1
  ring

theorem read_bmp_1bpp_bits_spec (palette : List Pixel) (w row : Nat) :
    ∀ (nbits code x : Nat) (image : List Pixel), code < 4294967296 → x ≤ w →
      row + w ≤ image.length →
      ∃ image', read_bmp_1bpp_bits palette w (row : Int) nbits code x image
          = .ok (min (x + nbits) w, image') ∧
        image'.length = image.length ∧
        ∀ j, image'.getD j default
          = if row + x ≤ j ∧ j < row + min (x + nbits) w then
              palette.getD (bit_index code (j - (row + x))) default
            else image.getD j default := by
  intro nbits
  induction nbits with
  | zero =>
    intro code x image _ hx _
    refine ⟨image, ?_, rfl, ?_⟩
    · rw [read_bmp_1bpp_bits, Nat.add_zero, Nat.min_eq_left hx]
    · intro j
      rw [if_neg (by omega)]
  | succ nbits ih =>
    intro code x image hcode hx hlen
    rw [read_bmp_1bpp_bits]
    by_cases hxw : x < w
    · rw [if_pos hxw, store_nat image row x _ (by omega), except_ok_bind]
      obtain ⟨image', e, hl, hg⟩ :=
        ih ((code <<< 1) % 4294967296) (x + 1)
          (image.set (row + x) (palette.getD (if code &&& 0x80 ≠ 0 then 1 else 0) default))
          (Nat.mod_lt _ (by decide)) (by omega) (by rw [List.length_set]; exact hlen)
      have hm : min (x + 1 + nbits) w = min (x + (nbits + 1)) w := by
        rw [show x + 1 + nbits = x + (nbits + 1) by omega]
      rw [hm] at e hg
      refine ⟨image', e, by rw [hl, List.length_set], ?_⟩
      intro j
      rw [hg j]
      by_cases hj : j = row + x
      · subst hj
        have hn : ¬ (row + (x + 1) ≤ row + x ∧ row + x < row + min (x + (nbits + 1)) w) := by
          omega
        have hp : row + x ≤ row + x ∧ row + x < row + min (x + (nbits + 1)) w := by omega
        have e0 : bit_index code 0 = if code &&& 0x80 ≠ 0 then 1 else 0 := by
          unfold bit_index
          rw [Nat.shiftLeft_zero, Nat.mod_eq_of_lt hcode]
        rw [if_neg hn, if_pos hp, getD_set_eq _ _ _ _ (by omega), Nat.sub_self, e0]
      · rw [getD_set_ne _ _ _ _ _ (Ne.symm hj)]
        by_cases hr : row + x ≤ j ∧ j < row + min (x + (nbits + 1)) w
        · have hp : row + (x + 1) ≤ j ∧ j < row + min (x + (nbits + 1)) w := by omega
          rw [if_pos hr, if_pos hp]
          have hk : j - (row + x) = (j - (row + (x + 1))) + 1 := by omega
          rw [hk]
          unfold bit_index
          rw [shift_step]
        · have hn : ¬ (row + (x + 1) ≤ j ∧ j < row + min (x + (nbits + 1)) w) := by omega
          rw [if_neg hr, if_neg hn]
    · rw [if_neg hxw]
      have hm : min (x + (nbits + 1)) w = x := by omega
      refine ⟨image, by rw [hm], rfl, ?_⟩
      intro j
      rw [hm, if_neg (by omega)]
theorem read_bmp_1bpp_row_spec (palette : List Pixel) (w row : Nat) (data : List Byte) :
    ∀ (fuel x pos : Nat) (image : List Pixel), x ≤ w → (w - x + 7) / 8 ≤ fuel →
      pos + (w - x + 7) / 8 ≤ data.length → row + w ≤ image.length →
      ∃ image', read_bmp_1bpp_row palette w (row : Int) fuel x image ⟨data, pos, false⟩
          = .ok (image', ⟨data, pos + (w - x + 7) / 8, false⟩) ∧
        image'.length = image.length ∧
        ∀ j, image'.getD j default
          = if row + x ≤ j ∧ j < row + w then
              palette.getD
                (bit_index (byte_at data (pos + (j - (row + x)) / 8)) ((j - (row + x)) % 8))
                default
            else image.getD j default := by
  intro fuel
  induction fuel with
  | zero =>
    intro x pos image hx hf _ _
    have hxw : ¬ x < w := by omega
    have h0 : (w - x + 7) / 8 = 0 := by omega
    refine ⟨image, ?_, rfl, ?_⟩
    · rw [read_bmp_1bpp_row, if_neg hxw, h0, Nat.add_zero]
    · intro j
      rw [if_neg (by omega)]
  | succ fuel ih =>
    intro x pos image hx hf hpos hlen
    rw [read_bmp_1bpp_row]
    by_cases hxw : x < w
    · rw [if_pos hxw, getc_lt data pos false (by omega)]
      dsimp only
      rw [to_u32_byte_at]
      obtain ⟨image1, e1, hl1, hg1⟩ :=
        read_bmp_1bpp_bits_spec palette w row 8 (byte_at data pos) x image
          (by have := byte_at_lt data pos; omega) hx hlen
      rw [e1, except_ok_bind]
      dsimp only
      obtain ⟨image2, e2, hl2, hg2⟩ :=
        ih (min (x + 8) w) (pos + 1) image1 (by omega) (by omega) (by omega)
          (by rw [hl1]; exact hlen)
      have hp : pos + 1 + (w - min (x + 8) w + 7) / 8 = pos + (w - x + 7) / 8 := by omega
      rw [hp] at e2
      refine ⟨image2, e2, by rw [hl2, hl1], ?_⟩
      intro j
      rw [hg2 j]
      by_cases h2 : row + min (x + 8) w ≤ j ∧ j < row + w
      · have hp2 : row + x ≤ j ∧ j < row + w := by omega
        have hq : pos + 1 + (j - (row + min (x + 8) w)) / 8 = pos + (j - (row + x)) / 8 := by
          omega
        have hm : (j - (row + min (x + 8) w)) % 8 = (j - (row + x)) % 8 := by omega
        rw [if_pos h2, if_pos hp2, hq, hm]
      · rw [if_neg h2, hg1 j]
        by_cases h1 : row + x ≤ j ∧ j < row + min (x + 8) w
        · have hp2 : row + x ≤ j ∧ j < row + w := by omega
          have hq : (j - (row + x)) / 8 = 0 := by omega
          have hm : (j - (row + x)) % 8 = j - (row + x) := by omega
          rw [if_pos h1, if_pos hp2, hq, hm, Nat.add_zero]
        · have hn : ¬ (row + x ≤ j ∧ j < row + w) := by omega
          rw [if_neg h1, if_neg hn]
    · have h0 : (w - x + 7) / 8 = 0 := by omega
      rw [if_neg hxw, h0, Nat.add_zero]
      refine ⟨image, rfl, rfl, ?_⟩
      intro j
      rw [if_neg (by omega)]
theorem neg_tdiv_nat (a d : Nat) : Int.tdiv (-(a : Int)) (d : Int) = -((a / d : Nat) : Int) := by
  rw [Int.neg_tdiv, Int.tdiv_eq_ediv (Int.ofNat_nonneg a) (Int.ofNat_nonneg d)]
  rfl

theorem row_padding_1bpp (w : Nat) :
    (w + 7) / 8 + ((Int.tdiv (-((w : Int) + 7)) 8) % 4).toNat = bmp_row_stride 1 w := by
  have e : (-((w : Int) + 7)) = -(((w + 7 : Nat)) : Int) := by push_cast; rfl
  have e2 := neg_tdiv_nat (w + 7) 8
  rw [e]
  simp only [Nat.cast_ofNat] at e2
  rw [e2]
  unfold bmp_row_stride bmp_row_bytes
  omega

theorem row_padding_4bpp (w : Nat) :
    (w + 1) / 2 + ((Int.tdiv (-((w : Int) + 1)) 2) % 4).toNat = bmp_row_stride 4 w := by
  have e : (-((w : Int) + 1)) = -(((w + 1 : Nat)) : Int) := by push_cast; rfl
  have e2 := neg_tdiv_nat (w + 1) 2
  rw [e]
  simp only [Nat.cast_ofNat] at e2
  rw [e2]
  unfold bmp_row_stride bmp_row_bytes
  omega

theorem row_padding_8bpp (w : Nat) : w + ((-(w : Int)) % 4).toNat = bmp_row_stride 8 w := by
  unfold bmp_row_stride bmp_row_bytes
  omega

theorem row_padding_24bpp (w : Nat) :
    3 * w + ((-3 * (w : Int)) % 4).toNat = bmp_row_stride 24 w := by
  unfold bmp_row_stride bmp_row_bytes
  omega

theorem bit_index_table :
    ∀ (byte : Fin 256) (k : Fin 8), bit_index byte.val k.val = packed_index 1 byte.val k.val := by
  decide!

theorem nibble_index_table :
    ∀ (byte : Fin 256) (k : Fin 2),
      nibble_index byte.val k.val = packed_index 4 byte.val k.val := by
  decide!

theorem bit_index_eq (byte k : Nat) (hb : byte < 256) (hk : k < 8) :
    bit_index byte k = packed_index 1 byte k :=
  bit_index_table ⟨byte, hb⟩ ⟨k, hk⟩

theorem nibble_index_eq (byte k : Nat) (hb : byte < 256) :
    nibble_index byte k = packed_index 4 byte (k % 2) := by
  have h := nibble_index_table ⟨byte, hb⟩ ⟨k % 2, Nat.mod_lt _ (by decide)⟩
  rw [← h]
  simp only [nibble_index, Nat.mod_mod]

theorem packed_index_byte (byte : Nat) (hb : byte < 256) : packed_index 8 byte 0 = byte := by
  unfold packed_index
  simp only [Nat.zero_add, Nat.mul_one, Nat.sub_self, Nat.shiftRight_zero]
  exact Nat.mod_eq_of_lt hb
theorem generic_rows_pixels
    (rowfn : Int → List Pixel → FILE → Except Fault (List Pixel × FILE))
    (w pad nbytes : Nat) (data : List Byte) (px : Nat → Nat → Pixel) (hw : 0 < w)
    (hrow : ∀ (row : Nat) (image : List Pixel) (pos : Nat), row + w ≤ image.length →
      pos + nbytes ≤ data.length →
      ∃ image', rowfn (row : Int) image ⟨data, pos, false⟩
          = .ok (image', ⟨data, pos + nbytes, false⟩) ∧
        image'.length = image.length ∧
        ∀ j, image'.getD j default
          = if row ≤ j ∧ j < row + w then px pos (j - row) else image.getD j default)
    (h : Nat) (image : List Pixel) (pos : Nat) (hlen : image.length = w * h)
    (hpos : pos + h * (nbytes + pad) ≤ data.length) :
    ∃ image', generic_rows rowfn w pad h image ⟨data, pos, false⟩
        = .ok (1, image', ⟨data, pos + h * (nbytes + pad), false⟩) ∧
      image'.length = w * h ∧
      ∀ x y, x < w → y < h →
        image'.getD (w * y + x) default = px (pos + (h - 1 - y) * (nbytes + pad)) x := by
  obtain ⟨image', e, hl, hg⟩ :=
    generic_rows_spec rowfn w pad nbytes data px hw hrow h image pos (by omega) hpos
  refine ⟨image', e, by rw [hl, hlen], ?_⟩
  intro x y hx hy
  have h1 : w * y + x < w * h := by
    have := mul_add_lt y h x w hy hx
    rw [Nat.mul_comm y w, Nat.mul_comm h w] at this
    exact this
  have h2 : (w * y + x) / w = y := by
    rw [Nat.mul_add_div hw, Nat.div_eq_of_lt hx, Nat.add_zero]
  have h3 : (w * y + x) % w = x := by
    rw [Nat.mul_add_mod, Nat.mod_eq_of_lt hx]
  rw [hg (w * y + x), if_pos h1, h2, h3]

theorem read_bmp_8bpp_pixels (palette image : List Pixel) (w h : Nat) (data : List Byte)
    (pos : Nat) (hw : 0 < w) (hlen : image.length = w * h)
    (hpos : pos + h * bmp_row_stride 8 w ≤ data.length) :
    ∃ image', read_bmp_8bpp image w h ⟨data, pos, false⟩ palette
        = .ok (1, image', ⟨data, pos + h * bmp_row_stride 8 w, false⟩) ∧
      image'.length = w * h ∧
      ∀ x y, x < w → y < h →
        image'.getD (w * y + x) default
          = palette.getD (byte_at data (pos + (h - 1 - y) * bmp_row_stride 8 w + x)) default := by
  have hrow : ∀ (row : Nat) (image : List Pixel) (pos : Nat), row + w ≤ image.length →
      pos + w ≤ data.length →
      ∃ image', (fun row image file => read_bmp_8bpp_row palette row w 0 image file)
            (row : Int) image ⟨data, pos, false⟩
          = .ok (image', ⟨data, pos + w, false⟩) ∧
        image'.length = image.length ∧
        ∀ j, image'.getD j default
          = if row ≤ j ∧ j < row + w then
              (fun p x => palette.getD (byte_at data (p + x)) default) pos (j - row)
            else image.getD j default := by
    intro row image pos h1 h2
    have := read_bmp_8bpp_row_spec palette row data w 0 pos image (by omega) h2
    simpa only [Nat.add_zero] using this
  have := generic_rows_pixels (fun row image file => read_bmp_8bpp_row palette row w 0 image file)
    w ((-(w : Int)) % 4).toNat w data (fun p x => palette.getD (byte_at data (p + x)) default)
    hw hrow h image pos hlen
    (by rw [row_padding_8bpp]; exact hpos)
  rw [row_padding_8bpp] at this
  rw [read_bmp_8bpp, read_bmp_8bpp_rows_eq]
  exact this

theorem read_bmp_4bpp_pixels (palette image : List Pixel) (w h : Nat) (data : List Byte)
    (pos : Nat) (hw : 0 < w) (hlen : image.length = w * h)
    (hpos : pos + h * bmp_row_stride 4 w ≤ data.length) :
    ∃ image', read_bmp_4bpp image w h ⟨data, pos, false⟩ palette
        = .ok (1, image', ⟨data, pos + h * bmp_row_stride 4 w, false⟩) ∧
      image'.length = w * h ∧
      ∀ x y, x < w → y < h →
        image'.getD (w * y + x) default
          = palette.getD
              (nibble_index (byte_at data (pos + (h - 1 - y) * bmp_row_stride 4 w + x / 2)) x)
              default := by
  have hrow : ∀ (row : Nat) (image : List Pixel) (pos : Nat), row + w ≤ image.length →
      pos + (w + 1) / 2 ≤ data.length →
      ∃ image', (fun row image file => read_bmp_4bpp_row palette row w 0 image file)
            (row : Int) image ⟨data, pos, false⟩
          = .ok (image', ⟨data, pos + (w + 1) / 2, false⟩) ∧
        image'.length = image.length ∧
        ∀ j, image'.getD j default
          = if row ≤ j ∧ j < row + w then
              (fun p x => palette.getD (nibble_index (byte_at data (p + x / 2)) x) default)
                pos (j - row)
            else image.getD j default := by
    intro row image pos h1 h2
    have := read_bmp_4bpp_row_spec palette row data w 0 pos image (by omega) h2
    simpa only [Nat.add_zero] using this
  have := generic_rows_pixels (fun row image file => read_bmp_4bpp_row palette row w 0 image file)
    w ((Int.tdiv (-((w : Int) + 1)) 2) % 4).toNat ((w + 1) / 2) data
    (fun p x => palette.getD (nibble_index (byte_at data (p + x / 2)) x) default)
    hw hrow h image pos hlen (by rw [row_padding_4bpp]; exact hpos)
  rw [row_padding_4bpp] at this
  rw [read_bmp_4bpp, read_bmp_4bpp_rows_eq]
  exact this

theorem read_bmp_1bpp_pixels (palette image : List Pixel) (w h : Nat) (data : List Byte)
    (pos : Nat) (hw : 0 < w) (hlen : image.length = w * h)
    (hpos : pos + h * bmp_row_stride 1 w ≤ data.length) :
    ∃ image', read_bmp_1bpp image w h ⟨data, pos, false⟩ palette
        = .ok (1, image', ⟨data, pos + h * bmp_row_stride 1 w, false⟩) ∧
      image'.length = w * h ∧
      ∀ x y, x < w → y < h →
        image'.getD (w * y + x) default
          = palette.getD
              (bit_index (byte_at data (pos + (h - 1 - y) * bmp_row_stride 1 w + x / 8)) (x % 8))
              default := by
  have hrow : ∀ (row : Nat) (image : List Pixel) (pos : Nat), row + w ≤ image.length →
      pos + (w + 7) / 8 ≤ data.length →
      ∃ image', (fun row image file => read_bmp_1bpp_row palette w row w 0 image file)
            (row : Int) image ⟨data, pos, false⟩
          = .ok (image', ⟨data, pos + (w + 7) / 8, false⟩) ∧
        image'.length = image.length ∧
        ∀ j, image'.getD j default
          = if row ≤ j ∧ j < row + w then
              (fun p x => palette.getD (bit_index (byte_at data (p + x / 8)) (x % 8)) default)
                pos (j - row)
            else image.getD j default := by
    intro row image pos h1 h2
    have := read_bmp_1bpp_row_spec palette w row data w 0 pos image (by omega) (by omega)
      (by omega) h1
    simpa only [Nat.add_zero, Nat.sub_zero] using this
  have := generic_rows_pixels
    (fun row image file => read_bmp_1bpp_row palette w row w 0 image file)
    w ((Int.tdiv (-((w : Int) + 7)) 8) % 4).toNat ((w + 7) / 8) data
    (fun p x => palette.getD (bit_index (byte_at data (p + x / 8)) (x % 8)) default)
    hw hrow h image pos hlen (by rw [row_padding_1bpp]; exact hpos)
  rw [row_padding_1bpp] at this
  rw [read_bmp_1bpp, read_bmp_1bpp_rows_eq]
  exact this

/-- C30: for `w ≥ 1` and a stream that holds `h` rows of `bmp_row_stride 24 w` bytes from
`pos`, `read_bmp_24bpp` returns success and the pixel at column `x` of image row `y`
(`y = 0` at the top) has blue = byte `3x`, green = byte `3x + 1`, red = byte `3x + 2` of
file row `h - 1 - y`, and alpha 255: rows are stored bottom-up, pixels as B, G, R. -/
theorem read_bmp_24bpp_pixels (image : List Pixel) (w h : Nat) (data : List Byte)
    (pos : Nat) (hw : 1 ≤ w) (hlen : image.length = w * h)
    (hpos : pos + h * bmp_row_stride 24 w ≤ data.length) :
    ∃ image', read_bmp_24bpp image w h ⟨data, pos, false⟩
        = .ok (1, image', ⟨data, pos + h * bmp_row_stride 24 w, false⟩) ∧
      image'.length = w * h ∧
      ∀ x y, x < w → y < h →
        image'.getD (w * y + x) default
          = ⟨data.getD (pos + (h - 1 - y) * bmp_row_stride 24 w + 3 * x + 2) 0,
              data.getD (pos + (h - 1 - y) * bmp_row_stride 24 w + 3 * x + 1) 0,
              data.getD (pos + (h - 1 - y) * bmp_row_stride 24 w + 3 * x) 0, 255⟩ := by
  have hrow : ∀ (row : Nat) (image : List Pixel) (pos : Nat), row + w ≤ image.length →
      pos + 3 * w ≤ data.length →
      ∃ image', (fun row image file => read_bmp_24bpp_row row w 0 image file)
            (row : Int) image ⟨data, pos, false⟩
          = .ok (image', ⟨data, pos + 3 * w, false⟩) ∧
        image'.length = image.length ∧
        ∀ j, image'.getD j default
          = if row ≤ j ∧ j < row + w then
              (fun p x => (⟨data.getD (p + 3 * x + 2) 0, data.getD (p + 3 * x + 1) 0,
                data.getD (p + 3 * x) 0, 255⟩ : Pixel)) pos (j - row)
            else image.getD j default := by
    intro row image pos h1 h2
    have := read_bmp_24bpp_row_spec row data w 0 pos image (by omega) h2
    simpa only [Nat.add_zero] using this
  have := generic_rows_pixels (fun row image file => read_bmp_24bpp_row row w 0 image file)
    w ((-3 * (w : Int)) % 4).toNat (3 * w) data
    (fun p x => (⟨data.getD (p + 3 * x + 2) 0, data.getD (p + 3 * x + 1) 0,
      data.getD (p + 3 * x) 0, 255⟩ : Pixel))
    (by omega) hrow h image pos hlen (by rw [row_padding_24bpp]; exact hpos)
  rw [row_padding_24bpp] at this
  rw [read_bmp_24bpp, read_bmp_24bpp_rows_eq]
  exact this
theorem read_bmp_24bpp_pixels_witness :
    ∃ image', read_bmp_24bpp (List.replicate 4 default) 2 2 ⟨bmp_2x2, 54, false⟩
        = .ok (1, image', ⟨bmp_2x2, 54 + 2 * bmp_row_stride 24 2, false⟩) ∧
      image'.length = 2 * 2 ∧
      ∀ x y, x < 2 → y < 2 →
        image'.getD (2 * y + x) default
          = ⟨bmp_2x2.getD (54 + (2 - 1 - y) * bmp_row_stride 24 2 + 3 * x + 2) 0,
              bmp_2x2.getD (54 + (2 - 1 - y) * bmp_row_stride 24 2 + 3 * x + 1) 0,
              bmp_2x2.getD (54 + (2 - 1 - y) * bmp_row_stride 24 2 + 3 * x) 0, 255⟩ :=
  read_bmp_24bpp_pixels (List.replicate 4 default) 2 2 bmp_2x2 54 (by decide) (by decide)
    (by decide)

/-- C29: for `b` in {1, 4, 8}, `w ≥ 1` and a stream that holds `h` rows of
`bmp_row_stride b w` bytes from `pos`, the uncompressed reader that `read_bmp` selects for
`b` bits per pixel returns success, and the pixel at column `x` of image row `y` (`y = 0`
at the top) is `palette[i]`, where `i` is the `b`-bit field number `x mod (8/b)`, counted
from the most significant bits, of byte `x div (8/b)` of file row `h - 1 - y`: file row 0
is the bottom row of the image. -/
theorem read_bmp_indexed_pixels (hdr : BmpHeader) (palette image : List Pixel) (b w h : Nat)
    (data : List Byte) (pos : Nat) (hc : hdr.compression = 0) (hb : hdr.bits_per_pixel = b)
    (hb3 : b = 1 ∨ b = 4 ∨ b = 8) (hw : 1 ≤ w) (hlen : image.length = w * h)
    (hpos : pos + h * bmp_row_stride b w ≤ data.length) :
    ∃ image', read_bmp_data hdr image w h ⟨data, pos, false⟩ palette
        = .ok (1, image', ⟨data, pos + h * bmp_row_stride b w, false⟩) ∧
      image'.length = w * h ∧
      ∀ x y, x < w → y < h →
        image'.getD (w * y + x) default
          = palette.getD
              (packed_index b
                (byte_at data (pos + (h - 1 - y) * bmp_row_stride b w + x / (8 / b)))
                (x % (8 / b))) default := by
  rcases hb3 with h1 | h4 | h8
  · subst h1
    obtain ⟨image', e, hl, hg⟩ := read_bmp_1bpp_pixels palette image w h data pos hw hlen hpos
    refine ⟨image', ?_, hl, ?_⟩
    · rw [read_bmp_data, if_pos hc, if_pos hb, e]
    · intro x y hx hy
      have e8 : (8 / 1 : Nat) = 8 := rfl
      rw [hg x y hx hy, e8, bit_index_eq _ _ (byte_at_lt _ _) (Nat.mod_lt _ (by decide))]
  · subst h4
    obtain ⟨image', e, hl, hg⟩ := read_bmp_4bpp_pixels palette image w h data pos hw hlen hpos
    refine ⟨image', ?_, hl, ?_⟩
    · rw [read_bmp_data, if_pos hc, hb, if_neg (by decide), if_pos rfl, e]
    · intro x y hx hy
      have e2 : (8 / 4 : Nat) = 2 := rfl
      rw [hg x y hx hy, e2, nibble_index_eq _ _ (byte_at_lt _ _)]
  · subst h8
    obtain ⟨image', e, hl, hg⟩ := read_bmp_8bpp_pixels palette image w h data pos hw hlen hpos
    refine ⟨image', ?_, hl, ?_⟩
    · rw [read_bmp_data, if_pos hc, hb, if_neg (by decide), if_neg (by decide), if_pos rfl, e]
    · intro x y hx hy
      have e1 : (8 / 8 : Nat) = 1 := rfl
      rw [hg x y hx hy, e1, Nat.div_one, Nat.mod_one, packed_index_byte _ (byte_at_lt _ _)]

theorem read_bmp_indexed_pixels_witness :
    ∃ image',
      read_bmp_data ⟨70, 40, false, 4, 1, 1, 4, 0, 4, 0, 0, 0, 0⟩ (List.replicate 4 default) 4 1
          ⟨bmp_4x1_4bpp, 70, false⟩
          [⟨0, 0, 0, 255⟩, ⟨255, 0, 0, 255⟩, ⟨0, 255, 0, 255⟩, ⟨0, 0, 255, 255⟩]
        = .ok (1, image', ⟨bmp_4x1_4bpp, 70 + 1 * bmp_row_stride 4 4, false⟩) ∧
      image'.length = 4 * 1 ∧
      ∀ x y, x < 4 → y < 1 →
        image'.getD (4 * y + x) default
          = ([⟨0, 0, 0, 255⟩, ⟨255, 0, 0, 255⟩, ⟨0, 255, 0, 255⟩, ⟨0, 0, 255, 255⟩] :
              List Pixel).getD
              (packed_index 4
                (byte_at bmp_4x1_4bpp (70 + (1 - 1 - y) * bmp_row_stride 4 4 + x / (8 / 4)))
                (x % (8 / 4))) default :=
  read_bmp_indexed_pixels ⟨70, 40, false, 4, 1, 1, 4, 0, 4, 0, 0, 0, 0⟩
    [⟨0, 0, 0, 255⟩, ⟨255, 0, 0, 255⟩, ⟨0, 255, 0, 255⟩, ⟨0, 0, 255, 255⟩]
    (List.replicate 4 default) 4 4 1 bmp_4x1_4bpp 70 (by decide) (by decide) (by decide)
    (by decide) (by decide) (by decide)

set_option maxRecDepth 100000 in
/-- An example with 1 bit per pixel, width 10 and two rows of 4 bytes: the first row of
the stream (0xA5, 0x40) is the bottom row of the image, the second (0xFF, 0x80) the top
row, and the pixels of a byte come from its most significant bit on. -/
theorem read_bmp_indexed_examples :
    read_bmp_data ⟨62, 40, false, 10, 2, 1, 1, 0, 2, 0, 0, 0, 0⟩ (List.replicate 20 default) 10 2
        ⟨[0xA5, 0x40, 0, 0, 0xFF, 0x80, 0, 0], 0, false⟩ [⟨0, 0, 0, 255⟩, ⟨255, 255, 255, 255⟩]
      = .ok (1,
          [⟨255, 255, 255, 255⟩, ⟨255, 255, 255, 255⟩, ⟨255, 255, 255, 255⟩,
           ⟨255, 255, 255, 255⟩, ⟨255, 255, 255, 255⟩, ⟨255, 255, 255, 255⟩,
           ⟨255, 255, 255, 255⟩, ⟨255, 255, 255, 255⟩, ⟨255, 255, 255, 255⟩, ⟨0, 0, 0, 255⟩,
           ⟨255, 255, 255, 255⟩, ⟨0, 0, 0, 255⟩, ⟨255, 255, 255, 255⟩, ⟨0, 0, 0, 255⟩,
           ⟨0, 0, 0, 255⟩, ⟨255, 255, 255, 255⟩, ⟨0, 0, 0, 255⟩, ⟨255, 255, 255, 255⟩,
           ⟨0, 0, 0, 255⟩, ⟨255, 255, 255, 255⟩],
          ⟨[0xA5, 0x40, 0, 0, 0xFF, 0x80, 0, 0], 8, false⟩) := by
  decide!

/-! ## The bytes of a row -/

theorem read_bmp_16bpp_rows_eq (redmask greenmask bluemask alphamask width row_padding : Nat) :
    ∀ (y : Nat) (image : List Pixel) (file : FILE),
      read_bmp_16bpp_rows redmask greenmask bluemask alphamask width row_padding y image file
        = generic_rows
            (fun row image file =>
              read_bmp_16bpp_row redmask greenmask bluemask alphamask row width 0 image file)
            width row_padding y image file := by
  intro y
  induction y with
  | zero => intro image file; rfl
  | succ y ih =>
    intro image file
    rw [read_bmp_16bpp_rows, generic_rows]
    simp only [ih]

theorem read_bmp_32bpp_rows_eq (redmask greenmask bluemask alphamask width : Nat) :
    ∀ (y : Nat) (image : List Pixel) (file : FILE),
      read_bmp_32bpp_rows redmask greenmask bluemask alphamask width y image file
        = generic_rows
            (fun row image file =>
              read_bmp_32bpp_row redmask greenmask bluemask alphamask row width 0 image file)
            width 0 y image file := by
  intro y
  induction y with
  | zero => intro image file; rfl
  | succ y ih =>
    intro image file
    rw [read_bmp_32bpp_rows, generic_rows]
    simp only [ih, skip_padding]

theorem read_bmp_16bpp_row_spec (redmask greenmask bluemask alphamask row : Nat)
    (data : List Byte) :
    ∀ (n x pos : Nat) (image : List Pixel), row + x + n ≤ image.length →
      pos + 2 * n ≤ data.length →
      ∃ image', read_bmp_16bpp_row redmask greenmask bluemask alphamask (row : Int) n x image
            ⟨data, pos, false⟩
          = .ok (image', ⟨data, pos + 2 * n, false⟩) ∧
        image'.length = image.length ∧
        ∀ j, image'.getD j default
          = if row + x ≤ j ∧ j < row + x + n then
              mask_pixel (le16_at data (pos + 2 * (j - (row + x)))) redmask greenmask bluemask
                alphamask
            else image.getD j default := by
  intro n
  induction n with
  | zero =>
    intro x pos image _ _
    refine ⟨image, rfl, rfl, ?_⟩
    intro j
    rw [if_neg (by omega)]
  | succ n ih =>
    intro x pos image hlen hpos
    rw [read_bmp_16bpp_row, read_u16_le_avail data pos false (by omega)]
    dsimp only
    rw [store_nat image row x _ (by omega), except_ok_bind]
    obtain ⟨image', e, hl, hg⟩ :=
      ih (x + 1) (pos + 2)
        (image.set (row + x) (mask_pixel (le16_at data pos) redmask greenmask bluemask alphamask))
        (by rw [List.length_set]; omega) (by omega)
    have hp : pos + 2 + 2 * n = pos + 2 * (n + 1) := by omega
    rw [hp] at e
    refine ⟨image', e, by rw [hl, List.length_set], ?_⟩
    intro j
    rw [hg j]
    by_cases hj : j = row + x
    · subst hj
      have hn : ¬ (row + (x + 1) ≤ row + x ∧ row + x < row + (x + 1) + n) := by omega
      have hp2 : row + x ≤ row + x ∧ row + x < row + x + (n + 1) := by omega
      rw [if_neg hn, if_pos hp2, getD_set_eq _ _ _ _ (by omega), Nat.sub_self, Nat.mul_zero,
        Nat.add_zero]
    · rw [getD_set_ne _ _ _ _ _ (Ne.symm hj)]
      by_cases hr : row + x ≤ j ∧ j < row + x + (n + 1)
      · have hp2 : row + (x + 1) ≤ j ∧ j < row + (x + 1) + n := by omega
        have hq : pos + 2 + 2 * (j - (row + (x + 1))) = pos + 2 * (j - (row + x)) := by omega
        rw [if_pos hr, if_pos hp2, hq]
      · have hn : ¬ (row + (x + 1) ≤ j ∧ j < row + (x + 1) + n) := by omega
        rw [if_neg hr, if_neg hn]

theorem read_bmp_32bpp_row_spec (redmask greenmask bluemask alphamask row : Nat)
    (data : List Byte) :
    ∀ (n x pos : Nat) (image : List Pixel), row + x + n ≤ image.length →
      pos + 4 * n ≤ data.length →
      ∃ image', read_bmp_32bpp_row redmask greenmask bluemask alphamask (row : Int) n x image
            ⟨data, pos, false⟩
          = .ok (image', ⟨data, pos + 4 * n, false⟩) ∧
        image'.length = image.length ∧
        ∀ j, image'.getD j default
          = if row + x ≤ j ∧ j < row + x + n then
              mask_pixel (le32_at data (pos + 4 * (j - (row + x)))) redmask greenmask bluemask
                alphamask
            else image.getD j default := by
  intro n
  induction n with
  | zero =>
    intro x pos image _ _
    refine ⟨image, rfl, rfl, ?_⟩
    intro j
    rw [if_neg (by omega)]
  | succ n ih =>
    intro x pos image hlen hpos
    rw [read_bmp_32bpp_row, read_u32_le_avail data pos false (by omega)]
    dsimp only
    rw [store_nat image row x _ (by omega), except_ok_bind]
    obtain ⟨image', e, hl, hg⟩ :=
      ih (x + 1) (pos + 4)
        (image.set (row + x) (mask_pixel (le32_at data pos) redmask greenmask bluemask alphamask))
        (by rw [List.length_set]; omega) (by omega)
    have hp : pos + 4 + 4 * n = pos + 4 * (n + 1) := by omega
    rw [hp] at e
    refine ⟨image', e, by rw [hl, List.length_set], ?_⟩
    intro j
    rw [hg j]
    by_cases hj : j = row + x
    · subst hj
      have hn : ¬ (row + (x + 1) ≤ row + x ∧ row + x < row + (x + 1) + n) := by omega
      have hp2 : row + x ≤ row + x ∧ row + x < row + x + (n + 1) := by omega
      rw [if_neg hn, if_pos hp2, getD_set_eq _ _ _ _ (by omega), Nat.sub_self, Nat.mul_zero,
        Nat.add_zero]
    · rw [getD_set_ne _ _ _ _ _ (Ne.symm hj)]
      by_cases hr : row + x ≤ j ∧ j < row + x + (n + 1)
      · have hp2 : row + (x + 1) ≤ j ∧ j < row + (x + 1) + n := by omega
        have hq : pos + 4 + 4 * (j - (row + (x + 1))) = pos + 4 * (j - (row + x)) := by omega
        rw [if_pos hr, if_pos hp2, hq]
      · have hn : ¬ (row + (x + 1) ≤ j ∧ j < row + (x + 1) + n) := by omega
        rw [if_neg hr, if_neg hn]

theorem row_padding_16bpp (w : Nat) : 2 * w + ((-2 * (w : Int)) % 4).toNat = bmp_row_stride 16 w := by
  unfold bmp_row_stride bmp_row_bytes
  omega

theorem row_padding_32bpp (w : Nat) : 4 * w + 0 = bmp_row_stride 32 w := by
  unfold bmp_row_stride bmp_row_bytes
  omega

theorem read_bmp_16bpp_pixels (image : List Pixel) (w h : Nat) (data : List Byte) (pos : Nat)
    (redmask greenmask bluemask alphamask : Nat) (hw : 0 < w) (hlen : image.length = w * h)
    (hpos : pos + h * bmp_row_stride 16 w ≤ data.length) :
    ∃ image', read_bmp_16bpp image w h ⟨data, pos, false⟩ redmask greenmask bluemask alphamask
        = .ok (1, image', ⟨data, pos + h * bmp_row_stride 16 w, false⟩) ∧
      image'.length = w * h ∧
      ∀ x y, x < w → y < h →
        image'.getD (w * y + x) default
          = mask_pixel (le16_at data (pos + (h - 1 - y) * bmp_row_stride 16 w + 2 * x))
              redmask greenmask bluemask alphamask := by
  have hrow : ∀ (row : Nat) (image : List Pixel) (pos : Nat), row + w ≤ image.length →
      pos + 2 * w ≤ data.length →
      ∃ image', (fun row image file =>
            read_bmp_16bpp_row redmask greenmask bluemask alphamask row w 0 image file)
            (row : Int) image ⟨data, pos, false⟩
          = .ok (image', ⟨data, pos + 2 * w, false⟩) ∧
        image'.length = image.length ∧
        ∀ j, image'.getD j default
          = if row ≤ j ∧ j < row + w then
              (fun p x => mask_pixel (le16_at data (p + 2 * x)) redmask greenmask bluemask
                alphamask) pos (j - row)
            else image.getD j default := by
    intro row image pos h1 h2
    have := read_bmp_16bpp_row_spec redmask greenmask bluemask alphamask row data w 0 pos image
      (by omega) h2
    simpa only [Nat.add_zero] using this
  have := generic_rows_pixels
    (fun row image file =>
      read_bmp_16bpp_row redmask greenmask bluemask alphamask row w 0 image file)
    w ((-2 * (w : Int)) % 4).toNat (2 * w) data
    (fun p x => mask_pixel (le16_at data (p + 2 * x)) redmask greenmask bluemask alphamask)
    hw hrow h image pos hlen (by rw [row_padding_16bpp]; exact hpos)
  rw [row_padding_16bpp] at this
  rw [read_bmp_16bpp, read_bmp_16bpp_rows_eq]
  exact this

theorem read_bmp_32bpp_pixels (image : List Pixel) (w h : Nat) (data : List Byte) (pos : Nat)
    (redmask greenmask bluemask alphamask : Nat) (hw : 0 < w) (hlen : image.length = w * h)
    (hpos : pos + h * bmp_row_stride 32 w ≤ data.length) :
    ∃ image', read_bmp_32bpp image w h ⟨data, pos, false⟩ redmask greenmask bluemask alphamask
        = .ok (1, image', ⟨data, pos + h * bmp_row_stride 32 w, false⟩) ∧
      image'.length = w * h ∧
      ∀ x y, x < w → y < h →
        image'.getD (w * y + x) default
          = mask_pixel (le32_at data (pos + (h - 1 - y) * bmp_row_stride 32 w + 4 * x))
              redmask greenmask bluemask alphamask := by
  have hrow : ∀ (row : Nat) (image : List Pixel) (pos : Nat), row + w ≤ image.length →
      pos + 4 * w ≤ data.length →
      ∃ image', (fun row image file =>
            read_bmp_32bpp_row redmask greenmask bluemask alphamask row w 0 image file)
            (row : Int) image ⟨data, pos, false⟩
          = .ok (image', ⟨data, pos + 4 * w, false⟩) ∧
        image'.length = image.length ∧
        ∀ j, image'.getD j default
          = if row ≤ j ∧ j < row + w then
              (fun p x => mask_pixel (le32_at data (p + 4 * x)) redmask greenmask bluemask
                alphamask) pos (j - row)
            else image.getD j default := by
    intro row image pos h1 h2
    have := read_bmp_32bpp_row_spec redmask greenmask bluemask alphamask row data w 0 pos image
      (by omega) h2
    simpa only [Nat.add_zero] using this
  have := generic_rows_pixels
    (fun row image file =>
      read_bmp_32bpp_row redmask greenmask bluemask alphamask row w 0 image file)
    w 0 (4 * w) data
    (fun p x => mask_pixel (le32_at data (p + 4 * x)) redmask greenmask bluemask alphamask)
    hw hrow h image pos hlen (by rw [row_padding_32bpp]; exact hpos)
  rw [row_padding_32bpp] at this
  rw [read_bmp_32bpp, read_bmp_32bpp_rows_eq]
  exact this

theorem bmp_row_stride_bounds (b w : Nat) :
    bmp_row_stride b w % 4 = 0 ∧ bmp_row_bytes b w ≤ bmp_row_stride b w ∧
      bmp_row_stride b w < bmp_row_bytes b w + 4 ∧
      w * b ≤ 8 * bmp_row_bytes b w ∧ 8 * bmp_row_bytes b w < w * b + 8 := by
  unfold bmp_row_stride bmp_row_bytes
  omega

/-- C31: for `w ≥ 1` and every uncompressed depth `b` in {1, 4, 8, 16, 24, 32}, the reader
that `read_bmp` selects, given a stream that holds `h` rows, returns success with the
stream `h * bmp_row_stride b w` bytes further: each row takes `bmp_row_stride b w` bytes,
pixel bytes and padding together, and that number is the smallest multiple of 4 that is at
least `bmp_row_bytes b w = ceil (w * b / 8)`, so the padding is between 0 and 3 bytes. -/
theorem read_bmp_row_consumption (hdr : BmpHeader) (palette image : List Pixel) (b w h : Nat)
    (data : List Byte) (pos : Nat) (hc : hdr.compression = 0) (hb : hdr.bits_per_pixel = b)
    (hb6 : b = 1 ∨ b = 4 ∨ b = 8 ∨ b = 16 ∨ b = 24 ∨ b = 32) (hw : 1 ≤ w)
    (hlen : image.length = w * h) (hpos : pos + h * bmp_row_stride b w ≤ data.length) :
    (∃ image', read_bmp_data hdr image w h ⟨data, pos, false⟩ palette
        = .ok (1, image', ⟨data, pos + h * bmp_row_stride b w, false⟩)) ∧
    bmp_row_stride b w % 4 = 0 ∧ bmp_row_bytes b w ≤ bmp_row_stride b w ∧
    bmp_row_stride b w < bmp_row_bytes b w + 4 ∧
    w * b ≤ 8 * bmp_row_bytes b w ∧ 8 * bmp_row_bytes b w < w * b + 8 := by
  refine ⟨?_, bmp_row_stride_bounds b w⟩
  rcases hb6 with h1 | h1 | h1 | h1 | h1 | h1
  · subst h1
    obtain ⟨image', e, _, _⟩ := read_bmp_1bpp_pixels palette image w h data pos hw hlen hpos
    exact ⟨image', by rw [read_bmp_data, if_pos hc, if_pos hb, e]⟩
  · subst h1
    obtain ⟨image', e, _, _⟩ := read_bmp_4bpp_pixels palette image w h data pos hw hlen hpos
    exact ⟨image', by
      rw [read_bmp_data, if_pos hc, hb, if_neg (by decide), if_pos rfl, e]⟩
  · subst h1
    obtain ⟨image', e, _, _⟩ := read_bmp_8bpp_pixels palette image w h data pos hw hlen hpos
    exact ⟨image', by
      rw [read_bmp_data, if_pos hc, hb, if_neg (by decide), if_neg (by decide), if_pos rfl, e]⟩
  · subst h1
    obtain ⟨image', e, _, _⟩ :=
      read_bmp_16bpp_pixels image w h data pos (0x001F <<< 10) (0x001F <<< 5) 0x0001F 0 hw hlen
        hpos
    exact ⟨image', by
      rw [read_bmp_data, if_pos hc, hb, if_neg (by decide), if_neg (by decide),
        if_neg (by decide), if_neg (by decide), if_pos rfl, e]⟩
  · subst h1
    obtain ⟨image', e, _, _⟩ := read_bmp_24bpp_pixels image w h data pos hw hlen hpos
    exact ⟨image', by
      rw [read_bmp_data, if_pos hc, hb, if_neg (by decide), if_neg (by decide),
        if_neg (by decide), if_pos rfl, e]⟩
  · subst h1
    obtain ⟨image', e, _, _⟩ :=
      read_bmp_32bpp_pixels image w h data pos 0x00FF0000 0x0000FF00 0x000000FF 0xFF000000 hw
        hlen hpos
    exact ⟨image', by
      rw [read_bmp_data, if_pos hc, hb, if_neg (by decide), if_neg (by decide),
        if_neg (by decide), if_neg (by decide), if_neg (by decide), if_pos rfl, e]⟩

theorem read_bmp_row_consumption_witness :
    (∃ image',
      read_bmp_data ⟨54, 40, false, 4, 2, 1, 16, 0, 0, 0, 0, 0, 0⟩ (List.replicate 8 default) 4 2
          ⟨bmp_4x2_16bpp, 54, false⟩ []
        = .ok (1, image', ⟨bmp_4x2_16bpp, 54 + 2 * bmp_row_stride 16 4, false⟩)) ∧
    bmp_row_stride 16 4 % 4 = 0 ∧ bmp_row_bytes 16 4 ≤ bmp_row_stride 16 4 ∧
    bmp_row_stride 16 4 < bmp_row_bytes 16 4 + 4 ∧
    4 * 16 ≤ 8 * bmp_row_bytes 16 4 ∧ 8 * bmp_row_bytes 16 4 < 4 * 16 + 8 :=
  read_bmp_row_consumption ⟨54, 40, false, 4, 2, 1, 16, 0, 0, 0, 0, 0, 0⟩ []
    (List.replicate 8 default) 16 4 2 bmp_4x2_16bpp 54 (by decide) (by decide) (by decide)
    (by decide) (by decide) (by decide)

/-- The strides of a row of 5 pixels at the six depths: 4, 4, 8, 12, 16 and 20 bytes for
1, 3, 5, 10, 15 and 20 bytes of pixels. -/
theorem bmp_row_stride_examples :
    (bmp_row_bytes 1 5, bmp_row_stride 1 5) = (1, 4) ∧
    (bmp_row_bytes 4 5, bmp_row_stride 4 5) = (3, 4) ∧
    (bmp_row_bytes 8 5, bmp_row_stride 8 5) = (5, 8) ∧
    (bmp_row_bytes 16 5, bmp_row_stride 16 5) = (10, 12) ∧
    (bmp_row_bytes 24 5, bmp_row_stride 24 5) = (15, 16) ∧
    (bmp_row_bytes 32 5, bmp_row_stride 32 5) = (20, 20) := by
  decide

/-! ## The palette table -/

theorem read_bmp_palette_spec (os2bmp : Bool) (data : List Byte) :
    ∀ (n i pos : Nat) (palette : List Pixel), i + n ≤ palette.length →
      pos + n * (if os2bmp then 3 else 4) ≤ data.length →
      ∃ palette', read_bmp_palette os2bmp n i palette ⟨data, pos, false⟩
          = .ok (palette', ⟨data, pos + n * (if os2bmp then 3 else 4), false⟩) ∧
        palette'.length = palette.length ∧
        ∀ j, palette'.getD j default
          = if i ≤ j ∧ j < i + n then
              file_palette_entry data pos (if os2bmp then 3 else 4) (j - i)
            else palette.getD j default := by
  intro n
  induction n with
  | zero =>
    intro i pos palette _ _
    refine ⟨palette, ?_, rfl, ?_⟩
    · rw [read_bmp_palette, Nat.zero_mul, Nat.add_zero]
    · intro j
      rw [if_neg (by omega)]
  | succ n ih =>
    intro i pos palette hlen hpos
    have hesz : 3 ≤ (if os2bmp then 3 else 4 : Nat) ∧ (if os2bmp then 3 else 4 : Nat) ≤ 4 := by
      cases os2bmp <;> simp
    have hs : (n + 1) * (if os2bmp then 3 else 4 : Nat)
        = n * (if os2bmp then 3 else 4) + (if os2bmp then 3 else 4) := Nat.succ_mul _ _
    rw [read_bmp_palette, getc_lt data pos false (by omega)]
    dsimp only
    rw [getc_lt data (pos + 1) false (by omega)]
    dsimp only
    rw [getc_lt data (pos + 1 + 1) false (by omega)]
    dsimp only
    rw [to_byte_byte_at, to_byte_byte_at, to_byte_byte_at,
      store_ok palette i _ (by omega), except_ok_bind]
    have hfile : (if (!os2bmp) = true then (getc ⟨data, pos + 1 + 1 + 1, false⟩).2
        else (⟨data, pos + 1 + 1 + 1, false⟩ : FILE))
        = ⟨data, pos + (if os2bmp then 3 else 4), false⟩ := by
      cases os2bmp
      · have h4 : pos + 4 ≤ data.length := by
          have := hesz
          simp only [Bool.false_eq_true, if_false] at hs hpos
          omega
        simp only [Bool.not_false, if_true, Bool.false_eq_true, if_false]
        rw [getc_lt data (pos + 1 + 1 + 1) false (by omega)]
      · simp only [Bool.not_true, Bool.false_eq_true, if_false, if_true]
    rw [hfile]
    obtain ⟨palette', e, hl, hg⟩ :=
      ih (i + 1) (pos + (if os2bmp then 3 else 4))
        (palette.set i ⟨data.getD (pos + 1 + 1) 0, data.getD (pos + 1) 0, data.getD pos 0, 255⟩)
        (by rw [List.length_set]; omega) (by omega)
    have hp : pos + (if os2bmp then 3 else 4) + n * (if os2bmp then 3 else 4)
        = pos + (n + 1) * (if os2bmp then 3 else 4) := by omega
    rw [hp] at e
    refine ⟨palette', e, by rw [hl, List.length_set], ?_⟩
    intro j
    rw [hg j]
    by_cases hj : j = i
    · subst hj
      have hn : ¬ (j + 1 ≤ j ∧ j < j + 1 + n) := by omega
      have hp2 : j ≤ j ∧ j < j + (n + 1) := by omega
      rw [if_neg hn, if_pos hp2, getD_set_eq _ _ _ _ (by omega), Nat.sub_self]
      simp only [file_palette_entry, Nat.mul_zero, Nat.add_zero]
    · rw [getD_set_ne _ _ _ _ _ (Ne.symm hj)]
      by_cases hr : i ≤ j ∧ j < i + (n + 1)
      · have hp2 : i + 1 ≤ j ∧ j < i + 1 + n := by omega
        rw [if_pos hr, if_pos hp2]
        have hk : j - i = (j - (i + 1)) + 1 := by omega
        simp only [file_palette_entry]
        rw [hk, Nat.mul_succ]
        simp only [Nat.add_assoc, Nat.add_comm, Nat.add_left_comm]
      · have hn : ¬ (i + 1 ≤ j ∧ j < i + 1 + n) := by omega
        rw [if_neg hr, if_neg hn]

theorem read_bmp_palette_fill_spec :
    ∀ (n i : Nat) (palette : List Pixel), 1 ≤ i → i + n ≤ palette.length →
      (read_bmp_palette_fill n i palette).length = palette.length ∧
      ∀ j, (read_bmp_palette_fill n i palette).getD j default
        = if i ≤ j ∧ j < i + n then palette.getD 0 default else palette.getD j default := by
  intro n
  induction n with
  | zero =>
    intro i palette _ _
    refine ⟨rfl, ?_⟩
    intro j
    rw [read_bmp_palette_fill, if_neg (by omega)]
  | succ n ih =>
    intro i palette hi hlen
    rw [read_bmp_palette_fill]
    obtain ⟨hl, hg⟩ := ih (i + 1) (palette.set i (palette.getD 0 default)) (by omega)
      (by rw [List.length_set]; omega)
    refine ⟨by rw [hl, List.length_set], ?_⟩
    intro j
    rw [hg j, getD_set_ne _ i 0 _ _ (by omega)]
    by_cases hj : j = i
    · subst hj
      have hn : ¬ (j + 1 ≤ j ∧ j < j + 1 + n) := by omega
      have hp2 : j ≤ j ∧ j < j + (n + 1) := by omega
      rw [if_neg hn, if_pos hp2, getD_set_eq _ _ _ _ (by omega)]
    · rw [getD_set_ne _ _ _ _ _ (Ne.symm hj)]
      by_cases hr : i ≤ j ∧ j < i + (n + 1)
      · have hp2 : i + 1 ≤ j ∧ j < i + 1 + n := by omega
        rw [if_pos hr, if_pos hp2]
      · have hn : ¬ (i + 1 ≤ j ∧ j < i + 1 + n) := by omega
        rw [if_neg hr, if_neg hn]

theorem palette_size_eq (hdr : BmpHeader) (hb : hdr.bits_per_pixel ≤ 8) :
    (if hdr.num_colors = 0 then (1 <<< hdr.bits_per_pixel) % 4294967296 else hdr.num_colors)
      = palette_size hdr := by
  unfold palette_size
  by_cases h0 : hdr.num_colors = 0
  · rw [if_pos h0, if_pos h0, Nat.shiftLeft_eq, Nat.one_mul]
    have : 2 ^ hdr.bits_per_pixel ≤ 2 ^ 8 := Nat.pow_le_pow_right (by decide) hb
    exact Nat.mod_eq_of_lt (by omega)
  · rw [if_neg h0, if_neg h0]

theorem palette_size_pos (hdr : BmpHeader) : 1 ≤ palette_size hdr := by
  unfold palette_size
  by_cases h0 : hdr.num_colors = 0
  · rw [if_pos h0]
    exact Nat.one_le_two_pow
  · rw [if_neg h0]
    omega

/-- C32: for a header with `bits_per_pixel ≤ 8` whose palette size `n` (the declared colour
count, or `2 ^ bits_per_pixel` when that is zero) is at most 256 and whose `n` palette
entries are in the stream from byte `14 + info_size`, `read_bmp` builds a table of 256
entries in which entry `i < n` has the red, green and blue of the file palette entry `i`
(stored as B, G, R) and alpha 255, and every entry `i` with `n ≤ i < 256` equals entry 0;
the readers get that table. -/
theorem read_bmp_palette_table (env : Env) (hdr : BmpHeader) (image : List Pixel)
    (data : List Byte) (pos : Nat) (eof : Bool) (isz off : Nat)
    (hb : hdr.bits_per_pixel ≤ 8) (hn : palette_size hdr ≤ 256)
    (hisz : hdr.info_size = isz) (hoff : hdr.image_data_offset = off)
    (hm : env.malloc_ok (4 * 256) = true)
    (hpal : 14 + isz + palette_size hdr * palette_entry_bytes hdr ≤ data.length) :
    ∃ table : List Pixel, table.length = 256 ∧
      (∀ i, i < palette_size hdr →
        table.getD i default = file_palette_entry data (14 + isz) (palette_entry_bytes hdr) i) ∧
      (∀ i, palette_size hdr ≤ i → i < 256 → table.getD i default = table.getD 0 default) ∧
      read_bmp_body env hdr image ⟨data, pos, eof⟩
        = match read_bmp_data hdr image hdr.width.toNat hdr.height.toNat ⟨data, off, false⟩
            table with
          | .error e => .error e
          | .ok (success, image, _) =>
            .ok (read_bmp_exit success (Ptr.live image) hdr.width hdr.height
              (Ptr.live table)) := by
  obtain ⟨palette', e, hl, hg⟩ :=
    read_bmp_palette_spec hdr.os2bmp data (palette_size hdr) 0 (14 + isz)
      (List.replicate 256 Pixel.indeterminate) (by rw [List.length_replicate]; omega) hpal
  have hpos := palette_size_pos hdr
  obtain ⟨fl, fg⟩ :=
    read_bmp_palette_fill_spec (256 - palette_size hdr) (palette_size hdr) palette' hpos
      (by rw [hl, List.length_replicate]; omega)
  refine ⟨read_bmp_palette_fill (256 - palette_size hdr) (palette_size hdr) palette', ?_, ?_, ?_,
    ?_⟩
  · rw [fl, hl, List.length_replicate]
  · intro i hi
    have hn1 : ¬ (palette_size hdr ≤ i ∧ i < palette_size hdr + (256 - palette_size hdr)) := by
      omega
    have hp1 : 0 ≤ i ∧ i < 0 + palette_size hdr := by omega
    rw [fg i, if_neg hn1, hg i, if_pos hp1, Nat.sub_zero]
    rfl
  · intro i hi hi2
    have hp1 : palette_size hdr ≤ i ∧ i < palette_size hdr + (256 - palette_size hdr) := by
      omega
    have hn1 : ¬ (palette_size hdr ≤ 0 ∧ 0 < palette_size hdr + (256 - palette_size hdr)) := by
      omega
    rw [fg i, if_pos hp1, fg 0, if_neg hn1]
  · unfold read_bmp_body
    rw [if_pos hb]
    dsimp only
    rw [fseek_set_eq _ (14 + hdr.info_size) (14 + isz) (by rw [hisz]; push_cast; rfl),
      palette_size_eq hdr hb, if_pos hm]
    dsimp only
    rw [e]
    dsimp only
    rw [fseek_set_eq _ _ off hoff]
    dsimp only
    rw [if_neg (by simp [feof])]

theorem read_bmp_palette_table_witness :
    ∃ table : List Pixel, table.length = 256 ∧
      (∀ i, i < palette_size ⟨70, 40, false, 4, 1, 1, 4, 0, 4, 0, 0, 0, 0⟩ →
        table.getD i default
          = file_palette_entry bmp_4x1_4bpp (14 + 40)
              (palette_entry_bytes ⟨70, 40, false, 4, 1, 1, 4, 0, 4, 0, 0, 0, 0⟩) i) ∧
      (∀ i, palette_size ⟨70, 40, false, 4, 1, 1, 4, 0, 4, 0, 0, 0, 0⟩ ≤ i → i < 256 →
        table.getD i default = table.getD 0 default) ∧
      read_bmp_body Env.sample ⟨70, 40, false, 4, 1, 1, 4, 0, 4, 0, 0, 0, 0⟩
          (List.replicate 4 default) ⟨bmp_4x1_4bpp, 70, false⟩
        = match read_bmp_data ⟨70, 40, false, 4, 1, 1, 4, 0, 4, 0, 0, 0, 0⟩
            (List.replicate 4 default)
            (BmpHeader.width ⟨70, 40, false, 4, 1, 1, 4, 0, 4, 0, 0, 0, 0⟩).toNat
            (BmpHeader.height ⟨70, 40, false, 4, 1, 1, 4, 0, 4, 0, 0, 0, 0⟩).toNat
            ⟨bmp_4x1_4bpp, 70, false⟩ table with
          | .error e => .error e
          | .ok (success, image, _) =>
            .ok (read_bmp_exit success (Ptr.live image)
              (BmpHeader.width ⟨70, 40, false, 4, 1, 1, 4, 0, 4, 0, 0, 0, 0⟩)
              (BmpHeader.height ⟨70, 40, false, 4, 1, 1, 4, 0, 4, 0, 0, 0, 0⟩)
              (Ptr.live table)) :=
  read_bmp_palette_table Env.sample ⟨70, 40, false, 4, 1, 1, 4, 0, 4, 0, 0, 0, 0⟩
    (List.replicate 4 default) bmp_4x1_4bpp 70 false 40 70 (by decide) (by decide) (by decide)
    (by decide) (by decide) (by decide)

set_option maxRecDepth 100000 in
/-- A file that declares 2 colours and uses the indices 0, 1, 2, 3: the indices 2 and 3
decode to the first palette colour. -/
theorem read_bmp_index_past_palette :
    read_bmp Env.sample (fopen bmp_4x1_4bpp_2colors)
      = .ok ⟨1, Ptr.live [⟨255, 0, 0, 255⟩, ⟨0, 255, 0, 255⟩, ⟨255, 0, 0, 255⟩,
          ⟨255, 0, 0, 255⟩], 4, 1, Ptr.freed⟩ := by
  decide!

/-! ## A palette of more than 256 colours -/

theorem store_out_of_range {α : Type} (buf : List α) (i : Nat) (v : α) (h : buf.length ≤ i) :
    store buf (i : Int) v = .error Fault.undefined := by
  unfold store
  rw [if_neg (by omega)]

theorem read_bmp_palette_overrun (os2bmp : Bool) :
    ∀ (n i : Nat) (palette : List Pixel) (file : FILE), palette.length = 256 → i ≤ 256 →
      256 < i + n → read_bmp_palette os2bmp n i palette file = .error Fault.undefined := by
  intro n
  induction n with
  | zero => intro i palette file _ h1 h2; omega
  | succ n ih =>
    intro i palette file hl hi hn
    rw [read_bmp_palette]
    generalize getc file = p
    obtain ⟨blue, f⟩ := p
    simp only []
    generalize getc f = p
    obtain ⟨green, f⟩ := p
    simp only []
    generalize getc f = p
    obtain ⟨red, f⟩ := p
    simp only []
    by_cases h256 : i < 256
    · rw [store_ok palette i _ (by omega), except_ok_bind]
      exact ih (i + 1) _ _ (by rw [List.length_set]; exact hl) (by omega) (by omega)
    · rw [store_out_of_range palette i _ (by omega)]
      rfl

theorem index_bounds (c : Int) (code : Nat) :
    (if code &&& 0x80 ≠ 0 then 1 else 0 : Nat) < 256 ∧ (code &&& 0xF0) >>> 4 < 256 ∧
      code &&& 0x0F < 256 ∧ to_u32 c &&& 0xFF < 256 ∧ code &&& 0xFF < 256 := by
  have h1 : ∀ n : Nat, n &&& 0xFF < 256 := fun n =>
    lt_of_le_of_lt Nat.and_le_right (by decide)
  have h2 : ∀ n : Nat, n &&& 0x0F < 256 := fun n =>
    lt_of_le_of_lt Nat.and_le_right (by decide)
  have h3 : (code &&& 0xF0) >>> 4 < 256 := by
    have : code &&& 0xF0 ≤ 0xF0 := Nat.and_le_right
    have h4 : (code &&& 0xF0) >>> 4 ≤ code &&& 0xF0 := by
      rw [Nat.shiftRight_eq_div_pow]
      exact Nat.div_le_self _ _
    omega
  refine ⟨?_, h3, h2 code, h1 _, h1 code⟩
  by_cases h : code &&& 0x80 ≠ 0
  · rw [if_pos h]; decide
  · rw [if_neg h]; decide

/-- C36: a header with `bits_per_pixel ≤ 8` that declares more than 256 colours makes the
palette loop of `read_bmp` store past the end of its table of 256 entries, which is
undefined behaviour, whatever the stream holds; the index of every palette lookup of the
1-, 4- and 8-bit readers, on the other hand, is below 256. -/
theorem read_bmp_palette_overflow (env : Env) (hdr : BmpHeader) (image : List Pixel)
    (file : FILE) (c : Int) (code : Nat) (hb : hdr.bits_per_pixel ≤ 8)
    (hn : 256 < hdr.num_colors) (hm : env.malloc_ok (4 * 256) = true) :
    read_bmp_body env hdr image file = .error Fault.undefined ∧
    (if code &&& 0x80 ≠ 0 then 1 else 0 : Nat) < 256 ∧ (code &&& 0xF0) >>> 4 < 256 ∧
    code &&& 0x0F < 256 ∧ to_u32 c &&& 0xFF < 256 ∧ code &&& 0xFF < 256 := by
  refine ⟨?_, index_bounds c code⟩
  unfold read_bmp_body
  rw [if_pos hb]
  dsimp only
  generalize fseek_set file (14 + hdr.info_size) = p
  obtain ⟨rc, f⟩ := p
  simp only []
  have h0 : ¬ hdr.num_colors = 0 := by omega
  rw [if_pos hm, if_neg h0,
    read_bmp_palette_overrun hdr.os2bmp hdr.num_colors 0 _ f (List.length_replicate _ _)
      (by omega) (by omega)]

theorem read_bmp_palette_overflow_witness :
    read_bmp_body Env.sample ⟨62, 40, false, 1, 1, 1, 8, 0, 257, 0, 0, 0, 0⟩
        (List.replicate 1 default) ⟨bmp_1x1_257colors, 70, false⟩ = .error Fault.undefined ∧
    (if 0xA5 &&& 0x80 ≠ 0 then 1 else 0 : Nat) < 256 ∧ (0xA5 &&& 0xF0) >>> 4 < 256 ∧
    0xA5 &&& 0x0F < 256 ∧ to_u32 (-1) &&& 0xFF < 256 ∧ 0xA5 &&& 0xFF < 256 :=
  read_bmp_palette_overflow Env.sample ⟨62, 40, false, 1, 1, 1, 8, 0, 257, 0, 0, 0, 0⟩
    (List.replicate 1 default) ⟨bmp_1x1_257colors, 70, false⟩ (-1) 0xA5 (by decide) (by decide)
    (by decide)

set_option maxRecDepth 1000000 in
/-- The file that declares 257 colours: `read_bmp` runs into the store past the table. -/
theorem read_bmp_257_colors :
    read_bmp Env.sample (fopen bmp_1x1_257colors) = .error Fault.undefined := by
  decide!

/-! ## The stores of `convert_to_format` cover the destination once -/

theorem pixel_writes_length (env : Env) (format : Format) (w h : Nat) (pixel : Pixel)
    (i : Nat) : (pixel_writes env format w h pixel i).length = num_channels format := by
  simp [pixel_writes]

theorem row_writes_length (env : Env) (format : Format) (w h : Nat) (src : List Pixel)
    (srow : Nat) :
    ∀ (n x i : Nat),
      (row_writes env format w h src srow n x i).length = n * num_channels format := by
  intro n
  induction n with
  | zero => intro x i; simp [row_writes]
  | succ n ih =>
    intro x i
    rw [row_writes, List.length_append, pixel_writes_length, ih, Nat.succ_mul, Nat.add_comm]

theorem rows_writes_length (env : Env) (format : Format) (w h : Nat) (src : List Pixel) :
    ∀ (n y : Nat),
      (rows_writes env format w h src n y).length = n * (w * num_channels format) := by
  intro n
  induction n with
  | zero => intro y; simp [rows_writes]
  | succ n ih =>
    intro y
    rw [rows_writes, List.length_append, row_writes_length, ih, Nat.succ_mul, Nat.add_comm]

theorem layout_index_surj (format : Format) (w h i : Nat)
    (hi : i < num_channels format * (w * h)) :
    ∃ x y k, x < w ∧ y < h ∧ k < num_channels format ∧ layout_index format w h x y k = i := by
  have hc : 0 < num_channels format := by
    rcases Nat.eq_zero_or_pos (num_channels format) with h0 | h0
    · rw [h0, Nat.zero_mul] at hi; omega
    · exact h0
  have hwh : 0 < w * h := by
    rcases Nat.eq_zero_or_pos (w * h) with h0 | h0
    · rw [h0, Nat.mul_zero] at hi; omega
    · exact h0
  have hw : 0 < w := Nat.pos_of_mul_pos_right hwh
  have hh : 0 < h := Nat.pos_of_mul_pos_left hwh
  unfold layout_index
  cases format.planar <;> cases format.columnmajor <;>
    simp only [Bool.false_eq_true, if_false, if_true]
  · -- interleaved, row-major: i = (y * w + x) * c + k
    have hq : i / num_channels format < w * h :=
      (Nat.div_lt_iff_lt_mul hc).2 (by rw [Nat.mul_comm]; exact hi)
    refine ⟨i / num_channels format % w, i / num_channels format / w, i % num_channels format,
      Nat.mod_lt _ hw, (Nat.div_lt_iff_lt_mul hw).2 (by rw [Nat.mul_comm]; exact hq),
      Nat.mod_lt _ hc, ?_⟩
    rw [Nat.mul_comm _ w, Nat.div_add_mod, Nat.mul_comm, Nat.div_add_mod]
  · -- interleaved, column-major: i = (x * h + y) * c + k
    have hq : i / num_channels format < w * h :=
      (Nat.div_lt_iff_lt_mul hc).2 (by rw [Nat.mul_comm]; exact hi)
    refine ⟨i / num_channels format / h, i / num_channels format % h, i % num_channels format,
      (Nat.div_lt_iff_lt_mul hh).2 hq, Nat.mod_lt _ hh, Nat.mod_lt _ hc, ?_⟩
    rw [Nat.mul_comm _ h, Nat.div_add_mod, Nat.mul_comm, Nat.div_add_mod]
  · -- planar, row-major: i = k * w * h + y * w + x
    have hr : i % (w * h) < w * h := Nat.mod_lt _ hwh
    refine ⟨i % (w * h) % w, i % (w * h) / w, i / (w * h), Nat.mod_lt _ hw,
      (Nat.div_lt_iff_lt_mul hw).2 (by rw [Nat.mul_comm h w]; exact hr),
      (Nat.div_lt_iff_lt_mul hwh).2 hi, ?_⟩
    have e1 : i % (w * h) / w * w + i % (w * h) % w = i % (w * h) := by
      rw [Nat.mul_comm]; exact Nat.div_add_mod _ _
    have e2 : i / (w * h) * w * h = (w * h) * (i / (w * h)) := by ring
    rw [Nat.add_assoc, e1, e2, Nat.div_add_mod]
  · -- planar, column-major: i = k * w * h + x * h + y
    have hr : i % (w * h) < w * h := Nat.mod_lt _ hwh
    refine ⟨i % (w * h) / h, i % (w * h) % h, i / (w * h),
      (Nat.div_lt_iff_lt_mul hh).2 hr, Nat.mod_lt _ hh,
      (Nat.div_lt_iff_lt_mul hwh).2 hi, ?_⟩
    have e1 : i % (w * h) / h * h + i % (w * h) % h = i % (w * h) := by
      rw [Nat.mul_comm]; exact Nat.div_add_mod _ _
    have e2 : i / (w * h) * w * h = (w * h) * (i / (w * h)) := by ring
    rw [Nat.add_assoc, e1, e2, Nat.div_add_mod]

theorem perm_range_of_cover (l : List Nat) (n : Nat) (hl : l.length = n)
    (hc : ∀ i, i < n → i ∈ l) : List.Perm l (List.range n) := by
  have hs : List.Subperm (List.range n) l :=
    List.subperm_of_subset (List.nodup_range n) (fun i hi => hc i (List.mem_range.mp hi))
  exact (hs.perm_of_length_le (by rw [List.length_range, hl])).symm

theorem pixel_block_writes_any {β γ : Type} (val : Pixel → Nat → β) (format : Format)
    (w h : Nat) (pixel : Pixel) (i : Nat) (dest : List β) (k : List β → Except Fault γ) :
    (if num_channels format = 1 then
        store dest i (val pixel 0) >>= k
      else if num_channels format = 3 then
        store dest i (val pixel 0) >>= fun dest =>
        store dest (i + channel_stride format w h) (val pixel 1) >>= fun dest =>
        store dest (i + 2 * channel_stride format w h) (val pixel 2) >>= k
      else
        store dest i (val pixel 0) >>= fun dest =>
        store dest (i + channel_stride format w h) (val pixel 1) >>= fun dest =>
        store dest (i + 2 * channel_stride format w h) (val pixel 2) >>= fun dest =>
        store dest (i + 3 * channel_stride format w h) (val pixel 3) >>= k)
      = (apply_writes (pixel_writes_any val format w h pixel i) dest >>= k) := by
  unfold pixel_writes_any
  rcases num_channels_cases format with hc | hc | hc
  · rw [hc, if_pos rfl]
    simp only [List.range_succ, List.range_zero, List.nil_append, List.map_cons, List.map_nil,
      Nat.zero_mul, Nat.add_zero, apply_writes_cons, apply_writes_nil,
      except_bind_assoc, except_ok_bind]
  · rw [hc, if_neg (by decide), if_pos rfl]
    simp only [List.range_succ, List.range_zero, List.nil_append, List.cons_append,
      List.map_cons, List.map_nil, Nat.zero_mul, Nat.add_zero, Nat.one_mul,
      apply_writes_cons, apply_writes_nil, except_bind_assoc, except_ok_bind]
    push_cast
    rfl
  · rw [hc, if_neg (by decide), if_neg (by decide)]
    simp only [List.range_succ, List.range_zero, List.nil_append, List.cons_append,
      List.map_cons, List.map_nil, Nat.zero_mul, Nat.add_zero, Nat.one_mul,
      apply_writes_cons, apply_writes_nil, except_bind_assoc, except_ok_bind]
    push_cast
    rfl

theorem convert_to_format_row_any_writes {β : Type} (val : Pixel → Nat → β) (format : Format)
    (w h : Nat) (src : List Pixel) (srow : Nat) :
    ∀ (n x i : Nat) (dest : List β),
      convert_to_format_row_any val format w h src srow n x i dest
        = apply_writes (row_writes_any val format w h src srow n x i) dest := by
  intro n
  induction n with
  | zero => intro x i dest; rfl
  | succ n ih =>
    intro x i dest
    unfold convert_to_format_row_any
    simp only [row_writes_any]
    rw [apply_writes_append]
    simp only [ih]
    exact pixel_block_writes_any val format w h _ i dest _

theorem convert_to_format_rows_any_writes {β : Type} (val : Pixel → Nat → β) (format : Format)
    (w h : Nat) (src : List Pixel) :
    ∀ (n y : Nat) (dest : List β),
      convert_to_format_rows_any val format w h src n y dest
        = apply_writes (rows_writes_any val format w h src n y) dest := by
  intro n
  induction n with
  | zero => intro y dest; rfl
  | succ n ih =>
    intro y dest
    unfold convert_to_format_rows_any
    simp only [rows_writes_any]
    rw [apply_writes_append, convert_to_format_row_any_writes]
    simp only [ih]

theorem pixel_writes_any_fst {β : Type} (env : Env) (val : Pixel → Nat → β) (format : Format)
    (w h : Nat) (pixel : Pixel) (i : Nat) :
    (pixel_writes_any val format w h pixel i).map Prod.fst
      = (pixel_writes env format w h pixel i).map Prod.fst := by
  simp [pixel_writes_any, pixel_writes, List.map_map, Function.comp_def]

theorem row_writes_any_fst {β : Type} (env : Env) (val : Pixel → Nat → β) (format : Format)
    (w h : Nat) (src : List Pixel) (srow : Nat) :
    ∀ (n x i : Nat),
      (row_writes_any val format w h src srow n x i).map Prod.fst
        = (row_writes env format w h src srow n x i).map Prod.fst := by
  intro n
  induction n with
  | zero => intro x i; rfl
  | succ n ih =>
    intro x i
    rw [row_writes_any, row_writes, List.map_append, List.map_append, ih,
      pixel_writes_any_fst env]

theorem rows_writes_any_fst {β : Type} (env : Env) (val : Pixel → Nat → β) (format : Format)
    (w h : Nat) (src : List Pixel) :
    ∀ (n y : Nat),
      (rows_writes_any val format w h src n y).map Prod.fst
        = (rows_writes env format w h src n y).map Prod.fst := by
  intro n
  induction n with
  | zero => intro y; rfl
  | succ n ih =>
    intro y
    rw [rows_writes_any, rows_writes, List.map_append, List.map_append, ih,
      row_writes_any_fst env]

theorem rows_writes_perm (env : Env) (format : Format) (w h : Nat) (src : List Pixel) :
    List.Perm ((rows_writes env format w h src h 0).map Prod.fst)
      (List.range (num_channels format * (w * h))) := by
  apply perm_range_of_cover
  · rw [List.length_map, rows_writes_length]
    ring
  · intro i hi
    obtain ⟨x, y, k, hx, hy, hk, he⟩ := layout_index_surj format w h i hi
    rw [List.mem_map]
    refine ⟨(i, channel_value env format (src.getD (w * (0 + y) + x) default) k), ?_, rfl⟩
    rw [mem_rows_writes]
    refine ⟨y, hy, x, hx, k, hk, ?_⟩
    rw [Nat.zero_add, code_index_eq_layout_index, he]

/-- C39: the stores of `convert_to_format` are the list `rows_writes` (`uint8_t` branch) or
`rows_writes_any` (the loops of the `float` and `double` branches), the destination
indices of that list are a permutation of `0 .. w * h * c - 1`, so every element of the
destination is stored exactly once and no index is outside the buffer, and the map from
column, row and channel slot to the destination index, which is `layout_index` for the
four layouts, is a bijection onto the buffer. -/
theorem convert_to_format_stores_once {β : Type} (env : Env) (val : Pixel → Nat → β)
    (format : Format) (src : List Pixel) (w h : Nat) (dest8 : List Byte) (dest : List β) :
    convert_to_format_rows env format w h src h 0 dest8
      = apply_writes (rows_writes env format w h src h 0) dest8 ∧
    convert_to_format_rows_any val format w h src h 0 dest
      = apply_writes (rows_writes_any val format w h src h 0) dest ∧
    List.Perm ((rows_writes env format w h src h 0).map Prod.fst)
      (List.range (num_channels format * (w * h))) ∧
    List.Perm ((rows_writes_any val format w h src h 0).map Prod.fst)
      (List.range (num_channels format * (w * h))) ∧
    (∀ x y k, row_stride format w * y + x * pixel_stride format h
        + k * channel_stride format w h = layout_index format w h x y k) ∧
    (∀ x y k, x < w → y < h → k < num_channels format →
      layout_index format w h x y k < num_channels format * (w * h)) ∧
    (∀ x y k x' y' k', x < w → y < h → k < num_channels format → x' < w → y' < h →
      k' < num_channels format →
      layout_index format w h x y k = layout_index format w h x' y' k' →
      x = x' ∧ y = y' ∧ k = k') ∧
    (∀ i, i < num_channels format * (w * h) →
      ∃ x y k, x < w ∧ y < h ∧ k < num_channels format ∧ layout_index format w h x y k = i) ∧
    (num_channels format = 1 ∨ num_channels format = 3 ∨ num_channels format = 4) := by
  refine ⟨convert_to_format_rows_writes env format w h src h 0 dest8,
    convert_to_format_rows_any_writes val format w h src h 0 dest,
    rows_writes_perm env format w h src, ?_,
    fun x y k => code_index_eq_layout_index format w h x y k,
    fun x y k hx hy hk => layout_index_lt format w h x y k hx hy hk,
    fun x y k x' y' k' hx hy hk hx' hy' hk' he =>
      layout_index_inj format w h x y k x' y' k' hx hy hk hx' hy' hk' he,
    fun i hi => layout_index_surj format w h i hi, num_channels_cases format⟩
  rw [rows_writes_any_fst env]
  exact rows_writes_perm env format w h src

/-! ## The run-length decoders end and stay inside the buffer -/

theorem getc_cases (file : FILE) :
    (0 ≤ (getc file).1 ∧ (getc file).2 = ⟨file.data, file.pos + 1, file.eof⟩ ∧
        file.pos < file.data.length) ∨
      ((getc file).1 = -1 ∧ (getc file).2 = ⟨file.data, file.pos, true⟩ ∧
        file.data.length ≤ file.pos) := by
  obtain ⟨data, pos, eof⟩ := file
  by_cases h : pos < data.length
  · left
    rw [getc_lt data pos eof h]
    exact ⟨Int.ofNat_nonneg _, rfl, h⟩
  · right
    rw [getc_none data pos eof (by omega)]
    exact ⟨rfl, rfl, by simpa using h⟩

theorem rle_passes_pos (file : FILE) : 1 ≤ rle_passes file := by
  unfold rle_passes
  split <;> omega

theorem rle_passes_getc (file : FILE) : rle_passes (getc file).2 ≤ rle_passes file := by
  obtain ⟨data, pos, eof⟩ := file
  by_cases h : pos < data.length
  · rw [getc_lt data pos eof h]
    unfold rle_passes
    cases eof
    · simp only [Bool.false_eq_true, if_false]
      omega
    · simp only [if_true]
      exact le_refl _
  · rw [getc_none data pos eof (by omega)]
    have h1 : rle_passes ⟨data, pos, true⟩ = 1 := by
      unfold rle_passes
      simp only [if_true]
    rw [h1]
    exact rle_passes_pos _

theorem rle_passes_getc2 (file : FILE) (h : file.eof = false) :
    rle_passes (getc (getc file).2).2 + 1 ≤ rle_passes file := by
  obtain ⟨data, pos, eof⟩ := file
  dsimp only at h
  subst h
  by_cases h1 : pos + 2 ≤ data.length
  · rw [getc_lt data pos false (by omega), getc_lt data (pos + 1) false (by omega)]
    unfold rle_passes
    simp only [Bool.false_eq_true, if_false]
    omega
  · by_cases h2 : pos < data.length
    · rw [getc_lt data pos false h2, getc_none data (pos + 1) false (by omega)]
      unfold rle_passes
      simp only [if_true, Bool.false_eq_true, if_false]
      omega
    · rw [getc_none data pos false (by omega), getc_none data pos true (by omega)]
      unfold rle_passes
      simp only [if_true, Bool.false_eq_true, if_false]
      omega

theorem getc_eof_false (file : FILE) (h : (getc file).2.eof = false) :
    0 ≤ (getc file).1 ∧ file.eof = false := by
  rcases getc_cases file with ⟨h0, e, _⟩ | ⟨_, e, _⟩
  · rw [e] at h
    exact ⟨h0, h⟩
  · rw [e] at h
    exact absurd h (by simp)

theorem store_int_ok {α : Type} (buf : List α) (i : Int) (v : α) (h0 : 0 ≤ i)
    (h1 : i < (buf.length : Int)) : store buf i v = .ok (buf.set i.toNat v) := by
  unfold store
  rw [if_pos ⟨h0, h1⟩]

theorem read_bmp_8bpp_rle_run_ok (color : Pixel) (w row : Nat) :
    ∀ (fuel count : Nat) (x : Int) (image : List Pixel), 0 ≤ x →
      ((w : Int) - x).toNat + 1 ≤ fuel → row + w ≤ image.length →
      ∃ x' image', read_bmp_8bpp_rle_run color (w : Int) (row : Int) fuel count x image
          = .ok (x', image') ∧ x ≤ x' ∧ x' ≤ max x (w : Int) ∧ image'.length = image.length := by
  intro fuel
  induction fuel with
  | zero => intro count x image _ h; omega
  | succ fuel ih =>
    intro count x image hx hf hlen
    rw [read_bmp_8bpp_rle_run]
    by_cases hxw : x ≥ (w : Int)
    · rw [if_pos hxw]
      exact ⟨x, image, rfl, le_refl _, le_max_left _ _, rfl⟩
    · rw [if_neg hxw, store_int_ok image _ color (by omega) (by omega), except_ok_bind]
      dsimp only
      by_cases hc : (count + 4294967295) % 4294967296 ≠ 0
      · rw [if_pos hc]
        obtain ⟨x', image', e, h1, hmx, h2⟩ :=
          ih ((count + 4294967295) % 4294967296) (x + 1) (image.set ((row : Int) + x).toNat color)
            (by omega) (by omega) (by rw [List.length_set]; exact hlen)
        exact ⟨x', image', e, by omega, by omega, by rw [h2, List.length_set]⟩
      · rw [if_neg hc]
        exact ⟨x + 1, _, rfl, by omega, by omega, by rw [List.length_set]⟩

theorem read_bmp_8bpp_rle_literal_ok (palette : List Pixel) (w row : Nat) :
    ∀ (fuel : Nat) (k x : Int) (image : List Pixel) (file : FILE), 0 ≤ x →
      ((w : Int) - x).toNat + 1 ≤ fuel → row + w ≤ image.length →
      ∃ x' image' file', read_bmp_8bpp_rle_literal palette (w : Int) (row : Int) fuel k x image
            file
          = .ok (x', image', file') ∧ x ≤ x' ∧ x' ≤ max x (w : Int) ∧ image'.length = image.length ∧
        rle_passes file' ≤ rle_passes file := by
  intro fuel
  induction fuel with
  | zero => intro k x image file _ h; omega
  | succ fuel ih =>
    intro k x image file hx hf hlen
    rw [read_bmp_8bpp_rle_literal]
    by_cases hxw : x ≥ (w : Int)
    · rw [if_pos hxw]
      exact ⟨x, image, file, rfl, le_refl _, le_max_left _ _, rfl, le_refl _⟩
    · rw [if_neg hxw]
      have hg := rle_passes_getc file
      generalize getc file = p at hg
      obtain ⟨c, f⟩ := p
      simp only [] at hg ⊢
      rw [store_int_ok image _ _ (by omega) (by omega), except_ok_bind]
      by_cases hc : k - 1 ≠ 0
      · rw [if_pos hc]
        obtain ⟨x', image', f', e, h1, hmx, h2, h3⟩ :=
          ih (k - 1) (x + 1) (image.set ((row : Int) + x).toNat
              (palette.getD (to_u32 c &&& 0xFF) default)) f
            (by omega) (by omega) (by rw [List.length_set]; exact hlen)
        exact ⟨x', image', f', e, by omega, by omega, by rw [h2, List.length_set], le_trans h3 hg⟩
      · rw [if_neg hc]
        exact ⟨x + 1, _, f, rfl, by omega, by omega, by rw [List.length_set], hg⟩

theorem read_bmp_4bpp_rle_run_ok (color_high color_low : Pixel) (w row : Nat) :
    ∀ (fuel count : Nat) (x : Int) (image : List Pixel), 0 ≤ x → x < (w : Int) →
      ((w : Int) - x).toNat + 1 ≤ fuel → row + w ≤ image.length →
      ∃ x' image', read_bmp_4bpp_rle_run color_high color_low (w : Int) (row : Int) fuel count x
            image
          = .ok (x', image') ∧ x ≤ x' ∧ x' ≤ max x (w : Int) ∧ image'.length = image.length := by
  intro fuel
  induction fuel with
  | zero => intro count x image _ _ h; omega
  | succ fuel ih =>
    intro count x image hx hxw hf hlen
    rw [read_bmp_4bpp_rle_run, store_int_ok image _ _ (by omega) (by omega), except_ok_bind]
    dsimp only
    by_cases h1 : x + 1 ≥ (w : Int)
    · rw [if_pos h1]
      exact ⟨x + 1, _, rfl, by omega, by omega, by rw [List.length_set]⟩
    · rw [if_neg h1]
      by_cases hc : (count + 4294967295) % 4294967296 ≠ 0
      · rw [if_pos hc,
          store_int_ok _ _ _ (by omega) (by rw [List.length_set]; omega), except_ok_bind]
        by_cases h2 : x + 1 + 1 ≥ (w : Int)
        · rw [if_pos h2]
          exact ⟨x + 1 + 1, _, rfl, by omega, by omega, by rw [List.length_set, List.length_set]⟩
        · rw [if_neg h2]
          by_cases hc2 : ((count + 4294967295) % 4294967296 + 4294967295) % 4294967296 ≠ 0
          · rw [if_pos hc2]
            obtain ⟨x', image', e, h3, hmx, h4⟩ :=
              ih (((count + 4294967295) % 4294967296 + 4294967295) % 4294967296) (x + 1 + 1)
                ((image.set ((row : Int) + x).toNat color_high).set
                  ((row : Int) + (x + 1)).toNat color_low)
                (by omega) (by omega) (by omega)
                (by rw [List.length_set, List.length_set]; exact hlen)
            exact ⟨x', image', e, by omega, by omega, by rw [h4, List.length_set, List.length_set]⟩
          · rw [if_neg hc2]
            exact ⟨x + 1 + 1, _, rfl, by omega, by omega, by rw [List.length_set, List.length_set]⟩
      · rw [if_neg hc]
        exact ⟨x + 1, _, rfl, by omega, by omega, by rw [List.length_set]⟩

theorem read_bmp_4bpp_rle_literal_ok (palette : List Pixel) (w row : Nat) :
    ∀ (fuel : Nat) (k x : Int) (image : List Pixel) (file : FILE), 0 ≤ x → x < (w : Int) →
      ((w : Int) - x).toNat + 1 ≤ fuel → row + w ≤ image.length →
      ∃ x' image' file', read_bmp_4bpp_rle_literal palette (w : Int) (row : Int) fuel k x image
            file
          = .ok (x', image', file') ∧ x ≤ x' ∧ x' ≤ max x (w : Int) ∧ image'.length = image.length ∧
        rle_passes file' ≤ rle_passes file := by
  intro fuel
  induction fuel with
  | zero => intro k x image file _ _ h; omega
  | succ fuel ih =>
    intro k x image file hx hxw hf hlen
    rw [read_bmp_4bpp_rle_literal]
    have hg := rle_passes_getc file
    generalize getc file = p at hg
    obtain ⟨c, f⟩ := p
    simp only [] at hg ⊢
    rw [store_int_ok image _ _ (by omega) (by omega), except_ok_bind]
    by_cases h1 : x + 1 ≥ (w : Int)
    · rw [if_pos h1]
      exact ⟨x + 1, _, f, rfl, by omega, by omega, by rw [List.length_set], hg⟩
    · rw [if_neg h1]
      by_cases hc : k - 1 ≠ 0
      · rw [if_pos hc,
          store_int_ok _ _ _ (by omega) (by rw [List.length_set]; omega), except_ok_bind]
        by_cases h2 : x + 1 + 1 ≥ (w : Int)
        · rw [if_pos h2]
          exact ⟨x + 1 + 1, _, f, rfl, by omega, by omega, by rw [List.length_set, List.length_set], hg⟩
        · rw [if_neg h2]
          by_cases hc2 : k - 1 - 1 ≠ 0
          · rw [if_pos hc2]
            obtain ⟨x', image', f', e, h3, hmx, h4, h5⟩ :=
              ih (k - 1 - 1) (x + 1 + 1)
                ((image.set ((row : Int) + x).toNat
                    (palette.getD ((to_u32 c &&& 0xF0) >>> 4) default)).set
                  ((row : Int) + (x + 1)).toNat (palette.getD (to_u32 c &&& 0x0F) default)) f
                (by omega) (by omega) (by omega)
                (by rw [List.length_set, List.length_set]; exact hlen)
            exact ⟨x', image', f', e, by omega, by omega,
              by rw [h4, List.length_set, List.length_set], le_trans h5 hg⟩
          · rw [if_neg hc2]
            exact ⟨x + 1 + 1, _, f, rfl, by omega, by omega,
              by rw [List.length_set, List.length_set], hg⟩
      · rw [if_neg hc]
        exact ⟨x + 1, _, f, rfl, by omega, by omega, by rw [List.length_set], hg⟩

theorem rle_row_nat (w h : Nat) (y row : Int) (hy1 : 1 ≤ y) (hyh : y ≤ (h : Int))
    (hrow : row = (w : Int) * (y - 1)) :
    row = ((w * (y.toNat - 1) : Nat) : Int) ∧ w * (y.toNat - 1) + w ≤ w * h := by
  have e : y = ((y.toNat : Nat) : Int) := (Int.toNat_of_nonneg (by omega)).symm
  have h1 : 1 ≤ y.toNat := by omega
  have h2 : y.toNat ≤ h := by omega
  constructor
  · rw [hrow, Nat.cast_mul, Nat.cast_sub h1, ← e]
    rfl
  · calc w * (y.toNat - 1) + w = w * (y.toNat - 1 + 1) := by ring
      _ = w * y.toNat := by rw [Nat.sub_add_cancel h1]
      _ ≤ w * h := Nat.mul_le_mul_left w h2

theorem rle_passes_pad (file : FILE) (b : Prop) [Decidable b] :
    rle_passes (if b then (getc file).2 else file) ≤ rle_passes file := by
  by_cases h : b
  · rw [if_pos h]; exact rle_passes_getc file
  · rw [if_neg h]

theorem read_bmp_8bpp_rle_loop_ok (palette : List Pixel) (w h : Nat) :
    ∀ (fuel : Nat) (x y row : Int) (image : List Pixel) (file : FILE),
      image.length = w * h → rle_passes file ≤ fuel →
      (file.eof = true ∨ y = 0 ∨
        (0 ≤ x ∧ 1 ≤ y ∧ y ≤ (h : Int) ∧ row = (w : Int) * (y - 1))) →
      ∃ r, read_bmp_8bpp_rle_loop palette (w : Int) fuel x y row image file = .ok r := by
  intro fuel
  induction fuel with
  | zero =>
    intro x y row image file _ hf _
    have := rle_passes_pos file
    omega
  | succ fuel ih =>
    intro x y row image file hlen hf hinv
    rw [read_bmp_8bpp_rle_loop]
    by_cases hy : y = 0
    · rw [if_pos hy]; exact ⟨_, rfl⟩
    · rw [if_neg hy]
      by_cases he : feof file = true
      · rw [if_pos he]; exact ⟨_, rfl⟩
      · rw [if_neg he]
        have heof : file.eof = false := by simpa [feof] using he
        obtain ⟨hx0, hy1, hyh, hrow⟩ : 0 ≤ x ∧ 1 ≤ y ∧ y ≤ (h : Int) ∧ row = (w : Int) * (y - 1) := by
          rcases hinv with h1 | h1 | h1
          · rw [heof] at h1; exact absurd h1 (by simp)
          · exact absurd h1 hy
          · exact h1
        obtain ⟨hrn, hrl⟩ := rle_row_nat w h y row hy1 hyh hrow
        have hm := rle_passes_getc2 file heof
        generalize getc file = p at hm ⊢
        obtain ⟨c, f1⟩ := p
        simp only [] at hm ⊢
        generalize getc f1 = p at hm ⊢
        obtain ⟨v, f2⟩ := p
        simp only [] at hm ⊢
        by_cases h0 : to_u32 c = 0
        · rw [if_pos h0]
          by_cases v0 : to_u32 v = 0
          · rw [if_pos v0]
            refine ih _ _ _ _ _ hlen (by omega) ?_
            by_cases hy2 : y - 1 = 0
            · exact Or.inr (Or.inl hy2)
            · exact Or.inr (Or.inr ⟨le_refl _, by omega, by omega, by rw [hrow]; ring⟩)
          · rw [if_neg v0]
            by_cases v1 : to_u32 v = 1
            · rw [if_pos v1]; exact ⟨_, rfl⟩
            · rw [if_neg v1]
              by_cases v2 : to_u32 v = 2
              · rw [if_pos v2]
                have hd : rle_passes (getc (getc f2).2).2 ≤ rle_passes f2 :=
                  le_trans (rle_passes_getc _) (rle_passes_getc _)
                have hb : (getc (getc f2).2).2.eof = false →
                    0 ≤ (getc f2).1 ∧ 0 ≤ (getc (getc f2).2).1 := by
                  intro hh
                  have a := getc_eof_false _ hh
                  have b := getc_eof_false _ a.2
                  exact ⟨b.1, a.1⟩
                generalize getc f2 = p at hd hb ⊢
                obtain ⟨dx, f3⟩ := p
                simp only [] at hd hb ⊢
                generalize getc f3 = p at hd hb ⊢
                obtain ⟨dy, f4⟩ := p
                simp only [] at hd hb ⊢
                by_cases hfail : x + dx ≥ (w : Int) ∨ y - dy < 0
                · rw [if_pos hfail]; exact ⟨_, rfl⟩
                · rw [if_neg hfail]
                  refine ih _ _ _ _ _ hlen (by omega) ?_
                  by_cases h4 : f4.eof = true
                  · exact Or.inl h4
                  · have h4' : f4.eof = false := by simpa using h4
                    obtain ⟨hdx, hdy⟩ := hb h4'
                    by_cases hy2 : y - dy = 0
                    · exact Or.inr (Or.inl hy2)
                    · refine Or.inr (Or.inr ⟨by omega, by omega, by omega, ?_⟩)
                      rw [hrow]; ring
              · rw [if_neg v2]
                obtain ⟨x', image', f', e, h1, _, h2, h3⟩ :=
                  read_bmp_8bpp_rle_literal_ok palette w (w * (y.toNat - 1))
                    (((w : Int) - x).toNat + 1) (to_int (to_u32 v)) x image f2 hx0 (le_refl _)
                    (by rw [hlen]; exact hrl)
                rw [hrn, e, except_ok_bind]
                simp only []
                refine ih _ _ _ _ _ (by rw [h2, hlen])
                  (le_trans (rle_passes_pad f' _) (by omega)) ?_
                exact Or.inr (Or.inr ⟨by omega, hy1, hyh, hrn ▸ hrow⟩)
        · rw [if_neg h0]
          obtain ⟨x', image', e, h1, _, h2⟩ :=
            read_bmp_8bpp_rle_run_ok (palette.getD (to_u32 v &&& 0xFF) default) w
              (w * (y.toNat - 1)) (((w : Int) - x).toNat + 1) (to_u32 c) x image hx0 (le_refl _)
              (by rw [hlen]; exact hrl)
          rw [hrn, e, except_ok_bind]
          simp only []
          refine ih _ _ _ _ _ (by rw [h2, hlen]) (by omega) ?_
          exact Or.inr (Or.inr ⟨by omega, hy1, hyh, hrn ▸ hrow⟩)

theorem read_bmp_4bpp_rle_loop_ok (palette : List Pixel) (w h : Nat) :
    ∀ (fuel : Nat) (x y row : Int) (image : List Pixel) (file : FILE),
      image.length = w * h → rle_passes file ≤ fuel →
      (file.eof = true ∨ y = 0 ∨
        (0 ≤ x ∧ 1 ≤ y ∧ y ≤ (h : Int) ∧ row = (w : Int) * (y - 1))) →
      ∃ r, read_bmp_4bpp_rle_loop palette (w : Int) fuel x y row image file = .ok r := by
  intro fuel
  induction fuel with
  | zero =>
    intro x y row image file _ hf _
    have := rle_passes_pos file
    omega
  | succ fuel ih =>
    intro x y row image file hlen hf hinv
    rw [read_bmp_4bpp_rle_loop]
    by_cases hy : y = 0
    · rw [if_pos hy]; exact ⟨_, rfl⟩
    · rw [if_neg hy]
      by_cases he : feof file = true
      · rw [if_pos he]; exact ⟨_, rfl⟩
      · rw [if_neg he]
        have heof : file.eof = false := by simpa [feof] using he
        obtain ⟨hx0, hy1, hyh, hrow⟩ : 0 ≤ x ∧ 1 ≤ y ∧ y ≤ (h : Int) ∧ row = (w : Int) * (y - 1) := by
          rcases hinv with h1 | h1 | h1
          · rw [heof] at h1; exact absurd h1 (by simp)
          · exact absurd h1 hy
          · exact h1
        obtain ⟨hrn, hrl⟩ := rle_row_nat w h y row hy1 hyh hrow
        have hm := rle_passes_getc2 file heof
        generalize getc file = p at hm ⊢
        obtain ⟨c, f1⟩ := p
        simp only [] at hm ⊢
        generalize getc f1 = p at hm ⊢
        obtain ⟨v, f2⟩ := p
        simp only [] at hm ⊢
        by_cases h0 : to_u32 c = 0
        · rw [if_pos h0]
          by_cases v0 : to_u32 v = 0
          · rw [if_pos v0]
            refine ih _ _ _ _ _ hlen (by omega) ?_
            by_cases hy2 : y - 1 = 0
            · exact Or.inr (Or.inl hy2)
            · exact Or.inr (Or.inr ⟨le_refl _, by omega, by omega, by rw [hrow]; ring⟩)
          · rw [if_neg v0]
            by_cases v1 : to_u32 v = 1
            · rw [if_pos v1]; exact ⟨_, rfl⟩
            · rw [if_neg v1]
              by_cases v2 : to_u32 v = 2
              · rw [if_pos v2]
                have hd : rle_passes (getc (getc f2).2).2 ≤ rle_passes f2 :=
                  le_trans (rle_passes_getc _) (rle_passes_getc _)
                have hb : (getc (getc f2).2).2.eof = false →
                    0 ≤ (getc f2).1 ∧ 0 ≤ (getc (getc f2).2).1 := by
                  intro hh
                  have a := getc_eof_false _ hh
                  have b := getc_eof_false _ a.2
                  exact ⟨b.1, a.1⟩
                generalize getc f2 = p at hd hb ⊢
                obtain ⟨dx, f3⟩ := p
                simp only [] at hd hb ⊢
                generalize getc f3 = p at hd hb ⊢
                obtain ⟨dy, f4⟩ := p
                simp only [] at hd hb ⊢
                by_cases hfail : x + dx ≥ (w : Int) ∨ y - dy < 0
                · rw [if_pos hfail]; exact ⟨_, rfl⟩
                · rw [if_neg hfail]
                  refine ih _ _ _ _ _ hlen (by omega) ?_
                  by_cases h4 : f4.eof = true
                  · exact Or.inl h4
                  · have h4' : f4.eof = false := by simpa using h4
                    obtain ⟨hdx, hdy⟩ := hb h4'
                    by_cases hy2 : y - dy = 0
                    · exact Or.inr (Or.inl hy2)
                    · refine Or.inr (Or.inr ⟨by omega, by omega, by omega, ?_⟩)
                      rw [hrow]; ring
              · rw [if_neg v2]
                by_cases hxw : x ≥ (w : Int)
                · rw [if_pos hxw]; exact ⟨_, rfl⟩
                · rw [if_neg hxw]
                  obtain ⟨x', image', f', e, h1, _, h2, h3⟩ :=
                    read_bmp_4bpp_rle_literal_ok palette w (w * (y.toNat - 1))
                      (((w : Int) - x).toNat + 1) (to_int (to_u32 v)) x image f2 hx0 (by omega)
                      (le_refl _) (by rw [hlen]; exact hrl)
                  rw [hrn, e, except_ok_bind]
                  simp only []
                  refine ih _ _ _ _ _ (by rw [h2, hlen])
                    (le_trans (rle_passes_pad f' _) (by omega)) ?_
                  exact Or.inr (Or.inr ⟨by omega, hy1, hyh, hrn ▸ hrow⟩)
        · rw [if_neg h0]
          by_cases hxw : x ≥ (w : Int)
          · rw [if_pos hxw]; exact ⟨_, rfl⟩
          · rw [if_neg hxw]
            obtain ⟨x', image', e, h1, _, h2⟩ :=
              read_bmp_4bpp_rle_run_ok (palette.getD ((to_u32 v &&& 0xF0) >>> 4) default)
                (palette.getD (to_u32 v &&& 0xF) default) w
                (w * (y.toNat - 1)) (((w : Int) - x).toNat + 1) (to_u32 c) x image hx0 (by omega)
                (le_refl _) (by rw [hlen]; exact hrl)
            rw [hrn, e, except_ok_bind]
            simp only []
            refine ih _ _ _ _ _ (by rw [h2, hlen]) (by omega) ?_
            exact Or.inr (Or.inr ⟨by omega, hy1, hyh, hrn ▸ hrow⟩)

theorem rle_passes_le (file : FILE) : rle_passes file ≤ file.data.length + 2 := by
  unfold rle_passes
  split
  · omega
  · have : (file.data.length - file.pos) / 2 ≤ file.data.length :=
      le_trans (Nat.div_le_self _ _) (Nat.sub_le _ _)
    omega

theorem rle_start_state (w h : Nat) :
    ((h : Int) = 0 ∨ ((0 : Int) ≤ 0 ∧ 1 ≤ (h : Int) ∧ (h : Int) ≤ (h : Int) ∧
      (w : Int) * ((h : Int) - 1) = (w : Int) * ((h : Int) - 1))) := by
  by_cases h0 : h = 0
  · left; omega
  · right; exact ⟨le_refl _, by omega, le_refl _, rfl⟩

theorem except_ok_ne_error {α : Type} (m : Except Fault α) (e : Fault) (h : ∃ r, m = .ok r) :
    m ≠ .error e := by
  obtain ⟨r, hr⟩ := h
  rw [hr]
  intro h2
  cases h2

theorem read_bmp_8bpp_rle_ok (palette image : List Pixel) (w h : Nat) (file : FILE)
    (hlen : image.length = w * h) :
    ∃ r, read_bmp_8bpp_rle image w h file palette = .ok r := by
  rw [read_bmp_8bpp_rle, fill_image_full image w h _ hlen]
  exact read_bmp_8bpp_rle_loop_ok palette w h _ _ _ _ _ file (List.length_replicate _ _)
    (rle_passes_le file) (Or.inr (rle_start_state w h))

theorem read_bmp_4bpp_rle_ok (palette image : List Pixel) (w h : Nat) (file : FILE)
    (hlen : image.length = w * h) :
    ∃ r, read_bmp_4bpp_rle image w h file palette = .ok r := by
  rw [read_bmp_4bpp_rle, fill_image_full image w h _ hlen]
  exact read_bmp_4bpp_rle_loop_ok palette w h _ _ _ _ _ file (List.length_replicate _ _)
    (rle_passes_le file) (Or.inr (rle_start_state w h))

/-- C37: on a buffer of `w * h` pixels and for every stream, well-formed, corrupt or
truncated, `read_bmp_8bpp_rle` and `read_bmp_4bpp_rle` make no store outside the buffer (a
store outside the buffer is the only undefined behaviour of the decoders); and the same
holds for their loops started from any cursor with a column `x ≥ 0` and a row count `y`
in `1 .. h`, the row pointer being at pixel `w * (y - 1)`: the decoders keep the cursor
in that range and store only at columns below `w`. -/
theorem rle_writes_in_bounds (palette image : List Pixel) (w h : Nat) (file : FILE)
    (hlen : image.length = w * h) :
    read_bmp_8bpp_rle image w h file palette ≠ .error Fault.undefined ∧
    read_bmp_4bpp_rle image w h file palette ≠ .error Fault.undefined ∧
    (∀ (x y : Int) (buffer : List Pixel) (f : FILE), buffer.length = w * h → 0 ≤ x → 1 ≤ y →
      y ≤ (h : Int) →
      read_bmp_8bpp_rle_loop palette (w : Int) (rle_passes f) x y ((w : Int) * (y - 1)) buffer f
        ≠ .error Fault.undefined ∧
      read_bmp_4bpp_rle_loop palette (w : Int) (rle_passes f) x y ((w : Int) * (y - 1)) buffer f
        ≠ .error Fault.undefined) := by
  refine ⟨except_ok_ne_error _ _ (read_bmp_8bpp_rle_ok palette image w h file hlen),
    except_ok_ne_error _ _ (read_bmp_4bpp_rle_ok palette image w h file hlen), ?_⟩
  intro x y buffer f hb hx hy1 hyh
  exact ⟨except_ok_ne_error _ _
      (read_bmp_8bpp_rle_loop_ok palette w h _ x y _ buffer f hb (le_refl _)
        (Or.inr (Or.inr ⟨hx, hy1, hyh, rfl⟩))),
    except_ok_ne_error _ _
      (read_bmp_4bpp_rle_loop_ok palette w h _ x y _ buffer f hb (le_refl _)
        (Or.inr (Or.inr ⟨hx, hy1, hyh, rfl⟩)))⟩

theorem rle_writes_in_bounds_witness :
    read_bmp_8bpp_rle (List.replicate 6 default) 3 2 ⟨[9, 1, 0, 2, 200, 1, 0, 7, 1], 0, false⟩
        [⟨0, 0, 0, 255⟩, ⟨255, 255, 255, 255⟩] ≠ .error Fault.undefined ∧
    read_bmp_4bpp_rle (List.replicate 6 default) 3 2 ⟨[9, 1, 0, 2, 200, 1, 0, 7, 1], 0, false⟩
        [⟨0, 0, 0, 255⟩, ⟨255, 255, 255, 255⟩] ≠ .error Fault.undefined :=
  ⟨(rle_writes_in_bounds [⟨0, 0, 0, 255⟩, ⟨255, 255, 255, 255⟩] (List.replicate 6 default) 3 2
      ⟨[9, 1, 0, 2, 200, 1, 0, 7, 1], 0, false⟩ (by decide)).1,
   (rle_writes_in_bounds [⟨0, 0, 0, 255⟩, ⟨255, 255, 255, 255⟩] (List.replicate 6 default) 3 2
      ⟨[9, 1, 0, 2, 200, 1, 0, 7, 1], 0, false⟩ (by decide)).2.1⟩

theorem getc_two_bytes (f : FILE) (h : f.pos + 2 ≤ f.data.length) :
    (getc (getc f).2).2 = ⟨f.data, f.pos + 2, f.eof⟩ := by
  obtain ⟨data, pos, eof⟩ := f
  dsimp only at h
  rw [getc_lt data pos eof (by omega), getc_lt data (pos + 1) eof (by omega)]

theorem getc_two_eof (f : FILE) (h : f.data.length < f.pos + 2) :
    (getc (getc f).2).2.eof = true := by
  obtain ⟨data, pos, eof⟩ := f
  dsimp only at h
  by_cases h2 : pos < data.length
  · rw [getc_lt data pos eof h2, getc_none data (pos + 1) eof (by omega)]
  · rw [getc_none data pos eof (by omega), getc_none data pos true (by omega)]

/-- C38: on a buffer of `w * h` pixels and for every stream, `read_bmp_8bpp_rle` and
`read_bmp_4bpp_rle` return a result. The loop ends within `rle_passes file` passes, which
is at most the length of the stream plus 2: a pass that has two bytes left reads them, a
pass that has fewer sets the end-of-file indicator, and the pass after it returns failure.
An inner run or literal loop started at column `x` ends within `w - x + 1` passes, each of
which stores at most two pixels and moves the cursor right by as many columns, and leaves
the cursor at column `w` at most (or where it was, if beyond). -/
theorem rle_terminates (palette image : List Pixel) (w h : Nat) (file : FILE)
    (hlen : image.length = w * h) :
    (∃ r, read_bmp_8bpp_rle image w h file palette = .ok r) ∧
    (∃ r, read_bmp_4bpp_rle image w h file palette = .ok r) ∧
    (∀ fuel, rle_passes file ≤ fuel →
      (∃ r, read_bmp_8bpp_rle_loop palette (w : Int) fuel 0 h ((w : Int) * ((h : Int) - 1))
        (fill_image image w h (palette.getD 0 default)) file = .ok r) ∧
      (∃ r, read_bmp_4bpp_rle_loop palette (w : Int) fuel 0 h ((w : Int) * ((h : Int) - 1))
        (fill_image image w h (palette.getD 0 default)) file = .ok r)) ∧
    rle_passes file ≤ file.data.length + 2 ∧
    (∀ f : FILE, f.pos + 2 ≤ f.data.length →
      (getc (getc f).2).2 = ⟨f.data, f.pos + 2, f.eof⟩) ∧
    (∀ f : FILE, f.data.length < f.pos + 2 → (getc (getc f).2).2.eof = true) ∧
    (∀ (fuel : Nat) (x y row : Int) (buffer : List Pixel) (f : FILE), f.eof = true → y ≠ 0 →
      read_bmp_8bpp_rle_loop palette (w : Int) (fuel + 1) x y row buffer f = .ok (0, buffer, f) ∧
      read_bmp_4bpp_rle_loop palette (w : Int) (fuel + 1) x y row buffer f
        = .ok (0, buffer, f)) ∧
    (∀ (color : Pixel) (row count : Nat) (k x : Int) (buffer : List Pixel) (f : FILE), 0 ≤ x →
      row + w ≤ buffer.length →
      (∃ x' b', read_bmp_8bpp_rle_run color (w : Int) (row : Int) (((w : Int) - x).toNat + 1)
          count x buffer = .ok (x', b') ∧ x ≤ x' ∧ x' ≤ max x (w : Int)) ∧
      (∃ x' b' f', read_bmp_8bpp_rle_literal palette (w : Int) (row : Int)
          (((w : Int) - x).toNat + 1) k x buffer f = .ok (x', b', f') ∧ x ≤ x' ∧
          x' ≤ max x (w : Int)) ∧
      (x < (w : Int) →
        (∃ x' b', read_bmp_4bpp_rle_run color color (w : Int) (row : Int)
            (((w : Int) - x).toNat + 1) count x buffer = .ok (x', b') ∧ x ≤ x' ∧
            x' ≤ max x (w : Int)) ∧
        (∃ x' b' f', read_bmp_4bpp_rle_literal palette (w : Int) (row : Int)
            (((w : Int) - x).toNat + 1) k x buffer f = .ok (x', b', f') ∧ x ≤ x' ∧
            x' ≤ max x (w : Int)))) := by
  refine ⟨read_bmp_8bpp_rle_ok palette image w h file hlen,
    read_bmp_4bpp_rle_ok palette image w h file hlen, ?_, rle_passes_le file,
    getc_two_bytes, getc_two_eof, ?_, ?_⟩
  · intro fuel hf
    rw [fill_image_full image w h _ hlen]
    exact ⟨read_bmp_8bpp_rle_loop_ok palette w h fuel _ _ _ _ file (List.length_replicate _ _) hf
        (Or.inr (rle_start_state w h)),
      read_bmp_4bpp_rle_loop_ok palette w h fuel _ _ _ _ file (List.length_replicate _ _) hf
        (Or.inr (rle_start_state w h))⟩
  · intro fuel x y row buffer f hf hy
    constructor
    · rw [read_bmp_8bpp_rle_loop, if_neg hy, if_pos (by simpa [feof] using hf)]
    · rw [read_bmp_4bpp_rle_loop, if_neg hy, if_pos (by simpa [feof] using hf)]
  · intro color row count k x buffer f hx hb
    refine ⟨?_, ?_, ?_⟩
    · obtain ⟨x', b', e, h1, h2, _⟩ :=
        read_bmp_8bpp_rle_run_ok color w row _ count x buffer hx (le_refl _) hb
      exact ⟨x', b', e, h1, h2⟩
    · obtain ⟨x', b', f', e, h1, h2, _⟩ :=
        read_bmp_8bpp_rle_literal_ok palette w row _ k x buffer f hx (le_refl _) hb
      exact ⟨x', b', f', e, h1, h2⟩
    · intro hxw
      constructor
      · obtain ⟨x', b', e, h1, h2, _⟩ :=
          read_bmp_4bpp_rle_run_ok color color w row _ count x buffer hx hxw (le_refl _) hb
        exact ⟨x', b', e, h1, h2⟩
      · obtain ⟨x', b', f', e, h1, h2, _⟩ :=
          read_bmp_4bpp_rle_literal_ok palette w row _ k x buffer f hx hxw (le_refl _) hb
        exact ⟨x', b', f', e, h1, h2⟩

theorem rle_terminates_witness :
    (∃ r, read_bmp_8bpp_rle (List.replicate 6 default) 3 2
        ⟨[9, 1, 0, 2, 200, 1, 0, 7, 1], 0, false⟩ [⟨0, 0, 0, 255⟩, ⟨255, 255, 255, 255⟩]
        = .ok r) ∧
    (∃ r, read_bmp_4bpp_rle (List.replicate 6 default) 3 2
        ⟨[9, 1, 0, 2, 200, 1, 0, 7, 1], 0, false⟩ [⟨0, 0, 0, 255⟩, ⟨255, 255, 255, 255⟩]
        = .ok r) :=
  ⟨(rle_terminates [⟨0, 0, 0, 255⟩, ⟨255, 255, 255, 255⟩] (List.replicate 6 default) 3 2
      ⟨[9, 1, 0, 2, 200, 1, 0, 7, 1], 0, false⟩ (by decide)).1,
   (rle_terminates [⟨0, 0, 0, 255⟩, ⟨255, 255, 255, 255⟩] (List.replicate 6 default) 3 2
      ⟨[9, 1, 0, 2, 200, 1, 0, 7, 1], 0, false⟩ (by decide)).2.1⟩

/-- Corrupt and truncated streams on a 3 x 2 image: a run of 9 pixels on a row of 3, a
delta past the right edge, a stream that ends inside a delta, and a literal cut short. -/
theorem rle_corrupt_streams :
    (read_bmp_8bpp_rle (List.replicate 6 default) 3 2 ⟨[9, 1, 0, 2, 200, 1], 0, false⟩
        [⟨0, 0, 0, 255⟩, ⟨255, 255, 255, 255⟩]).toOption.map (fun r => r.1) = some 0 ∧
    (read_bmp_8bpp_rle (List.replicate 6 default) 3 2 ⟨[0, 2, 1], 0, false⟩
        [⟨0, 0, 0, 255⟩, ⟨255, 255, 255, 255⟩]).toOption.map (fun r => r.1) = some 0 ∧
    (read_bmp_4bpp_rle (List.replicate 6 default) 3 2 ⟨[0, 2, 1], 0, false⟩
        [⟨0, 0, 0, 255⟩, ⟨255, 255, 255, 255⟩]).toOption.map (fun r => r.1) = some 0 ∧
    (read_bmp_8bpp_rle (List.replicate 6 default) 3 2 ⟨[0, 200, 1], 0, false⟩
        [⟨0, 0, 0, 255⟩, ⟨255, 255, 255, 255⟩]).toOption.map (fun r => r.1) = some 0 ∧
    (read_bmp_4bpp_rle (List.replicate 6 default) 3 2 ⟨[0, 200, 1], 0, false⟩
        [⟨0, 0, 0, 255⟩, ⟨255, 255, 255, 255⟩]).toOption.map (fun r => r.1) = some 0 := by
  decide

/-! ## Readers on streams with the same bytes left -/

theorem same_tail_refl (f : FILE) : same_tail f f := ⟨rfl, rfl⟩

theorem same_tail_feof (f1 f2 : FILE) (h : same_tail f1 f2) : feof f1 = feof f2 := h.1

theorem getc_same_tail (f1 f2 : FILE) (h : same_tail f1 f2) :
    (getc f1).1 = (getc f2).1 ∧ same_tail (getc f1).2 (getc f2).2 := by
  obtain ⟨d1, p1, e1⟩ := f1
  obtain ⟨d2, p2, e2⟩ := f2
  obtain ⟨he, hd⟩ := h
  dsimp only at he hd
  subst he
  have hg : d1[p1]? = d2[p2]? := by
    have := congrArg (fun l => l[0]?) hd
    simpa [List.getElem?_drop] using this
  by_cases h1 : p1 < d1.length
  · have h2 : p2 < d2.length := by
      by_contra hc
      rw [List.getElem?_eq_getElem h1, List.getElem?_eq_none (by omega)] at hg
      cases hg
    rw [getc_lt d1 p1 e1 h1, getc_lt d2 p2 e1 h2]
    refine ⟨?_, rfl, ?_⟩
    · simp only [byte_at, List.getD_eq_getElem?_getD, hg]
    · have := congrArg (List.drop 1) hd
      simpa [List.drop_drop, Nat.add_comm] using this
  · have h2 : ¬ p2 < d2.length := by
      intro hc
      rw [List.getElem?_eq_getElem hc, List.getElem?_eq_none (by omega)] at hg
      cases hg
    rw [getc_none d1 p1 e1 (by omega), getc_none d2 p2 e1 (by omega)]
    exact ⟨rfl, rfl, hd⟩

theorem read_u16_le_same_tail (f1 f2 : FILE) (h : same_tail f1 f2) :
    (read_u16_le f1).1 = (read_u16_le f2).1 ∧
      same_tail (read_u16_le f1).2 (read_u16_le f2).2 := by
  obtain ⟨c1, t1⟩ := getc_same_tail f1 f2 h
  obtain ⟨c2, t2⟩ := getc_same_tail _ _ t1
  have e : ∀ f, read_u16_le f
      = ((to_u16 (getc f).1 ||| (to_u16 (getc (getc f).2).1 <<< 8)) % 65536,
        (getc (getc f).2).2) := fun f => rfl
  rw [e f1, e f2]
  exact ⟨by dsimp only; rw [c1, c2], t2⟩

theorem read_u32_le_same_tail (f1 f2 : FILE) (h : same_tail f1 f2) :
    (read_u32_le f1).1 = (read_u32_le f2).1 ∧
      same_tail (read_u32_le f1).2 (read_u32_le f2).2 := by
  obtain ⟨c1, t1⟩ := getc_same_tail f1 f2 h
  obtain ⟨c2, t2⟩ := getc_same_tail _ _ t1
  obtain ⟨c3, t3⟩ := getc_same_tail _ _ t2
  obtain ⟨c4, t4⟩ := getc_same_tail _ _ t3
  have e : ∀ f, read_u32_le f
      = (to_u32 (getc f).1 ||| ((to_u32 (getc (getc f).2).1 <<< 8) % 4294967296)
          ||| ((to_u32 (getc (getc (getc f).2).2).1 <<< 16) % 4294967296)
          ||| ((to_u32 (getc (getc (getc (getc f).2).2).2).1 <<< 24) % 4294967296),
        (getc (getc (getc (getc f).2).2).2).2) := fun f => rfl
  rw [e f1, e f2]
  exact ⟨by dsimp only; rw [c1, c2, c3, c4], t4⟩

theorem skip_padding_same_tail : ∀ (n : Nat) (f1 f2 : FILE), same_tail f1 f2 →
    same_tail (skip_padding n f1) (skip_padding n f2)
  | 0, _, _, h => h
  | n + 1, f1, f2, h => by
    rw [skip_padding, skip_padding]
    exact skip_padding_same_tail n _ _ (getc_same_tail f1 f2 h).2

theorem read_bmp_8bpp_row_same_tail (palette : List Pixel) (row : Int) :
    ∀ (n x : Nat) (image : List Pixel) (f1 f2 : FILE), same_tail f1 f2 →
      same_except same_row (read_bmp_8bpp_row palette row n x image f1)
        (read_bmp_8bpp_row palette row n x image f2)
  | 0, x, image, f1, f2, h => by
    rw [read_bmp_8bpp_row, read_bmp_8bpp_row]
    exact ⟨rfl, h⟩
  | n + 1, x, image, f1, f2, h => by
    rw [read_bmp_8bpp_row, read_bmp_8bpp_row]
    obtain ⟨hc, ht⟩ := getc_same_tail f1 f2 h
    generalize getc f1 = q1 at hc ht ⊢
    generalize getc f2 = q2 at hc ht ⊢
    obtain ⟨a1, g1⟩ := q1
    obtain ⟨a2, g2⟩ := q2
    simp only [] at hc ht ⊢
    subst hc
    cases store image (row + x) (palette.getD (to_u32 a1 &&& 0xFF) default) with
    | error e => exact rfl
    | ok image' => exact read_bmp_8bpp_row_same_tail palette row n (x + 1) image' g1 g2 ht

theorem read_bmp_4bpp_row_same_tail (palette : List Pixel) (row : Int) :
    ∀ (n x : Nat) (image : List Pixel) (f1 f2 : FILE), same_tail f1 f2 →
      same_except same_row (read_bmp_4bpp_row palette row n x image f1)
        (read_bmp_4bpp_row palette row n x image f2)
  | 0, x, image, f1, f2, h => by
    rw [read_bmp_4bpp_row, read_bmp_4bpp_row]
    exact ⟨rfl, h⟩
  | 1, x, image, f1, f2, h => by
    rw [read_bmp_4bpp_row, read_bmp_4bpp_row]
    obtain ⟨hc, ht⟩ := getc_same_tail f1 f2 h
    generalize getc f1 = q1 at hc ht ⊢
    generalize getc f2 = q2 at hc ht ⊢
    obtain ⟨a1, g1⟩ := q1
    obtain ⟨a2, g2⟩ := q2
    simp only [] at hc ht ⊢
    subst hc
    cases store image (row + x) (palette.getD ((to_u32 a1 &&& 0xF0) >>> 4) default) with
    | error e => exact rfl
    | ok image' => exact ⟨rfl, ht⟩
  | n + 2, x, image, f1, f2, h => by
    rw [read_bmp_4bpp_row, read_bmp_4bpp_row]
    obtain ⟨hc, ht⟩ := getc_same_tail f1 f2 h
    generalize getc f1 = q1 at hc ht ⊢
    generalize getc f2 = q2 at hc ht ⊢
    obtain ⟨a1, g1⟩ := q1
    obtain ⟨a2, g2⟩ := q2
    simp only [] at hc ht ⊢
    subst hc
    cases store image (row + x) (palette.getD ((to_u32 a1 &&& 0xF0) >>> 4) default) with
    | error e => exact rfl
    | ok image' =>
      show same_except same_row
        (do
          let image ← store image' (row + (x + 1 : Nat)) (palette.getD (to_u32 a1 &&& 0x0F) default)
          read_bmp_4bpp_row palette row n (x + 2) image g1)
        (do
          let image ← store image' (row + (x + 1 : Nat)) (palette.getD (to_u32 a1 &&& 0x0F) default)
          read_bmp_4bpp_row palette row n (x + 2) image g2)
      cases store image' (row + (x + 1 : Nat)) (palette.getD (to_u32 a1 &&& 0x0F) default) with
      | error e => exact rfl
      | ok image'' => exact read_bmp_4bpp_row_same_tail palette row n (x + 2) image'' g1 g2 ht

theorem read_bmp_1bpp_row_same_tail (palette : List Pixel) (width : Nat) (row : Int) :
    ∀ (fuel x : Nat) (image : List Pixel) (f1 f2 : FILE), same_tail f1 f2 →
      same_except same_row (read_bmp_1bpp_row palette width row fuel x image f1)
        (read_bmp_1bpp_row palette width row fuel x image f2)
  | 0, x, image, f1, f2, h => by
    rw [read_bmp_1bpp_row, read_bmp_1bpp_row]
    by_cases hx : x < width
    · rw [if_pos hx, if_pos hx]
      exact rfl
    · rw [if_neg hx, if_neg hx]
      exact ⟨rfl, h⟩
  | fuel + 1, x, image, f1, f2, h => by
    rw [read_bmp_1bpp_row, read_bmp_1bpp_row]
    by_cases hx : x < width
    · rw [if_pos hx, if_pos hx]
      obtain ⟨hc, ht⟩ := getc_same_tail f1 f2 h
      generalize getc f1 = q1 at hc ht ⊢
      generalize getc f2 = q2 at hc ht ⊢
      obtain ⟨a1, g1⟩ := q1
      obtain ⟨a2, g2⟩ := q2
      simp only [] at hc ht ⊢
      subst hc
      cases read_bmp_1bpp_bits palette width row 8 (to_u32 a1) x image with
      | error e => exact rfl
      | ok r =>
        obtain ⟨x', image'⟩ := r
        exact read_bmp_1bpp_row_same_tail palette width row fuel x' image' g1 g2 ht
    · rw [if_neg hx, if_neg hx]
      exact ⟨rfl, h⟩

theorem read_bmp_24bpp_row_same_tail (row : Int) :
    ∀ (n x : Nat) (image : List Pixel) (f1 f2 : FILE), same_tail f1 f2 →
      same_except same_row (read_bmp_24bpp_row row n x image f1)
        (read_bmp_24bpp_row row n x image f2)
  | 0, x, image, f1, f2, h => by
    rw [read_bmp_24bpp_row, read_bmp_24bpp_row]
    exact ⟨rfl, h⟩
  | n + 1, x, image, f1, f2, h => by
    rw [read_bmp_24bpp_row, read_bmp_24bpp_row]
    obtain ⟨hc, ht⟩ := getc_same_tail f1 f2 h
    generalize getc f1 = q1 at hc ht ⊢
    generalize getc f2 = q2 at hc ht ⊢
    obtain ⟨a1, g1⟩ := q1
    obtain ⟨a2, g2⟩ := q2
    simp only [] at hc ht ⊢
    subst hc
    obtain ⟨hc, ht2⟩ := getc_same_tail g1 g2 ht
    generalize getc g1 = q1 at hc ht2 ⊢
    generalize getc g2 = q2 at hc ht2 ⊢
    obtain ⟨b1, k1⟩ := q1
    obtain ⟨b2, k2⟩ := q2
    simp only [] at hc ht2 ⊢
    subst hc
    obtain ⟨hc, ht3⟩ := getc_same_tail k1 k2 ht2
    generalize getc k1 = q1 at hc ht3 ⊢
    generalize getc k2 = q2 at hc ht3 ⊢
    obtain ⟨c1, m1⟩ := q1
    obtain ⟨c2, m2⟩ := q2
    simp only [] at hc ht3 ⊢
    subst hc
    cases store image (row + x) ⟨to_byte c1, to_byte b1, to_byte a1, 255⟩ with
    | error e => exact rfl
    | ok image' => exact read_bmp_24bpp_row_same_tail row n (x + 1) image' m1 m2 ht3

theorem read_bmp_16bpp_row_same_tail (redmask greenmask bluemask alphamask : Nat) (row : Int) :
    ∀ (n x : Nat) (image : List Pixel) (f1 f2 : FILE), same_tail f1 f2 →
      same_except same_row
        (read_bmp_16bpp_row redmask greenmask bluemask alphamask row n x image f1)
        (read_bmp_16bpp_row redmask greenmask bluemask alphamask row n x image f2)
  | 0, x, image, f1, f2, h => by
    rw [read_bmp_16bpp_row, read_bmp_16bpp_row]
    exact ⟨rfl, h⟩
  | n + 1, x, image, f1, f2, h => by
    rw [read_bmp_16bpp_row, read_bmp_16bpp_row]
    obtain ⟨hc, ht⟩ := read_u16_le_same_tail f1 f2 h
    generalize read_u16_le f1 = q1 at hc ht ⊢
    generalize read_u16_le f2 = q2 at hc ht ⊢
    obtain ⟨a1, g1⟩ := q1
    obtain ⟨a2, g2⟩ := q2
    simp only [] at hc ht ⊢
    subst hc
    cases store image (row + x) (mask_pixel a1 redmask greenmask bluemask alphamask) with
    | error e => exact rfl
    | ok image' =>
      exact read_bmp_16bpp_row_same_tail redmask greenmask bluemask alphamask row n (x + 1)
        image' g1 g2 ht

theorem read_bmp_32bpp_row_same_tail (redmask greenmask bluemask alphamask : Nat) (row : Int) :
    ∀ (n x : Nat) (image : List Pixel) (f1 f2 : FILE), same_tail f1 f2 →
      same_except same_row
        (read_bmp_32bpp_row redmask greenmask bluemask alphamask row n x image f1)
        (read_bmp_32bpp_row redmask greenmask bluemask alphamask row n x image f2)
  | 0, x, image, f1, f2, h => by
    rw [read_bmp_32bpp_row, read_bmp_32bpp_row]
    exact ⟨rfl, h⟩
  | n + 1, x, image, f1, f2, h => by
    rw [read_bmp_32bpp_row, read_bmp_32bpp_row]
    obtain ⟨hc, ht⟩ := read_u32_le_same_tail f1 f2 h
    generalize read_u32_le f1 = q1 at hc ht ⊢
    generalize read_u32_le f2 = q2 at hc ht ⊢
    obtain ⟨a1, g1⟩ := q1
    obtain ⟨a2, g2⟩ := q2
    simp only [] at hc ht ⊢
    subst hc
    cases store image (row + x) (mask_pixel a1 redmask greenmask bluemask alphamask) with
    | error e => exact rfl
    | ok image' =>
      exact read_bmp_32bpp_row_same_tail redmask greenmask bluemask alphamask row n (x + 1)
        image' g1 g2 ht

theorem generic_rows_same_tail
    (rowfn : Int → List Pixel → FILE → Except Fault (List Pixel × FILE))
    (width row_padding : Nat)
    (hrow : ∀ (row : Int) (image : List Pixel) (f1 f2 : FILE), same_tail f1 f2 →
      same_except same_row (rowfn row image f1) (rowfn row image f2)) :
    ∀ (y : Nat) (image : List Pixel) (f1 f2 : FILE), same_tail f1 f2 →
      same_except same_read (generic_rows rowfn width row_padding y image f1)
        (generic_rows rowfn width row_padding y image f2)
  | 0, image, f1, f2, h => by
    rw [generic_rows, generic_rows]
    exact ⟨rfl, rfl, h⟩
  | y + 1, image, f1, f2, h => by
    rw [generic_rows, generic_rows, ← same_tail_feof f1 f2 h]
    by_cases he : feof f1 = true
    · rw [if_pos he, if_pos he]
      exact ⟨rfl, rfl, h⟩
    · rw [if_neg he, if_neg he]
      have hr := hrow ((width : Int) * y) image f1 f2 h
      generalize rowfn ((width : Int) * y) image f1 = r1 at hr ⊢
      generalize rowfn ((width : Int) * y) image f2 = r2 at hr ⊢
      cases r1 with
      | error e1 =>
        cases r2 with
        | error e2 => exact hr
        | ok b2 => exact hr.elim
      | ok b1 =>
        cases r2 with
        | error e2 => exact hr.elim
        | ok b2 =>
          obtain ⟨i1, g1⟩ := b1
          obtain ⟨i2, g2⟩ := b2
          obtain ⟨hi, ht⟩ := hr
          dsimp only at hi ht
          subst hi
          exact generic_rows_same_tail rowfn width row_padding hrow y i1 _ _
            (skip_padding_same_tail row_padding g1 g2 ht)

theorem read_bmp_1bpp_same_tail (palette image : List Pixel) (w h : Nat) (f1 f2 : FILE)
    (ht : same_tail f1 f2) :
    same_except same_read (read_bmp_1bpp image w h f1 palette)
      (read_bmp_1bpp image w h f2 palette) := by
  rw [read_bmp_1bpp, read_bmp_1bpp, read_bmp_1bpp_rows_eq, read_bmp_1bpp_rows_eq]
  exact generic_rows_same_tail _ _ _
    (fun row image f1 f2 h => read_bmp_1bpp_row_same_tail palette w row w 0 image f1 f2 h)
    h image f1 f2 ht

theorem read_bmp_4bpp_same_tail (palette image : List Pixel) (w h : Nat) (f1 f2 : FILE)
    (ht : same_tail f1 f2) :
    same_except same_read (read_bmp_4bpp image w h f1 palette)
      (read_bmp_4bpp image w h f2 palette) := by
  rw [read_bmp_4bpp, read_bmp_4bpp, read_bmp_4bpp_rows_eq, read_bmp_4bpp_rows_eq]
  exact generic_rows_same_tail _ _ _
    (fun row image f1 f2 h => read_bmp_4bpp_row_same_tail palette row w 0 image f1 f2 h)
    h image f1 f2 ht

theorem read_bmp_8bpp_same_tail (palette image : List Pixel) (w h : Nat) (f1 f2 : FILE)
    (ht : same_tail f1 f2) :
    same_except same_read (read_bmp_8bpp image w h f1 palette)
      (read_bmp_8bpp image w h f2 palette) := by
  rw [read_bmp_8bpp, read_bmp_8bpp, read_bmp_8bpp_rows_eq, read_bmp_8bpp_rows_eq]
  exact generic_rows_same_tail _ _ _
    (fun row image f1 f2 h => read_bmp_8bpp_row_same_tail palette row w 0 image f1 f2 h)
    h image f1 f2 ht

theorem read_bmp_24bpp_same_tail (image : List Pixel) (w h : Nat) (f1 f2 : FILE)
    (ht : same_tail f1 f2) :
    same_except same_read (read_bmp_24bpp image w h f1) (read_bmp_24bpp image w h f2) := by
  rw [read_bmp_24bpp, read_bmp_24bpp, read_bmp_24bpp_rows_eq, read_bmp_24bpp_rows_eq]
  exact generic_rows_same_tail _ _ _
    (fun row image f1 f2 h => read_bmp_24bpp_row_same_tail row w 0 image f1 f2 h)
    h image f1 f2 ht

theorem read_bmp_16bpp_same_tail (image : List Pixel) (w h : Nat) (f1 f2 : FILE)
    (redmask greenmask bluemask alphamask : Nat) (ht : same_tail f1 f2) :
    same_except same_read
      (read_bmp_16bpp image w h f1 redmask greenmask bluemask alphamask)
      (read_bmp_16bpp image w h f2 redmask greenmask bluemask alphamask) := by
  rw [read_bmp_16bpp, read_bmp_16bpp, read_bmp_16bpp_rows_eq, read_bmp_16bpp_rows_eq]
  exact generic_rows_same_tail _ _ _
    (fun row image f1 f2 h =>
      read_bmp_16bpp_row_same_tail redmask greenmask bluemask alphamask row w 0 image f1 f2 h)
    h image f1 f2 ht

theorem read_bmp_32bpp_same_tail (image : List Pixel) (w h : Nat) (f1 f2 : FILE)
    (redmask greenmask bluemask alphamask : Nat) (ht : same_tail f1 f2) :
    same_except same_read
      (read_bmp_32bpp image w h f1 redmask greenmask bluemask alphamask)
      (read_bmp_32bpp image w h f2 redmask greenmask bluemask alphamask) := by
  rw [read_bmp_32bpp, read_bmp_32bpp, read_bmp_32bpp_rows_eq, read_bmp_32bpp_rows_eq]
  exact generic_rows_same_tail _ _ _
    (fun row image f1 f2 h =>
      read_bmp_32bpp_row_same_tail redmask greenmask bluemask alphamask row w 0 image f1 f2 h)
    h image f1 f2 ht

theorem same_except_bind {α β : Type} (rel : α → α → Prop) (rel2 : β → β → Prop)
    (m1 m2 : Except Fault α) (k1 k2 : α → Except Fault β) (hm : same_except rel m1 m2)
    (hk : ∀ a b, rel a b → same_except rel2 (k1 a) (k2 b)) :
    same_except rel2 (m1 >>= k1) (m2 >>= k2) := by
  cases m1 with
  | error e1 =>
    cases m2 with
    | error e2 => exact hm
    | ok b => exact hm.elim
  | ok a =>
    cases m2 with
    | error e2 => exact hm.elim
    | ok b => exact hk a b hm

theorem same_except_bind_same {α β : Type} (rel2 : β → β → Prop)
    (m : Except Fault α) (k1 k2 : α → Except Fault β)
    (hk : ∀ a, same_except rel2 (k1 a) (k2 a)) :
    same_except rel2 (m >>= k1) (m >>= k2) := by
  cases m with
  | error e => exact rfl
  | ok a => exact hk a

theorem read_bmp_8bpp_rle_literal_same_tail (palette : List Pixel) (width row : Int) :
    ∀ (fuel : Nat) (k x : Int) (image : List Pixel) (f1 f2 : FILE), same_tail f1 f2 →
      same_except same_read (read_bmp_8bpp_rle_literal palette width row fuel k x image f1)
        (read_bmp_8bpp_rle_literal palette width row fuel k x image f2)
  | 0, k, x, image, f1, f2, h => by
    rw [read_bmp_8bpp_rle_literal, read_bmp_8bpp_rle_literal]
    exact rfl
  | fuel + 1, k, x, image, f1, f2, h => by
    rw [read_bmp_8bpp_rle_literal, read_bmp_8bpp_rle_literal]
    by_cases hx : x ≥ width
    · rw [if_pos hx, if_pos hx]
      exact ⟨rfl, rfl, h⟩
    · rw [if_neg hx, if_neg hx]
      obtain ⟨hc, ht⟩ := getc_same_tail f1 f2 h
      generalize getc f1 = q1 at hc ht ⊢
      generalize getc f2 = q2 at hc ht ⊢
      obtain ⟨a1, g1⟩ := q1
      obtain ⟨a2, g2⟩ := q2
      simp only [] at hc ht ⊢
      subst hc
      apply same_except_bind_same
      intro image'
      by_cases hk : k - 1 ≠ 0
      · rw [if_pos hk, if_pos hk]
        exact read_bmp_8bpp_rle_literal_same_tail palette width row fuel _ _ image' g1 g2 ht
      · rw [if_neg hk, if_neg hk]
        exact ⟨rfl, rfl, ht⟩

theorem read_bmp_4bpp_rle_literal_same_tail (palette : List Pixel) (width row : Int) :
    ∀ (fuel : Nat) (k x : Int) (image : List Pixel) (f1 f2 : FILE), same_tail f1 f2 →
      same_except same_read (read_bmp_4bpp_rle_literal palette width row fuel k x image f1)
        (read_bmp_4bpp_rle_literal palette width row fuel k x image f2)
  | 0, k, x, image, f1, f2, h => by
    rw [read_bmp_4bpp_rle_literal, read_bmp_4bpp_rle_literal]
    exact rfl
  | fuel + 1, k, x, image, f1, f2, h => by
    rw [read_bmp_4bpp_rle_literal, read_bmp_4bpp_rle_literal]
    obtain ⟨hc, ht⟩ := getc_same_tail f1 f2 h
    generalize getc f1 = q1 at hc ht ⊢
    generalize getc f2 = q2 at hc ht ⊢
    obtain ⟨a1, g1⟩ := q1
    obtain ⟨a2, g2⟩ := q2
    simp only [] at hc ht ⊢
    subst hc
    apply same_except_bind_same
    intro image'
    by_cases hx : x + 1 ≥ width
    · rw [if_pos hx, if_pos hx]
      exact ⟨rfl, rfl, ht⟩
    · rw [if_neg hx, if_neg hx]
      by_cases hk : k - 1 ≠ 0
      · rw [if_pos hk, if_pos hk]
        apply same_except_bind_same
        intro image''
        by_cases hx2 : x + 1 + 1 ≥ width
        · rw [if_pos hx2, if_pos hx2]
          exact ⟨rfl, rfl, ht⟩
        · rw [if_neg hx2, if_neg hx2]
          by_cases hk2 : k - 1 - 1 ≠ 0
          · rw [if_pos hk2, if_pos hk2]
            exact read_bmp_4bpp_rle_literal_same_tail palette width row fuel _ _ image'' g1 g2 ht
          · rw [if_neg hk2, if_neg hk2]
            exact ⟨rfl, rfl, ht⟩
      · rw [if_neg hk, if_neg hk]
        exact ⟨rfl, rfl, ht⟩

theorem read_bmp_8bpp_rle_loop_same_tail (palette : List Pixel) (width : Int) :
    ∀ (fuel : Nat) (x y row : Int) (image : List Pixel) (f1 f2 : FILE), same_tail f1 f2 →
      same_except same_read (read_bmp_8bpp_rle_loop palette width fuel x y row image f1)
        (read_bmp_8bpp_rle_loop palette width fuel x y row image f2)
  | 0, x, y, row, image, f1, f2, h => by
    rw [read_bmp_8bpp_rle_loop, read_bmp_8bpp_rle_loop]
    exact rfl
  | fuel + 1, x, y, row, image, f1, f2, h => by
    rw [read_bmp_8bpp_rle_loop, read_bmp_8bpp_rle_loop, ← same_tail_feof f1 f2 h]
    by_cases hy : y = 0
    · rw [if_pos hy, if_pos hy]
      exact ⟨rfl, rfl, h⟩
    rw [if_neg hy, if_neg hy]
    by_cases he : feof f1 = true
    · rw [if_pos he, if_pos he]
      exact ⟨rfl, rfl, h⟩
    rw [if_neg he, if_neg he]
    obtain ⟨hc, ht⟩ := getc_same_tail f1 f2 h
    generalize getc f1 = q1 at hc ht ⊢
    generalize getc f2 = q2 at hc ht ⊢
    obtain ⟨a1, g1⟩ := q1
    obtain ⟨a2, g2⟩ := q2
    simp only [] at hc ht ⊢
    subst hc
    obtain ⟨hc, ht2⟩ := getc_same_tail g1 g2 ht
    generalize getc g1 = q1 at hc ht2 ⊢
    generalize getc g2 = q2 at hc ht2 ⊢
    obtain ⟨b1, k1⟩ := q1
    obtain ⟨b2, k2⟩ := q2
    simp only [] at hc ht2 ⊢
    subst hc
    by_cases hcount : to_u32 a1 = 0
    · rw [if_pos hcount, if_pos hcount]
      by_cases hv0 : to_u32 b1 = 0
      · rw [if_pos hv0, if_pos hv0]
        exact read_bmp_8bpp_rle_loop_same_tail palette width fuel _ _ _ image k1 k2 ht2
      rw [if_neg hv0, if_neg hv0]
      by_cases hv1 : to_u32 b1 = 1
      · rw [if_pos hv1, if_pos hv1]
        exact ⟨rfl, rfl, ht2⟩
      rw [if_neg hv1, if_neg hv1]
      by_cases hv2 : to_u32 b1 = 2
      · rw [if_pos hv2, if_pos hv2]
        obtain ⟨hc, ht3⟩ := getc_same_tail k1 k2 ht2
        generalize getc k1 = q1 at hc ht3 ⊢
        generalize getc k2 = q2 at hc ht3 ⊢
        obtain ⟨c1, m1⟩ := q1
        obtain ⟨c2, m2⟩ := q2
        simp only [] at hc ht3 ⊢
        subst hc
        obtain ⟨hc, ht4⟩ := getc_same_tail m1 m2 ht3
        generalize getc m1 = q1 at hc ht4 ⊢
        generalize getc m2 = q2 at hc ht4 ⊢
        obtain ⟨d1, n1⟩ := q1
        obtain ⟨d2, n2⟩ := q2
        simp only [] at hc ht4 ⊢
        subst hc
        by_cases hb : x + c1 ≥ width ∨ y - d1 < 0
        · rw [if_pos hb, if_pos hb]
          exact ⟨rfl, rfl, ht4⟩
        · rw [if_neg hb, if_neg hb]
          exact read_bmp_8bpp_rle_loop_same_tail palette width fuel _ _ _ image n1 n2 ht4
      rw [if_neg hv2, if_neg hv2]
      apply same_except_bind same_read same_read _ _ _ _
        (read_bmp_8bpp_rle_literal_same_tail palette width row _ _ _ image k1 k2 ht2)
      intro r1 r2 hr
      obtain ⟨x1, i1, m1⟩ := r1
      obtain ⟨x2, i2, m2⟩ := r2
      obtain ⟨hx, hi, hm⟩ := hr
      dsimp only at hx hi hm ⊢
      subst hx
      subst hi
      apply read_bmp_8bpp_rle_loop_same_tail palette width fuel
      by_cases hp : to_u32 b1 &&& 1 ≠ 0
      · rw [if_pos hp, if_pos hp]
        exact (getc_same_tail m1 m2 hm).2
      · rw [if_neg hp, if_neg hp]
        exact hm
    · rw [if_neg hcount, if_neg hcount]
      apply same_except_bind_same
      intro r
      obtain ⟨x1, i1⟩ := r
      exact read_bmp_8bpp_rle_loop_same_tail palette width fuel _ _ _ i1 k1 k2 ht2

theorem read_bmp_4bpp_rle_loop_same_tail (palette : List Pixel) (width : Int) :
    ∀ (fuel : Nat) (x y row : Int) (image : List Pixel) (f1 f2 : FILE), same_tail f1 f2 →
      same_except same_read (read_bmp_4bpp_rle_loop palette width fuel x y row image f1)
        (read_bmp_4bpp_rle_loop palette width fuel x y row image f2)
  | 0, x, y, row, image, f1, f2, h => by
    rw [read_bmp_4bpp_rle_loop, read_bmp_4bpp_rle_loop]
    exact rfl
  | fuel + 1, x, y, row, image, f1, f2, h => by
    rw [read_bmp_4bpp_rle_loop, read_bmp_4bpp_rle_loop, ← same_tail_feof f1 f2 h]
    by_cases hy : y = 0
    · rw [if_pos hy, if_pos hy]
      exact ⟨rfl, rfl, h⟩
    rw [if_neg hy, if_neg hy]
    by_cases he : feof f1 = true
    · rw [if_pos he, if_pos he]
      exact ⟨rfl, rfl, h⟩
    rw [if_neg he, if_neg he]
    obtain ⟨hc, ht⟩ := getc_same_tail f1 f2 h
    generalize getc f1 = q1 at hc ht ⊢
    generalize getc f2 = q2 at hc ht ⊢
    obtain ⟨a1, g1⟩ := q1
    obtain ⟨a2, g2⟩ := q2
    simp only [] at hc ht ⊢
    subst hc
    obtain ⟨hc, ht2⟩ := getc_same_tail g1 g2 ht
    generalize getc g1 = q1 at hc ht2 ⊢
    generalize getc g2 = q2 at hc ht2 ⊢
    obtain ⟨b1, k1⟩ := q1
    obtain ⟨b2, k2⟩ := q2
    simp only [] at hc ht2 ⊢
    subst hc
    by_cases hcount : to_u32 a1 = 0
    · rw [if_pos hcount, if_pos hcount]
      by_cases hv0 : to_u32 b1 = 0
      · rw [if_pos hv0, if_pos hv0]
        exact read_bmp_4bpp_rle_loop_same_tail palette width fuel _ _ _ image k1 k2 ht2
      rw [if_neg hv0, if_neg hv0]
      by_cases hv1 : to_u32 b1 = 1
      · rw [if_pos hv1, if_pos hv1]
        exact ⟨rfl, rfl, ht2⟩
      rw [if_neg hv1, if_neg hv1]
      by_cases hv2 : to_u32 b1 = 2
      · rw [if_pos hv2, if_pos hv2]
        obtain ⟨hc, ht3⟩ := getc_same_tail k1 k2 ht2
        generalize getc k1 = q1 at hc ht3 ⊢
        generalize getc k2 = q2 at hc ht3 ⊢
        obtain ⟨c1, m1⟩ := q1
        obtain ⟨c2, m2⟩ := q2
        simp only [] at hc ht3 ⊢
        subst hc
        obtain ⟨hc, ht4⟩ := getc_same_tail m1 m2 ht3
        generalize getc m1 = q1 at hc ht4 ⊢
        generalize getc m2 = q2 at hc ht4 ⊢
        obtain ⟨d1, n1⟩ := q1
        obtain ⟨d2, n2⟩ := q2
        simp only [] at hc ht4 ⊢
        subst hc
        by_cases hb : x + c1 ≥ width ∨ y - d1 < 0
        · rw [if_pos hb, if_pos hb]
          exact ⟨rfl, rfl, ht4⟩
        · rw [if_neg hb, if_neg hb]
          exact read_bmp_4bpp_rle_loop_same_tail palette width fuel _ _ _ image n1 n2 ht4
      rw [if_neg hv2, if_neg hv2]
      by_cases hxw : x ≥ width
      · rw [if_pos hxw, if_pos hxw]
        exact ⟨rfl, rfl, ht2⟩
      rw [if_neg hxw, if_neg hxw]
      apply same_except_bind same_read same_read _ _ _ _
        (read_bmp_4bpp_rle_literal_same_tail palette width row _ _ _ image k1 k2 ht2)
      intro r1 r2 hr
      obtain ⟨x1, i1, m1⟩ := r1
      obtain ⟨x2, i2, m2⟩ := r2
      obtain ⟨hx, hi, hm⟩ := hr
      dsimp only at hx hi hm ⊢
      subst hx
      subst hi
      apply read_bmp_4bpp_rle_loop_same_tail palette width fuel
      by_cases hp : (((to_u32 b1 + 1) % 4294967296) / 2) &&& 1 ≠ 0
      · rw [if_pos hp, if_pos hp]
        exact (getc_same_tail m1 m2 hm).2
      · rw [if_neg hp, if_neg hp]
        exact hm
    · rw [if_neg hcount, if_neg hcount]
      by_cases hxw : x ≥ width
      · rw [if_pos hxw, if_pos hxw]
        exact ⟨rfl, rfl, ht2⟩
      rw [if_neg hxw, if_neg hxw]
      apply same_except_bind_same
      intro r
      obtain ⟨x1, i1⟩ := r
      exact read_bmp_4bpp_rle_loop_same_tail palette width fuel _ _ _ i1 k1 k2 ht2

theorem read_bmp_palette_same_tail (os2bmp : Bool) :
    ∀ (n i : Nat) (palette : List Pixel) (f1 f2 : FILE), same_tail f1 f2 →
      same_except same_row (read_bmp_palette os2bmp n i palette f1)
        (read_bmp_palette os2bmp n i palette f2)
  | 0, i, palette, f1, f2, h => by
    rw [read_bmp_palette, read_bmp_palette]
    exact ⟨rfl, h⟩
  | n + 1, i, palette, f1, f2, h => by
    rw [read_bmp_palette, read_bmp_palette]
    obtain ⟨hc, ht⟩ := getc_same_tail f1 f2 h
    generalize getc f1 = q1 at hc ht ⊢
    generalize getc f2 = q2 at hc ht ⊢
    obtain ⟨a1, g1⟩ := q1
    obtain ⟨a2, g2⟩ := q2
    simp only [] at hc ht ⊢
    subst hc
    obtain ⟨hc, ht2⟩ := getc_same_tail g1 g2 ht
    generalize getc g1 = q1 at hc ht2 ⊢
    generalize getc g2 = q2 at hc ht2 ⊢
    obtain ⟨b1, k1⟩ := q1
    obtain ⟨b2, k2⟩ := q2
    simp only [] at hc ht2 ⊢
    subst hc
    obtain ⟨hc, ht3⟩ := getc_same_tail k1 k2 ht2
    generalize getc k1 = q1 at hc ht3 ⊢
    generalize getc k2 = q2 at hc ht3 ⊢
    obtain ⟨c1, m1⟩ := q1
    obtain ⟨c2, m2⟩ := q2
    simp only [] at hc ht3 ⊢
    subst hc
    apply same_except_bind_same
    intro palette'
    apply read_bmp_palette_same_tail os2bmp n (i + 1) palette'
    cases os2bmp with
    | true => exact ht3
    | false => exact (getc_same_tail m1 m2 ht3).2

theorem getc_data (f : FILE) : (getc f).2.data = f.data := by
  unfold getc
  split <;> rfl

theorem read_bmp_palette_data (os2bmp : Bool) :
    ∀ (n i : Nat) (palette : List Pixel) (f : FILE) (r : List Pixel × FILE),
      read_bmp_palette os2bmp n i palette f = .ok r → r.2.data = f.data
  | 0, i, palette, f, r, h => by
    rw [read_bmp_palette] at h
    cases h
    rfl
  | n + 1, i, palette, f, r, h => by
    rw [read_bmp_palette] at h
    have e1 := getc_data f
    generalize getc f = q1 at h e1
    obtain ⟨a1, g1⟩ := q1
    have e2 := getc_data g1
    simp only [] at h e1
    generalize getc g1 = q2 at h e2
    obtain ⟨a2, g2⟩ := q2
    have e3 := getc_data g2
    simp only [] at h e2
    generalize getc g2 = q3 at h e3
    obtain ⟨a3, g3⟩ := q3
    simp only [] at h e3
    obtain ⟨p, _, hr⟩ := except_bind_eq_ok _ _ _ h
    have := read_bmp_palette_data os2bmp n (i + 1) p _ r hr
    rw [this]
    cases os2bmp with
    | true => exact e3.trans (e2.trans e1)
    | false => exact (getc_data g3).trans (e3.trans (e2.trans e1))

theorem read_bmp_data_same_tail (hdr : BmpHeader) (image : List Pixel) (w h : Nat)
    (f1 f2 : FILE) (palette : List Pixel) (ht : same_tail f1 f2)
    (hl : hdr.compression = 0 ∨ hdr.compression = 3 ∨ f1.data.length = f2.data.length) :
    same_except same_read (read_bmp_data hdr image w h f1 palette)
      (read_bmp_data hdr image w h f2 palette) := by
  unfold read_bmp_data
  by_cases h0 : hdr.compression = 0
  · rw [if_pos h0, if_pos h0]
    by_cases b1 : hdr.bits_per_pixel = 1
    · rw [if_pos b1, if_pos b1]
      exact read_bmp_1bpp_same_tail palette image w h f1 f2 ht
    rw [if_neg b1, if_neg b1]
    by_cases b4 : hdr.bits_per_pixel = 4
    · rw [if_pos b4, if_pos b4]
      exact read_bmp_4bpp_same_tail palette image w h f1 f2 ht
    rw [if_neg b4, if_neg b4]
    by_cases b8 : hdr.bits_per_pixel = 8
    · rw [if_pos b8, if_pos b8]
      exact read_bmp_8bpp_same_tail palette image w h f1 f2 ht
    rw [if_neg b8, if_neg b8]
    by_cases b24 : hdr.bits_per_pixel = 24
    · rw [if_pos b24, if_pos b24]
      exact read_bmp_24bpp_same_tail image w h f1 f2 ht
    rw [if_neg b24, if_neg b24]
    by_cases b16 : hdr.bits_per_pixel = 16
    · rw [if_pos b16, if_pos b16]
      exact read_bmp_16bpp_same_tail image w h f1 f2 _ _ _ _ ht
    rw [if_neg b16, if_neg b16]
    by_cases b32 : hdr.bits_per_pixel = 32
    · rw [if_pos b32, if_pos b32]
      exact read_bmp_32bpp_same_tail image w h f1 f2 _ _ _ _ ht
    rw [if_neg b32, if_neg b32]
    exact ⟨rfl, rfl, ht⟩
  rw [if_neg h0, if_neg h0]
  by_cases h1 : hdr.compression = 1
  · rw [if_pos h1, if_pos h1]
    by_cases b8 : hdr.bits_per_pixel = 8
    · rw [if_pos b8, if_pos b8]
      have hlen : f1.data.length = f2.data.length := by
        rcases hl with hl | hl | hl
        · exact absurd hl h0
        · rw [h1] at hl; cases hl
        · exact hl
      rw [read_bmp_8bpp_rle, read_bmp_8bpp_rle, hlen]
      exact read_bmp_8bpp_rle_loop_same_tail palette _ _ _ _ _ _ f1 f2 ht
    rw [if_neg b8, if_neg b8]
    exact ⟨rfl, rfl, ht⟩
  rw [if_neg h1, if_neg h1]
  by_cases h2 : hdr.compression = 2
  · rw [if_pos h2, if_pos h2]
    by_cases b4 : hdr.bits_per_pixel = 4
    · rw [if_pos b4, if_pos b4]
      have hlen : f1.data.length = f2.data.length := by
        rcases hl with hl | hl | hl
        · exact absurd hl h0
        · rw [h2] at hl; cases hl
        · exact hl
      rw [read_bmp_4bpp_rle, read_bmp_4bpp_rle, hlen]
      exact read_bmp_4bpp_rle_loop_same_tail palette _ _ _ _ _ _ f1 f2 ht
    rw [if_neg b4, if_neg b4]
    exact ⟨rfl, rfl, ht⟩
  rw [if_neg h2, if_neg h2]
  by_cases h3 : hdr.compression = 3
  · rw [if_pos h3, if_pos h3]
    by_cases b16 : hdr.bits_per_pixel = 16
    · rw [if_pos b16, if_pos b16]
      exact read_bmp_16bpp_same_tail image w h f1 f2 _ _ _ _ ht
    rw [if_neg b16, if_neg b16]
    by_cases b32 : hdr.bits_per_pixel = 32
    · rw [if_pos b32, if_pos b32]
      exact read_bmp_32bpp_same_tail image w h f1 f2 _ _ _ _ ht
    rw [if_neg b32, if_neg b32]
    exact ⟨rfl, rfl, ht⟩
  rw [if_neg h3, if_neg h3]
  exact ⟨rfl, rfl, ht⟩

/-- The `switch` of `read_bmp` uses the compression, the bit depth and, for compression 3
only, the four masks of the header. -/
theorem read_bmp_data_congr (hdr1 hdr2 : BmpHeader) (image : List Pixel) (w h : Nat)
    (f : FILE) (palette : List Pixel) (hc : hdr1.compression = hdr2.compression)
    (hb : hdr1.bits_per_pixel = hdr2.bits_per_pixel)
    (hm : hdr1.compression = 3 → hdr1.redmask = hdr2.redmask ∧
      hdr1.greenmask = hdr2.greenmask ∧ hdr1.bluemask = hdr2.bluemask ∧
      hdr1.alphamask = hdr2.alphamask) :
    read_bmp_data hdr1 image w h f palette = read_bmp_data hdr2 image w h f palette := by
  unfold read_bmp_data
  rw [hc, hb]
  by_cases h0 : hdr2.compression = 0
  · rw [if_pos h0, if_pos h0]
  rw [if_neg h0, if_neg h0]
  by_cases h1 : hdr2.compression = 1
  · rw [if_pos h1, if_pos h1]
  rw [if_neg h1, if_neg h1]
  by_cases h2 : hdr2.compression = 2
  · rw [if_pos h2, if_pos h2]
  rw [if_neg h2, if_neg h2]
  by_cases h3 : hdr2.compression = 3
  · obtain ⟨e1, e2, e3, e4⟩ := hm (hc.trans h3)
    rw [e1, e2, e3, e4]
  rw [if_neg h3, if_neg h3]

theorem read_bmp_body_same_tail (env : Env) (hdr : BmpHeader) (image : List Pixel)
    (g1 g2 : FILE) (isz off : Nat) (hisz : hdr.info_size = isz)
    (hoff : hdr.image_data_offset = off)
    (hlen : hdr.compression = 0 ∨ hdr.compression = 3 ∨ g1.data.length = g2.data.length)
    (hpal : hdr.bits_per_pixel ≤ 8 → g1.data.drop (14 + isz) = g2.data.drop (14 + isz))
    (hdata : g1.data.drop off = g2.data.drop off) :
    read_bmp_body env hdr image g1 = read_bmp_body env hdr image g2 := by
  have hs : (14 : Int) + hdr.info_size = ((14 + isz : Nat) : Int) := by
    rw [hisz]; push_cast; rfl
  have hfin : ∀ (pal : Ptr (List Pixel)) (table : List Pixel),
      (match read_bmp_data hdr image hdr.width.toNat hdr.height.toNat ⟨g1.data, off, false⟩
          table with
        | .error e => (.error e : Except Fault ReadResult)
        | .ok (success, image, _) =>
          .ok (read_bmp_exit success (Ptr.live image) hdr.width hdr.height pal))
      = (match read_bmp_data hdr image hdr.width.toNat hdr.height.toNat ⟨g2.data, off, false⟩
          table with
        | .error e => (.error e : Except Fault ReadResult)
        | .ok (success, image, _) =>
          .ok (read_bmp_exit success (Ptr.live image) hdr.width hdr.height pal)) := by
    intro pal table
    have hr := read_bmp_data_same_tail hdr image hdr.width.toNat hdr.height.toNat
      ⟨g1.data, off, false⟩ ⟨g2.data, off, false⟩ table ⟨rfl, hdata⟩ hlen
    generalize read_bmp_data hdr image hdr.width.toNat hdr.height.toNat ⟨g1.data, off, false⟩
      table = r1 at hr ⊢
    generalize read_bmp_data hdr image hdr.width.toNat hdr.height.toNat ⟨g2.data, off, false⟩
      table = r2 at hr ⊢
    cases r1 with
    | error e1 =>
      cases r2 with
      | error e2 => cases hr; rfl
      | ok b2 => exact hr.elim
    | ok b1 =>
      cases r2 with
      | error e2 => exact hr.elim
      | ok b2 =>
        obtain ⟨s1, i1, m1⟩ := b1
        obtain ⟨s2, i2, m2⟩ := b2
        obtain ⟨hs, hi, _⟩ := hr
        dsimp only at hs hi ⊢
        rw [hs, hi]
  unfold read_bmp_body
  by_cases hb : hdr.bits_per_pixel ≤ 8
  · rw [if_pos hb, if_pos hb]
    dsimp only
    rw [fseek_set_eq g1 _ (14 + isz) hs, fseek_set_eq g2 _ (14 + isz) hs]
    dsimp only
    by_cases hm : env.malloc_ok (4 * 256) = true
    · rw [if_pos hm, if_pos hm]
      have hp := read_bmp_palette_same_tail hdr.os2bmp
        (if hdr.num_colors = 0 then (1 <<< hdr.bits_per_pixel) % 4294967296 else hdr.num_colors)
        0 (List.replicate 256 Pixel.indeterminate) ⟨g1.data, 14 + isz, false⟩
        ⟨g2.data, 14 + isz, false⟩ ⟨rfl, hpal hb⟩
      generalize hr1 : read_bmp_palette hdr.os2bmp
        (if hdr.num_colors = 0 then (1 <<< hdr.bits_per_pixel) % 4294967296 else hdr.num_colors)
        0 (List.replicate 256 Pixel.indeterminate) ⟨g1.data, 14 + isz, false⟩ = r1 at hp ⊢
      generalize hr2 : read_bmp_palette hdr.os2bmp
        (if hdr.num_colors = 0 then (1 <<< hdr.bits_per_pixel) % 4294967296 else hdr.num_colors)
        0 (List.replicate 256 Pixel.indeterminate) ⟨g2.data, 14 + isz, false⟩ = r2 at hp ⊢
      cases r1 with
      | error e1 =>
        cases r2 with
        | error e2 => cases hp; rfl
        | ok b2 => exact hp.elim
      | ok b1 =>
        cases r2 with
        | error e2 => exact hp.elim
        | ok b2 =>
          obtain ⟨p1, m1⟩ := b1
          obtain ⟨p2, m2⟩ := b2
          obtain ⟨hpe, _⟩ := hp
          dsimp only at hpe
          subst hpe
          have d1 : m1.data = g1.data := read_bmp_palette_data _ _ _ _ _ _ hr1
          have d2 : m2.data = g2.data := read_bmp_palette_data _ _ _ _ _ _ hr2
          dsimp only
          rw [fseek_set_eq m1 _ off hoff, fseek_set_eq m2 _ off hoff]
          dsimp only
          have n1 : ¬ ((0 : Int) ≠ 0 ∨ feof ⟨m1.data, off, false⟩ = true) := by simp [feof]
          have n2 : ¬ ((0 : Int) ≠ 0 ∨ feof ⟨m2.data, off, false⟩ = true) := by simp [feof]
          rw [if_neg n1, if_neg n2, d1, d2]
          exact hfin _ _
    · rw [if_neg hm, if_neg hm]
  · rw [if_neg hb, if_neg hb]
    dsimp only
    rw [fseek_set_eq g1 _ off hoff, fseek_set_eq g2 _ off hoff]
    dsimp only
    have n1 : ¬ ((0 : Int) ≠ 0 ∨ feof ⟨g1.data, off, false⟩ = true) := by simp [feof]
    have n2 : ¬ ((0 : Int) ≠ 0 ∨ feof ⟨g2.data, off, false⟩ = true) := by simp [feof]
    rw [if_neg n1, if_neg n2]
    exact hfin _ _

/-- With a compression other than 3 the masks of the header are not used. -/
theorem read_bmp_body_masks (env : Env) (hdr : BmpHeader) (image : List Pixel) (g : FILE)
    (r gm b a : Nat) (hc : hdr.compression ≠ 3) :
    read_bmp_body env hdr image g
      = read_bmp_body env
          ⟨hdr.image_data_offset, hdr.info_size, hdr.os2bmp, hdr.width, hdr.height,
            hdr.num_planes, hdr.bits_per_pixel, hdr.compression, hdr.num_colors, r, gm, b, a⟩
          image g := by
  unfold read_bmp_body
  dsimp only
  have e : ∀ (w h : Nat) (f : FILE) (table : List Pixel),
      read_bmp_data hdr image w h f table
        = read_bmp_data ⟨hdr.image_data_offset, hdr.info_size, hdr.os2bmp, hdr.width, hdr.height,
            hdr.num_planes, hdr.bits_per_pixel, hdr.compression, hdr.num_colors, r, gm, b, a⟩
          image w h f table :=
    fun w h f table => read_bmp_data_congr _ _ image w h f table rfl rfl
      (fun h3 => absurd h3 hc)
  simp only [e]

/-! ## The headers of a stream that holds them -/

theorem read_bmp_file_header_avail (d : List Byte) (h18 : 18 ≤ d.length) :
    read_bmp_file_header (fopen d)
      = if ¬(d.getD 0 0 = 0x42 ∧ d.getD 1 0 = 0x4D) then none
        else if ((le32_at d 14 : Nat) : Int) < 12 then none
        else some (((le32_at d 10 : Nat) : Int), ((le32_at d 14 : Nat) : Int),
          (⟨d, 18, false⟩ : FILE)) := by
  unfold read_bmp_file_header fopen
  rw [fseek_set_zero]
  dsimp only
  rw [getc_lt d 0 false (by omega)]
  dsimp only
  rw [getc_lt d (0 + 1) false (by omega)]
  dsimp only
  rw [to_byte_byte_at, to_byte_byte_at, fseek_cur_eq d (0 + 1 + 1) false 8 8 rfl]
  dsimp only
  rw [read_u32_le_avail d (0 + 1 + 1 + 8) false (by omega)]
  dsimp only
  rw [read_u32_le_avail d (0 + 1 + 1 + 8 + 4) false (by omega)]
  rfl

theorem read_bmp_info_os2_avail (d : List Byte) (off isz : Int) (h26 : 26 ≤ d.length) :
    read_bmp_info_os2 off isz ⟨d, 18, false⟩
      = (⟨off, isz, true, le16_at d 18, le16_at d 20, le16_at d 22, le16_at d 24, 0, 0,
          0x00FF0000, 0x0000FF00, 0x000000FF, 0xFF000000⟩, ⟨d, 26, false⟩) := by
  unfold read_bmp_info_os2
  simp only [read_u16_le_avail d 18 false (by omega),
    read_u16_le_avail d (18 + 2) false (by omega),
    read_u16_le_avail d (18 + 2 + 2) false (by omega),
    read_u16_le_avail d (18 + 2 + 2 + 2) false (by omega)]

theorem read_bmp_info_windows_avail (d : List Byte) (off isz : Int) (h70 : 70 ≤ d.length) :
    read_bmp_info_windows off isz ⟨d, 18, false⟩
      = match c_abs (to_int (le32_at d 18)) with
        | .error e => .error e
        | .ok width =>
          match c_abs (to_int (le32_at d 22)) with
          | .error e => .error e
          | .ok height =>
            .ok (⟨off, isz, false, width, height, le16_at d 26, le16_at d 28, le32_at d 30,
              le32_at d 46, le32_at d 54, le32_at d 58, le32_at d 62, le32_at d 66⟩,
              ⟨d, 70, false⟩) := by
  unfold read_bmp_info_windows
  simp only [read_u32_le_avail d 18 false (by omega),
    read_u32_le_avail d (18 + 4) false (by omega),
    read_u16_le_avail d (18 + 4 + 4) false (by omega),
    read_u16_le_avail d (18 + 4 + 4 + 2) false (by omega),
    read_u32_le_avail d (18 + 4 + 4 + 2 + 2) false (by omega),
    fseek_cur_eq d (18 + 4 + 4 + 2 + 2 + 4) false 12 12 rfl,
    read_u32_le_avail d (18 + 4 + 4 + 2 + 2 + 4 + 12) false (by omega),
    fseek_cur_eq d (18 + 4 + 4 + 2 + 2 + 4 + 12 + 4) false 4 4 rfl,
    read_u32_le_avail d (18 + 4 + 4 + 2 + 2 + 4 + 12 + 4 + 4) false (by omega),
    read_u32_le_avail d (18 + 4 + 4 + 2 + 2 + 4 + 12 + 4 + 4 + 4) false (by omega),
    read_u32_le_avail d (18 + 4 + 4 + 2 + 2 + 4 + 12 + 4 + 4 + 4 + 4) false (by omega),
    read_u32_le_avail d (18 + 4 + 4 + 2 + 2 + 4 + 12 + 4 + 4 + 4 + 4 + 4) false (by omega)]

theorem byte_at_of_take (d1 d2 : List Byte) (p j : Nat) (h : d1.take p = d2.take p)
    (hj : j < p) : byte_at d1 j = byte_at d2 j := by
  have := congrArg (fun l => l[j]?) h
  simp only [List.getElem?_take, if_pos hj] at this
  simp only [byte_at, List.getD_eq_getElem?_getD, this]

theorem byte_at_of_drop (d1 d2 : List Byte) (q j : Nat) (h : d1.drop q = d2.drop q)
    (hj : q ≤ j) : byte_at d1 j = byte_at d2 j := by
  have := congrArg (fun l => l[j - q]?) h
  simp only [List.getElem?_drop] at this
  rw [show q + (j - q) = j by omega] at this
  simp only [byte_at, List.getD_eq_getElem?_getD, this]

theorem getD_of_take (d1 d2 : List Byte) (p j : Nat) (h : d1.take p = d2.take p)
    (hj : j < p) : d1.getD j 0 = d2.getD j 0 := by
  have := congrArg (fun l => l[j]?) h
  simp only [List.getElem?_take, if_pos hj] at this
  simp only [List.getD_eq_getElem?_getD, this]

theorem le32_at_of_take (d1 d2 : List Byte) (p j : Nat) (h : d1.take p = d2.take p)
    (hj : j + 4 ≤ p) : le32_at d1 j = le32_at d2 j := by
  unfold le32_at
  rw [byte_at_of_take d1 d2 p j h (by omega), byte_at_of_take d1 d2 p (j + 1) h (by omega),
    byte_at_of_take d1 d2 p (j + 2) h (by omega), byte_at_of_take d1 d2 p (j + 3) h (by omega)]

theorem le16_at_of_take (d1 d2 : List Byte) (p j : Nat) (h : d1.take p = d2.take p)
    (hj : j + 2 ≤ p) : le16_at d1 j = le16_at d2 j := by
  unfold le16_at
  rw [byte_at_of_take d1 d2 p j h (by omega), byte_at_of_take d1 d2 p (j + 1) h (by omega)]

theorem le32_at_of_drop (d1 d2 : List Byte) (q j : Nat) (h : d1.drop q = d2.drop q)
    (hj : q ≤ j) : le32_at d1 j = le32_at d2 j := by
  unfold le32_at
  rw [byte_at_of_drop d1 d2 q j h (by omega), byte_at_of_drop d1 d2 q (j + 1) h (by omega),
    byte_at_of_drop d1 d2 q (j + 2) h (by omega), byte_at_of_drop d1 d2 q (j + 3) h (by omega)]

theorem drop_of_drop (d1 d2 : List Byte) (q j : Nat) (h : d1.drop q = d2.drop q)
    (hj : q ≤ j) : d1.drop j = d2.drop j := by
  have := congrArg (List.drop (j - q)) h
  rw [List.drop_drop, List.drop_drop] at this
  rw [show q + (j - q) = j by omega] at this
  exact this

/-! ## The colour masks of a file that is not a bitfields file -/

/-- C35: two Windows-dialect streams that differ only in the four colour-mask fields
(bytes 54 to 69), whose compression field is not 3 and whose palette (for 8 bits per pixel
or less) and pixel data start after those fields, give the same result of `read_bmp`; and
for compression 0 the 16-bit and 32-bit readers are called with the fixed masks. -/
theorem read_bmp_ignores_masks (env : Env) (d1 d2 : List Byte)
    (h70 : 70 ≤ d1.length) (hlen : d1.length = d2.length)
    (hpre : d1.take 54 = d2.take 54) (hpost : d1.drop 70 = d2.drop 70)
    (hwin : le32_at d1 14 ≠ 12) (hcomp : le32_at d1 30 ≠ 3)
    (hpal : le16_at d1 28 ≤ 8 → 70 ≤ 14 + le32_at d1 14)
    (hoff : 70 ≤ le32_at d1 10) :
    read_bmp env (fopen d1) = read_bmp env (fopen d2) ∧
    (∀ (hdr : BmpHeader) (image : List Pixel) (w h : Nat) (f : FILE) (palette : List Pixel),
      hdr.compression = 0 →
      (hdr.bits_per_pixel = 16 → read_bmp_data hdr image w h f palette
        = read_bmp_16bpp image w h f (0x001F <<< 10) (0x001F <<< 5) 0x0001F 0) ∧
      (hdr.bits_per_pixel = 32 → read_bmp_data hdr image w h f palette
        = read_bmp_32bpp image w h f 0x00FF0000 0x0000FF00 0x000000FF 0xFF000000)) := by
  constructor
  · have h70b : 70 ≤ d2.length := by omega
    rw [read_bmp, read_bmp, read_bmp_header, read_bmp_header,
      read_bmp_file_header_avail d1 (by omega), read_bmp_file_header_avail d2 (by omega),
      ← getD_of_take d1 d2 54 0 hpre (by omega), ← getD_of_take d1 d2 54 1 hpre (by omega),
      ← le32_at_of_take d1 d2 54 14 hpre (by omega), ← le32_at_of_take d1 d2 54 10 hpre (by omega)]
    by_cases hm : ¬(d1.getD 0 0 = 0x42 ∧ d1.getD 1 0 = 0x4D)
    · rw [if_pos hm, if_pos hm]
    rw [if_neg hm, if_neg hm]
    by_cases hs : ((le32_at d1 14 : Nat) : Int) < 12
    · rw [if_pos hs, if_pos hs]
    rw [if_neg hs, if_neg hs]
    dsimp only
    have h12 : ¬ ((le32_at d1 14 : Nat) : Int) = 12 := by omega
    rw [if_neg h12, if_neg h12, read_bmp_info_windows_avail d1 _ _ h70,
      read_bmp_info_windows_avail d2 _ _ h70b,
      ← le32_at_of_take d1 d2 54 18 hpre (by omega), ← le32_at_of_take d1 d2 54 22 hpre (by omega),
      ← le16_at_of_take d1 d2 54 26 hpre (by omega), ← le16_at_of_take d1 d2 54 28 hpre (by omega),
      ← le32_at_of_take d1 d2 54 30 hpre (by omega), ← le32_at_of_take d1 d2 54 46 hpre (by omega)]
    cases c_abs (to_int (le32_at d1 18)) with
    | error e => rfl
    | ok width =>
      cases c_abs (to_int (le32_at d1 22)) with
      | error e => rfl
      | ok height =>
        dsimp only
        have f1 : feof ⟨d1, 70, false⟩ = false := rfl
        have f2 : feof ⟨d2, 70, false⟩ = false := rfl
        rw [f1, f2]
        by_cases c1 : width > env.MAX_IMAGE_SIZE ∨ height > env.MAX_IMAGE_SIZE
        · rw [if_pos c1, if_pos c1]
        rw [if_neg c1, if_neg c1]
        by_cases c2 : false = true ∨ le16_at d1 26 ≠ 1 ∨ le32_at d1 30 > 3
        · rw [if_pos c2, if_pos c2]
        rw [if_neg c2, if_neg c2]
        by_cases c3 : env.malloc_ok (4 * width.toNat * height.toNat) = true
        · rw [if_pos c3, if_pos c3]
          refine (read_bmp_body_masks env _ _ _ (le32_at d2 54) (le32_at d2 58) (le32_at d2 62)
            (le32_at d2 66) hcomp).trans ?_
          exact read_bmp_body_same_tail env _ _ ⟨d1, 70, false⟩ ⟨d2, 70, false⟩ (le32_at d1 14)
            (le32_at d1 10) rfl rfl (Or.inr (Or.inr hlen))
            (fun hb => drop_of_drop d1 d2 70 _ hpost (hpal hb))
            (drop_of_drop d1 d2 70 _ hpost hoff)
        · rw [if_neg c3, if_neg c3]
  · intro hdr image w h f palette hc
    constructor
    · intro hb
      rw [read_bmp_data, if_pos hc, hb, if_neg (by decide), if_neg (by decide),
        if_neg (by decide), if_neg (by decide), if_pos rfl]
    · intro hb
      rw [read_bmp_data, if_pos hc, hb, if_neg (by decide), if_neg (by decide),
        if_neg (by decide), if_neg (by decide), if_neg (by decide), if_pos rfl]

theorem read_bmp_ignores_masks_witness :
    read_bmp Env.sample (fopen bmp_1x1_16bpp_masks_zero)
      = read_bmp Env.sample (fopen bmp_1x1_16bpp_masks_other) :=
  (read_bmp_ignores_masks Env.sample bmp_1x1_16bpp_masks_zero bmp_1x1_16bpp_masks_other
    (by decide) (by decide) (by decide) (by decide) (by decide) (by decide) (by decide)
    (by decide)).1

set_option maxRecDepth 100000 in
/-- The two sample files decode to the same red pixel, read with the default 5-5-5 masks:
the masks of the second file (5-6-5 with alpha) are not used. -/
theorem read_bmp_masks_sample :
    read_bmp Env.sample (fopen bmp_1x1_16bpp_masks_zero)
      = .ok ⟨1, Ptr.live [⟨248, 0, 0, 0⟩], 1, 1, Ptr.null⟩ ∧
    read_bmp Env.sample (fopen bmp_1x1_16bpp_masks_other)
      = .ok ⟨1, Ptr.live [⟨248, 0, 0, 0⟩], 1, 1, Ptr.null⟩ := by
  decide!

/-! ## The sign of the width and height fields -/

theorem read_u16_le_data (f : FILE) : (read_u16_le f).2.data = f.data := by
  have e : ∀ f, (read_u16_le f).2 = (getc (getc f).2).2 := fun f => rfl
  rw [e, getc_data, getc_data]

theorem read_u32_le_data (f : FILE) : (read_u32_le f).2.data = f.data := by
  have e : ∀ f, (read_u32_le f).2 = (getc (getc (getc (getc f).2).2).2).2 := fun f => rfl
  rw [e, getc_data, getc_data, getc_data, getc_data]

theorem read_u16_le_same_of (d1 d2 : List Byte) (f1 f2 : FILE) (h : same_tail_of d1 d2 f1 f2) :
    ∃ v g1 g2, read_u16_le f1 = (v, g1) ∧ read_u16_le f2 = (v, g2) ∧
      same_tail_of d1 d2 g1 g2 := by
  obtain ⟨ht, e1, e2⟩ := h
  obtain ⟨hv, ht2⟩ := read_u16_le_same_tail f1 f2 ht
  refine ⟨(read_u16_le f1).1, (read_u16_le f1).2, (read_u16_le f2).2, rfl, ?_, ht2, ?_, ?_⟩
  · rw [hv]
  · rw [read_u16_le_data, e1]
  · rw [read_u16_le_data, e2]

theorem read_u32_le_same_of (d1 d2 : List Byte) (f1 f2 : FILE) (h : same_tail_of d1 d2 f1 f2) :
    ∃ v g1 g2, read_u32_le f1 = (v, g1) ∧ read_u32_le f2 = (v, g2) ∧
      same_tail_of d1 d2 g1 g2 := by
  obtain ⟨ht, e1, e2⟩ := h
  obtain ⟨hv, ht2⟩ := read_u32_le_same_tail f1 f2 ht
  refine ⟨(read_u32_le f1).1, (read_u32_le f1).2, (read_u32_le f2).2, rfl, ?_, ht2, ?_, ?_⟩
  · rw [hv]
  · rw [read_u32_le_data, e1]
  · rw [read_u32_le_data, e2]

theorem fseek_cur_same_of (d1 d2 : List Byte) (f1 f2 : FILE) (n : Nat) (off : Int)
    (hn : off = (n : Int)) (h : same_tail_of d1 d2 f1 f2) :
    ∃ g1 g2, fseek_cur f1 off = (0, g1) ∧ fseek_cur f2 off = (0, g2) ∧
      same_tail_of d1 d2 g1 g2 := by
  obtain ⟨ht, e1, e2⟩ := h
  obtain ⟨a1, p1, b1⟩ := f1
  obtain ⟨a2, p2, b2⟩ := f2
  obtain ⟨_, hd⟩ := ht
  dsimp only at e1 e2 hd
  subst e1
  subst e2
  refine ⟨⟨a1, p1 + n, false⟩, ⟨a2, p2 + n, false⟩, fseek_cur_eq a1 p1 b1 off n hn,
    fseek_cur_eq a2 p2 b2 off n hn, ⟨rfl, ?_⟩, rfl, rfl⟩
  dsimp only
  have := congrArg (List.drop n) hd
  rw [List.drop_drop, List.drop_drop] at this
  exact this

theorem c_abs_ok (v w : Int) (h : c_abs v = .ok w) : w = (v.natAbs : Int) := by
  unfold c_abs at h
  split at h
  · cases h
  · cases h
    rfl

theorem c_abs_neg (v : Int) (h1 : v ≠ -2147483648) (h2 : v ≠ 2147483648) :
    c_abs (-v) = c_abs v := by
  unfold c_abs
  rw [if_neg h1, if_neg (by omega), Int.natAbs_neg]

theorem to_int_lt (v : Nat) : to_int v < 2147483648 := by
  unfold to_int
  split <;> omega

/-- The info header of two Windows files that hold the width and the height, give the same
absolute values for them and agree from byte 26 on: the same fields, and streams with the
same bytes left. -/
theorem read_bmp_info_windows_same (off isz : Int) (d1 d2 : List Byte)
    (h1 : 26 ≤ d1.length) (h2 : 26 ≤ d2.length)
    (hw : c_abs (to_int (le32_at d2 18)) = c_abs (to_int (le32_at d1 18)))
    (hh : c_abs (to_int (le32_at d2 22)) = c_abs (to_int (le32_at d1 22)))
    (ht : d1.drop 26 = d2.drop 26) :
    (∃ e, read_bmp_info_windows off isz ⟨d1, 18, false⟩ = .error e ∧
      read_bmp_info_windows off isz ⟨d2, 18, false⟩ = .error e) ∨
    (∃ hdr g1 g2, read_bmp_info_windows off isz ⟨d1, 18, false⟩ = .ok (hdr, g1) ∧
      read_bmp_info_windows off isz ⟨d2, 18, false⟩ = .ok (hdr, g2) ∧
      g1.eof = g2.eof ∧ g1.data = d1 ∧ g2.data = d2 ∧
      hdr.image_data_offset = off ∧ hdr.info_size = isz ∧
      hdr.width = ((to_int (le32_at d1 18)).natAbs : Int) ∧
      hdr.height = ((to_int (le32_at d1 22)).natAbs : Int)) := by
  unfold read_bmp_info_windows
  rw [read_u32_le_avail d1 18 false (by omega), read_u32_le_avail d2 18 false (by omega)]
  dsimp only
  rw [hw]
  cases hcw : c_abs (to_int (le32_at d1 18)) with
  | error e => exact Or.inl ⟨e, rfl, rfl⟩
  | ok width =>
    dsimp only
    rw [read_u32_le_avail d1 (18 + 4) false (by omega),
      read_u32_le_avail d2 (18 + 4) false (by omega)]
    dsimp only
    rw [show le32_at d2 (18 + 4) = le32_at d2 22 from rfl,
      show le32_at d1 (18 + 4) = le32_at d1 22 from rfl, hh]
    cases hch : c_abs (to_int (le32_at d1 22)) with
    | error e => exact Or.inl ⟨e, rfl, rfl⟩
    | ok height =>
      dsimp only
      have t0 : same_tail_of d1 d2 ⟨d1, 18 + 4 + 4, false⟩ ⟨d2, 18 + 4 + 4, false⟩ :=
        ⟨⟨rfl, ht⟩, rfl, rfl⟩
      obtain ⟨v1, a1, a2, ea1, ea2, t1⟩ := read_u16_le_same_of d1 d2 _ _ t0
      rw [ea1, ea2]
      dsimp only
      obtain ⟨v2, b1, b2, eb1, eb2, t2⟩ := read_u16_le_same_of d1 d2 _ _ t1
      rw [eb1, eb2]
      dsimp only
      obtain ⟨v3, c1, c2, ec1, ec2, t3⟩ := read_u32_le_same_of d1 d2 _ _ t2
      rw [ec1, ec2]
      dsimp only
      obtain ⟨k1, k2, ek1, ek2, t4⟩ := fseek_cur_same_of d1 d2 _ _ 12 12 rfl t3
      rw [ek1, ek2]
      dsimp only
      obtain ⟨v5, m1, m2, em1, em2, t5⟩ := read_u32_le_same_of d1 d2 _ _ t4
      rw [em1, em2]
      dsimp only
      obtain ⟨n1, n2, en1, en2, t6⟩ := fseek_cur_same_of d1 d2 _ _ 4 4 rfl t5
      rw [en1, en2]
      dsimp only
      obtain ⟨v7, o1, o2, eo1, eo2, t7⟩ := read_u32_le_same_of d1 d2 _ _ t6
      rw [eo1, eo2]
      dsimp only
      obtain ⟨v8, p1, p2, ep1, ep2, t8⟩ := read_u32_le_same_of d1 d2 _ _ t7
      rw [ep1, ep2]
      dsimp only
      obtain ⟨v9, q1, q2, eq1, eq2, t9⟩ := read_u32_le_same_of d1 d2 _ _ t8
      rw [eq1, eq2]
      dsimp only
      obtain ⟨v10, r1, r2, er1, er2, t10⟩ := read_u32_le_same_of d1 d2 _ _ t9
      rw [er1, er2]
      exact Or.inr ⟨_, r1, r2, rfl, rfl, t10.1.1, t10.2.1, t10.2.2, rfl, rfl,
        c_abs_ok _ _ hcw, c_abs_ok _ _ hch⟩

/-- C34: for a Windows-dialect stream that holds the width and height fields and whose
pixel data starts at byte 26 or later, replacing the 32-bit field at offset `p` (18 for
the width, 22 for the height) by its negation, for values other than -2^31, does not
change the result of `read_bmp`; the dimensions that the header yields are the absolute
values of the two fields. -/
theorem read_bmp_negated_dimension (env : Env) (d1 d2 : List Byte) (p : Nat)
    (hp : p = 18 ∨ p = 22) (h26 : 26 ≤ d1.length) (hlen : d1.length = d2.length)
    (hpre : d1.take p = d2.take p) (hpost : d1.drop (p + 4) = d2.drop (p + 4))
    (hneg : to_int (le32_at d2 p) = -to_int (le32_at d1 p))
    (hmin : to_int (le32_at d1 p) ≠ -2147483648)
    (hwin : le32_at d1 14 ≠ 12) (hoff : 26 ≤ le32_at d1 10) :
    read_bmp env (fopen d1) = read_bmp env (fopen d2) ∧
    (∀ hdr f, read_bmp_header (fopen d1) = .ok (some (hdr, f)) →
      hdr.width = ((to_int (le32_at d1 18)).natAbs : Int) ∧
      hdr.height = ((to_int (le32_at d1 22)).natAbs : Int)) := by
  have h26b : 26 ≤ d2.length := by omega
  have hneg2 : c_abs (to_int (le32_at d2 p)) = c_abs (to_int (le32_at d1 p)) := by
    rw [hneg]
    exact c_abs_neg _ hmin (by have := to_int_lt (le32_at d1 p); omega)
  have ht : d1.drop 26 = d2.drop 26 :=
    drop_of_drop d1 d2 (p + 4) 26 hpost (by rcases hp with hp | hp <;> omega)
  have g0 : d1.getD 0 0 = d2.getD 0 0 :=
    getD_of_take d1 d2 p 0 hpre (by rcases hp with hp | hp <;> omega)
  have g1 : d1.getD 1 0 = d2.getD 1 0 :=
    getD_of_take d1 d2 p 1 hpre (by rcases hp with hp | hp <;> omega)
  have g10 : le32_at d1 10 = le32_at d2 10 :=
    le32_at_of_take d1 d2 p 10 hpre (by rcases hp with hp | hp <;> omega)
  have g14 : le32_at d1 14 = le32_at d2 14 :=
    le32_at_of_take d1 d2 p 14 hpre (by rcases hp with hp | hp <;> omega)
  have hw : c_abs (to_int (le32_at d2 18)) = c_abs (to_int (le32_at d1 18)) := by
    rcases hp with hp | hp
    · subst hp; exact hneg2
    · subst hp
      rw [le32_at_of_take d1 d2 22 18 hpre (by omega)]
  have hh : c_abs (to_int (le32_at d2 22)) = c_abs (to_int (le32_at d1 22)) := by
    rcases hp with hp | hp
    · subst hp
      rw [le32_at_of_drop d1 d2 22 22 hpost (by omega)]
    · subst hp; exact hneg2
  constructor
  · rw [read_bmp, read_bmp, read_bmp_header, read_bmp_header,
      read_bmp_file_header_avail d1 (by omega), read_bmp_file_header_avail d2 (by omega),
      ← g0, ← g1, ← g10, ← g14]
    by_cases hm : ¬(d1.getD 0 0 = 0x42 ∧ d1.getD 1 0 = 0x4D)
    · rw [if_pos hm, if_pos hm]
    rw [if_neg hm, if_neg hm]
    by_cases hs : ((le32_at d1 14 : Nat) : Int) < 12
    · rw [if_pos hs, if_pos hs]
    rw [if_neg hs, if_neg hs]
    dsimp only
    have h12 : ¬ ((le32_at d1 14 : Nat) : Int) = 12 := by omega
    rw [if_neg h12, if_neg h12]
    rcases read_bmp_info_windows_same (le32_at d1 10) (le32_at d1 14) d1 d2 h26 h26b hw hh ht
      with ⟨e, e1, e2⟩ | ⟨hdr, f1, f2, e1, e2, heof, hd1, hd2, ho, hi, _, _⟩
    · rw [e1, e2]
    · rw [e1, e2]
      dsimp only
      have hf : feof f1 = feof f2 := heof
      rw [hf]
      by_cases c1 : hdr.width > env.MAX_IMAGE_SIZE ∨ hdr.height > env.MAX_IMAGE_SIZE
      · rw [if_pos c1, if_pos c1]
      rw [if_neg c1, if_neg c1]
      by_cases c2 : feof f2 = true ∨ hdr.num_planes ≠ 1 ∨ hdr.compression > 3
      · rw [if_pos c2, if_pos c2]
      rw [if_neg c2, if_neg c2]
      by_cases c3 : env.malloc_ok (4 * hdr.width.toNat * hdr.height.toNat) = true
      · rw [if_pos c3, if_pos c3]
        exact read_bmp_body_same_tail env hdr _ f1 f2 (le32_at d1 14) (le32_at d1 10) hi ho
          (Or.inr (Or.inr (by rw [hd1, hd2]; exact hlen)))
          (fun _ => by rw [hd1, hd2]; exact drop_of_drop d1 d2 26 _ ht (by omega))
          (by rw [hd1, hd2]; exact drop_of_drop d1 d2 26 _ ht hoff)
      · rw [if_neg c3, if_neg c3]
  · intro hdr f hh1
    rw [read_bmp_header, read_bmp_file_header_avail d1 (by omega)] at hh1
    by_cases hm : ¬(d1.getD 0 0 = 0x42 ∧ d1.getD 1 0 = 0x4D)
    · rw [if_pos hm] at hh1
      cases hh1
    rw [if_neg hm] at hh1
    by_cases hs : ((le32_at d1 14 : Nat) : Int) < 12
    · rw [if_pos hs] at hh1
      cases hh1
    rw [if_neg hs] at hh1
    dsimp only at hh1
    have h12 : ¬ ((le32_at d1 14 : Nat) : Int) = 12 := by omega
    rw [if_neg h12] at hh1
    rcases read_bmp_info_windows_same (le32_at d1 10) (le32_at d1 14) d1 d1 h26 h26 rfl rfl rfl
      with ⟨e, e1, _⟩ | ⟨hdr2, f1, f2, e1, _, _, _, _, _, _, hw2, hh2⟩
    · rw [e1] at hh1
      cases hh1
    · rw [e1] at hh1
      cases hh1
      exact ⟨hw2, hh2⟩

theorem read_bmp_negated_dimension_witness :
    read_bmp Env.sample (fopen bmp_1x2_24bpp) = read_bmp Env.sample (fopen bmp_1x2_24bpp_neg) :=
  (read_bmp_negated_dimension Env.sample bmp_1x2_24bpp bmp_1x2_24bpp_neg 22 (Or.inr rfl)
    (by decide) (by decide) (by decide) (by decide) (by decide) (by decide) (by decide)
    (by decide)).1

set_option maxRecDepth 100000 in
/-- The height -2 is read as 2 and the rows are decoded bottom-up as for the height 2: the
first row of the file, red, is the bottom row of the image. -/
theorem read_bmp_negative_height_sample :
    read_bmp Env.sample (fopen bmp_1x2_24bpp_neg)
      = .ok ⟨1, Ptr.live [⟨0, 0, 255, 255⟩, ⟨255, 0, 0, 255⟩], 1, 2, Ptr.null⟩ := by
  decide!

set_option maxRecDepth 100000 in
/-- A file whose pixel data offset points at the height field: the height 1 and the height
-1 give the same dimensions and different pixels, as the bytes of the field are the
pixel. -/
theorem read_bmp_negated_height_in_data :
    bmp_1x1_data_in_header.take 22 = bmp_1x1_data_in_header_neg.take 22 ∧
    bmp_1x1_data_in_header.drop 26 = bmp_1x1_data_in_header_neg.drop 26 ∧
    to_int (le32_at bmp_1x1_data_in_header 22) = 1 ∧
    to_int (le32_at bmp_1x1_data_in_header_neg 22) = -1 ∧
    read_bmp Env.sample (fopen bmp_1x1_data_in_header)
      = .ok ⟨1, Ptr.live [⟨0, 0, 1, 255⟩], 1, 1, Ptr.null⟩ ∧
    read_bmp Env.sample (fopen bmp_1x1_data_in_header_neg)
      = .ok ⟨1, Ptr.live [⟨255, 255, 255, 255⟩], 1, 1, Ptr.null⟩ := by
  decide!

/-! ## The OS/2 dialect -/

theorem read_bmp_body_palette (env : Env) (hdr : BmpHeader) (image : List Pixel)
    (data : List Byte) (pos : Nat) (eof : Bool) (isz off : Nat)
    (hb : hdr.bits_per_pixel ≤ 8) (hn : palette_size hdr ≤ 256)
    (hisz : hdr.info_size = isz) (hoff : hdr.image_data_offset = off)
    (hm : env.malloc_ok (4 * 256) = true)
    (hpal : 14 + isz + palette_size hdr * palette_entry_bytes hdr ≤ data.length) :
    ∃ table : List Pixel, table.length = 256 ∧
      (∀ i, i < palette_size hdr →
        table.getD i default = file_palette_entry data (14 + isz) (palette_entry_bytes hdr) i) ∧
      (∀ i, palette_size hdr ≤ i → i < 256 → table.getD i default = table.getD 0 default) ∧
      read_bmp_body env hdr image ⟨data, pos, eof⟩
        = match read_bmp_data hdr image hdr.width.toNat hdr.height.toNat ⟨data, off, false⟩
            table with
          | .error e => .error e
          | .ok (success, image, _) =>
            .ok (read_bmp_exit success (Ptr.live image) hdr.width hdr.height
              (Ptr.live table)) := by
  obtain ⟨palette', e, hl, hg⟩ :=
    read_bmp_palette_spec hdr.os2bmp data (palette_size hdr) 0 (14 + isz)
      (List.replicate 256 Pixel.indeterminate) (by rw [List.length_replicate]; omega) hpal
  have hpos := palette_size_pos hdr
  obtain ⟨fl, fg⟩ :=
    read_bmp_palette_fill_spec (256 - palette_size hdr) (palette_size hdr) palette' hpos
      (by rw [hl, List.length_replicate]; omega)
  refine ⟨read_bmp_palette_fill (256 - palette_size hdr) (palette_size hdr) palette', ?_, ?_, ?_,
    ?_⟩
  · rw [fl, hl, List.length_replicate]
  · intro i hi
    have hn1 : ¬ (palette_size hdr ≤ i ∧ i < palette_size hdr + (256 - palette_size hdr)) := by
      omega
    have hp1 : 0 ≤ i ∧ i < 0 + palette_size hdr := by omega
    rw [fg i, if_neg hn1, hg i, if_pos hp1, Nat.sub_zero]
    rfl
  · intro i hi hi2
    have hp1 : palette_size hdr ≤ i ∧ i < palette_size hdr + (256 - palette_size hdr) := by
      omega
    have hn1 : ¬ (palette_size hdr ≤ 0 ∧ 0 < palette_size hdr + (256 - palette_size hdr)) := by
      omega
    rw [fg i, if_pos hp1, fg 0, if_neg hn1]
  · unfold read_bmp_body
    rw [if_pos hb]
    dsimp only
    rw [fseek_set_eq _ (14 + hdr.info_size) (14 + isz) (by rw [hisz]; push_cast; rfl),
      palette_size_eq hdr hb, if_pos hm]
    dsimp only
    rw [e]
    dsimp only
    rw [fseek_set_eq _ _ off hoff]
    dsimp only
    have hne : ¬ ((0 : Int) ≠ 0 ∨ feof ⟨data, off, false⟩ = true) := by simp [feof]
    exact if_neg hne

theorem read_bmp_body_no_table (env : Env) (hdr : BmpHeader) (image : List Pixel)
    (file : FILE) (hb : hdr.bits_per_pixel ≤ 8) (hm : env.malloc_ok (4 * 256) = false) :
    read_bmp_body env hdr image file
      = .ok (read_bmp_exit 0 (Ptr.live image) hdr.width hdr.height Ptr.null) := by
  unfold read_bmp_body
  rw [if_pos hb]
  dsimp only
  generalize fseek_set file (14 + hdr.info_size) = q
  obtain ⟨rc, f⟩ := q
  dsimp only
  have hm2 : ¬ env.malloc_ok (4 * 256) = true := by rw [hm]; decide
  rw [if_neg hm2]

theorem read_bmp_finish_congr (r1 r2 : Except Fault (Int × List Pixel × FILE)) (w h : Int)
    (pal : Ptr (List Pixel)) :
    same_except same_read r1 r2 →
    (match r1 with
      | .error e => (.error e : Except Fault ReadResult)
      | .ok (success, image, _) => .ok (read_bmp_exit success (Ptr.live image) w h pal))
    = (match r2 with
      | .error e => (.error e : Except Fault ReadResult)
      | .ok (success, image, _) => .ok (read_bmp_exit success (Ptr.live image) w h pal)) := by
  intro hr
  cases r1 with
  | error e1 =>
    cases r2 with
    | error e2 => cases hr; rfl
    | ok b2 => exact hr.elim
  | ok b1 =>
    cases r2 with
    | error e2 => exact hr.elim
    | ok b2 =>
      obtain ⟨s1, i1, m1⟩ := b1
      obtain ⟨s2, i2, m2⟩ := b2
      obtain ⟨hs, hi, _⟩ := hr
      dsimp only at hs hi ⊢
      rw [hs, hi]

/-- The part of `read_bmp` after the headers on an OS/2 file and on a Windows file with
the same dimensions, depth, palette colours and pixel data. -/
theorem read_bmp_body_os2_windows (env : Env) (hdr1 hdr2 : BmpHeader) (image : List Pixel)
    (d1 d2 : List Byte) (p1 p2 : Nat) (e1 e2 : Bool) (isz2 off1 off2 : Nat)
    (ho1 : hdr1.os2bmp = true) (ho2 : hdr2.os2bmp = false)
    (hi1 : hdr1.info_size = 12) (hi2 : hdr2.info_size = isz2)
    (hoff1 : hdr1.image_data_offset = off1) (hoff2 : hdr2.image_data_offset = off2)
    (hw : hdr2.width = hdr1.width) (hh : hdr2.height = hdr1.height)
    (hb : hdr2.bits_per_pixel = hdr1.bits_per_pixel)
    (hc1 : hdr1.compression = 0) (hc2 : hdr2.compression = 0)
    (hn1 : hdr1.num_colors = 0)
    (hn2 : hdr2.num_colors = 0 ∨ hdr2.num_colors = 2 ^ hdr1.bits_per_pixel)
    (hpal : hdr1.bits_per_pixel ≤ 8 →
      26 + 2 ^ hdr1.bits_per_pixel * 3 ≤ d1.length ∧
      14 + isz2 + 2 ^ hdr1.bits_per_pixel * 4 ≤ d2.length ∧
      ∀ i, i < 2 ^ hdr1.bits_per_pixel →
        file_palette_entry d1 26 3 i = file_palette_entry d2 (14 + isz2) 4 i)
    (hdata : d1.drop off1 = d2.drop off2) :
    read_bmp_body env hdr1 image ⟨d1, p1, e1⟩ = read_bmp_body env hdr2 image ⟨d2, p2, e2⟩ := by
  have hd : ∀ table : List Pixel,
      same_except same_read
        (read_bmp_data hdr1 image hdr1.width.toNat hdr1.height.toNat ⟨d1, off1, false⟩ table)
        (read_bmp_data hdr2 image hdr1.width.toNat hdr1.height.toNat ⟨d2, off2, false⟩
          table) := by
    intro table
    rw [← read_bmp_data_congr hdr1 hdr2 image _ _ _ table (hc1.trans hc2.symm) hb.symm
      (fun h3 => by rw [hc1] at h3; cases h3)]
    exact read_bmp_data_same_tail hdr1 image _ _ _ _ table ⟨rfl, hdata⟩ (Or.inl hc1)
  by_cases h8 : hdr1.bits_per_pixel ≤ 8
  · by_cases hm : env.malloc_ok (4 * 256) = true
    · obtain ⟨hl1, hl2, hcol⟩ := hpal h8
      have s1 : palette_size hdr1 = 2 ^ hdr1.bits_per_pixel := by
        rw [palette_size, if_pos hn1]
      have s2 : palette_size hdr2 = 2 ^ hdr1.bits_per_pixel := by
        rw [palette_size, hb]
        rcases hn2 with h0 | h0
        · rw [if_pos h0]
        · rw [h0]
          split <;> rfl
      have b1 : palette_entry_bytes hdr1 = 3 := by rw [palette_entry_bytes, ho1]; rfl
      have b2 : palette_entry_bytes hdr2 = 4 := by rw [palette_entry_bytes, ho2]; rfl
      have hle : 2 ^ hdr1.bits_per_pixel ≤ 256 :=
        Nat.pow_le_pow_right (by decide) h8
      have hpos : 1 ≤ 2 ^ hdr1.bits_per_pixel := Nat.one_le_two_pow
      obtain ⟨t1, tl1, ta1, tb1, te1⟩ :=
        read_bmp_body_palette env hdr1 image d1 p1 e1 12 off1 h8 (by rw [s1]; exact hle)
          hi1 hoff1 hm (by rw [s1, b1]; exact hl1)
      obtain ⟨t2, tl2, ta2, tb2, te2⟩ :=
        read_bmp_body_palette env hdr2 image d2 p2 e2 isz2 off2 (by rw [hb]; exact h8)
          (by rw [s2]; exact hle) hi2 hoff2 hm (by rw [s2, b2]; exact hl2)
      rw [s1, b1] at ta1
      rw [s1] at tb1
      rw [s2, b2] at ta2
      rw [s2] at tb2
      have ht : t1 = t2 := by
        apply list_ext_getD default t1 t2 (tl1.trans tl2.symm)
        intro j hj
        rw [tl1] at hj
        by_cases hjn : j < 2 ^ hdr1.bits_per_pixel
        · rw [ta1 j hjn, ta2 j hjn]
          exact hcol j hjn
        · rw [tb1 j (by omega) hj, tb2 j (by omega) hj, ta1 0 (by omega), ta2 0 (by omega)]
          exact hcol 0 (by omega)
      subst ht
      rw [te1, te2, hw, hh]
      exact read_bmp_finish_congr _ _ _ _ _ (hd t1)
    · have hm2 : env.malloc_ok (4 * 256) = false := by
        cases hq : env.malloc_ok (4 * 256) with
        | true => exact absurd hq hm
        | false => rfl
      rw [read_bmp_body_no_table env hdr1 image _ h8 hm2,
        read_bmp_body_no_table env hdr2 image _ (by rw [hb]; exact h8) hm2, hw, hh]
  · rw [read_bmp_body_no_palette env hdr1 image _ (by omega) off1 hoff1,
      read_bmp_body_no_palette env hdr2 image _ (by rw [hb]; omega) off2 hoff2, hw, hh]
    exact read_bmp_finish_congr _ _ _ _ _ (hd [])

theorem c_abs_nat (n : Nat) : c_abs (n : Int) = .ok (n : Int) := by
  unfold c_abs
  rw [if_neg (by omega), Int.natAbs_ofNat]

theorem read_bmp_header_os2 (d : List Byte) (h26 : 26 ≤ d.length)
    (hm : d.getD 0 0 = 0x42 ∧ d.getD 1 0 = 0x4D) (hos2 : le32_at d 14 = 12) :
    read_bmp_header (fopen d)
      = .ok (some (⟨le32_at d 10, 12, true, le16_at d 18, le16_at d 20, le16_at d 22,
          le16_at d 24, 0, 0, 0x00FF0000, 0x0000FF00, 0x000000FF, 0xFF000000⟩,
          ⟨d, 26, false⟩)) := by
  rw [read_bmp_header, read_bmp_file_header_avail d (by omega), if_neg (not_not.mpr hm), hos2,
    if_neg (by decide)]
  dsimp only
  rw [if_pos (by decide), read_bmp_info_os2_avail d _ _ h26]
  rfl

theorem read_bmp_header_windows (d : List Byte) (h70 : 70 ≤ d.length)
    (hm : d.getD 0 0 = 0x42 ∧ d.getD 1 0 = 0x4D) (hwin : 12 < le32_at d 14) (w h : Nat)
    (hw : to_int (le32_at d 18) = w) (hh : to_int (le32_at d 22) = h) :
    read_bmp_header (fopen d)
      = .ok (some (⟨le32_at d 10, le32_at d 14, false, w, h, le16_at d 26, le16_at d 28,
          le32_at d 30, le32_at d 46, le32_at d 54, le32_at d 58, le32_at d 62, le32_at d 66⟩,
          ⟨d, 70, false⟩)) := by
  have h1 : ¬ ((le32_at d 14 : Nat) : Int) < 12 := by omega
  have h2 : ¬ ((le32_at d 14 : Nat) : Int) = 12 := by omega
  rw [read_bmp_header, read_bmp_file_header_avail d (by omega), if_neg (not_not.mpr hm),
    if_neg h1]
  dsimp only
  rw [if_neg h2, read_bmp_info_windows_avail d _ _ h70, hw, hh, c_abs_nat, c_abs_nat]

/-- C33: an OS/2 stream (info-header size 12) that holds its headers is read with the
width, height, planes and depth as the four 16-bit fields at bytes 18 to 25, compression
0, and, for 8 bits per pixel or less, a palette of `2 ^ bpp` entries of 3 bytes from byte
26; and the result of `read_bmp` on it equals the result on a Windows-dialect stream of at
least 70 bytes with the same dimensions, planes, depth, palette colours and pixel data. -/
theorem read_bmp_os2_dialect (env : Env) (d1 d2 : List Byte)
    (h26 : 26 ≤ d1.length) (h70 : 70 ≤ d2.length)
    (hm1 : d1.getD 0 0 = 0x42 ∧ d1.getD 1 0 = 0x4D)
    (hm2 : d2.getD 0 0 = 0x42 ∧ d2.getD 1 0 = 0x4D)
    (hos2 : le32_at d1 14 = 12) (hwin : 12 < le32_at d2 14)
    (hw : to_int (le32_at d2 18) = le16_at d1 18)
    (hh : to_int (le32_at d2 22) = le16_at d1 20)
    (hp : le16_at d2 26 = le16_at d1 22) (hb : le16_at d2 28 = le16_at d1 24)
    (hc : le32_at d2 30 = 0)
    (hn : le32_at d2 46 = 0 ∨ le32_at d2 46 = 2 ^ le16_at d1 24)
    (hpal : le16_at d1 24 ≤ 8 →
      26 + 2 ^ le16_at d1 24 * 3 ≤ d1.length ∧
      14 + le32_at d2 14 + 2 ^ le16_at d1 24 * 4 ≤ d2.length ∧
      ∀ i, i < 2 ^ le16_at d1 24 →
        file_palette_entry d1 26 3 i = file_palette_entry d2 (14 + le32_at d2 14) 4 i)
    (hdata : d1.drop (le32_at d1 10) = d2.drop (le32_at d2 10)) :
    read_bmp_header (fopen d1)
      = .ok (some (⟨le32_at d1 10, 12, true, le16_at d1 18, le16_at d1 20, le16_at d1 22,
          le16_at d1 24, 0, 0, 0x00FF0000, 0x0000FF00, 0x000000FF, 0xFF000000⟩,
          ⟨d1, 26, false⟩)) ∧
    (∀ hdr : BmpHeader, hdr.os2bmp = true → hdr.num_colors = 0 → hdr.info_size = 12 →
      palette_size hdr = 2 ^ hdr.bits_per_pixel ∧ palette_entry_bytes hdr = 3 ∧
      14 + hdr.info_size = 26) ∧
    read_bmp env (fopen d1) = read_bmp env (fopen d2) := by
  refine ⟨read_bmp_header_os2 d1 h26 hm1 hos2, ?_, ?_⟩
  · intro hdr ho hn0 hi
    refine ⟨?_, ?_, ?_⟩
    · rw [palette_size, if_pos hn0]
    · rw [palette_entry_bytes, ho]
      rfl
    · rw [hi]
      rfl
  · rw [read_bmp, read_bmp, read_bmp_header_os2 d1 h26 hm1 hos2,
      read_bmp_header_windows d2 h70 hm2 hwin _ _ hw hh, hp, hb, hc]
    dsimp only
    have f1 : feof ⟨d1, 26, false⟩ = false := rfl
    have f2 : feof ⟨d2, 70, false⟩ = false := rfl
    rw [f1, f2]
    by_cases c1 : ((le16_at d1 18 : Nat) : Int) > env.MAX_IMAGE_SIZE ∨
        ((le16_at d1 20 : Nat) : Int) > env.MAX_IMAGE_SIZE
    · rw [if_pos c1, if_pos c1]
    rw [if_neg c1, if_neg c1]
    by_cases c2 : false = true ∨ le16_at d1 22 ≠ 1 ∨ 0 > 3
    · rw [if_pos c2, if_pos c2]
    rw [if_neg c2, if_neg c2]
    by_cases c3 : env.malloc_ok
        (4 * ((le16_at d1 18 : Nat) : Int).toNat * ((le16_at d1 20 : Nat) : Int).toNat) = true
    · rw [if_pos c3, if_pos c3]
      exact read_bmp_body_os2_windows env _ _ _ d1 d2 26 70 false false (le32_at d2 14)
        (le32_at d1 10) (le32_at d2 10) rfl rfl rfl rfl rfl rfl rfl rfl rfl rfl rfl rfl hn hpal
        hdata
    · rw [if_neg c3, if_neg c3]

theorem read_bmp_os2_dialect_witness :
    read_bmp Env.sample (fopen bmp_os2_2x2_1bpp) = read_bmp Env.sample (fopen bmp_2x2_1bpp) :=
  (read_bmp_os2_dialect Env.sample bmp_os2_2x2_1bpp bmp_2x2_1bpp (by decide) (by decide)
    (by decide) (by decide) (by decide) (by decide) (by decide) (by decide) (by decide)
    (by decide) (by decide) (by decide) (by decide) (by decide)).2.2

set_option maxRecDepth 100000 in
/-- The OS/2 file of 36 bytes is decoded, and the Windows file with the same dimensions,
depth, palette colours and pixel data, 66 bytes long, is rejected: the two files meet
every condition of the equivalence except the length of the Windows file. -/
theorem read_bmp_os2_windows_short :
    read_bmp Env.sample (fopen bmp_os2_1x1_1bpp)
      = .ok ⟨1, Ptr.live [⟨255, 255, 255, 255⟩], 1, 1, Ptr.freed⟩ ∧
    read_bmp Env.sample (fopen bmp_1x1_1bpp) = .ok ⟨0, Ptr.null, 1, 1, Ptr.null⟩ ∧
    bmp_1x1_1bpp.length = 66 ∧
    le32_at bmp_os2_1x1_1bpp 14 = 12 ∧ le32_at bmp_1x1_1bpp 14 = 40 ∧
    to_int (le32_at bmp_1x1_1bpp 18) = le16_at bmp_os2_1x1_1bpp 18 ∧
    to_int (le32_at bmp_1x1_1bpp 22) = le16_at bmp_os2_1x1_1bpp 20 ∧
    le16_at bmp_1x1_1bpp 26 = le16_at bmp_os2_1x1_1bpp 22 ∧
    le16_at bmp_1x1_1bpp 28 = le16_at bmp_os2_1x1_1bpp 24 ∧
    le32_at bmp_1x1_1bpp 30 = 0 ∧ le32_at bmp_1x1_1bpp 46 = 2 ∧
    file_palette_entry bmp_os2_1x1_1bpp 26 3 0 = file_palette_entry bmp_1x1_1bpp 54 4 0 ∧
    file_palette_entry bmp_os2_1x1_1bpp 26 3 1 = file_palette_entry bmp_1x1_1bpp 54 4 1 ∧
    bmp_os2_1x1_1bpp.drop 32 = bmp_1x1_1bpp.drop 62 := by
  decide!

/-! ## The mirror padding -/

theorem at2_some {α : Type} (a : List (List α)) (i j : Int) (v : α)
    (h : at2 a i j = some v) :
    0 ≤ i ∧ 0 ≤ j ∧ ∃ row, a[i.toNat]? = some row ∧ row[j.toNat]? = some v := by
  unfold at2 at h
  by_cases hn : i < 0 ∨ j < 0
  · rw [if_pos hn] at h
    cases h
  · rw [if_neg hn] at h
    refine ⟨by omega, by omega, ?_⟩
    cases hr : a[i.toNat]? with
    | none => rw [hr] at h; cases h
    | some row => rw [hr] at h; exact ⟨row, rfl, h⟩

theorem at2_store2 {α : Type} (a a' : List (List α)) (i j : Int) (v : α)
    (h : store2 a i j v = .ok a') (r c : Int) :
    at2 a' r c = if r = i ∧ c = j then some v else at2 a r c := by
  unfold store2 at h
  cases hs : at2 a i j with
  | none => rw [hs] at h; cases h
  | some u =>
    rw [hs] at h
    cases h
    obtain ⟨hi, hj, row, hrow, hu⟩ := at2_some a i j u hs
    have hil : i.toNat < a.length := by
      by_contra hc
      rw [List.getElem?_eq_none (by omega)] at hrow
      cases hrow
    have hjl : j.toNat < row.length := by
      by_contra hc
      rw [List.getElem?_eq_none (by omega)] at hu
      cases hu
    have hg : a.getD i.toNat [] = row := by
      rw [List.getD_eq_getElem?_getD, hrow]
      rfl
    rw [hg]
    unfold at2
    by_cases hn : r < 0 ∨ c < 0
    · rw [if_pos hn, if_pos hn, if_neg (by omega)]
    · rw [if_neg hn, if_neg hn, List.getElem?_set]
      by_cases hri : i.toNat = r.toNat
      · have hri2 : r = i := by omega
        subst hri2
        rw [if_pos rfl, if_pos hil, hrow]
        simp only [true_and]
        show (row.set j.toNat v)[c.toNat]? = if c = j then some v else row[c.toNat]?
        rw [List.getElem?_set]
        by_cases hcj : j.toNat = c.toNat
        · have hcj2 : c = j := by omega
          subst hcj2
          rw [if_pos rfl, if_pos hjl, if_pos rfl]
        · rw [if_neg hcj, if_neg (by omega)]
      · rw [if_neg hri, if_neg (by omega)]

theorem store2_ok {α : Type} (a : List (List α)) (i j : Int) (u v : α)
    (h : at2 a i j = some u) : ∃ a', store2 a i j v = .ok a' := by
  unfold store2
  rw [h]
  exact ⟨_, rfl⟩

theorem load2_ok {α : Type} (a : List (List α)) (i j : Int) (v : α)
    (h : at2 a i j = some v) : load2 a i j = .ok v := by
  unfold load2
  rw [h]

theorem for_loop_acc {σ ι : Type} (G : σ → Prop) (D : σ → ι → Prop) (Q : Int → ι → Prop)
    (body : Int → σ → Except Fault σ) (lo hi : Int)
    (hbody : ∀ k s, lo ≤ k → k < hi → G s →
      ∃ s', body k s = .ok s' ∧ G s' ∧ (∀ x, D s x → D s' x) ∧ (∀ x, Q k x → D s' x)) :
    ∀ (n : Nat) (i : Int) (s : σ), lo ≤ i → (n = 0 ∨ i + n ≤ hi) → G s →
      ∃ s', for_loop body n i s = .ok s' ∧ G s' ∧ (∀ x, D s x → D s' x) ∧
        (∀ k x, i ≤ k → k < i + n → Q k x → D s' x)
  | 0, i, s, _, _, hg => by
    refine ⟨s, rfl, hg, fun x hx => hx, ?_⟩
    intro k x h1 h2
    omega
  | n + 1, i, s, hlo, hn, hg => by
    have hi2 : i + (n + 1 : Nat) ≤ hi := by
      rcases hn with hn | hn
      · omega
      · exact hn
    obtain ⟨s1, e1, g1, d1, q1⟩ := hbody i s hlo (by omega) hg
    obtain ⟨s2, e2, g2, d2, q2⟩ :=
      for_loop_acc G D Q body lo hi hbody n (i + 1) s1 (by omega) (Or.inr (by omega)) g1
    refine ⟨s2, ?_, g2, fun x hx => d2 x (d1 x hx), ?_⟩
    · rw [for_loop, e1]
      exact e2
    · intro k x h1 h2 hq
      by_cases hk : k = i
      · subst hk
        exact d2 x (q1 x hq)
      · exact q2 k x (by omega) (by omega) hq

theorem for_range_acc {σ ι : Type} (G : σ → Prop) (D : σ → ι → Prop) (Q : Int → ι → Prop)
    (body : Int → σ → Except Fault σ) (lo hi : Int)
    (hbody : ∀ k s, lo ≤ k → k < hi → G s →
      ∃ s', body k s = .ok s' ∧ G s' ∧ (∀ x, D s x → D s' x) ∧ (∀ x, Q k x → D s' x))
    (s : σ) (hg : G s) :
    ∃ s', for_range lo hi body s = .ok s' ∧ G s' ∧ (∀ x, D s x → D s' x) ∧
      (∀ k x, lo ≤ k → k < hi → Q k x → D s' x) := by
  obtain ⟨s', e, g, d, q⟩ :=
    for_loop_acc G D Q body lo hi hbody (hi - lo).toNat lo s (le_refl _) (by omega) hg
  exact ⟨s', e, g, d, fun k x h1 h2 hq => q k x h1 (by omega) hq⟩

theorem mirror_index_inside (n w i : Int) (h1 : w ≤ i) (h2 : i < n + w) :
    mirror_index n w i = i := by
  unfold mirror_index
  rw [if_neg (by omega), if_pos h2]

theorem mirror_index_low (n w i : Int) (h0 : 0 ≤ i) :
    mirror_index n w (w - 1 - i) = i + w := by
  unfold mirror_index
  rw [if_pos (by omega)]
  omega

theorem mirror_index_high (n w k : Int) (hw : 0 ≤ w) (hn : w ≤ n) (h2 : k < n) :
    mirror_index n w (n + w + (n - k) - 1) = k + w := by
  unfold mirror_index
  rw [if_neg (by omega), if_neg (by omega)]
  omega

theorem step_ok_bind {σ ι : Type} (G : σ → Prop) (D : σ → ι → Prop) (m : Except Fault σ)
    (k : σ → Except Fault σ) (s : σ) (Q1 Q2 : ι → Prop) (h1 : step_ok G D m s Q1)
    (h2 : ∀ s', G s' → step_ok G D (k s') s' Q2) :
    step_ok G D (m >>= k) s (fun x => Q1 x ∨ Q2 x) := by
  obtain ⟨s1, e1, g1, d1, q1⟩ := h1
  obtain ⟨s2, e2, g2, d2, q2⟩ := h2 s1 g1
  refine ⟨s2, ?_, g2, fun x hx => d2 x (d1 x hx), ?_⟩
  · rw [e1]
    exact e2
  · intro x hx
    rcases hx with hx | hx
    · exact d2 x (q1 x hx)
    · exact q2 x hx

theorem step_ok_weaken {σ ι : Type} (G : σ → Prop) (D : σ → ι → Prop) (m : Except Fault σ)
    (s : σ) (Q Q2 : ι → Prop) (h : step_ok G D m s Q) (hq : ∀ x, Q2 x → Q x) :
    step_ok G D m s Q2 := by
  obtain ⟨s1, e1, g1, d1, q1⟩ := h
  exact ⟨s1, e1, g1, d1, fun x hx => q1 x (hq x hx)⟩

theorem for_range_ok {σ ι : Type} (G : σ → Prop) (D : σ → ι → Prop) (Q : Int → ι → Prop)
    (body : Int → σ → Except Fault σ) (lo hi : Int)
    (hbody : ∀ k s, lo ≤ k → k < hi → G s → step_ok G D (body k s) s (Q k))
    (s : σ) (hg : G s) :
    step_ok G D (for_range lo hi body s) s (fun x => ∃ k, lo ≤ k ∧ k < hi ∧ Q k x) := by
  obtain ⟨s', e, g, d, q⟩ := for_range_acc G D Q body lo hi hbody s hg
  exact ⟨s', e, g, d, fun x ⟨k, h1, h2, hq⟩ => q k x h1 h2 hq⟩

theorem padding_load {α : Type} (rows columns w : Int) (a0 a : List (List α))
    (hs : padded_shape rows columns w a0) (hg : padding_state rows columns w a0 a)
    (i j : Int) (hi1 : w ≤ i) (hi2 : i < rows + w) (hj1 : w ≤ j) (hj2 : j < columns + w) :
    ∃ v, at2 a0 i j = some v ∧ load2 a i j = .ok v := by
  obtain ⟨hw, hrw, hcw, hsh⟩ := hs
  obtain ⟨v, hv⟩ := hsh i j (by omega) (by omega) (by omega) (by omega)
  refine ⟨v, hv, load2_ok a i j v ?_⟩
  rcases hg i j with h | ⟨_, _, _, _, h⟩
  · rw [h, hv]
  · rw [h, mirror_at, mirror_index_inside _ _ _ hi1 hi2, mirror_index_inside _ _ _ hj1 hj2, hv]

theorem padding_store {α : Type} (rows columns w : Int) (a0 a : List (List α))
    (hs : padded_shape rows columns w a0) (hg : padding_state rows columns w a0 a)
    (r c ri cj : Int) (v : α) (hr1 : 0 ≤ r) (hr2 : r < rows + 2 * w) (hc1 : 0 ≤ c)
    (hc2 : c < columns + 2 * w) (hmr : mirror_index rows w r = ri)
    (hmc : mirror_index columns w c = cj) (hv : at2 a0 ri cj = some v) :
    step_ok (padding_state rows columns w a0) (padding_done rows columns w a0)
      (store2 a r c v) a (fun x => x = (r, c)) := by
  have hm : mirror_at rows columns w a0 r c = some v := by
    rw [mirror_at, hmr, hmc, hv]
  have hsome : ∃ u, at2 a r c = some u := by
    rcases hg r c with h | ⟨_, _, _, _, h⟩
    · obtain ⟨u, hu⟩ := hs.2.2.2 r c hr1 hr2 hc1 hc2
      exact ⟨u, h.trans hu⟩
    · exact ⟨v, h.trans hm⟩
  obtain ⟨u, hu⟩ := hsome
  obtain ⟨a', e⟩ := store2_ok a r c u v hu
  refine ⟨a', e, ?_, ?_, ?_⟩
  · intro i j
    rw [at2_store2 a a' r c v e i j]
    by_cases h : i = r ∧ j = c
    · rw [if_pos h]
      obtain ⟨h1, h2⟩ := h
      subst h1
      subst h2
      exact Or.inr ⟨hr1, hr2, hc1, hc2, hm.symm⟩
    · rw [if_neg h]
      exact hg i j
  · intro x hx
    unfold padding_done at hx ⊢
    rw [at2_store2 a a' r c v e x.1 x.2]
    by_cases h : x.1 = r ∧ x.2 = c
    · rw [if_pos h, h.1, h.2, hm]
    · rw [if_neg h]
      exact hx
  · intro x hx
    subst hx
    unfold padding_done
    dsimp only
    rw [at2_store2 a a' r c v e r c, if_pos ⟨rfl, rfl⟩, hm]

theorem padding_store_pair {α : Type} (rows columns w : Int) (a0 a : List (List α))
    (hs : padded_shape rows columns w a0) (hg : padding_state rows columns w a0 a)
    (cond : Prop) [Decidable cond] (r1 c1 r2 c2 ri cj : Int) (v : α)
    (hv : at2 a0 ri cj = some v)
    (h1 : cond → 0 ≤ r1 ∧ r1 < rows + 2 * w ∧ 0 ≤ c1 ∧ c1 < columns + 2 * w ∧
      mirror_index rows w r1 = ri ∧ mirror_index columns w c1 = cj)
    (h2 : cond → 0 ≤ r2 ∧ r2 < rows + 2 * w ∧ 0 ≤ c2 ∧ c2 < columns + 2 * w ∧
      mirror_index rows w r2 = ri ∧ mirror_index columns w c2 = cj) :
    step_ok (padding_state rows columns w a0) (padding_done rows columns w a0)
      (store2_pair_if cond a r1 c1 r2 c2 v) a
      (fun x => cond ∧ (x = (r1, c1) ∨ x = (r2, c2))) := by
  unfold store2_pair_if
  by_cases hc : cond
  · rw [if_pos hc]
    obtain ⟨p1, p2, p3, p4, p5, p6⟩ := h1 hc
    obtain ⟨q1, q2, q3, q4, q5, q6⟩ := h2 hc
    refine step_ok_weaken _ _ _ _ _ _
      (step_ok_bind _ _ _ _ a _ _
        (padding_store rows columns w a0 a hs hg r1 c1 ri cj v p1 p2 p3 p4 p5 p6 hv)
        (fun a1 g1 =>
          padding_store rows columns w a0 a1 hs g1 r2 c2 ri cj v q1 q2 q3 q4 q5 q6 hv)) ?_
    intro x hx
    exact hx.2
  · rw [if_neg hc]
    exact ⟨a, rfl, hg, fun x hx => hx, fun x hx => absurd hx.1 hc⟩

theorem symmetric_padding_top_ok {α : Type} (rows columns w : Int) (a0 a : List (List α))
    (hs : padded_shape rows columns w a0) (hg : padding_state rows columns w a0 a)
    (i j : Int) (hi1 : 0 ≤ i) (hi2 : i < w) (hj1 : 0 ≤ j) (hj2 : j < columns) :
    step_ok (padding_state rows columns w a0) (padding_done rows columns w a0)
      (symmetric_padding_top columns w i j a) a (top_cells columns w i j) := by
  have hs2 := hs
  obtain ⟨hw, hrw, hcw, hsh⟩ := hs2
  obtain ⟨v, hv, hl⟩ :=
    padding_load rows columns w a0 a hs hg (i + w) (j + w) (by omega) (by omega) (by omega)
      (by omega)
  unfold symmetric_padding_top
  rw [hl, except_ok_bind]
  refine step_ok_weaken _ _ _ _ _ _
    (step_ok_bind _ _ _ _ a _ _
      (padding_store_pair rows columns w a0 a hs hg (j < w) (i + w) (w - 1 - j) (w - 1 - i)
        (w - 1 - j) (i + w) (j + w) v hv
        (fun hc => ⟨by omega, by omega, by omega, by omega,
          mirror_index_inside _ _ _ (by omega) (by omega), mirror_index_low _ _ _ hj1⟩)
        (fun hc => ⟨by omega, by omega, by omega, by omega,
          mirror_index_low _ _ _ hi1, mirror_index_low _ _ _ hj1⟩))
      (fun a1 g1 => step_ok_bind _ _ _ _ a1 _ _
        (padding_store_pair rows columns w a0 a1 hs g1 (j ≥ columns - w) (i + w)
          (columns + w + (columns - j) - 1) (w - 1 - i) (columns + w + (columns - j) - 1)
          (i + w) (j + w) v hv
          (fun hc => ⟨by omega, by omega, by omega, by omega,
            mirror_index_inside _ _ _ (by omega) (by omega),
            mirror_index_high _ _ _ hw hcw hj2⟩)
          (fun hc => ⟨by omega, by omega, by omega, by omega,
            mirror_index_low _ _ _ hi1, mirror_index_high _ _ _ hw hcw hj2⟩))
        (fun a2 g2 =>
          padding_store rows columns w a0 a2 hs g2 (w - 1 - i) (j + w) (i + w) (j + w) v
            (by omega) (by omega) (by omega) (by omega) (mirror_index_low _ _ _ hi1)
            (mirror_index_inside _ _ _ (by omega) (by omega)) hv))) ?_
  intro x hx
  rcases hx with hx | hx | hx
  · exact Or.inr (Or.inr hx)
  · exact Or.inl hx
  · exact Or.inr (Or.inl hx)

theorem symmetric_padding_bottom_ok {α : Type} (rows columns w : Int) (a0 a : List (List α))
    (hs : padded_shape rows columns w a0) (hg : padding_state rows columns w a0 a)
    (i j : Int) (hi1 : rows - w ≤ i) (hi2 : i < rows) (hj1 : 0 ≤ j) (hj2 : j < columns) :
    step_ok (padding_state rows columns w a0) (padding_done rows columns w a0)
      (symmetric_padding_bottom rows columns w i j a) a (bottom_cells rows columns w i j) := by
  have hs2 := hs
  obtain ⟨hw, hrw, hcw, hsh⟩ := hs2
  obtain ⟨v, hv, hl⟩ :=
    padding_load rows columns w a0 a hs hg (i + w) (j + w) (by omega) (by omega) (by omega)
      (by omega)
  unfold symmetric_padding_bottom
  rw [hl, except_ok_bind]
  refine step_ok_weaken _ _ _ _ _ _
    (step_ok_bind _ _ _ _ a _ _
      (padding_store_pair rows columns w a0 a hs hg (j < w) (i + w) (w - 1 - j)
        (rows + w + (rows - i) - 1) (w - 1 - j) (i + w) (j + w) v hv
        (fun hc => ⟨by omega, by omega, by omega, by omega,
          mirror_index_inside _ _ _ (by omega) (by omega), mirror_index_low _ _ _ hj1⟩)
        (fun hc => ⟨by omega, by omega, by omega, by omega,
          mirror_index_high _ _ _ hw hrw hi2, mirror_index_low _ _ _ hj1⟩))
      (fun a1 g1 => step_ok_bind _ _ _ _ a1 _ _
        (padding_store_pair rows columns w a0 a1 hs g1 (j ≥ columns - w) (i + w)
          (columns + w + (columns - j) - 1) (rows + w + (rows - i) - 1)
          (columns + w + (columns - j) - 1) (i + w) (j + w) v hv
          (fun hc => ⟨by omega, by omega, by omega, by omega,
            mirror_index_inside _ _ _ (by omega) (by omega),
            mirror_index_high _ _ _ hw hcw hj2⟩)
          (fun hc => ⟨by omega, by omega, by omega, by omega,
            mirror_index_high _ _ _ hw hrw hi2, mirror_index_high _ _ _ hw hcw hj2⟩))
        (fun a2 g2 =>
          padding_store rows columns w a0 a2 hs g2 (rows + w + (rows - i) - 1) (j + w) (i + w)
            (j + w) v (by omega) (by omega) (by omega) (by omega)
            (mirror_index_high _ _ _ hw hrw hi2)
            (mirror_index_inside _ _ _ (by omega) (by omega)) hv))) ?_
  intro x hx
  rcases hx with hx | hx | hx
  · exact Or.inr (Or.inr hx)
  · exact Or.inl hx
  · exact Or.inr (Or.inl hx)

theorem symmetric_padding_left_ok {α : Type} (rows columns w : Int) (a0 a : List (List α))
    (hs : padded_shape rows columns w a0) (hg : padding_state rows columns w a0 a)
    (i j : Int) (hi1 : 0 ≤ i) (hi2 : i < rows) (hj1 : 0 ≤ j) (hj2 : j < w) :
    step_ok (padding_state rows columns w a0) (padding_done rows columns w a0)
      (symmetric_padding_left w i j a) a (fun x => x = (i + w, w - 1 - j)) := by
  have hs2 := hs
  obtain ⟨hw, hrw, hcw, hsh⟩ := hs2
  obtain ⟨v, hv, hl⟩ :=
    padding_load rows columns w a0 a hs hg (i + w) (j + w) (by omega) (by omega) (by omega)
      (by omega)
  unfold symmetric_padding_left
  rw [hl, except_ok_bind]
  exact padding_store rows columns w a0 a hs hg (i + w) (w - 1 - j) (i + w) (j + w) v
    (by omega) (by omega) (by omega) (by omega)
    (mirror_index_inside _ _ _ (by omega) (by omega)) (mirror_index_low _ _ _ hj1) hv

theorem symmetric_padding_right_ok {α : Type} (rows columns w : Int) (a0 a : List (List α))
    (hs : padded_shape rows columns w a0) (hg : padding_state rows columns w a0 a)
    (i j : Int) (hi1 : 0 ≤ i) (hi2 : i < rows) (hj1 : columns - w ≤ j) (hj2 : j < columns) :
    step_ok (padding_state rows columns w a0) (padding_done rows columns w a0)
      (symmetric_padding_right columns w i j a) a
      (fun x => x = (i + w, columns + w + (columns - j) - 1)) := by
  have hs2 := hs
  obtain ⟨hw, hrw, hcw, hsh⟩ := hs2
  obtain ⟨v, hv, hl⟩ :=
    padding_load rows columns w a0 a hs hg (i + w) (j + w) (by omega) (by omega) (by omega)
      (by omega)
  unfold symmetric_padding_right
  rw [hl, except_ok_bind]
  exact padding_store rows columns w a0 a hs hg (i + w) (columns + w + (columns - j) - 1)
    (i + w) (j + w) v (by omega) (by omega) (by omega) (by omega)
    (mirror_index_inside _ _ _ (by omega) (by omega)) (mirror_index_high _ _ _ hw hcw hj2) hv

theorem padding_cover (rows columns w : Int) (hcw : w ≤ columns) (r c : Int) (hr1 : 0 ≤ r) (hr2 : r < rows + 2 * w) (hc1 : 0 ≤ c)
    (hc2 : c < columns + 2 * w) :
    (w ≤ r ∧ r < rows + w ∧ w ≤ c ∧ c < columns + w) ∨
    (∃ i, 0 ≤ i ∧ i < w ∧ ∃ j, 0 ≤ j ∧ j < columns ∧ top_cells columns w i j (r, c)) ∨
    (∃ i, rows - w ≤ i ∧ i < rows ∧ ∃ j, 0 ≤ j ∧ j < columns ∧
      bottom_cells rows columns w i j (r, c)) ∨
    (∃ i, w ≤ i ∧ i < rows - w ∧ ∃ j, 0 ≤ j ∧ j < w ∧ (r, c) = (i + w, w - 1 - j)) ∨
    (∃ i, w ≤ i ∧ i < rows - w ∧ ∃ j, columns - w ≤ j ∧ j < columns ∧
      (r, c) = (i + w, columns + w + (columns - j) - 1)) := by
  have pe : ∀ (x y u v : Int), x = u → y = v → (x, y) = (u, v) := by
    intro x y u v h1 h2
    rw [h1, h2]
  by_cases htop : r < w
  · refine Or.inr (Or.inl ⟨w - 1 - r, by omega, by omega, ?_⟩)
    by_cases hl : c < w
    · exact ⟨w - 1 - c, by omega, by omega,
        Or.inr (Or.inl ⟨by omega, Or.inr (pe _ _ _ _ (by omega) (by omega))⟩)⟩
    · by_cases hm : c < columns + w
      · exact ⟨c - w, by omega, by omega, Or.inl (pe _ _ _ _ (by omega) (by omega))⟩
      · exact ⟨2 * columns + w - 1 - c, by omega, by omega,
          Or.inr (Or.inr ⟨by omega, Or.inr (pe _ _ _ _ (by omega) (by omega))⟩)⟩
  · by_cases hbot : rows + w ≤ r
    · refine Or.inr (Or.inr (Or.inl ⟨2 * rows + w - 1 - r, by omega, by omega, ?_⟩))
      by_cases hl : c < w
      · exact ⟨w - 1 - c, by omega, by omega,
          Or.inr (Or.inl ⟨by omega, Or.inr (pe _ _ _ _ (by omega) (by omega))⟩)⟩
      · by_cases hm : c < columns + w
        · exact ⟨c - w, by omega, by omega, Or.inl (pe _ _ _ _ (by omega) (by omega))⟩
        · exact ⟨2 * columns + w - 1 - c, by omega, by omega,
            Or.inr (Or.inr ⟨by omega, Or.inr (pe _ _ _ _ (by omega) (by omega))⟩)⟩
    · by_cases hl : c < w
      · by_cases h1 : r - w < w
        · exact Or.inr (Or.inl ⟨r - w, by omega, by omega, w - 1 - c, by omega, by omega,
            Or.inr (Or.inl ⟨by omega, Or.inl (pe _ _ _ _ (by omega) (by omega))⟩)⟩)
        · by_cases h2 : rows - w ≤ r - w
          · exact Or.inr (Or.inr (Or.inl ⟨r - w, by omega, by omega, w - 1 - c, by omega,
              by omega, Or.inr (Or.inl ⟨by omega, Or.inl (pe _ _ _ _ (by omega) (by omega))⟩)⟩))
          · exact Or.inr (Or.inr (Or.inr (Or.inl ⟨r - w, by omega, by omega, w - 1 - c,
              by omega, by omega, pe _ _ _ _ (by omega) (by omega)⟩)))
      · by_cases hm : c < columns + w
        · exact Or.inl ⟨by omega, by omega, by omega, hm⟩
        · by_cases h1 : r - w < w
          · exact Or.inr (Or.inl ⟨r - w, by omega, by omega, 2 * columns + w - 1 - c, by omega,
              by omega,
              Or.inr (Or.inr ⟨by omega, Or.inl (pe _ _ _ _ (by omega) (by omega))⟩)⟩)
          · by_cases h2 : rows - w ≤ r - w
            · exact Or.inr (Or.inr (Or.inl ⟨r - w, by omega, by omega,
                2 * columns + w - 1 - c, by omega, by omega,
                Or.inr (Or.inr ⟨by omega, Or.inl (pe _ _ _ _ (by omega) (by omega))⟩)⟩))
            · exact Or.inr (Or.inr (Or.inr (Or.inr ⟨r - w, by omega, by omega,
                2 * columns + w - 1 - c, by omega, by omega,
                pe _ _ _ _ (by omega) (by omega)⟩)))

theorem symmetric_padding_ok {α : Type} (rows columns w : Int) (a0 : List (List α))
    (hs : padded_shape rows columns w a0) :
    step_ok (padding_state rows columns w a0) (padding_done rows columns w a0)
      (symmetric_padding rows columns a0 w) a0
      (fun x =>
        (∃ i, 0 ≤ i ∧ i < w ∧ ∃ j, 0 ≤ j ∧ j < columns ∧ top_cells columns w i j x) ∨
        (∃ i, rows - w ≤ i ∧ i < rows ∧ ∃ j, 0 ≤ j ∧ j < columns ∧
          bottom_cells rows columns w i j x) ∨
        (∃ i, w ≤ i ∧ i < rows - w ∧ ∃ j, 0 ≤ j ∧ j < w ∧ x = (i + w, w - 1 - j)) ∨
        (∃ i, w ≤ i ∧ i < rows - w ∧ ∃ j, columns - w ≤ j ∧ j < columns ∧
          x = (i + w, columns + w + (columns - j) - 1))) := by
  have hs2 := hs
  obtain ⟨hw, hrw, hcw, hsh⟩ := hs2
  have g0 : padding_state rows columns w a0 a0 := fun i j => Or.inl rfl
  unfold symmetric_padding
  refine step_ok_weaken _ _ _ _ _ _
    (step_ok_bind _ _ _ _ a0 _ _
      (for_range_ok _ _
        (fun i x => ∃ j, 0 ≤ j ∧ j < columns ∧ top_cells columns w i j x) _ 0 w
        (fun i a hi1 hi2 hg =>
          for_range_ok _ _ (fun j x => top_cells columns w i j x) _ 0 columns
            (fun j a hj1 hj2 hg =>
              symmetric_padding_top_ok rows columns w a0 a hs hg i j hi1 hi2 hj1 hj2) a hg)
        a0 g0)
      (fun a1 g1 => step_ok_bind _ _ _ _ a1 _ _
        (for_range_ok _ _
          (fun i x => ∃ j, 0 ≤ j ∧ j < columns ∧ bottom_cells rows columns w i j x) _
          (rows - w) rows
          (fun i a hi1 hi2 hg =>
            for_range_ok _ _ (fun j x => bottom_cells rows columns w i j x) _ 0 columns
              (fun j a hj1 hj2 hg =>
                symmetric_padding_bottom_ok rows columns w a0 a hs hg i j hi1 hi2 hj1 hj2) a hg)
          a1 g1)
        (fun a2 g2 => step_ok_bind _ _ _ _ a2 _ _
          (for_range_ok _ _
            (fun i x => ∃ j, 0 ≤ j ∧ j < w ∧ x = (i + w, w - 1 - j)) _ w (rows - w)
            (fun i a hi1 hi2 hg =>
              for_range_ok _ _ (fun j x => x = (i + w, w - 1 - j)) _ 0 w
                (fun j a hj1 hj2 hg =>
                  symmetric_padding_left_ok rows columns w a0 a hs hg i j (by omega) (by omega)
                    hj1 hj2) a hg)
            a2 g2)
          (fun a3 g3 =>
            for_range_ok _ _
              (fun i x => ∃ j, columns - w ≤ j ∧ j < columns ∧
                x = (i + w, columns + w + (columns - j) - 1)) _ w (rows - w)
              (fun i a hi1 hi2 hg =>
                for_range_ok _ _ (fun j x => x = (i + w, columns + w + (columns - j) - 1)) _
                  (columns - w) columns
                  (fun j a hj1 hj2 hg =>
                    symmetric_padding_right_ok rows columns w a0 a hs hg i j (by omega)
                      (by omega) hj1 hj2) a hg)
              a3 g3)))) ?_
  intro x hx
  exact hx

theorem mirror_index_top (n w i : Int) (h0 : 0 ≤ i) (h1 : i < w) (hn : w ≤ n) :
    mirror_index n w (w - 1 - i) = mirror_index n w (w + i) := by
  rw [mirror_index_low n w i h0, mirror_index_inside n w (w + i) (by omega) (by omega)]
  omega

theorem mirror_index_bottom (n w i : Int) (h0 : 0 ≤ i) (h1 : i < w) (hn : w ≤ n) :
    mirror_index n w (n + w + i) = mirror_index n w (n + w - 1 - i) := by
  rw [mirror_index_inside n w (n + w - 1 - i) (by omega) (by omega)]
  unfold mirror_index
  rw [if_neg (by omega), if_neg (by omega)]
  omega

theorem padded_shape_of_lengths {α : Type} (rows columns w : Nat) (a : List (List α))
    (hrw : w ≤ rows) (hcw : w ≤ columns) (hlen : a.length = rows + 2 * w)
    (hrow : ∀ row ∈ a, row.length = columns + 2 * w) :
    padded_shape (rows : Int) (columns : Int) (w : Int) a := by
  refine ⟨by omega, by omega, by omega, ?_⟩
  intro i j hi1 hi2 hj1 hj2
  have hil : i.toNat < a.length := by omega
  have hrl : (a[i.toNat]).length = columns + 2 * w := hrow _ (List.getElem_mem hil)
  have hjl : j.toNat < (a[i.toNat]).length := by omega
  refine ⟨(a[i.toNat])[j.toNat], ?_⟩
  unfold at2
  rw [if_neg (by omega), List.getElem?_eq_getElem hil]
  show (a[i.toNat])[j.toNat]? = some (a[i.toNat])[j.toNat]
  exact List.getElem?_eq_getElem hjl

/-- C40: for `rows ≥ w` and `columns ≥ w`, on an array of `rows + 2 * w` rows of
`columns + 2 * w` elements, `symmetric_padding` returns without a read or store outside the
array, leaves the interior `in[w + i][w + j]` unchanged, and makes every border the mirror
image of what lies next to it: for `0 ≤ i < w` the row `w - 1 - i` equals the row `w + i`
and the row `rows + w + i` equals the row `rows + w - 1 - i` at every column of the padded
array, and for `0 ≤ j < w` the column `w - 1 - j` equals the column `w + j` and the column
`columns + w + j` equals the column `columns + w - 1 - j` at every row. -/
theorem symmetric_padding_mirror {α : Type} (rows columns w : Nat) (a : List (List α))
    (hrw : w ≤ rows) (hcw : w ≤ columns) (hlen : a.length = rows + 2 * w)
    (hrow : ∀ row ∈ a, row.length = columns + 2 * w) :
    ∃ a', symmetric_padding (rows : Int) (columns : Int) a (w : Int) = .ok a' ∧
      (∀ i j : Int, 0 ≤ i → i < rows + 2 * w → 0 ≤ j → j < columns + 2 * w →
        ∃ v, at2 a' i j = some v) ∧
      (∀ i j : Int, 0 ≤ i → i < rows → 0 ≤ j → j < columns →
        at2 a' (w + i) (w + j) = at2 a (w + i) (w + j)) ∧
      (∀ i c : Int, 0 ≤ i → i < w → 0 ≤ c → c < columns + 2 * w →
        at2 a' (w - 1 - i) c = at2 a' (w + i) c ∧
        at2 a' (rows + w + i) c = at2 a' (rows + w - 1 - i) c) ∧
      (∀ j r : Int, 0 ≤ j → j < w → 0 ≤ r → r < rows + 2 * w →
        at2 a' r (w - 1 - j) = at2 a' r (w + j) ∧
        at2 a' r (columns + w + j) = at2 a' r (columns + w - 1 - j)) := by
  have hs := padded_shape_of_lengths rows columns w a hrw hcw hlen hrow
  obtain ⟨a', e, g, _, q⟩ := symmetric_padding_ok (rows : Int) (columns : Int) (w : Int) a hs
  have hs2 := hs
  obtain ⟨hw0, hrw2, hcw2, hsh⟩ := hs2
  have hall : ∀ r c : Int, 0 ≤ r → r < rows + 2 * w → 0 ≤ c → c < columns + 2 * w →
      at2 a' r c = mirror_at (rows : Int) (columns : Int) (w : Int) a r c := by
    intro r c hr1 hr2 hc1 hc2
    rcases padding_cover (rows : Int) (columns : Int) (w : Int) hcw2 r c hr1 hr2 hc1 hc2
      with h | h
    · rcases g r c with h2 | ⟨_, _, _, _, h2⟩
      · rw [h2, mirror_at, mirror_index_inside _ _ _ h.1 h.2.1,
          mirror_index_inside _ _ _ h.2.2.1 h.2.2.2]
      · exact h2
    · exact q (r, c) h
  refine ⟨a', e, ?_, ?_, ?_, ?_⟩
  · intro i j hi1 hi2 hj1 hj2
    rw [hall i j hi1 hi2 hj1 hj2, mirror_at]
    have hm : ∀ (n k : Int), (w : Int) ≤ n → 0 ≤ k → k < n + 2 * w →
        (w : Int) ≤ mirror_index n w k ∧ mirror_index n w k < n + w := by
      intro n k hn hk1 hk2
      unfold mirror_index
      split_ifs <;> omega
    obtain ⟨m1, m2⟩ := hm rows i hrw2 hi1 hi2
    obtain ⟨m3, m4⟩ := hm columns j hcw2 hj1 hj2
    exact hsh _ _ (by omega) (by omega) (by omega) (by omega)
  · intro i j hi1 hi2 hj1 hj2
    rw [hall _ _ (by omega) (by omega) (by omega) (by omega), mirror_at,
      mirror_index_inside _ _ _ (by omega) (by omega),
      mirror_index_inside _ _ _ (by omega) (by omega)]
  · intro i c hi1 hi2 hc1 hc2
    constructor
    · rw [hall _ _ (by omega) (by omega) hc1 hc2, hall _ _ (by omega) (by omega) hc1 hc2,
        mirror_at, mirror_at, mirror_index_top _ _ _ hi1 hi2 hrw2]
    · rw [hall _ _ (by omega) (by omega) hc1 hc2, hall _ _ (by omega) (by omega) hc1 hc2,
        mirror_at, mirror_at, mirror_index_bottom _ _ _ hi1 hi2 hrw2]
  · intro j r hj1 hj2 hr1 hr2
    constructor
    · rw [hall _ _ hr1 hr2 (by omega) (by omega), hall _ _ hr1 hr2 (by omega) (by omega),
        mirror_at, mirror_at, mirror_index_top _ _ _ hj1 hj2 hcw2]
    · rw [hall _ _ hr1 hr2 (by omega) (by omega), hall _ _ hr1 hr2 (by omega) (by omega),
        mirror_at, mirror_at, mirror_index_bottom _ _ _ hj1 hj2 hcw2]

theorem symmetric_padding_mirror_witness :
    ∃ a', symmetric_padding ((2 : Nat) : Int) ((2 : Nat) : Int) padded_2x2 ((1 : Nat) : Int)
        = .ok a' ∧
      (∀ i j : Int, 0 ≤ i → i < (2 : Nat) + 2 * (1 : Nat) → 0 ≤ j →
        j < (2 : Nat) + 2 * (1 : Nat) → ∃ v, at2 a' i j = some v) ∧
      (∀ i j : Int, 0 ≤ i → i < (2 : Nat) → 0 ≤ j → j < (2 : Nat) →
        at2 a' ((1 : Nat) + i) ((1 : Nat) + j) = at2 padded_2x2 ((1 : Nat) + i) ((1 : Nat) + j)) ∧
      (∀ i c : Int, 0 ≤ i → i < (1 : Nat) → 0 ≤ c → c < (2 : Nat) + 2 * (1 : Nat) →
        at2 a' ((1 : Nat) - 1 - i) c = at2 a' ((1 : Nat) + i) c ∧
        at2 a' ((2 : Nat) + (1 : Nat) + i) c = at2 a' ((2 : Nat) + (1 : Nat) - 1 - i) c) ∧
      (∀ j r : Int, 0 ≤ j → j < (1 : Nat) → 0 ≤ r → r < (2 : Nat) + 2 * (1 : Nat) →
        at2 a' r ((1 : Nat) - 1 - j) = at2 a' r ((1 : Nat) + j) ∧
        at2 a' r ((2 : Nat) + (1 : Nat) + j) = at2 a' r ((2 : Nat) + (1 : Nat) - 1 - j)) :=
  symmetric_padding_mirror 2 2 1 padded_2x2 (by decide) (by decide) (by decide) (by decide)

/-- The padding of a 2 x 2 image with a border of width 1, and of a 1 x 2 image with a
border of width 1, where the top and the bottom border mirror the same row. -/
theorem symmetric_padding_samples :
    symmetric_padding 2 2 padded_2x2 1
      = .ok [[1, 1, 2, 2], [1, 1, 2, 2], [3, 3, 4, 4], [3, 3, 4, 4]] ∧
    symmetric_padding 1 2 [[0, 0, 0, 0], [0, 5, 6, 0], [0, 0, 0, 0]] 1
      = .ok [[5, 5, 6, 6], [5, 5, 6, 6], [5, 5, 6, 6]] ∧
    symmetric_padding 3 1 [[7], [8], [9]] 0 = .ok [[7], [8], [9]] := by
  decide

end ImageIO
